import Mathlib

/-!
# Co-browsing client SDK: a shallow embedding and its verification

Source: `src/public/clientSDK/cobrowse-bundle.js`, `src/public/clientSDK/broker.js`.

Conventions of the embedding
* JavaScript strings that only ever hold ASCII here (alphabets, topic names, style
  text) are Lean `String`s.
* `Math.random()` is an explicit stream of rational draws `Nat → ℚ`, each in `[0,1)`.
* JavaScript `undefined` is `none`; an exception is `Except.error`/`none` as stated at
  each definition.
-/

namespace CoBrowse

/-! ## Session identifier generator (`otpGenerator`, bundle lines 6326-6388) -/

/-- `const digits = "0123456789"`. -/
def digits : String := "0123456789"

/-- `const alphabets = "abcdefghijklmnopqrstuvwxyz"`. -/
def alphabets : String := "abcdefghijklmnopqrstuvwxyz"

/-- `const upperCase = alphabets.toUpperCase()`. -/
def upperCase : String := String.mk (alphabets.data.map Char.toUpper)

/-- `const specialChars = "#!&@"`. -/
def specialChars : String := "#!&@"

/-- `rand(min, max)`: `Math.floor(random * (max - min) + min)` for the draw `random`. -/
def rand (random : ℚ) (min max : ℤ) : ℤ :=
  ⌊random * ((max : ℚ) - (min : ℚ)) + (min : ℚ)⌋

/-- The `options` argument of `otpGenerator`: each of the four keys is either not an own
property of the object (`none`) or holds a boolean. -/
structure OtpOptions where
  digits : Option Bool := none
  alphabets : Option Bool := none
  upperCase : Option Bool := none
  specialChars : Option Bool := none
deriving DecidableEq, Repr

/-- `hasOwnProperty.call(generateOptions, k) ? options.k : true`. -/
def optionOrTrue (o : Option Bool) : Bool :=
  match o with
  | some b => b
  | none => true

/-- `(flag || "") && cls`: the class string when the flag is true, `""` otherwise. -/
def classChars (flag : Bool) (cls : String) : String :=
  if flag then cls else ""

/-- The string `allowsChars` that `otpGenerator` builds from the options. -/
def allowsChars (options : OtpOptions) : String :=
  classChars (optionOrTrue options.digits) digits ++
  classChars (optionOrTrue options.alphabets) alphabets ++
  classChars (optionOrTrue options.upperCase) upperCase ++
  classChars (optionOrTrue options.specialChars) specialChars

/-- `allowsChars[charIndex]`: the one-character string at an integer index, `undefined`
(`none`) when the index is outside the string. -/
def charAtIndex (s : String) (i : ℤ) : Option Char :=
  if 0 ≤ i then s.data.get? i.toNat else none

/-- `password += x`: string concatenation, where `undefined` converts to the text
`"undefined"`. -/
def appendIndexed (password : String) (x : Option Char) : String :=
  match x with
  | some c => password ++ String.singleton c
  | none => password ++ "undefined"

/-- The `while (password.length < length)` loop of `otpGenerator`. `k` counts the draws
already consumed from the stream `random`. The loop is unfolded at most `fuel` times;
`none` means the fuel ran out before the loop condition became false. -/
def otpLoop (allows : String) (random : Nat → ℚ) (length : Nat) :
    Nat → Nat → String → Option String
  | 0, _, password => if password.length < length then none else some password
  | fuel + 1, k, password =>
    if password.length < length then
      let charIndex := rand (random k) 0 ((allows.length : ℤ) - 1)
      otpLoop allows random length fuel (k + 1) (appendIndexed password (charAtIndex allows charIndex))
    else some password

/-- `otpGenerator(length, options)` with the draws of `Math.random()` given by `random`.
`length = length || 10` turns a zero length into 10. Every iteration appends at least one
character, so `length` unfoldings always suffice (`otpLoop_total`). -/
def otpGenerator (random : Nat → ℚ) (length : Nat) (options : OtpOptions) : Option String :=
  let length := if length = 0 then 10 else length
  otpLoop (allowsChars options) random length length 0 ""

/-- `getUniqueID()`: `otpGenerator(6, {upperCase: false, specialChars: false, alphabets: false})`. -/
def getUniqueID (random : Nat → ℚ) : Option String :=
  otpGenerator random 6 { upperCase := some false, specialChars := some false, alphabets := some false }

/-- The draws of `Math.random()` lie in `[0,1)`. -/
def UnitDraws (random : Nat → ℚ) : Prop := ∀ k, 0 ≤ random k ∧ random k < 1

/-! ## Topic names (`getTopic`, bundle lines 12895-12897) -/

/-- `getTopic(topic)`: `clientID + '/' + topic`. -/
def getTopic (clientID : String) (topic : String) : String :=
  clientID ++ "/" ++ topic

/-- A session code as `getUniqueID` produces it: six characters, each a decimal digit. -/
def IsSessionCode (s : String) : Prop := s.length = 6 ∧ ∀ c ∈ s.data, c ∈ digits.data

/-! ## JavaScript values met by the redaction code -/

/-- A JavaScript number, kept as the text its conversion to a string gives: the code below
only ever converts the numbers it reads (bounding boxes, offsets) to strings. -/
structure JSNumber where
  text : String
deriving DecidableEq, Repr

/-- The value found under a key of a plain object holding attribute values: `undefined`
(also what a missing key reads as), `null`, or a string. -/
inductive JSVal where
  | undefined
  | null
  | str (s : String)
deriving DecidableEq, Repr

/-- Conversion to string inside a template literal or a `+=` on a string. -/
def JSVal.toJSString : JSVal → String
  | .undefined => "undefined"
  | .null => "null"
  | .str s => s

/-- JavaScript truthiness of such a value. -/
def JSVal.truthy : JSVal → Bool
  | .undefined => false
  | .null => false
  | .str s => s ≠ ""

/-- A plain object mapping attribute names to values, keys in insertion order. -/
abbrev Attributes := List (String × JSVal)

/-- Property read `attributes[name]`. -/
def Attributes.get (a : Attributes) (name : String) : JSVal :=
  match a with
  | [] => JSVal.undefined
  | (k, v) :: rest => if k = name then v else Attributes.get rest name

/-- Property write `attributes[name] = v`: an existing key keeps its place. -/
def Attributes.set (a : Attributes) (name : String) (v : JSVal) : Attributes :=
  match a with
  | [] => [(name, v)]
  | (k, w) :: rest => if k = name then (k, v) :: rest else (k, w) :: Attributes.set rest name v

/-- A record id as JavaScript holds it. Ids produced by `serializeNode` are numbers; ids
produced by `getIdByNode` are the string keys a `for ... in` loop yields (or the number
`-1`). `value` is the integer the id denotes, `isString` tells the string form. Both
forms address the same property of an object or array. -/
structure JSId where
  value : Int
  isString : Bool := false
deriving DecidableEq, Repr

/-- The `name`, `publicId` and `systemId` a document-type record carries. -/
structure DocTypeData where
  name : String
  publicId : String
  systemId : String
deriving DecidableEq, Repr

/-- A serialized node record as `TreeMirrorClient.serializeNode` builds it (bundle lines
12366-12401), with the two links `serializeAddedAndMoved` adds. A field the record lacks is
`none`; `previousSibling` and `parentNode` may also be present and `null` (`some none`). -/
inductive NodeData where
  | mk (id : JSId) (nodeType : Option Nat) (docType : Option DocTypeData)
      (textContent : Option String) (tagName : Option String)
      (attributes : Option Attributes) (childNodes : Option (List NodeData))
      (previousSibling : Option (Option NodeData)) (parentNode : Option (Option NodeData))

namespace NodeData

def id : NodeData → JSId
  | mk i _ _ _ _ _ _ _ _ => i

def nodeType : NodeData → Option Nat
  | mk _ t _ _ _ _ _ _ _ => t

def textContent : NodeData → Option String
  | mk _ _ _ t _ _ _ _ _ => t

def tagName : NodeData → Option String
  | mk _ _ _ _ t _ _ _ _ => t

def attributes : NodeData → Option Attributes
  | mk _ _ _ _ _ a _ _ _ => a

def childNodes : NodeData → Option (List NodeData)
  | mk _ _ _ _ _ _ c _ _ => c

def parentNode : NodeData → Option (Option NodeData)
  | mk _ _ _ _ _ _ _ _ p => p

/-- Assignment `node.attributes = a`. -/
def setAttributes : NodeData → Attributes → NodeData
  | mk i t d x g _ c s p, a => mk i t d x g (some a) c s p

/-- Assignment `node.childNodes = c`. -/
def setChildNodes : NodeData → List NodeData → NodeData
  | mk i t d x g a _ s p, c => mk i t d x g a (some c) s p

end NodeData

/-! ## Redaction of serialized records (bundle lines 12570-12628) -/

/-- `const redactedClass = 'spr-cobrowse-redact'`. -/
def redactedClass : String := "spr-cobrowse-redact"

/-- `const redactedAttribute = 'data-redaction'`. -/
def redactedAttribute : String := "data-redaction"

/-- The exceptions the modelled code can raise. -/
inductive JSError where
  | typeError (what : String)
  | syntaxError (what : String)
  | error (what : String)
deriving DecidableEq, Repr

/-- The attribute updates of `getRedactedNode` on a defined `attributes` object: the style
is set (or, when one exists, the whole object is replaced by `{}` and `style +=` reads the
missing key), the dimensions are appended, and a `value` that is present is emptied. -/
def blackOutAttributes (attrs : Attributes) (height width : String) : Attributes :=
  let attrs1 : Attributes :=
    if attrs.get "style" = JSVal.undefined then
      attrs.set "style" (JSVal.str "background: black;")
    else
      Attributes.set [] "style"
        (JSVal.str ((Attributes.get [] "style").toJSString ++ "background: black;"))
  let attrs2 : Attributes :=
    attrs1.set "style"
      (JSVal.str ((attrs1.get "style").toJSString ++
        ("height: " ++ height ++ "px; width: " ++ width ++ "px;")))
  if attrs2.get "value" = JSVal.undefined then attrs2 else attrs2.set "value" (JSVal.str "")

/-- `getRedactedNode(node, height, width)` for a record `node`; `height` and `width` are the
texts that the template literal `${height}` and `${width}` produce. The record is updated in
place in the source; here the updated record is returned. With `attributes` undefined the
statement `newNode.attributes.style += ...` raises a TypeError. -/
def getRedactedNode (node : NodeData) (height width : String) : Except JSError NodeData :=
  match node.attributes with
  | none => Except.error (JSError.typeError "newNode.attributes is undefined")
  | some attrs => Except.ok (node.setAttributes (blackOutAttributes attrs height width))

/-- The object `redactedNodeIds`: the keys set so far, in insertion order. -/
abbrev RedactedIds := List Int

/-- Assignment `redactedNodeIds[id] = true`. -/
def RedactedIds.mark (ids : RedactedIds) (id : JSId) : RedactedIds :=
  if id.value ∈ ids then ids else ids ++ [id.value]

/-- The redacted branch of `setRedactionDFS`: the record is blacked out with the captured
`data-height` and `data-width`, its id is recorded and its children are dropped. -/
def redactRecord (node : NodeData) (attrs : Attributes) (ids : RedactedIds) :
    Except JSError (NodeData × RedactedIds) :=
  match getRedactedNode node (attrs.get "data-height").toJSString
      (attrs.get "data-width").toJSString with
  | Except.error e => Except.error e
  | Except.ok node1 => Except.ok (node1.setChildNodes [], ids.mark node1.id)

/-- The test `node.attributes && node.attributes[redactedAttribute]`. -/
def recordIsRedacted (attributes : Option Attributes) : Bool :=
  match attributes with
  | none => false
  | some attrs => (attrs.get redactedAttribute).truthy

mutual
/-- `setRedactionDFS(node)` for a record: returns the record as updated in place and the
updated `redactedNodeIds`. -/
def setRedactionDFS : NodeData → RedactedIds → Except JSError (NodeData × RedactedIds)
  | NodeData.mk i t d x g a c s p, ids =>
    if recordIsRedacted a then
      -- after `node.childNodes = []` the loop below runs over nothing
      redactRecord (NodeData.mk i t d x g a c s p) (a.getD []) ids
    else
      match setRedactionDFSChildren c ids with
      | Except.error e => Except.error e
      | Except.ok (c1, ids1) => Except.ok (NodeData.mk i t d x g a c1 s p, ids1)
/-- `if (!node.childNodes) return;` followed by the loop over the children. -/
def setRedactionDFSChildren : Option (List NodeData) → RedactedIds →
    Except JSError (Option (List NodeData) × RedactedIds)
  | none, ids => Except.ok (none, ids)
  | some children, ids =>
    match setRedactionDFSList children ids with
    | Except.error e => Except.error e
    | Except.ok (children1, ids1) => Except.ok (some children1, ids1)
/-- The loop `for (let child of node.childNodes) setRedactionDFS(child)`. -/
def setRedactionDFSList : List NodeData → RedactedIds →
    Except JSError (List NodeData × RedactedIds)
  | [], ids => Except.ok ([], ids)
  | child :: rest, ids =>
    match setRedactionDFS child ids with
    | Except.error e => Except.error e
    | Except.ok (child1, ids1) =>
      match setRedactionDFSList rest ids1 with
      | Except.error e => Except.error e
      | Except.ok (rest1, ids2) => Except.ok (child1 :: rest1, ids2)
end

/-! ## The live DOM as the redaction code reads it (bundle lines 12521-12735)

A live node is read upwards only (`parentElement`), so a node carries its chain of ancestor
elements. Identity of nodes (`===`) is identity of `uid`. -/

/-- What kind of node a node is: `attributes` and `classList` are defined for elements
only, and `document` is what the loop of `climb` stops at. -/
inductive NodeKind where
  | document
  | element
  | other
deriving DecidableEq, Repr

/-- The properties of one DOM node that the bundle reads or writes. `uid` stands for the
identity of the object, `attributes` is the `NamedNodeMap` (name and value of each
attribute), `classList` the class tokens, `docType` the `name`, `publicId` and `systemId`
of a document type. `nodeType` is 1 for an element, 3 for text, 8 for a comment, 9 for the
document and 10 for a document type. -/
structure NodeProps where
  uid : Nat
  nodeType : Nat
  tagName : String
  attributes : List (String × String)
  classList : List String
  boundingHeight : JSNumber
  boundingWidth : JSNumber
  offsetHeight : JSNumber
  offsetWidth : JSNumber
  textContent : String
  docType : Option DocTypeData
deriving DecidableEq, Repr

namespace NodeProps

/-- The kind that `nodeType` tells. -/
def kind (n : NodeProps) : NodeKind :=
  if n.nodeType = 1 then NodeKind.element
  else if n.nodeType = 9 then NodeKind.document
  else NodeKind.other

/-- `node.attributes[name]` is truthy, equivalently `node.hasAttribute(name)`, on an
element: the attribute exists. -/
def hasAttribute (n : NodeProps) (name : String) : Bool :=
  n.attributes.any (fun kv => kv.1 = name)

/-- `node.attributes[name].value` or `node.getAttribute(name)`, `none` when the attribute
does not exist. -/
def attributeValue (n : NodeProps) (name : String) : Option String :=
  (n.attributes.find? (fun kv => kv.1 = name)).map (fun kv => kv.2)

/-- The attribute list after `setAttribute(name, value)`: an existing attribute keeps its
place. -/
def setAttributeList : List (String × String) → String → String → List (String × String)
  | [], name, value => [(name, value)]
  | (k, w) :: rest, name, value =>
    if k = name then (k, value) :: rest else (k, w) :: setAttributeList rest name value

/-- `node.setAttribute(name, value)` for a name other than `class`. -/
def setAttribute (n : NodeProps) (name value : String) : NodeProps :=
  { n with attributes := setAttributeList n.attributes name value }

/-- The condition under which `climb` treats a node as redacted by itself:
`node.attributes !== undefined && (node.attributes[redactedAttribute] ||
(node.classList !== undefined && node.classList.contains(redactedClass)))`. -/
def marksRedaction (n : NodeProps) : Bool :=
  n.kind = NodeKind.element && (n.hasAttribute redactedAttribute || n.classList.contains redactedClass)

end NodeProps

/-- A live DOM node as the diff handlers read it: its properties and its `parentElement`. -/
inductive LiveNode where
  | mk (props : NodeProps) (parentElement : Option LiveNode)

namespace LiveNode

def props : LiveNode → NodeProps
  | mk p _ => p

def parentElement : LiveNode → Option LiveNode
  | mk _ p => p

def uid (n : LiveNode) : Nat := n.props.uid

def kind (n : LiveNode) : NodeKind := n.props.kind

def offsetHeight (n : LiveNode) : JSNumber := n.props.offsetHeight

def offsetWidth (n : LiveNode) : JSNumber := n.props.offsetWidth

def boundingHeight (n : LiveNode) : JSNumber := n.props.boundingHeight

def boundingWidth (n : LiveNode) : JSNumber := n.props.boundingWidth

def hasAttribute (n : LiveNode) (name : String) : Bool := n.props.hasAttribute name

def attributeValue (n : LiveNode) (name : String) : Option String := n.props.attributeValue name

/-- The test `a === b` on nodes. -/
def same (a b : LiveNode) : Bool := a.uid = b.uid

def marksRedaction (n : LiveNode) : Bool := n.props.marksRedaction

end LiveNode

/-- The array `mirrorClient.knownNodes.nodes`: position `i` holds the node stored under
index `i`, or a hole. -/
abbrev KnownNodes := List (Option LiveNode)

/-- `getNodeById(id)`: `mirrorClient.knownNodes.nodes[id]`, `undefined` (`none`) for a hole
or an index outside the array. -/
def getNodeById (nodes : KnownNodes) (id : JSId) : Option LiveNode :=
  if 0 ≤ id.value then (nodes.get? id.value.toNat).join else none

/-- The scan of `getIdByNode` from index `i` on: the first index holding `node`. -/
def findIndexOfNode (node : LiveNode) : KnownNodes → Nat → Option Nat
  | [], _ => none
  | none :: rest, i => findIndexOfNode node rest (i + 1)
  | some n :: rest, i => if n.same node then some i else findIndexOfNode node rest (i + 1)

/-- `getIdByNode(node)`: the key (a string) of the first entry that is `node`, or the
number `-1`. A `null` argument matches no entry. -/
def getIdByNode (nodes : KnownNodes) (node : Option LiveNode) : JSId :=
  match node with
  | none => JSId.mk (-1) false
  | some n =>
    match findIndexOfNode n nodes 0 with
    | some i => JSId.mk (i : Int) true
    | none => JSId.mk (-1) false

/-- The loop of `climb`, entered at `node` with the current `lastRedacted`. -/
def climbLoop : LiveNode → Option LiveNode → Option LiveNode
  | LiveNode.mk props p, lastRedacted =>
    if props.kind = NodeKind.document then lastRedacted
    else
      let lastRedacted1 :=
        if props.marksRedaction then some (LiveNode.mk props p) else lastRedacted
      match p with
      | none => lastRedacted1
      | some parent => climbLoop parent lastRedacted1

/-- `climb(node)`: the topmost redacted ancestor-or-self of `node`, `null` if there is
none or `node` is `null`/`undefined`. -/
def climb (node : Option LiveNode) : Option LiveNode :=
  match node with
  | none => none
  | some n => climbLoop n none

/-- `checkToBeRedacted(id)`. -/
def checkToBeRedacted (nodes : KnownNodes) (id : JSId) : Bool :=
  match getNodeById nodes id with
  | some node =>
    if node.kind = NodeKind.element && node.hasAttribute redactedAttribute then true
    else (climb (some node)).isSome
  | none => (climb none).isSome

/-- `checkToBeRedactedTextNode(id)`: `none` is the `null` returned for an unknown id. -/
def checkToBeRedactedTextNode (nodes : KnownNodes) (id : JSId) : Option Bool :=
  match getNodeById nodes id with
  | none => none
  | some currentNode =>
    match currentNode.parentElement with
    | some immediateParent => some (immediateParent.hasAttribute redactedAttribute)
    | none => some false

/-- The record `{id: newId, attributes: {style: newStyle}}`. -/
def styleRecord (id : JSId) (style : String) : NodeData :=
  NodeData.mk id none none none none (some [("style", JSVal.str style)]) none none none

/-- The body of the `forEach` in `recalculateDimensions` for one id: the record pushed, or
nothing when `climb` finds no redacted node. -/
def recalculateOne (nodes : KnownNodes) (id : JSId) : List NodeData :=
  match climb (getNodeById nodes id) with
  | none => []
  | some node =>
    let existingInlineStyles :=
      if node.kind = NodeKind.element then (node.attributeValue "style").getD "" else ""
    let newStyle := existingInlineStyles ++ " background: black; height: " ++
      node.offsetHeight.text ++ "px; width:" ++ node.offsetWidth.text ++ "px;"
    [styleRecord (getIdByNode nodes (some node)) newStyle]

/-- `recalculateDimensions(nodeIds)`. -/
def recalculateDimensions (nodes : KnownNodes) (nodeIds : List JSId) : List NodeData :=
  (nodeIds.map (recalculateOne nodes)).flatten

/-- The `nodeIds.map(...)` of `recalculateTextNodeDimensions`: for each id the id of the
topmost redacted ancestor of the node's parent element. Reading `.parentElement` of an
unknown node raises a TypeError. -/
def textParentIds (nodes : KnownNodes) : List JSId → Except JSError (List JSId)
  | [] => Except.ok []
  | id :: rest =>
    match getNodeById nodes id with
    | none => Except.error (JSError.typeError "getNodeById(id) is undefined")
    | some n =>
      match textParentIds nodes rest with
      | Except.error e => Except.error e
      | Except.ok parentIds => Except.ok (getIdByNode nodes (climb n.parentElement) :: parentIds)

/-- `recalculateTextNodeDimensions(nodeIds)`. -/
def recalculateTextNodeDimensions (nodes : KnownNodes) (nodeIds : List JSId) :
    Except JSError (List NodeData) :=
  match textParentIds nodes nodeIds with
  | Except.error e => Except.error e
  | Except.ok parentIds => Except.ok (recalculateDimensions nodes parentIds)

/-- The properties of an example element with the given identity, tag, attributes, class
tokens and size. -/
def exampleElement (uid : Nat) (tagName : String) (attributes : List (String × String))
    (classList : List String) (height width : String) : NodeProps :=
  NodeProps.mk uid 1 tagName attributes classList (JSNumber.mk height) (JSNumber.mk width)
    (JSNumber.mk height) (JSNumber.mk width) "" none

/-! ## The marking pass `dfs` (bundle lines 12543-12568)

The pass walks the tree downwards (`childNodes`), so here a node carries its children. -/

/-- A DOM node with the subtree below it. -/
inductive DomNode where
  | mk (props : NodeProps) (childNodes : List DomNode)

namespace DomNode

def props : DomNode → NodeProps
  | mk p _ => p

def childNodes : DomNode → List DomNode
  | mk _ c => c

/-- The node reached from `n` by following child indices. -/
def descend : DomNode → List Nat → Option DomNode
  | n, [] => some n
  | n, i :: rest =>
    match n.childNodes[i]? with
    | none => none
    | some child => descend child rest

end DomNode

/-- The three `setAttribute` calls of `dfs` on a redacted element: `data-height` and
`data-width` from `getBoundingClientRect()`, then `data-redaction = true`. -/
def markRedacted (props : NodeProps) : NodeProps :=
  ((props.setAttribute "data-height" props.boundingHeight.text).setAttribute "data-width"
    props.boundingWidth.text).setAttribute redactedAttribute "true"

/-- The test of `dfs`: `node.attributes !== undefined && (isRedactedChild ||
(node.classList !== undefined && node.classList.contains(redactedClass)))`. -/
def dfsRedacts (props : NodeProps) (isRedactedChild : Bool) : Bool :=
  props.kind = NodeKind.element && (isRedactedChild || props.classList.contains redactedClass)

mutual
/-- `dfs(node, isRedactedChild)`: the subtree as the pass leaves it. -/
def dfs : DomNode → Bool → DomNode
  | DomNode.mk props children, isRedactedChild =>
    if dfsRedacts props isRedactedChild then
      DomNode.mk (markRedacted props) (dfsChildren children true)
    else
      DomNode.mk props (dfsChildren children isRedactedChild)
/-- The loop `for (let child of node.childNodes) dfs(child, isRedactedChild)`. -/
def dfsChildren : List DomNode → Bool → List DomNode
  | [], _ => []
  | child :: rest, isRedactedChild => dfs child isRedactedChild :: dfsChildren rest isRedactedChild
end

/-- An example `<body>`: a paragraph, then a `<div class="spr-cobrowse-redact">` holding a
`<span>` with a text node. -/
def exampleBodyTree : DomNode :=
  DomNode.mk (exampleElement 1 "BODY" [] [] "600" "800")
    [DomNode.mk (exampleElement 2 "P" [] [] "20" "800") [],
     DomNode.mk (exampleElement 3 "DIV" [("class", "spr-cobrowse-redact")]
        ["spr-cobrowse-redact"] "18.5" "200")
      [DomNode.mk (exampleElement 4 "SPAN" [] [] "18" "90.25")
        [DomNode.mk (NodeProps.mk 5 3 "" [] [] (JSNumber.mk "") (JSNumber.mk "")
          (JSNumber.mk "") (JSNumber.mk "") "4111 1111" none) []]]]

/-! ## Messages and the diff batch (bundle lines 12737-12912, 13010-13030) -/

/-- The four lists `[removed, addedOrMoved, attributes, text]` of an `applyChanged` call. -/
structure Batch where
  removed : List NodeData
  addedOrMoved : List NodeData
  attributes : List NodeData
  text : List NodeData

/-- The values the bundle hands to `peerDataSend` and `clientToAgentScreen`, before
`JSON.stringify` and compression. -/
inductive PeerMessage where
  /-- `{ base: url }` -/
  | base (url : String)
  /-- `{ clear: true }` -/
  | clear
  /-- `{ mouse: { x, y } }` -/
  | mouse (x y : JSNumber)
  /-- `{ scroll: verScroll }` -/
  | scroll (verScroll : JSNumber)
  /-- `{ obj: { height, width } }` -/
  | screen (height width : JSNumber)
  /-- `{ f: 'initialize', args: [rootId, children] }` -/
  | initializeCall (rootId : JSId) (children : List NodeData)
  /-- `{ f: 'applyChanged', args: [removed, addedOrMoved, attributes, text] }` -/
  | applyChangedCall (args : Batch)
  /-- `{ disconnect: true }` -/
  | disconnect

/-- The module state the redaction code reads and writes: `clientID`,
`mirrorClient.knownNodes.nodes`, `redactedNodeIds`, and the messages handed to
`client.send` so far, each with its destination topic. -/
structure Session where
  clientID : String
  knownNodes : KnownNodes
  redactedNodeIds : RedactedIds
  published : List (String × PeerMessage)

/-- `publish(topic, msg)`: the message joins the client's send queue. -/
def publish (st : Session) (topic : String) (msg : PeerMessage) : Session :=
  { st with published := st.published ++ [(topic, msg)] }

/-- `peerDataSend(msg)`: `publish(getTopic('presence'), compressData(msg))`. -/
def peerDataSend (st : Session) (msg : PeerMessage) : Session :=
  publish st (getTopic st.clientID "presence") msg

/-- `clientToAgentScreen(msg)`: `publish(getTopic('clientScreen'), compressData(msg))`. -/
def clientToAgentScreen (st : Session) (msg : PeerMessage) : Session :=
  publish st (getTopic st.clientID "clientScreen") msg

/-- The record `{ id, textContent: newTextContent }` built by `handleTextChanges`. -/
def textRecord (id : JSId) (textContent : Option String) : NodeData :=
  NodeData.mk id none none textContent none none none none none

/-- The test `isRedacted && isRedacted !== undefined` on the result of
`checkToBeRedactedTextNode(id)`. -/
def textIsRedacted (nodes : KnownNodes) (id : JSId) : Bool :=
  checkToBeRedactedTextNode nodes id = some true

/-- `handleTextChanges(textNodeList)`: the new text list and the recalculated records. -/
def handleTextChanges (nodes : KnownNodes) (textNodeList : List NodeData) :
    Except JSError (List NodeData × List NodeData) :=
  let newTextNodeList := textNodeList.map (fun textItem =>
    if textIsRedacted nodes textItem.id then textRecord textItem.id (some "")
    else textRecord textItem.id textItem.textContent)
  let redactedTextNodeIds :=
    (textNodeList.filter (fun textItem => textIsRedacted nodes textItem.id)).map NodeData.id
  match recalculateTextNodeDimensions nodes redactedTextNodeIds with
  | Except.error e => Except.error e
  | Except.ok recalculated => Except.ok (newTextNodeList, recalculated)

/-- `handleAttributeChanges(attributeList)`. -/
def handleAttributeChanges (nodes : KnownNodes) (attributeList : List NodeData) :
    List NodeData :=
  let redactedNodeIds :=
    (attributeList.filter (fun attributeItem => checkToBeRedacted nodes attributeItem.id)).map
      NodeData.id
  attributeList.filter (fun attributeItem => !checkToBeRedacted nodes attributeItem.id) ++
    recalculateDimensions nodes redactedNodeIds

/-- `s.includes(sub)` on lists of characters. -/
def listIncludes : List Char → List Char → Bool
  | [], sub => sub.isEmpty
  | c :: rest, sub => sub.isPrefixOf (c :: rest) || listIncludes rest sub

/-- `s.includes(sub)`. -/
def includes (s sub : String) : Bool := listIncludes s.data sub.data

/-- `node.getBoundingClientRect()`, which only elements have. -/
def getBoundingClientRect (node : LiveNode) : Except JSError (JSNumber × JSNumber) :=
  if node.kind = NodeKind.element then Except.ok (node.boundingHeight, node.boundingWidth)
  else Except.error (JSError.typeError "node.getBoundingClientRect is not a function")

/-- What the body of the `forEach` in `handleAddedOrMoved` does with one record: it is
replaced by the id of the topmost redacted ancestor of its parent, or kept (`curr`, possibly
blacked out in place). -/
inductive AddedStep where
  | dropped (topmostRedactedParentId : JSId)
  | kept (curr : NodeData)

/-- The in-place black-out of an added record whose own `class` names the redaction
class. -/
def redactAddedInPlace (nodes : KnownNodes) (curr : NodeData) : Except JSError NodeData :=
  match curr.attributes with
  | none => Except.ok curr
  | some attrs =>
    match attrs.get "class" with
    | JSVal.undefined => Except.ok curr
    | JSVal.null => Except.error (JSError.typeError "curr.attributes.class is null")
    | JSVal.str cls =>
      if includes cls redactedClass then
        match getNodeById nodes curr.id with
        | none => Except.ok curr
        | some node =>
          match getBoundingClientRect node with
          | Except.error e => Except.error e
          | Except.ok (height, width) => getRedactedNode curr height.text width.text
      else Except.ok curr

/-- The body of the `forEach` in `handleAddedOrMoved` for one record. -/
def handleAddedStep (nodes : KnownNodes) (curr : NodeData) : Except JSError AddedStep :=
  match curr.parentNode with
  | some (some parentRecord) =>
    match climb (getNodeById nodes parentRecord.id) with
    | some topmostRedactedParent =>
      -- `Number(getIdByNode(topmostRedactedParent))`
      Except.ok (AddedStep.dropped
        (JSId.mk (getIdByNode nodes (some topmostRedactedParent)).value false))
    | none =>
      match redactAddedInPlace nodes curr with
      | Except.error e => Except.error e
      | Except.ok curr1 => Except.ok (AddedStep.kept curr1)
  | _ => Except.ok (AddedStep.kept curr)

/-- The result of `handleAddedOrMoved`: `remainingNodes`, the ids collected in
`newAttributes`, the global `redactedNodeIds`, and the input list as the in-place
black-outs have left it. -/
structure AddedResult where
  remainingNodes : List NodeData
  newAttributes : List JSId
  redactedNodeIds : RedactedIds
  inputAfter : List NodeData

/-- The `forEach` of `handleAddedOrMoved`. -/
def handleAddedLoop (nodes : KnownNodes) : List NodeData → RedactedIds →
    Except JSError AddedResult
  | [], ids => Except.ok (AddedResult.mk [] [] ids [])
  | curr :: rest, ids =>
    match handleAddedStep nodes curr with
    | Except.error e => Except.error e
    | Except.ok (AddedStep.dropped topId) =>
      match handleAddedLoop nodes rest (ids.mark topId) with
      | Except.error e => Except.error e
      | Except.ok r =>
        Except.ok (AddedResult.mk r.remainingNodes (topId :: r.newAttributes) r.redactedNodeIds
          (curr :: r.inputAfter))
    | Except.ok (AddedStep.kept curr1) =>
      match handleAddedLoop nodes rest ids with
      | Except.error e => Except.error e
      | Except.ok r =>
        Except.ok (AddedResult.mk (curr1 :: r.remainingNodes) r.newAttributes r.redactedNodeIds
          (curr1 :: r.inputAfter))

/-- `handleAddedOrMoved(nodeIds)`: `[remainingNodes, recalculateDimensions(newAttributes)]`,
with the updated `redactedNodeIds` and the input list as left by the in-place updates. -/
def handleAddedOrMoved (nodes : KnownNodes) (nodeIds : List NodeData) (ids : RedactedIds) :
    Except JSError ((List NodeData × List NodeData) × RedactedIds × List NodeData) :=
  match handleAddedLoop nodes nodeIds ids with
  | Except.error e => Except.error e
  | Except.ok r =>
    Except.ok ((r.remainingNodes, recalculateDimensions nodes r.newAttributes),
      r.redactedNodeIds, r.inputAfter)

/-- `Object.keys(redactedNodeIds)`: integer keys in ascending order, then the other keys
(here the negative numbers) in insertion order; each key is a string. -/
def objectKeys (ids : RedactedIds) : List JSId :=
  (((ids.filter (fun k => 0 ≤ k)).insertionSort (fun a b => a ≤ b)) ++
    ids.filter (fun k => k < 0)).map (fun k => JSId.mk k true)

/-- `handleRemoved(removedList, applyChangedArgs)`; `applyChangedArgs` is the array the
hook built, holding the lists in their current state. -/
def handleRemoved (st : Session) (removedList : List NodeData) (applyChangedArgs : Batch) :
    (List NodeData × List NodeData) × Session :=
  if removedList.length = 0 then (([], []), st)
  else
    let st1 := peerDataSend st (PeerMessage.applyChangedCall applyChangedArgs)
    (([], recalculateDimensions st1.knownNodes (objectKeys st1.redactedNodeIds)), st1)

/-- `handleRedaction(applyChangedArgs)`. -/
def handleRedaction (st : Session) (applyChangedArgs : Batch) : Except JSError (Batch × Session) :=
  match handleTextChanges st.knownNodes applyChangedArgs.text with
  | Except.error e => Except.error e
  | Except.ok (newText, redactedTextAttributes) =>
    let redactedAttributes := handleAttributeChanges st.knownNodes applyChangedArgs.attributes
    match handleAddedOrMoved st.knownNodes applyChangedArgs.addedOrMoved st.redactedNodeIds with
    | Except.error e => Except.error e
    | Except.ok ((newAddedOrMoved, newAttributesAdded), ids1, addedAfter) =>
      let st1 : Session := { st with redactedNodeIds := ids1 }
      -- the array still holds the four input lists; added records were updated in place
      let argsNow : Batch := { applyChangedArgs with addedOrMoved := addedAfter }
      let ((newRemoved, newAttributesRemoved), st2) :=
        handleRemoved st1 applyChangedArgs.removed argsNow
      Except.ok (Batch.mk newRemoved newAddedOrMoved
        (redactedTextAttributes ++ redactedAttributes ++ newAttributesAdded ++ newAttributesRemoved)
        newText, st2)

/-- The `applyChanged` hook that `startCoBrowse` hands to `TreeMirrorClient`. -/
def applyChangedHook (st : Session) (removed addedOrMoved attributes text : List NodeData) :
    Except JSError Session :=
  match handleRedaction st (Batch.mk removed addedOrMoved attributes text) with
  | Except.error e => Except.error e
  | Except.ok (newApplyChangedArgs, st1) =>
    Except.ok (peerDataSend st1 (PeerMessage.applyChangedCall newApplyChangedArgs))

/-- Replacement of element `i` of an array by the record an in-place update left. -/
def replaceAt (l : List NodeData) (i : Nat) (x : NodeData) : List NodeData := l.set i x

/-- The `initialize` hook that `startCoBrowse` hands to `TreeMirrorClient`:
`setRedactionDFS(children[1])`, then the snapshot is published. `setRedactionDFS` returns at
once on an `undefined` argument. -/
def initializeHook (st : Session) (rootId : JSId) (children : List NodeData) :
    Except JSError Session :=
  match children.get? 1 with
  | none => Except.ok (peerDataSend st (PeerMessage.initializeCall rootId children))
  | some child =>
    match setRedactionDFS child st.redactedNodeIds with
    | Except.error e => Except.error e
    | Except.ok (child1, ids1) =>
      Except.ok (peerDataSend { st with redactedNodeIds := ids1 }
        (PeerMessage.initializeCall rootId (replaceAt children 1 child1)))

/-! ## The page: document tree, buttons and the session controller
(bundle lines 12326-12401, 12968-13063, 13154-13187)

The MQTT client is taken as connected, so `client.send`, `subscribe` and `unsubscribe`
queue their packet without raising. A call that raises leaves the page as it is at that
point: an outcome is the page reached and the exception, if any. -/

/-- An element matched by the selector `#id` or by `getElementById(id)`. -/
def NodeProps.hasId (n : NodeProps) (id : String) : Bool :=
  n.kind = NodeKind.element && n.attributeValue "id" = some id

mutual
/-- The number of elements with the given id in a subtree. -/
def countId (id : String) : DomNode → Nat
  | DomNode.mk props children => (if props.hasId id then 1 else 0) + countIdList id children
/-- The number of elements with the given id in a list of subtrees. -/
def countIdList (id : String) : List DomNode → Nat
  | [] => 0
  | n :: rest => countId id n + countIdList id rest
end

mutual
/-- The first element with the given id in tree order, taken out of the subtree: the
subtree removed and what is left (`none` when the root itself is the match); `none` when
no element matches. -/
def removeFirstById (id : String) : DomNode → Option (DomNode × Option DomNode)
  | DomNode.mk props children =>
    if props.hasId id then some (DomNode.mk props children, none)
    else
      match removeFirstByIdList id children with
      | some (removed, children1) => some (removed, some (DomNode.mk props children1))
      | none => none
/-- The same over a list of sibling subtrees. -/
def removeFirstByIdList (id : String) : List DomNode → Option (DomNode × List DomNode)
  | [] => none
  | n :: rest =>
    match removeFirstById id n with
    | some (removed, none) => some (removed, rest)
    | some (removed, some n1) => some (removed, n1 :: rest)
    | none =>
      match removeFirstByIdList id rest with
      | some (removed, rest1) => some (removed, n :: rest1)
      | none => none
end

/-- Replacement of the first node of a list that satisfies `pred` by `f` of it; `none` when
there is no such node or `f` has no result. -/
def updateFirst (pred : DomNode → Bool) (f : DomNode → Option DomNode) :
    List DomNode → Option (List DomNode)
  | [] => none
  | n :: rest =>
    if pred n then (f n).map (fun n1 => n1 :: rest)
    else (updateFirst pred f rest).map (fun rest1 => n :: rest1)

/-- A `body` or `frameset` element. -/
def isBodyElement (n : DomNode) : Bool :=
  n.props.kind = NodeKind.element && (n.props.tagName = "BODY" || n.props.tagName = "FRAMESET")

/-- An element node. -/
def isElementNode (n : DomNode) : Bool :=
  n.props.kind = NodeKind.element

/-- The document element with `f` applied to its first `body` or `frameset` child; `none`
when the document element is not an `html` element or has no such child. -/
def updateHtml (f : DomNode → DomNode) (html : DomNode) : Option DomNode :=
  if html.props.tagName = "HTML" then
    (updateFirst isBodyElement (fun body => some (f body)) html.childNodes).map
      (fun children1 => DomNode.mk html.props children1)
  else none

/-- The document with `f` applied to `document.body`: the first `body` or `frameset` child
of the document element (the first element child of the document), which has to be an
`html` element; `none` when `document.body` is `null`. -/
def updateBody (f : DomNode → DomNode) (document : DomNode) : Option DomNode :=
  (updateFirst isElementNode (updateHtml f) document.childNodes).map
    (fun children1 => DomNode.mk document.props children1)

/-- `node.appendChild(child)` for a new child. -/
def DomNode.appendChild (node child : DomNode) : DomNode :=
  DomNode.mk node.props (node.childNodes ++ [child])

/-- What an event listener is registered on. -/
inductive ListenerTarget where
  | document
  | window
  | element (uid : Nat)
deriving DecidableEq, Repr

/-- A registered event listener: target, event type and the name of the handler. -/
structure Listener where
  target : ListenerTarget
  type : String
  handler : String
deriving DecidableEq, Repr

/-- The `TreeMirrorClient` held in `mirrorClient`: its `nextId`, the arrays `nodes` (the
`uid` of the node stored at each index) and `values` of its `knownNodes`, and whether its
`mutationSummary` is defined and connected. -/
structure MirrorClient where
  nextId : Nat
  nodes : List (Option Nat)
  values : List (Option Nat)
  connected : Bool
deriving DecidableEq, Repr

/-- The state of the page the bundle runs in. `detached` holds the subtrees taken out of
the document, `nextUid` the identity the next created node gets, `nodeMapIds` the numbers
`NodeMap` has stored on nodes (by `uid`) and `nodeMapNextId` the static `NodeMap.nextId_`. -/
structure Page where
  document : DomNode
  detached : List DomNode := []
  nextUid : Nat
  href : String
  verScroll : JSNumber
  innerHeight : JSNumber
  innerWidth : JSNumber
  clientID : String := ""
  isInitiated : Bool := false
  redactedNodeIds : RedactedIds := []
  mirrorClient : Option MirrorClient := none
  nodeMapIds : List (Nat × Nat) := []
  nodeMapNextId : Nat := 1
  published : List (String × PeerMessage) := []
  listeners : List Listener := []
  subscriptions : List String := []

/-- The page reached by a call and the exception it raised, if any. -/
abbrev Outcome := Page × Option JSError

/-- Sequencing of two calls: the second runs if the first did not raise. -/
def andThen (first : Page → Outcome) (second : Page → Outcome) (pg : Page) : Outcome :=
  match first pg with
  | (pg1, none) => second pg1
  | (pg1, some e) => (pg1, some e)

/-- `document.querySelector('#id').remove()` and `document.getElementById(id).remove()`:
a TypeError when no element has the id. -/
def Page.removeById (id : String) (pg : Page) : Outcome :=
  match removeFirstByIdList id pg.document.childNodes with
  | none => (pg, some (JSError.typeError ("no element with id " ++ id)))
  | some (removed, children1) =>
    ({ pg with document := DomNode.mk pg.document.props children1,
               detached := pg.detached ++ [removed] }, none)

/-- `document.body.append(node)` and `body.appendChild(node)`: a TypeError when
`document.body` is `null`. -/
def Page.appendToBody (node : DomNode) (pg : Page) : Outcome :=
  match updateBody (fun body => body.appendChild node) pg.document with
  | none => (pg, some (JSError.typeError "document.body is null"))
  | some document1 => ({ pg with document := document1 }, none)

/-- The list of registered listeners after `addEventListener`: a listener already
registered is not registered twice. -/
def registerListener (l : Listener) (listeners : List Listener) : List Listener :=
  if l ∈ listeners then listeners else listeners ++ [l]

/-- `target.addEventListener(type, handler)`. -/
def Page.addEventListener (l : Listener) (pg : Page) : Page :=
  { pg with listeners := registerListener l pg.listeners }

/-- `target.removeEventListener(type, handler)`. -/
def Page.removeEventListener (l : Listener) (pg : Page) : Page :=
  { pg with listeners := pg.listeners.filter (fun x => x ≠ l) }

/-- `client.unsubscribe(topic)`. -/
def Page.unsubscribe (topic : String) (pg : Page) : Page :=
  { pg with subscriptions := pg.subscriptions.filter (fun x => x ≠ topic) }

/-- `peerDataSend(msg)` on the page. -/
def Page.peerDataSend (msg : PeerMessage) (pg : Page) : Page :=
  { pg with published := pg.published ++ [(getTopic pg.clientID "presence", msg)] }

/-- `sendDimensions()`: `clientToAgentScreen({ obj: { height, width } })`. -/
def sendDimensions (pg : Page) : Page :=
  { pg with published := pg.published ++
      [(getTopic pg.clientID "clientScreen", PeerMessage.screen pg.innerHeight pg.innerWidth)] }

/-- A box of zero size: the layout of the elements the bundle creates is not modelled. -/
def zeroBox : JSNumber := JSNumber.mk "0"

/-- An element made by `document.createElement` with the given attributes and children. -/
def createdElement (uid : Nat) (tagName : String) (attributes : List (String × String))
    (children : List DomNode) : DomNode :=
  DomNode.mk (NodeProps.mk uid 1 tagName attributes [] zeroBox zeroBox zeroBox zeroBox "" none)
    children

/-- A text node made by the HTML parser. -/
def createdText (uid : Nat) (text : String) : DomNode :=
  DomNode.mk (NodeProps.mk uid 3 "" [] [] zeroBox zeroBox zeroBox zeroBox text none) []

/-- `const INF`, the z-index of the floating controls. -/
def INF : String := "21474836"

/-- The `div` that `addStartButton` builds: id, the `span` parsed from `innerHTML`, the
style text. -/
def startButtonElement (uid : Nat) : DomNode :=
  createdElement uid "DIV"
    [("id", "start-button"),
     ("style", "position:fixed !important; bottom:2em !important; right:2em !important; border-radius:100% !important; height: 7em !important; width: 7em !important; background-color:#1c6cfd !important; font-size:0.8em !important; cursor:pointer !important; display:flex !important; justify-content:center !important; align-items:center !important; color: white !important; z-index: " ++ INF ++ " !important; ")]
    [createdElement (uid + 1) "SPAN" [("style", "text-align: center;")]
      [createdText (uid + 2) "\n    Start Cobrowsing\n  "]]

/-- The `div` that `addStopButton` builds. -/
def stopButtonElement (uid : Nat) : DomNode :=
  createdElement uid "DIV"
    [("id", "end-button"),
     ("style", "position:fixed !important; bottom:2em !important; right:2em !important; border-radius:100% !important; height: 7em !important; width: 7em !important; background-color:#ff6060 !important; font-size:0.8em !important; cursor:pointer !important; display:flex !important; justify-content:center !important; align-items:center !important; color: white !important; z-index: " ++ INF ++ " !important;")]
    [createdElement (uid + 1) "SPAN" [("style", "text-align: center;")]
      [createdText (uid + 2) "\n    Stop Cobrowsing!\n  "]]

/-- `addStartButton()`. -/
def addStartButton (pg : Page) : Outcome :=
  let pg1 := { pg with nextUid := pg.nextUid + 3 }
  match Page.appendToBody (startButtonElement pg.nextUid) pg1 with
  | (pg2, some e) => (pg2, some e)
  | (pg2, none) =>
    (pg2.addEventListener (Listener.mk (ListenerTarget.element pg.nextUid) "click"
      "initiateCoBrowse"), none)

/-- `removeStartButton()`. -/
def removeStartButton (pg : Page) : Outcome := Page.removeById "start-button" pg

/-- `addStopButton()`. -/
def addStopButton (pg : Page) : Outcome :=
  let pg1 := { pg with nextUid := pg.nextUid + 3 }
  match Page.appendToBody (stopButtonElement pg.nextUid) pg1 with
  | (pg2, some e) => (pg2, some e)
  | (pg2, none) =>
    (pg2.addEventListener (Listener.mk (ListenerTarget.element pg.nextUid) "click"
      "stopCoBrowse"), none)

/-- `removeStopButton()`. -/
def removeStopButton (pg : Page) : Outcome := Page.removeById "end-button" pg

/-- The state `serializeNode` works on: `nextId` and the arrays of the client's
`knownNodes`, the numbers `NodeMap` has stored on nodes and `NodeMap.nextId_`. -/
structure SerialState where
  nextId : Nat
  nodes : List (Option Nat)
  values : List (Option Nat)
  mapIds : List (Nat × Nat)
  mapNextId : Nat
deriving DecidableEq, Repr

/-- Assignment `array[i] = v` on an array with holes. -/
def writeAt (v : Option Nat) : List (Option Nat) → Nat → List (Option Nat)
  | [], 0 => [v]
  | [], i + 1 => none :: writeAt v [] i
  | _ :: rest, 0 => v :: rest
  | x :: rest, i + 1 => x :: writeAt v rest i

/-- `NodeMap.prototype.nodeId(node)`: the number stored on the node, a fresh one from
`NodeMap.nextId_` if it has none yet. -/
def nodeId (st : SerialState) (uid : Nat) : Nat × SerialState :=
  match st.mapIds.lookup uid with
  | some i => (i, st)
  | none => (st.mapNextId,
      { st with mapIds := (uid, st.mapNextId) :: st.mapIds, mapNextId := st.mapNextId + 1 })

/-- The record `{ id: id }` returned for a node that is already known. -/
def idRecord (id : JSId) : NodeData :=
  NodeData.mk id none none none none none none none none

/-- The attributes object `serializeNode` builds from the attributes of an element. -/
def serializeAttributes (attributes : List (String × String)) : Attributes :=
  attributes.foldl (fun acc kv => Attributes.set acc kv.1 (JSVal.str kv.2)) []

mutual
/-- `TreeMirrorClient.prototype.serializeNode(node, recursive)`. -/
def serializeNode (recursive : Bool) : DomNode → SerialState → NodeData × SerialState
  | DomNode.mk props children, st =>
    match (st.values.get? (nodeId st props.uid).1).join with
    | some id => (idRecord (JSId.mk id false), (nodeId st props.uid).2)
    | none =>
      let st1 := (nodeId st props.uid).2
      let id := JSId.mk st1.nextId false
      let st2 : SerialState :=
        { st1 with nextId := st1.nextId + 1,
                   nodes := writeAt (some props.uid) st1.nodes (nodeId st props.uid).1,
                   values := writeAt (some st1.nextId) st1.values (nodeId st props.uid).1 }
      if props.nodeType = 10 then
        (NodeData.mk id (some props.nodeType)
          (some (props.docType.getD (DocTypeData.mk "" "" ""))) none none none none none none, st2)
      else if props.nodeType = 8 ∨ props.nodeType = 3 then
        (NodeData.mk id (some props.nodeType) none (some props.textContent) none none none
          none none, st2)
      else if props.nodeType = 1 then
        if recursive && !children.isEmpty then
          match serializeList children st2 with
          | (records, st3) =>
            (NodeData.mk id (some props.nodeType) none none (some props.tagName)
              (some (serializeAttributes props.attributes)) (some records) none none, st3)
        else
          (NodeData.mk id (some props.nodeType) none none (some props.tagName)
            (some (serializeAttributes props.attributes)) none none none, st2)
      else
        (NodeData.mk id (some props.nodeType) none none none none none none none, st2)
/-- The loop `for (child = elm.firstChild; child; child = child.nextSibling)
childNodes.push(this.serializeNode(child, true))`. -/
def serializeList : List DomNode → SerialState → List NodeData × SerialState
  | [], st => ([], st)
  | n :: rest, st =>
    match serializeNode true n st with
    | (record, st1) =>
      match serializeList rest st1 with
      | (records, st2) => (record :: records, st2)
end

mutual
/-- The nodes of a subtree as live nodes, in tree order; `parent` is the `parentElement`
of the root. -/
def liveNodesBelow (parent : Option LiveNode) : DomNode → List LiveNode
  | DomNode.mk props children =>
    LiveNode.mk props parent ::
      liveNodesBelowList
        (if props.kind = NodeKind.element then some (LiveNode.mk props parent) else none) children
/-- The same for a list of sibling subtrees. -/
def liveNodesBelowList (parent : Option LiveNode) : List DomNode → List LiveNode
  | [] => []
  | n :: rest => liveNodesBelow parent n ++ liveNodesBelowList parent rest
end

/-- The array `mirrorClient.knownNodes.nodes` as the diff handlers read it: each stored
node with its current properties and ancestors, in the document or detached from it. -/
def Page.knownNodes (pg : Page) : KnownNodes :=
  match pg.mirrorClient with
  | none => []
  | some client =>
    client.nodes.map (fun entry =>
      entry.bind (fun uid =>
        (liveNodesBelowList none (pg.document :: pg.detached)).find? (fun n => n.uid = uid)))

/-- The part of the page state the redaction code works on. -/
def Page.toSession (pg : Page) : Session :=
  Session.mk pg.clientID pg.knownNodes pg.redactedNodeIds pg.published

/-- `new TreeMirrorClient(document, { initialize, applyChanged }, null)` and the assignment
to `mirrorClient`: the document is serialized, the `initialize` hook runs, and a connected
`MutationSummary` is created. -/
def newTreeMirrorClient (pg : Page) : Outcome :=
  match serializeNode false pg.document
      (SerialState.mk 1 [] [] pg.nodeMapIds pg.nodeMapNextId) with
  | (root, st1) =>
    match serializeList pg.document.childNodes st1 with
    | (children, st2) =>
      let pg1 := { pg with nodeMapIds := st2.mapIds, nodeMapNextId := st2.mapNextId }
      match initializeHook pg1.toSession root.id children with
      | Except.error e => (pg1, some e)
      | Except.ok session =>
        ({ pg1 with published := session.published,
                    redactedNodeIds := session.redactedNodeIds,
                    mirrorClient := some (MirrorClient.mk st2.nextId st2.nodes st2.values true) },
          none)

/-- A line terminator, which `.` in a regular expression does not match. -/
def isLineTerminator (c : Char) : Bool :=
  c = '\n' || c = '\r' || c = Char.ofNat 0x2028 || c = Char.ofNat 0x2029

/-- The prefix of a text up to and including its last `/`. -/
def throughLastSlash : List Char → Option (List Char)
  | [] => none
  | c :: rest =>
    match throughLastSlash rest with
    | some b => some (c :: b)
    | none => if c = '/' then some [c] else none

/-- The first group of `href.match(/^(.*\/)[^\/]*$/)`, `none` when there is no match. -/
def baseOf (href : String) : Option String :=
  match throughLastSlash href.data with
  | none => none
  | some b => if b.all (fun c => !isLineTerminator c) then some (String.mk b) else none

/-- The part of `startCoBrowse` after the `isInitiated` test. -/
def startMirroring (pg : Page) : Outcome :=
  match baseOf pg.href with
  | none => (pg, some (JSError.typeError "location.href.match(...) is null"))
  | some base =>
    let pg1 := { pg.peerDataSend (PeerMessage.base base) with isInitiated := true }
    -- `const body = document.body; dfs(body, false);` and the two `body.appendChild`
    match updateBody (fun body => dfs body false) pg1.document with
    | none => (pg1, some (JSError.typeError "body is null"))
    | some document2 =>
      let agentCursor := createdElement pg1.nextUid "DIV"
        [("id", "agent_cursor"), ("style", "visibility: hidden;")] []
      let canvasImg := createdElement (pg1.nextUid + 1) "IMG" [("id", "canvasImg")] []
      andThen (Page.appendToBody agentCursor)
        (andThen (Page.appendToBody canvasImg)
          (fun pg3 =>
            let pg4 := sendDimensions (pg3.peerDataSend PeerMessage.clear)
            let pg5 := ((pg4.addEventListener
                (Listener.mk ListenerTarget.document "mousemove" "sendMouseCoordinates")).addEventListener
                (Listener.mk ListenerTarget.window "scroll" "sendScroll")).addEventListener
                (Listener.mk ListenerTarget.window "resize" "handleResize")
            andThen newTreeMirrorClient
              (fun pg6 => (pg6.peerDataSend (PeerMessage.scroll pg6.verScroll), none)) pg5))
        { pg1 with document := document2, nextUid := pg1.nextUid + 2 }

/-- `startCoBrowse()`. -/
def startCoBrowse : Page → Outcome :=
  andThen removeStartButton
    (andThen addStopButton
      (fun pg => if pg.isInitiated then (pg, none) else startMirroring pg))

/-- `mirrorClient.disconnect()`: a TypeError when `mirrorClient` is undefined. The summaries
`MutationSummary.disconnect` computes from the pending records are dropped; the numbers
that computing them makes `NodeMap` give to nodes it has not numbered yet (which only move
`NodeMap.nextId_` further on) are not kept. -/
def disconnectMirror (pg : Page) : Outcome :=
  match pg.mirrorClient with
  | none => (pg, some (JSError.typeError "mirrorClient is undefined"))
  | some client => ({ pg with mirrorClient := some { client with connected := false } }, none)

/-- `stopCoBrowse()`. -/
def stopCoBrowse : Page → Outcome :=
  andThen removeStopButton
    (andThen addStartButton
      (andThen (fun pg => disconnectMirror { pg with isInitiated := false })
        (andThen
          (fun pg =>
            ((((pg.peerDataSend PeerMessage.disconnect).removeEventListener
                (Listener.mk ListenerTarget.document "mousemove" "sendMouseCoordinates")).removeEventListener
                (Listener.mk ListenerTarget.window "scroll" "sendScroll")).removeEventListener
                (Listener.mk ListenerTarget.window "resize" "sendDimensions"), none))
          (andThen (Page.removeById "agent_cursor")
            (andThen (Page.removeById "canvasImg")
              (fun pg =>
                (((pg.unsubscribe (getTopic pg.clientID "initializeCobrowsing")).unsubscribe
                    (getTopic pg.clientID "canvasToClient")).unsubscribe
                    (getTopic pg.clientID "cursorToClient"), none)))))))

/-! ## Concrete pages and records used in the evaluations below -/

/-- The record of `<input value="4111" data-redaction="true" data-height="20"
data-width="100">`, serialized under id 5. -/
def exampleInputRecord : NodeData :=
  NodeData.mk (JSId.mk 5 false) (some 1) none none (some "INPUT")
    (some [("value", JSVal.str "4111"), ("data-height", JSVal.str "20"),
      ("data-width", JSVal.str "100"), ("data-redaction", JSVal.str "true")])
    none none none

/-- The record of `<div class="spr-cobrowse-redact" data-height="18" data-width="200"
data-redaction="true">4111 1111</div>`, the text child included. -/
def exampleSecretRecord : NodeData :=
  NodeData.mk (JSId.mk 4 false) (some 1) none none (some "DIV")
    (some [("class", JSVal.str "spr-cobrowse-redact"), ("data-height", JSVal.str "18"),
      ("data-width", JSVal.str "200"), ("data-redaction", JSVal.str "true")])
    (some [NodeData.mk (JSId.mk 5 false) (some 3) none (some "4111 1111") none none none none none])
    none none

/-- The record of `<html><body>` holding `exampleSecretRecord`: the snapshot of a document
without a doctype, whose only top-level child is `<html>`. -/
def exampleHtmlRecord : NodeData :=
  NodeData.mk (JSId.mk 2 false) (some 1) none none (some "HTML") (some [])
    (some [NodeData.mk (JSId.mk 3 false) (some 1) none none (some "BODY") (some [])
      (some [exampleSecretRecord]) none none])
    none none

/-- A session with the code 123456 and nothing known or published yet. -/
def exampleSession : Session :=
  Session.mk "123456" [] [] []

/-- The live `<body>` element of the example page. -/
def exampleBody : LiveNode :=
  LiveNode.mk (exampleElement 1 "BODY" [] [] "600" "800") none

/-- The live `<div class="spr-cobrowse-redact" data-redaction="true" ...>` of the example
page, a child of `<body>`. -/
def exampleRedactedDiv : LiveNode :=
  LiveNode.mk (exampleElement 2 "DIV"
    [("class", "spr-cobrowse-redact"), ("data-height", "18"), ("data-width", "200"),
      ("data-redaction", "true")]
    ["spr-cobrowse-redact"] "18" "200") (some exampleBody)

/-- A live `<span>` inside the redacted `<div>`. -/
def exampleSpanA : LiveNode :=
  LiveNode.mk (exampleElement 3 "SPAN" [("data-redaction", "true")] [] "18" "90")
    (some exampleRedactedDiv)

/-- A second live `<span>` inside the redacted `<div>`. -/
def exampleSpanB : LiveNode :=
  LiveNode.mk (exampleElement 4 "SPAN" [("data-redaction", "true")] [] "18" "90")
    (some exampleRedactedDiv)

/-- A live text node inside the redacted `<div>`. -/
def exampleSecretText : LiveNode :=
  LiveNode.mk (NodeProps.mk 5 3 "" [] [] (JSNumber.mk "") (JSNumber.mk "") (JSNumber.mk "")
    (JSNumber.mk "") "4111 1111" none) (some exampleRedactedDiv)

/-- The array `knownNodes.nodes` of the example page: index 0 is a hole, then `<body>`,
the redacted `<div>`, its two `<span>`s and its text node under indices 1 to 5. -/
def exampleKnownNodes : KnownNodes :=
  [none, some exampleBody, some exampleRedactedDiv, some exampleSpanA, some exampleSpanB,
    some exampleSecretText]

/-- The session of the example page while it is mirrored. -/
def exampleMirroring : Session :=
  Session.mk "123456" exampleKnownNodes [] []

/-- An attribute-change record `{ id, attributes: { title } }`. -/
def exampleAttributeChange (id : Int) (title : String) : NodeData :=
  NodeData.mk (JSId.mk id false) none none none none (some [("title", JSVal.str title)])
    none none none

/-- The text contents of the `text` list of every `applyChanged` message among the
published ones, in order of publication. -/
def publishedTextContents (published : List (String × PeerMessage)) : List (List (Option String)) :=
  published.filterMap (fun tm =>
    match tm.2 with
    | PeerMessage.applyChangedCall args => some (args.text.map NodeData.textContent)
    | _ => none)

/-- The ids, as integers, of a list of records. -/
def recordIds (records : List NodeData) : List Int :=
  records.map (fun r => r.id.value)

/-! ## MQTT client id (`broker.js`, line 1) -/

/-- `Math.floor(Math.random(0, 1) * 10000000).toString()` for the draw `random` (the
arguments of `Math.random` are ignored): the decimal text of a non-negative integer. -/
def clientId (random : ℚ) : String :=
  Nat.repr ⌊random * 10000000⌋.toNat

/-- The text `s` repeated `k` times (`s.repeat(k)`). -/
def repeatText (s : String) : Nat → String
  | 0 => ""
  | k + 1 => s ++ repeatText s k

/-- The options `{ digits: false, alphabets: false, upperCase: false, specialChars: false }`. -/
def noClassOptions : OtpOptions :=
  OtpOptions.mk (some false) (some false) (some false) (some false)

/-- The live `<div class="note spr-cobrowse-redact" ...>` just added under `<body>`, with the
given attributes. -/
def exampleAddedDiv (attributes : List (String × String)) : LiveNode :=
  LiveNode.mk (exampleElement 7 "DIV" attributes ["note", "spr-cobrowse-redact"] "30" "120")
    (some exampleBody)

/-- The array `knownNodes.nodes` once the added `<div>` is stored under index 7. -/
def exampleKnownNodesAdded (attributes : List (String × String)) : KnownNodes :=
  exampleKnownNodes ++ [none, some (exampleAddedDiv attributes)]

/-- The added/moved record of that `<div>`: freshly serialized under id 7, no previous
sibling, parent `<body>` (id 1). -/
def exampleAddedRecord (attributes : Attributes) : NodeData :=
  NodeData.mk (JSId.mk 7 false) (some 1) none none (some "DIV") (some attributes) none
    (some none) (some (some (NodeData.mk (JSId.mk 1 false) none none none none none none none none)))

/-- The topmost redacted ancestor-or-self of the live node of `curr.parentNode`: `none` when
the record has no `parentNode` or `climb` finds nothing. -/
def redactedAbove (nodes : KnownNodes) (curr : NodeData) : Option LiveNode :=
  match curr.parentNode with
  | some (some parentRecord) => climb (getNodeById nodes parentRecord.id)
  | _ => none

/-- The added/moved record of a new `<span>` without attributes, serialized under `id`, whose
`parentNode` is the record `{ id: parentId }`. -/
def exampleAddedUnder (id parentId : Int) : NodeData :=
  NodeData.mk (JSId.mk id false) (some 1) none none (some "SPAN") (some []) none (some none)
    (some (some (NodeData.mk (JSId.mk parentId false) none none none none none none none none)))

/-! ## Notions used to state the claims about `climb` and the recalculation records -/

/-- The `parentElement` chain of a node as the loop of `climb` walks it: the node itself,
then its ancestors, up to and without the document. -/
def parentChain : LiveNode → List LiveNode
  | LiveNode.mk props p =>
    if props.kind = NodeKind.document then []
    else LiveNode.mk props p ::
      (match p with
       | none => []
       | some parent => parentChain parent)

/-- The style text of the record `recalculateDimensions` emits for the redacted node `a`:
the template literal
`${existingInlineStyles} background: black; height: ${height}px; width:${width}px;`. -/
def recalculatedStyle (a : LiveNode) : String :=
  (a.attributeValue "style").getD "" ++ " background: black; height: " ++
    a.offsetHeight.text ++ "px; width:" ++ a.offsetWidth.text ++ "px;"

/-- The mirror client knows the node `a`: `getIdByNode(a)` finds an index and
`getNodeById` of that index is `a`. -/
def Stored (nodes : KnownNodes) (a : LiveNode) : Prop :=
  ∃ i, findIndexOfNode a nodes 0 = some i ∧ nodes.get? i = some (some a)

/-- An example document: `<html>` with an empty `<head>` and a `<body>` with the given
attributes and, after a paragraph, the given children. -/
def exampleDocumentOf (bodyAttributes : List (String × String)) (children : List DomNode) :
    DomNode :=
  DomNode.mk (NodeProps.mk 0 9 "" [] [] zeroBox zeroBox zeroBox zeroBox "" none)
    [DomNode.mk (exampleElement 1 "HTML" [] [] "600" "800")
      [DomNode.mk (exampleElement 2 "HEAD" [] [] "0" "0") [],
       DomNode.mk (exampleElement 3 "BODY" bodyAttributes [] "600" "800")
        (DomNode.mk (exampleElement 4 "P" [] [] "20" "800") [] :: children)]]

/-- An example page at `https://shop.example/cart/index.html` whose `<body>` has the given
attributes and holds a paragraph and the start button; the session code is 123456 and
nothing has been published yet. -/
def examplePageWith (bodyAttributes : List (String × String)) : Page :=
  { document := exampleDocumentOf bodyAttributes [startButtonElement 5],
    nextUid := 8,
    href := "https://shop.example/cart/index.html",
    verScroll := JSNumber.mk "0",
    innerHeight := JSNumber.mk "600",
    innerWidth := JSNumber.mk "800",
    clientID := "123456" }

/-- The same page with no button at all, as it is before the bundle has run. -/
def exampleBarePage : Page :=
  { document := exampleDocumentOf [] [],
    nextUid := 5,
    href := "https://shop.example/cart/index.html",
    verScroll := JSNumber.mk "0",
    innerHeight := JSNumber.mk "600",
    innerWidth := JSNumber.mk "800",
    clientID := "123456" }

/-- The body as `dfs(body, false)` leaves it, with further children appended after its
own. -/
def withAppended (body : DomNode) (extra : List DomNode) : DomNode :=
  DomNode.mk (dfs body false).props ((dfs body false).childNodes ++ extra)

/-! ## The controller: the Start click and the inbound messages
(bundle lines 12499-12518, 12949-12966, 13064-13152)

`JSON.parse` and `LZUTF8.decompress` are taken as given: an inbound message carries the
outcome of `JSON.parse(relaxData(payloadBytes).toString())`, a parsed value or the
exception raised. The declarations set through `element.style` are kept per element; a
length that the CSS parser rejects leaves the declaration as it was. -/

/-- A value as `JSON.parse` returns it. -/
inductive Json where
  | null
  | bool (b : Bool)
  | num (n : JSNumber)
  | str (s : String)
  | arr (items : List Json)
  | obj (members : List (String × Json))

/-- `v === s` for a string `s`. -/
def Json.isString : Json → String → Bool
  | Json.str t, s => t = s
  | _, _ => false

/-- Property read `v[key]` for the keys the handlers read (`imgObj`, `imgSrc`, `left`,
`top`, `mousePos`, `x`, `y`), none of which a string, number, boolean or array has: a
TypeError on `null`, `undefined` (`none`) for a missing key. -/
def Json.getProp : Json → String → Except JSError (Option Json)
  | Json.null, key =>
    Except.error (JSError.typeError ("Cannot read properties of null (reading " ++ key ++ ")"))
  | Json.obj members, key => Except.ok (members.lookup key)
  | _, _ => Except.ok none

/-- One property of a destructuring `const { key } = value`: a TypeError when `value` is
`undefined` or `null`. -/
def destructure (value : Option Json) (key : String) : Except JSError (Option Json) :=
  match value with
  | none => Except.error (JSError.typeError ("Cannot destructure property " ++ key))
  | some v => v.getProp key

mutual
/-- `String(v)`. -/
def Json.toText : Json → String
  | Json.null => "null"
  | Json.bool b => if b then "true" else "false"
  | Json.num n => n.text
  | Json.str s => s
  | Json.arr items => Json.joinText items
  | Json.obj _ => "[object Object]"
/-- `items.join(",")`: `null` elements give the empty text. -/
def Json.joinText : List Json → String
  | [] => ""
  | x :: rest =>
    (match x with
      | Json.null => ""
      | Json.bool b => if b then "true" else "false"
      | Json.num n => n.text
      | Json.str s => s
      | Json.arr items => Json.joinText items
      | Json.obj _ => "[object Object]") ++
    (if rest.isEmpty then "" else "," ++ Json.joinText rest)
end

/-- `String(v)` for a value that may be `undefined`. -/
def textOf (v : Option Json) : String :=
  match v with
  | none => "undefined"
  | some w => w.toText

/-- A non-empty run of decimal digits. -/
def allDigits (l : List Char) : Bool :=
  !l.isEmpty && l.all Char.isDigit

/-- The text without a leading sign. -/
def dropSign : List Char → List Char
  | '+' :: rest => rest
  | '-' :: rest => rest
  | l => l

/-- Digits, or digits (possibly none) followed by a point and digits. -/
def isCssMantissa (l : List Char) : Bool :=
  match l.span Char.isDigit with
  | (whole, []) => !whole.isEmpty
  | (_, '.' :: fraction) => allDigits fraction
  | _ => false

/-- A CSS number: an optional sign, a mantissa and an optional exponent. -/
def isCssNumber (s : String) : Bool :=
  match (dropSign s.data).span (fun c => c ≠ 'e' && c ≠ 'E') with
  | (mantissa, []) => isCssMantissa mantissa
  | (mantissa, _ :: exponent) => isCssMantissa mantissa && allDigits (dropSign exponent)

mutual
/-- `document.getElementById(id)` below a node: the first element with the id in tree
order. -/
def findById (id : String) : DomNode → Option NodeProps
  | DomNode.mk props children =>
    if props.hasId id then some props else findByIdList id children
/-- The same over a list of sibling subtrees. -/
def findByIdList (id : String) : List DomNode → Option NodeProps
  | [] => none
  | n :: rest =>
    match findById id n with
    | some p => some p
    | none => findByIdList id rest
end

mutual
/-- The subtree with `f` applied to the first element with the given id in tree order;
`none` when there is none. -/
def updateById (id : String) (f : NodeProps → NodeProps) : DomNode → Option DomNode
  | DomNode.mk props children =>
    if props.hasId id then some (DomNode.mk (f props) children)
    else
      match updateByIdList id f children with
      | some children1 => some (DomNode.mk props children1)
      | none => none
/-- The same over a list of sibling subtrees. -/
def updateByIdList (id : String) (f : NodeProps → NodeProps) :
    List DomNode → Option (List DomNode)
  | [] => none
  | n :: rest =>
    match updateById id f n with
    | some n1 => some (n1 :: rest)
    | none =>
      match updateByIdList id f rest with
      | some rest1 => some (n :: rest1)
      | none => none
end

mutual
/-- The node with the given identity taken out of the subtree it is in: the subtree removed
and what is left (`none` when the root itself is the node); `none` when it is not there. -/
def removeFirstByUid (uid : Nat) : DomNode → Option (DomNode × Option DomNode)
  | DomNode.mk props children =>
    if props.uid = uid then some (DomNode.mk props children, none)
    else
      match removeFirstByUidList uid children with
      | some (removed, children1) => some (removed, some (DomNode.mk props children1))
      | none => none
/-- The same over a list of sibling subtrees. -/
def removeFirstByUidList (uid : Nat) : List DomNode → Option (DomNode × List DomNode)
  | [] => none
  | n :: rest =>
    match removeFirstByUid uid n with
    | some (removed, none) => some (removed, rest)
    | some (removed, some n1) => some (removed, n1 :: rest)
    | none =>
      match removeFirstByUidList uid rest with
      | some (removed, rest1) => some (removed, n :: rest1)
      | none => none
end

/-- `node.removeAttribute(name)`. -/
def NodeProps.removeAttribute (n : NodeProps) (name : String) : NodeProps :=
  { n with attributes := n.attributes.filter (fun kv => kv.1 ≠ name) }

/-- `client.subscribe(topic)`: a topic already subscribed to is not held twice. -/
def Page.subscribe (topic : String) (pg : Page) : Page :=
  { pg with subscriptions :=
      if topic ∈ pg.subscriptions then pg.subscriptions else pg.subscriptions ++ [topic] }

/-- A timer scheduled by `setTimeout`: the delay in milliseconds and the callback. -/
structure Timer where
  delay : Nat
  callback : String
deriving DecidableEq, Repr

/-- An inbound MQTT message as the handler reads it: the topic and the outcome of
`JSON.parse(relaxData(message.payloadBytes).toString())`. -/
structure Inbound where
  destinationName : String
  decoded : Except JSError Json

/-- The page together with the state of the controller: the element held in `modal` (by
identity), the timers scheduled, whether `initiateCoBrowse` has installed its
`onMessageArrived`, the global `topic`, the declarations set through `element.style`
(by element identity) and what went to `console.error`. -/
structure Controller where
  page : Page
  modal : Option Nat := none
  timers : List Timer := []
  handlerInstalled : Bool := false
  topic : Option String := none
  styles : List (Nat × List (String × String)) := []
  logged : List JSError := []

/-- The controller reached by a call and the exception it raised, if any. -/
abbrev Reaction := Controller × Option JSError

/-- The declarations set through `element.style` on the element `uid`. -/
def Controller.styleOf (ctl : Controller) (uid : Nat) : List (String × String) :=
  (ctl.styles.lookup uid).getD []

/-- The assignment `element.style[name] = value` of a value the CSS parser accepts. -/
def Controller.setStyle (uid : Nat) (name value : String) (ctl : Controller) : Controller :=
  { ctl with styles :=
      (uid, NodeProps.setAttributeList (ctl.styleOf uid) name value) ::
        ctl.styles.filter (fun entry => entry.1 ≠ uid) }

/-- The assignment `element.style[name] = number + 'px'`: kept when `number` is the text of
a CSS number; any other text is taken as rejected by the CSS parser. -/
def Controller.setLength (uid : Nat) (name number : String) (ctl : Controller) : Controller :=
  if isCssNumber number then ctl.setStyle uid name (number ++ "px") else ctl

/-- `removeModal()`: `if (modal) modal.remove(); modal = null`. Removing an element that is
not in the document changes nothing. -/
def removeModal (ctl : Controller) : Controller :=
  match ctl.modal with
  | none => ctl
  | some uid =>
    match removeFirstByUidList uid ctl.page.document.childNodes with
    | none => { ctl with modal := none }
    | some (removed, children1) =>
      { ctl with
          modal := none,
          page := { ctl.page with
            document := DomNode.mk ctl.page.document.props children1,
            detached := ctl.page.detached ++ [removed] } }

/-- The element `createModal` builds: the modal, its content box, the close button (with
the text parsed from `&times;`) and the paragraph with the session code. -/
def modalElement (uid : Nat) (clientID : String) : DomNode :=
  createdElement uid "DIV"
    [("style", "position: fixed !important; z-index: " ++ INF ++ " !important; left: 50% !important; top: 50% !important; transform:translate(-50%, -50%) !important; width: 300px !important; height: 200px !important;  background-color: rgb(0,0,0, 0.9) !important;")]
    [createdElement (uid + 1) "DIV"
      [("style", "color: black !important; background-color: #fefefe !important; margin: 15% auto !important; padding: 10px !important; border: 1px solid #888 !important; width: 80% !important;")]
      [createdElement (uid + 2) "SPAN"
        [("style", "color: #aaa !important; float: right !important; font-size: 28px !important; font-weight: bold !important; cursor:pointer !important;")]
        [createdText (uid + 3) "×"],
       createdElement (uid + 4) "P" [("style", "color: black !important")]
        [createdText (uid + 5)
          ("Your unique ID is " ++ clientID ++ ".\n\n Please convey this to your agent!")]]]

/-- `createModal()`. -/
def createModal (ctl : Controller) : Reaction :=
  let ctl1 := if ctl.modal.isSome then removeModal ctl else ctl
  let uid := ctl1.page.nextUid
  let ctl2 : Controller :=
    { ctl1 with modal := some uid, page := { ctl1.page with nextUid := uid + 6 } }
  match Page.appendToBody (modalElement uid ctl1.page.clientID) ctl2.page with
  | (pg, some e) => ({ ctl2 with page := pg }, some e)
  | (pg, none) =>
    ({ ctl2 with page :=
        pg.addEventListener (Listener.mk (ListenerTarget.element (uid + 2)) "click"
          "removeModal") }, none)

/-- `initiateCoBrowse()` with the draws of `Math.random()` given by `random`; `none` stands
for a generator that does not return. -/
def initiateCoBrowse (random : Nat → ℚ) (ctl : Controller) : Option Reaction :=
  match getUniqueID random with
  | none => none
  | some code =>
    match createModal { ctl with page := { ctl.page with clientID := code } } with
    | (ctl1, some e) => some (ctl1, some e)
    | (ctl1, none) =>
      some ({ ctl1 with
          page := ((ctl1.page.subscribe (getTopic code "initializeCobrowsing")).subscribe
            (getTopic code "canvasToClient")).subscribe (getTopic code "cursorToClient"),
          handlerInstalled := true }, none)

/-- `clearCanvasImage()`. -/
def clearCanvasImage (ctl : Controller) : Reaction :=
  match updateByIdList "canvasImg" (fun p => p.removeAttribute "src")
      ctl.page.document.childNodes with
  | none => (ctl, some (JSError.typeError "img is null"))
  | some children1 =>
    ({ ctl with page := { ctl.page with
        document := DomNode.mk ctl.page.document.props children1 } }, none)

/-- `showCanvasImage(imgObj)`: the parameter is destructured, then the element is looked up
and its `src` and five style properties are set. -/
def showCanvasImage (imgObj : Option Json) (ctl : Controller) : Reaction :=
  match destructure imgObj "imgSrc" with
  | Except.error e => (ctl, some e)
  | Except.ok imgSrc =>
    match destructure imgObj "left" with
    | Except.error e => (ctl, some e)
    | Except.ok left =>
      match destructure imgObj "top" with
      | Except.error e => (ctl, some e)
      | Except.ok top =>
        match findByIdList "canvasImg" ctl.page.document.childNodes,
            updateByIdList "canvasImg" (fun p => p.setAttribute "src" (textOf imgSrc))
              ctl.page.document.childNodes with
        | some img, some children1 =>
          let ctl1 : Controller := { ctl with page := { ctl.page with
            document := DomNode.mk ctl.page.document.props children1 } }
          (((((ctl1.setStyle img.uid "position" "fixed").setLength img.uid "left"
            (textOf left)).setLength img.uid "top" (textOf top)).setStyle img.uid "z-index"
            "21474830").setStyle img.uid "pointer-events" "none", none)
        | _, _ => (ctl, some (JSError.typeError "img is null"))

/-- `renderCursor(msg)`; `minusTen v` is the text of `v - 10`. -/
def renderCursor (minusTen : Option Json → String) (msg : Option Json) (ctl : Controller) :
    Reaction :=
  match destructure msg "x" with
  | Except.error e => (ctl, some e)
  | Except.ok x =>
    match destructure msg "y" with
    | Except.error e => (ctl, some e)
    | Except.ok y =>
      match findByIdList "agent_cursor" ctl.page.document.childNodes with
      | none => (ctl, some (JSError.typeError "agentCursor is null"))
      | some cursor =>
        (((((((((ctl.setStyle cursor.uid "visibility" "visible").setStyle cursor.uid
          "position" "absolute").setStyle cursor.uid "height" "20px").setStyle cursor.uid
          "width" "20px").setLength cursor.uid "left" (minusTen x)).setLength cursor.uid "top"
          (minusTen y)).setStyle cursor.uid "background-color" "red").setStyle cursor.uid
          "border-radius" "100%").setStyle cursor.uid "z-index" INF, none)

/-- A `try { ... } catch (e) { console.error(e) }` around a call. -/
def caught (r : Reaction) : Reaction :=
  match r with
  | (ctl, none) => (ctl, none)
  | (ctl, some e) => ({ ctl with logged := ctl.logged ++ [e] }, none)

/-- The `client.onMessageArrived` that `initiateCoBrowse` installs. -/
def onMessageArrived (minusTen : Option Json → String) (ctl : Controller) (message : Inbound) :
    Reaction :=
  let ctl1 : Controller := { ctl with topic := some message.destinationName }
  match message.decoded with
  | Except.error e => (ctl1, some e)
  | Except.ok reqMsg =>
    if message.destinationName = getTopic ctl.page.clientID "initializeCobrowsing" ∧
        reqMsg.isString "please" then
      let ctl2 := removeModal ctl1
      ({ ctl2 with timers := ctl2.timers ++ [Timer.mk 2000 "startCoBrowse"] }, none)
    else if message.destinationName = getTopic ctl.page.clientID "canvasToClient" then
      caught
        (if reqMsg.isString "clearCanvasImage" then clearCanvasImage ctl1
        else
          match reqMsg.getProp "imgObj" with
          | Except.error e => (ctl1, some e)
          | Except.ok imgObj => showCanvasImage imgObj ctl1)
    else if message.destinationName = getTopic ctl.page.clientID "cursorToClient" then
      caught
        (if reqMsg.isString "removeMouse" then
          match findByIdList "agent_cursor" ctl1.page.document.childNodes with
          | none => (ctl1, some (JSError.typeError "getElementById(...) is null"))
          | some cursor => (ctl1.setStyle cursor.uid "visibility" "hidden", none)
        else
          match reqMsg.getProp "mousePos" with
          | Except.error e => (ctl1, some e)
          | Except.ok mousePos => renderCursor minusTen mousePos ctl1)
    else (ctl1, none)

/-- A controller on the example page while it is mirrored: the body holds the stop button,
the agent cursor and the overlay image; the handler is installed. -/
def exampleMirroringController : Controller :=
  { page := { examplePageWith [] with
      document := exampleDocumentOf []
        [stopButtonElement 8,
         createdElement 11 "DIV" [("id", "agent_cursor"), ("style", "visibility: hidden;")] [],
         createdElement 12 "IMG" [("id", "canvasImg")] []],
      nextUid := 13, isInitiated := true },
    handlerInstalled := true }

/-- The value `{ imgObj: { imgSrc: "data:image/png;base64,AAAA", left: 10, top: 20 } }`. -/
def exampleImageMessage : Json :=
  Json.obj [("imgObj", Json.obj [("imgSrc", Json.str "data:image/png;base64,AAAA"),
    ("left", Json.num (JSNumber.mk "10")), ("top", Json.num (JSNumber.mk "20"))])]

/-- The controller on the example page right after the broker has connected: no session
code yet, the start button shown, nothing subscribed. -/
def exampleIdleController : Controller :=
  { page := { examplePageWith [] with clientID := "" } }

/-- The controller after a Start click on the example page that drew the code `code` with
`uid` as the next node identity: the modal is shown and the three topics of the code are
subscribed after the ones in `before`. -/
def exampleClicked (code : String) (uid : Nat) (detached : List DomNode)
    (listeners : List Listener) (before : List String) : Controller :=
  { page := { examplePageWith [] with
      clientID := code,
      document := exampleDocumentOf [] [startButtonElement 5, modalElement uid code],
      detached := detached,
      nextUid := uid + 6,
      listeners := listeners ++
        [Listener.mk (ListenerTarget.element (uid + 2)) "click" "removeModal"],
      subscriptions := before ++ [getTopic code "initializeCobrowsing",
        getTopic code "canvasToClient", getTopic code "cursorToClient"] },
    modal := some uid,
    handlerInstalled := true }

/-- The serialization state in which `new TreeMirrorClient(document, ...)` leaves its
`knownNodes`, starting from the numbers `NodeMap` has given out so far. -/
def serializedState (document : DomNode) (mapIds : List (Nat × Nat)) (mapNextId : Nat) :
    SerialState :=
  (serializeList document.childNodes
    (serializeNode false document (SerialState.mk 1 [] [] mapIds mapNextId)).2).2

/-! ## The message envelope: `compressData` and `relaxData`
(bundle lines 6817-6858, 6903-7000, 7093-7117, 7206-7433, 7470-7565, 7700-7726, 8012-8136,
8219-8237)

A JS string is the list of its UTF-16 code units, a `Uint8Array` the list of its bytes.
`JSON.stringify` is a parameter: it gives a string or `undefined`. The UTF-8 codec of the
library is the one written in JS (`encodeWithJS`, `decodeWithJS`) unless the platform has
one of its own (Node's `Buffer`, or `TextEncoder` and `TextDecoder`), which is then a
parameter as well. The compressor is the one `LZUTF8.compress` makes: its hash table is
the one over `Uint32Array`s, which it takes wherever these exist. Each call makes a new
compressor and a new decompressor, so the input buffer starts at stream offset 1 and
nothing is left from a block before. The numbers that `>>>`, `<<`, `|` and `&` meet are
bytes, code points and distances, all below 2^31, so the operators act on them as on
naturals. -/

/-- A JS string: its UTF-16 code units. -/
abbrev JSString := List Nat

/-- The code units of one Unicode scalar value. -/
def charUnits (c : Char) : List Nat :=
  if c.toNat ≤ 65535 then [c.toNat]
  else [55296 + (c.toNat - 65536) / 1024, 56320 + (c.toNat - 65536) % 1024]

/-- The code units of a sequence of scalar values. -/
def unitsOfChars : List Char → JSString
  | [] => []
  | c :: rest => charUnits c ++ unitsOfChars rest

/-- The JS string with the same characters as a Lean string: a well-formed string, one
without a lone surrogate. -/
def unitsOf (s : String) : JSString :=
  unitsOfChars s.data

/-- `CodePoint.encodeFromString(e, t)`: `charCodeAt` is `NaN` (`none`) past the end. -/
def encodeFromString (e : JSString) (t : Nat) : Except JSError Nat :=
  match e[t]? with
  | none => Except.error (JSError.error "getUnicodeCodePoint: Received a lead surrogate character")
  | some r =>
    if r < 55296 ∨ 56319 < r then Except.ok r
    else
      match e[t + 1]? with
      | none =>
        Except.error (JSError.error "getUnicodeCodePoint: Received a lead surrogate character")
      | some t1 =>
        if 56320 ≤ t1 ∧ t1 ≤ 57343 then Except.ok (t1 - 56320 + ((r - 55296) <<< 10) + 65536)
        else
          Except.error (JSError.error "getUnicodeCodePoint: Received a lead surrogate character")

/-- The loop of `UTF8.encodeWithJS` from index `n` on; `t` holds the bytes written so far.
Every value written is below 256 and the array has four bytes of room per code unit, so
each write is kept as it is. -/
def encodeWithJSLoop (e : JSString) (n : Nat) (t : List Nat) : Except JSError (List Nat) :=
  if n < e.length then
    match encodeFromString e n with
    | Except.error err => Except.error err
    | Except.ok o =>
      if o ≤ 127 then encodeWithJSLoop e (n + 1) (t ++ [o])
      else if o ≤ 2047 then
        encodeWithJSLoop e (n + 1) (t ++ [192 ||| (o >>> 6), 128 ||| (63 &&& o)])
      else if o ≤ 65535 then
        encodeWithJSLoop e (n + 1)
          (t ++ [224 ||| (o >>> 12), 128 ||| ((o >>> 6) &&& 63), 128 ||| (63 &&& o)])
      else if o ≤ 1114111 then
        encodeWithJSLoop e (n + 1 + 1)
          (t ++ [240 ||| (o >>> 18), 128 ||| ((o >>> 12) &&& 63), 128 ||| ((o >>> 6) &&& 63),
            128 ||| (63 &&& o)])
      else
        Except.error (JSError.error
          "Invalid UTF-16 string: Encountered a character unsupported by UTF-8/16 (RFC 3629)")
  else Except.ok t
termination_by e.length - n

/-- `UTF8.encodeWithJS(e)`. -/
def encodeWithJS (e : JSString) : Except JSError (List Nat) :=
  if e.isEmpty then Except.ok [] else encodeWithJSLoop e 0 []

/-- `StringBuilder.appendCodePoint(e)`; `sb` holds the code units appended so far. -/
def appendCodePoint (sb : JSString) (e : Nat) : Except JSError JSString :=
  if e ≤ 65535 then Except.ok (sb ++ [e])
  else if e ≤ 1114111 then
    Except.ok (sb ++ [55296 + ((e - 65536) >>> 10), 56320 + ((e - 65536) &&& 1023)])
  else Except.error (JSError.error "appendCodePoint: A code point cannot be encoded in UTF-16")

/-- The loop of `UTF8.decodeWithJS` from index `u` on; `sb` holds the code units appended
so far. -/
def decodeWithJSLoop (e : List Nat) (u : Nat) (sb : JSString) : Except JSError JSString :=
  if u < e.length then
    let o := e.getD u 0
    if o >>> 7 = 0 then
      match appendCodePoint sb o with
      | Except.error err => Except.error err
      | Except.ok sb1 => decodeWithJSLoop e (u + 1) sb1
    else if o >>> 5 = 6 then
      if e.length ≤ u + 1 then
        Except.error (JSError.error "Invalid UTF-8 stream: Truncated codepoint sequence")
      else
        match appendCodePoint sb (((31 &&& o) <<< 6) ||| (63 &&& e.getD (u + 1) 0)) with
        | Except.error err => Except.error err
        | Except.ok sb1 => decodeWithJSLoop e (u + 2) sb1
    else if o >>> 4 = 14 then
      if e.length ≤ u + 2 then
        Except.error (JSError.error "Invalid UTF-8 stream: Truncated codepoint sequence")
      else
        match appendCodePoint sb
            (((15 &&& o) <<< 12) ||| ((63 &&& e.getD (u + 1) 0) <<< 6) |||
              (63 &&& e.getD (u + 2) 0)) with
        | Except.error err => Except.error err
        | Except.ok sb1 => decodeWithJSLoop e (u + 3) sb1
    else if o >>> 3 ≠ 30 then
      Except.error (JSError.error "Invalid UTF-8 stream: An invalid lead byte value")
    else if e.length ≤ u + 3 then
      Except.error (JSError.error "Invalid UTF-8 stream: Truncated codepoint sequence")
    else
      match appendCodePoint sb
          (((7 &&& o) <<< 18) ||| ((63 &&& e.getD (u + 1) 0) <<< 12) |||
            ((63 &&& e.getD (u + 2) 0) <<< 6) ||| (63 &&& e.getD (u + 3) 0)) with
      | Except.error err => Except.error err
      | Except.ok sb1 => decodeWithJSLoop e (u + 4) sb1
  else Except.ok sb
termination_by e.length - u

/-- `UTF8.decodeWithJS(e)`. -/
def decodeWithJS (e : List Nat) : Except JSError JSString :=
  if e.isEmpty then Except.ok [] else decodeWithJSLoop e 0 []

/-- The UTF-8 codec of the platform, when it has one: Node's `Buffer`, or the
`TextEncoder` and `TextDecoder` pair. -/
structure TextCodec where
  encode : JSString → List Nat
  decode : List Nat → JSString

/-- `UTF8.encode(e)`. -/
def encodeUTF8 (platform : Option TextCodec) (e : JSString) : Except JSError (List Nat) :=
  if e.isEmpty then Except.ok []
  else
    match platform with
    | some codec => Except.ok (codec.encode e)
    | none => encodeWithJS e

/-- `UTF8.decode(e)`. -/
def decodeUTF8 (platform : Option TextCodec) (e : List Nat) : Except JSError JSString :=
  if e.isEmpty then Except.ok []
  else
    match platform with
    | some codec => Except.ok (codec.decode e)
    | none => decodeWithJS e

/-- A `Uint32Array`: a fixed length and the cells below it. -/
structure Uint32Array where
  length : Nat
  cells : Nat → Nat

/-- `new Uint32Array(n)`. -/
def Uint32Array.create (n : Nat) : Uint32Array :=
  { length := n, cells := fun _ => 0 }

/-- `a[k]`: `undefined` (`none`) outside the array. -/
def Uint32Array.read (a : Uint32Array) (k : Nat) : Option Nat :=
  if k < a.length then some (a.cells k) else none

/-- `a[k] = v`: nothing happens outside the array. -/
def Uint32Array.write (a : Uint32Array) (k v : Nat) : Uint32Array :=
  if k < a.length then
    { length := a.length, cells := fun j => if j = k then v % 4294967296 else a.cells j }
  else a

/-- `ArrayTools.copyElements(src, t, dst, n, count)` for two different arrays; an
`undefined` read is stored as 0. -/
def copyElements (src : Uint32Array) : Nat → Nat → Uint32Array → Nat → Uint32Array
  | 0, _, dst, _ => dst
  | count + 1, t, dst, n =>
    copyElements src count (t + 1) (dst.write n ((src.read t).getD 0)) (n + 1)

/-- `ArrayTools.copyElements(a, t, a, n, count)`: a copy inside one array, cell by cell
upwards. -/
def copyWithin : Nat → Uint32Array → Nat → Nat → Uint32Array
  | 0, a, _, _ => a
  | count + 1, a, t, n => copyWithin count (a.write n ((a.read t).getD 0)) (t + 1) (n + 1)

/-- `ArrayTools.zeroElements(a, t, count)`. -/
def zeroElements : Nat → Uint32Array → Nat → Uint32Array
  | 0, a, _ => a
  | count + 1, a, t => zeroElements count (a.write t 0) (t + 1)

/-- `CompressorCustomHashTable`: `minimumBucketCapacity` is 4 and `maximumBucketCapacity`
is 64. The locators of bucket `b` are the cells `2b` (start in `storage`, 0 for none) and
`2b + 1` (number of elements). -/
structure CompressorCustomHashTable where
  bucketLocators : Uint32Array
  storage : Uint32Array
  storageIndex : Nat

/-- `new CompressorCustomHashTable(e)`. -/
def CompressorCustomHashTable.create (e : Nat) : CompressorCustomHashTable :=
  { bucketLocators := Uint32Array.create (2 * e)
    storage := Uint32Array.create (2 * e)
    storageIndex := 1 }

/-- `truncateBucketToNewerElements(e, t, r)` on the storage; the new number of elements is
`r`. -/
def truncateBucketToNewerElements (storage : Uint32Array) (e t r : Nat) : Uint32Array :=
  zeroElements (t - r) (copyWithin r storage (e + t - r) e) (e + r)

/-- First loop of `compact`, one step for the locator pair at `r = 2k`: the new locators
and the new `storageIndex`. The arrays have an even length, so `r + 1` is inside. -/
def compactLocator (old : Uint32Array) (acc : Uint32Array × Nat) (k : Nat) :
    Uint32Array × Nat :=
  let n := (old.read (2 * k + 1)).getD 0
  if n ≠ 0 then
    ((acc.1.write (2 * k) acc.2).write (2 * k + 1) n, acc.2 + max (min (2 * n) 64) 4)
  else acc

/-- Second loop of `compact`, one step: the bucket at `r = 2k` is copied to its new
place. -/
def compactBucket (old locators oldStorage : Uint32Array) (storage : Uint32Array) (k : Nat) :
    Uint32Array :=
  let u := (old.read (2 * k)).getD 0
  if u ≠ 0 then
    copyElements oldStorage ((locators.read (2 * k + 1)).getD 0) u storage
      ((locators.read (2 * k)).getD 0)
  else storage

/-- `compact()`. -/
def CompressorCustomHashTable.compact (tbl : CompressorCustomHashTable) :
    CompressorCustomHashTable :=
  let pairs := List.range ((tbl.bucketLocators.length + 1) / 2)
  let located :=
    pairs.foldl (compactLocator tbl.bucketLocators)
      (Uint32Array.create tbl.bucketLocators.length, 1)
  { bucketLocators := located.1
    storage :=
      pairs.foldl (compactBucket tbl.bucketLocators located.1 tbl.storage)
        (Uint32Array.create (8 * located.2))
    storageIndex := located.2 }

/-- `addValueToBucket(e, t)`. The bucket index is below the table size, so the two locator
cells are inside the array. -/
def CompressorCustomHashTable.addValueToBucket (tbl0 : CompressorCustomHashTable)
    (bucket t : Nat) : CompressorCustomHashTable :=
  let e := bucket <<< 1
  let tbl := if tbl0.storageIndex ≥ tbl0.storage.length >>> 1 then tbl0.compact else tbl0
  let o := (tbl.bucketLocators.read e).getD 0
  if o = 0 then
    { bucketLocators := (tbl.bucketLocators.write e tbl.storageIndex).write (e + 1) 1
      storage := tbl.storage.write tbl.storageIndex t
      storageIndex := tbl.storageIndex + 4 }
  else
    let r0 := (tbl.bucketLocators.read (e + 1)).getD 0
    let storage1 :=
      if r0 = 64 - 1 then truncateBucketToNewerElements tbl.storage o r0 (64 / 2)
      else tbl.storage
    let r := if r0 = 64 - 1 then 64 / 2 else r0
    let n := o + r
    if storage1.read n = some 0 then
      { bucketLocators := (tbl.bucketLocators.write e o).write (e + 1) (r + 1)
        storage := storage1.write n t
        storageIndex := if n = tbl.storageIndex then tbl.storageIndex + r else tbl.storageIndex }
    else
      { bucketLocators := (tbl.bucketLocators.write e tbl.storageIndex).write (e + 1) (r + 1)
        storage := (copyWithin r storage1 o tbl.storageIndex).write (tbl.storageIndex + r) t
        storageIndex := tbl.storageIndex + r + 1 + r }

/-- `getArraySegmentForBucketIndex(e)` read through `getInReversedOrder(u)` for
`u = 0, 1, ...`: `none` when the bucket is empty, else the stored values from the newest
one back (`undefined` for a cell outside the storage). -/
def CompressorCustomHashTable.candidates (tbl : CompressorCustomHashTable) (bucket : Nat) :
    Option (List (Option Nat)) :=
  let e := bucket <<< 1
  let r := (tbl.bucketLocators.read e).getD 0
  if r = 0 then none
  else
    let len := (tbl.bucketLocators.read (e + 1)).getD 0
    some ((List.range len).map (fun u => tbl.storage.read (r + len - 1 - u)))

/-- `o[k]` for an index that may be negative: `undefined` outside. -/
def readAt (o : List Nat) (k : Int) : Option Nat :=
  if k < 0 then none else o[k.toNat]?

/-- The inner loop of `findLongestMatch` at `f`, with `k = MaximumSequenceLength - f`:
`some f` when it stops at `f` (end of input or a differing byte), `none` when `f` reaches
`MaximumSequenceLength`. -/
def scanMatch (o : List Nat) (s : Int) (e : Nat) : Nat → Nat → Option Nat
  | 0, f => if e + f = o.length ∨ readAt o (s + f) ≠ readAt o (e + f) then some f else none
  | k + 1, f =>
    if e + f = o.length ∨ readAt o (s + f) ≠ readAt o (e + f) then some f
    else scanMatch o s e k (f + 1)

/-- The length `c` at which `findLongestMatch` first compares a value of the bucket:
`MinimumSequenceLength - 1` while there is no match yet, else `i + (i >>> 1)` when the
best distance is below 128 and this one is not, else `i`. The distance `a` is `NaN`
(`none`) for a value read outside the storage. -/
def firstCompared (n : Option Int) (i : Nat) (a : Option Int) : Nat :=
  match n, a with
  | none, _ => 4 - 1
  | some d, some a => if d < 128 ∧ 128 ≤ a then i + (i >>> 1) else i
  | some _, none => i

/-- The loop of `findLongestMatch(e, t)` over the values of the bucket; `n` and `i` are the
best distance and length so far. The result is `(distance, length)`. -/
def findLoop (o : List Nat) (e : Nat) : List (Option Nat) → Option Int → Nat → Option (Int × Nat)
  | [], n, i => n.map (fun d => (d, i))
  | none :: rest, n, i =>
    if firstCompared n i none ≥ 31 ∨ e + firstCompared n i none ≥ o.length then
      n.map (fun d => (d, i))
    else findLoop o e rest n i
  | some v :: rest, n, i =>
    let s : Int := (v : Int) - 1
    let a : Int := (e : Int) - s
    let c := firstCompared n i (some a)
    if a > 32767 ∨ c ≥ 31 ∨ e + c ≥ o.length then n.map (fun d => (d, i))
    else if readAt o (s + c) = readAt o (e + c) then
      match scanMatch o s e 31 0 with
      | none => some (a, 31)
      | some f => if c < f then findLoop o e rest (some a) f else findLoop o e rest n i
    else findLoop o e rest n i

/-- `findLongestMatch(e, t)`: `(distance, length)` or `null`. -/
def findLongestMatch (o : List Nat) (tbl : CompressorCustomHashTable) (e t : Nat) :
    Option (Int × Nat) :=
  match tbl.candidates t with
  | none => none
  | some values => findLoop o e values none 0

/-- `getBucketIndexForPrefix(e)`; it is called with `e + 3` inside the input. -/
def getBucketIndexForPrefix (o : List Nat) (e : Nat) : Nat :=
  (7880599 * o.getD e 0 + 39601 * o.getD (e + 1) 0 + 199 * o.getD (e + 2) 0 + o.getD (e + 3) 0)
    % 65537

/-- What `compressUtf8Block` changes while it runs: `o` (`skipUntil`), the hash table,
the output buffer (`output` holds the bytes written inside it) and
`outputBufferPosition`. -/
structure CompressorState where
  skipUntil : Nat
  table : CompressorCustomHashTable
  output : List Nat
  position : Nat

/-- `outputRawByte(e)` into an output buffer of `capacity` bytes: a write outside the
buffer is lost, the position moves on all the same. -/
def outputRawByte (capacity : Nat) (st : CompressorState) (e : Int) : CompressorState :=
  { st with
    output := if st.position < capacity then st.output ++ [(e % 256).toNat] else st.output
    position := st.position + 1 }

/-- `outputPointerBytes(e, t)`. -/
def outputPointerBytes (capacity : Nat) (st : CompressorState) (e : Nat) (t : Int) :
    CompressorState :=
  if t < 128 then outputRawByte capacity (outputRawByte capacity st (192 ||| e : Nat)) t
  else
    outputRawByte capacity
      (outputRawByte capacity (outputRawByte capacity st (224 ||| e : Nat))
        (((t % 4294967296).toNat >>> 8 : Nat)))
      ((255 &&& (t % 4294967296).toNat : Nat))

/-- The loop of `compressUtf8Block` at `i`, with `k` iterations left. -/
def compressLoop (r : List Nat) : Nat → Nat → CompressorState → CompressorState
  | 0, _, st => st
  | k + 1, i, st =>
    let a := r.getD i 0
    if (i : Int) > (r.length : Int) - 4 then
      compressLoop r k (i + 1) (if i < st.skipUntil then st else outputRawByte r.length st a)
    else
      let u := getBucketIndexForPrefix r i
      let st1 :=
        if i < st.skipUntil then st
        else
          match findLongestMatch r st.table i u with
          | some (distance, length) =>
            { outputPointerBytes r.length st length distance with skipUntil := i + length }
          | none => outputRawByte r.length st a
      compressLoop r k (i + 1) { st1 with table := st1.table.addValueToBucket u (1 + i) }

/-- `compressUtf8Block(e)` of a new compressor. -/
def compressUtf8Block (e : List Nat) : List Nat :=
  if e.isEmpty then []
  else
    (compressLoop e e.length 0
      { skipUntil := 0
        table := CompressorCustomHashTable.create 65537
        output := []
        position := 0 }).output

/-- `LZUTF8.compress(e)` for a string or `undefined`: the bytes of
`new Compressor().compressBlock(e)`. -/
def compress (platform : Option TextCodec) (e : Option JSString) : Except JSError (List Nat) :=
  match e with
  | none => Except.error (JSError.typeError "compress: undefined or null input received")
  | some text =>
    match encodeUTF8 platform text with
    | Except.error err => Except.error err
    | Except.ok bytes => Except.ok (compressUtf8Block bytes)

/-- `this.outputBuffer[k]` in `decompressBlock`, stored again as a byte: the bytes written
so far, 0 for the rest of the new buffer and for `undefined`. -/
def readOutput (out : List Nat) (k : Int) : Nat :=
  if k < 0 then 0 else out.getD k.toNat 0

/-- The copy loop of `decompressBlock`: `count` bytes from `a + c` on are appended one by
one. -/
def copySequence (a : Int) : Nat → Nat → List Nat → List Nat
  | 0, _, out => out
  | count + 1, c, out => copySequence a count (c + 1) (out ++ [readOutput out (a + c)])

/-- The loop of `decompressBlock`: the list holds the input from index `r` to the end
(one byte left is `r == n - 1`, two bytes left and `o >>> 5 == 7` is the other case that
keeps the rest for the next block), `out` the bytes written so far. -/
def decompressLoop : List Nat → List Nat → List Nat
  | [], out => out
  | [o], out => if o >>> 6 = 3 then out else decompressLoop [] (out ++ [o])
  | o :: x :: rest1, out =>
    if o >>> 6 = 3 then
      if rest1.isEmpty ∧ o >>> 5 = 7 then out
      else if x >>> 7 = 1 then decompressLoop (x :: rest1) (out ++ [o])
      else if o >>> 5 = 6 then
        decompressLoop rest1 (copySequence ((out.length : Int) - x) (31 &&& o) 0 out)
      else
        match rest1 with
        | y :: rest2 =>
          decompressLoop rest2
            (copySequence ((out.length : Int) - ((x <<< 8) ||| y : Nat)) (31 &&& o) 0 out)
        | [] => out
    else decompressLoop (x :: rest1) (out ++ [o])

/-- One step of `rollBackIfOutputBufferEndsWithATruncatedMultibyteSequence` at `e`: whether
the byte `e` places before the end opens a sequence that is cut. -/
def opensTruncatedSequence (out : List Nat) (e : Nat) : Bool :=
  decide (e ≤ out.length) &&
    (let t := out.getD (out.length - e) 0
     (decide (e < 4) && decide (t >>> 3 = 30)) || (decide (e < 3) && decide (t >>> 4 = 14)) ||
       (decide (e < 2) && decide (t >>> 5 = 6)))

/-- `rollBackIfOutputBufferEndsWithATruncatedMultibyteSequence()`: the output that is
left. -/
def rollBack (out : List Nat) : List Nat :=
  if opensTruncatedSequence out 1 then out.take (out.length - 1)
  else if ¬ (1 ≤ out.length) then out
  else if opensTruncatedSequence out 2 then out.take (out.length - 2)
  else if ¬ (2 ≤ out.length) then out
  else if opensTruncatedSequence out 3 then out.take (out.length - 3)
  else if ¬ (3 ≤ out.length) then out
  else if opensTruncatedSequence out 4 then out.take (out.length - 4)
  else out

/-- `decompressBlock(e)` of a new decompressor. -/
def decompressBlock (e : List Nat) : List Nat :=
  rollBack (decompressLoop e [])

/-- `LZUTF8.decompress(e)` for a `Uint8Array`. -/
def decompress (platform : Option TextCodec) (e : List Nat) : Except JSError JSString :=
  decodeUTF8 platform (decompressBlock e)

/-- `relaxData(message)`. -/
def relaxData (platform : Option TextCodec) (message : List Nat) : Except JSError JSString :=
  decompress platform message

/-- `compressData(message)`: `LZUTF8.compress(JSON.stringify(message))`. -/
def compressData {α : Type} (platform : Option TextCodec) (stringify : α → Option JSString)
    (message : α) : Except JSError (List Nat) :=
  compress platform (stringify message)

/-- The shape of UTF-8, read with `pending` bytes of a sequence still to come: a byte
below 128 stands alone, one from 192 to 247 opens a sequence of two, three or four bytes,
and the other bytes of a sequence are from 128 to 191. -/
def isUtf8From : Nat → List Nat → Bool
  | 0, [] => true
  | _ + 1, [] => false
  | 0, b :: rest =>
    if b < 128 then isUtf8From 0 rest
    else if 192 ≤ b ∧ b < 224 then isUtf8From 1 rest
    else if 224 ≤ b ∧ b < 240 then isUtf8From 2 rest
    else if 240 ≤ b ∧ b < 248 then isUtf8From 3 rest
    else false
  | pending + 1, b :: rest => if 128 ≤ b ∧ b < 192 then isUtf8From pending rest else false

/-- The bytes have the shape of UTF-8. -/
def isUtf8 (bytes : List Nat) : Bool :=
  isUtf8From 0 bytes

/-- The UTF-8 bytes of a scalar value `v`, in arithmetic: what `encodeWithJS` writes for
it. -/
def utf8Bytes (v : Nat) : List Nat :=
  if v ≤ 127 then [v]
  else if v ≤ 2047 then [192 + v / 64, 128 + v % 64]
  else if v ≤ 65535 then [224 + v / 4096, 128 + v / 64 % 64, 128 + v % 64]
  else [240 + v / 262144, 128 + v / 4096 % 64, 128 + v / 64 % 64, 128 + v % 64]

/-- The UTF-8 bytes of a sequence of scalar values. -/
def bytesOfChars : List Char → List Nat
  | [] => []
  | c :: rest => utf8Bytes c.toNat ++ bytesOfChars rest

/-- What the compressor and the decompressor need of their input, byte by byte: each is
below 256, one from 192 on is followed by one from 128 on, one from 224 on by two bytes,
one from 240 on by three. -/
def LeadFollow (r : List Nat) : Prop :=
  ∀ i, i < r.length →
    r.getD i 0 < 256 ∧ (192 ≤ r.getD i 0 → i + 1 < r.length ∧ 128 ≤ r.getD (i + 1) 0) ∧
      (224 ≤ r.getD i 0 → i + 2 < r.length) ∧ (240 ≤ r.getD i 0 → i + 3 < r.length)

/-- Every cell of the array is at most `bound`. -/
def Uint32Array.Below (bound : Nat) (a : Uint32Array) : Prop :=
  ∀ k, a.cells k ≤ bound

/-- A match `(distance, length)` at `e` that the decompressor can copy: the distance
reaches back into the input and is at most `MaximumMatchDistance`, the length is from
`MinimumSequenceLength` to `MaximumSequenceLength`, and the bytes agree. -/
def ValidMatch (o : List Nat) (e : Nat) (m : Int × Nat) : Prop :=
  1 ≤ m.1 ∧ m.1 ≤ e ∧ m.1 ≤ 32767 ∧ 4 ≤ m.2 ∧ m.2 ≤ 31 ∧ e + m.2 ≤ o.length ∧
    ∀ g, g < m.2 → o.getD (e - m.1.toNat + g) 0 = o.getD (e + g) 0

/-- The bytes `outputPointerBytes` writes for a length and a distance, in arithmetic. -/
def pointerBytes (length distance : Nat) : List Nat :=
  if distance < 128 then [192 + length, distance]
  else [224 + length, distance / 256, distance % 256]

/-- What is asked of the rest of the compressed bytes once the input is covered up to
`m`: the decompressor, holding the input up to `m`, gives the whole input back; the rest
starts with a byte and that one is from 128 on when the input byte at `m` is; and two
input bytes to come give at least two compressed bytes. -/
def Decodes (r : List Nat) (m : Nat) (rest : List Nat) : Prop :=
  decompressLoop rest (r.take m) = r ∧
    (m < r.length → ∃ x tl, rest = x :: tl ∧ x < 256 ∧ (128 ≤ r.getD m 0 → 128 ≤ x)) ∧
      (m + 2 ≤ r.length → 2 ≤ rest.length)

/-- The attributes of the added and moved records of every `applyChanged` message among the
published ones, in order of publication. -/
def publishedAddedAttributes (published : List (String × PeerMessage)) :
    List (List (Option Attributes)) :=
  published.filterMap (fun tm =>
    match tm.2 with
    | PeerMessage.applyChangedCall args => some (args.addedOrMoved.map NodeData.attributes)
    | _ => none)

/-- The session of the example page once a `<div class="note spr-cobrowse-redact"
value="4111">` has been added under `<body>` and stored under index 7. -/
def exampleMirroringAdded : Session :=
  Session.mk "123456"
    (exampleKnownNodesAdded [("class", "note spr-cobrowse-redact"), ("value", "4111")]) [] []

/-- A batch that removes the node serialized under id 4 and adds that `<div>`. -/
def exampleRemovalBatch : Batch :=
  Batch.mk [textRecord (JSId.mk 4 false) none]
    [exampleAddedRecord [("class", JSVal.str "note spr-cobrowse-redact"),
      ("value", JSVal.str "4111")]] [] []

/-- The same batch with the added record as `getRedactedNode` leaves it. -/
def exampleRemovalBatchSent : Batch :=
  Batch.mk [textRecord (JSId.mk 4 false) none]
    [exampleAddedRecord [("class", JSVal.str "note spr-cobrowse-redact"),
      ("value", JSVal.str ""),
      ("style", JSVal.str "background: black;height: 30px; width: 120px;")]] [] []

/-- `document.body` is there and neither the document element nor the body carries the
given id: the first element child of the document is an `html` element without the id, and
its first `body` or `frameset` child is without it too. -/
def bodyUnreserved (id : String) (document : DomNode) : Bool :=
  match document.childNodes.find? isElementNode with
  | some html =>
    html.props.tagName = "HTML" && !html.props.hasId id &&
      (match html.childNodes.find? isBodyElement with
        | some body => !body.props.hasId id
        | none => false)
  | none => false

mutual
/-- No element of the subtree that carries the id `x` has an element with the id `y` in
its own subtree. -/
def guardedNode (x y : String) : DomNode → Prop
  | DomNode.mk props children =>
    (props.hasId x = true → countId y (DomNode.mk props children) = 0) ∧ guardedList x y children
/-- The same for each subtree of a list. -/
def guardedList (x y : String) : List DomNode → Prop
  | [] => True
  | n :: rest => guardedNode x y n ∧ guardedList x y rest
end

/-- A host page with a `<div id="canvasImg">` of its own before the start button. -/
def exampleHostPage : Page :=
  { document := exampleDocumentOf []
      [createdElement 5 "DIV" [("id", "canvasImg")] [], startButtonElement 6],
    nextUid := 9,
    href := "https://shop.example/cart/index.html",
    verScroll := JSNumber.mk "0",
    innerHeight := JSNumber.mk "600",
    innerWidth := JSNumber.mk "800",
    clientID := "123456" }

/-! # Theorems -/

/-! ## Session identifier generator -/

theorem rand_index_valid (r : ℚ) (h0 : 0 ≤ r) (h1 : r < 1) (n : Nat) (hn : 1 ≤ n) :
    0 ≤ rand r 0 ((n : ℤ) - 1) ∧ (rand r 0 ((n : ℤ) - 1)).toNat < n := by
  have hn1 : (0 : ℚ) ≤ (n : ℚ) - 1 := by
    have : (1 : ℚ) ≤ (n : ℚ) := by exact_mod_cast hn
    linarith
  have hval : rand r 0 ((n : ℤ) - 1) = ⌊r * ((n : ℚ) - 1)⌋ := by
    simp [rand]
  have hnonneg : 0 ≤ ⌊r * ((n : ℚ) - 1)⌋ := Int.floor_nonneg.mpr (mul_nonneg h0 hn1)
  have hlt : ⌊r * ((n : ℚ) - 1)⌋ < (n : ℤ) := by
    rw [Int.floor_lt]
    have h2 : r * ((n : ℚ) - 1) ≤ 1 * ((n : ℚ) - 1) :=
      mul_le_mul_of_nonneg_right h1.le hn1
    push_cast
    linarith
  rw [hval]
  refine ⟨hnonneg, ?_⟩
  omega

theorem charAtIndex_mem (s : String) (i : ℤ) (h0 : 0 ≤ i) (h1 : i.toNat < s.length) :
    ∃ c, charAtIndex s i = some c ∧ c ∈ s.data := by
  have hlen : i.toNat < s.data.length := h1
  refine ⟨s.data.get ⟨i.toNat, hlen⟩, ?_, List.get_mem _ _ _⟩
  simp [charAtIndex, h0, List.get?_eq_get hlen]

theorem appendIndexed_some_length (p : String) (c : Char) :
    (appendIndexed p (some c)).length = p.length + 1 := by
  simp only [appendIndexed, String.length_append, String.length_singleton]

theorem appendIndexed_some_data (p : String) (c : Char) :
    (appendIndexed p (some c)).data = p.data ++ [c] := by
  simp [appendIndexed, String.data_append, String.singleton]

/-- The loop of `otpGenerator` over a non-empty alphabet: with enough fuel it returns a
string of the requested length whose characters come from the alphabet (or were already
in the password). -/
theorem otpLoop_spec (allows : String) (random : Nat → ℚ) (hr : UnitDraws random)
    (hallows : 1 ≤ allows.length) (length : Nat) :
    ∀ (fuel k : Nat) (password : String), password.length ≤ length →
      length - password.length ≤ fuel →
      ∃ s, otpLoop allows random length fuel k password = some s ∧ s.length = length ∧
        ∀ c ∈ s.data, c ∈ password.data ∨ c ∈ allows.data := by
  intro fuel
  induction fuel with
  | zero =>
    intro k password hle hfuel
    have hnot : ¬ password.length < length := by omega
    refine ⟨password, by simp [otpLoop, hnot], by omega, fun c hc => Or.inl hc⟩
  | succ fuel ih =>
    intro k password hle hfuel
    by_cases hlt : password.length < length
    · obtain ⟨h0, h1⟩ := rand_index_valid (random k) (hr k).1 (hr k).2 allows.length hallows
      obtain ⟨c, hc, hmem⟩ := charAtIndex_mem allows _ h0 h1
      have hlen := appendIndexed_some_length password c
      obtain ⟨s, hs, hslen, hsmem⟩ :=
        ih (k + 1) (appendIndexed password (some c)) (by omega) (by omega)
      refine ⟨s, ?_, hslen, ?_⟩
      · simp only [otpLoop, hlt, if_true, hc]
        exact hs
      · intro d hd
        rcases hsmem d hd with h | h
        · rw [appendIndexed_some_data] at h
          rcases List.mem_append.mp h with h | h
          · exact Or.inl h
          · simp only [List.mem_singleton] at h
            exact Or.inr (h ▸ hmem)
        · exact Or.inr h
    · refine ⟨password, by simp [otpLoop, hlt], by omega, fun c hc => Or.inl hc⟩

theorem classChars_mem (flag : Bool) (cls : String) (c : Char) :
    c ∈ (classChars flag cls).data ↔ flag = true ∧ c ∈ cls.data := by
  cases flag <;> simp [classChars]

theorem allowsChars_mem (options : OtpOptions) (c : Char) :
    c ∈ (allowsChars options).data ↔
      (optionOrTrue options.digits = true ∧ c ∈ digits.data) ∨
      (optionOrTrue options.alphabets = true ∧ c ∈ alphabets.data) ∨
      (optionOrTrue options.upperCase = true ∧ c ∈ upperCase.data) ∨
      (optionOrTrue options.specialChars = true ∧ c ∈ specialChars.data) := by
  simp only [allowsChars, String.data_append, List.mem_append, classChars_mem, or_assoc]

theorem allowsChars_length_pos (options : OtpOptions)
    (h : optionOrTrue options.digits = true ∨ optionOrTrue options.alphabets = true ∨
      optionOrTrue options.upperCase = true ∨ optionOrTrue options.specialChars = true) :
    1 ≤ (allowsChars options).length := by
  have hmem : ∃ c, c ∈ (allowsChars options).data := by
    rcases h with h | h | h | h
    · exact ⟨'0', (allowsChars_mem options _).mpr (Or.inl ⟨h, by decide⟩)⟩
    · exact ⟨'a', (allowsChars_mem options _).mpr (Or.inr (Or.inl ⟨h, by decide⟩))⟩
    · exact ⟨'A', (allowsChars_mem options _).mpr (Or.inr (Or.inr (Or.inl ⟨h, by decide⟩)))⟩
    · exact ⟨'#', (allowsChars_mem options _).mpr (Or.inr (Or.inr (Or.inr ⟨h, by decide⟩)))⟩
  obtain ⟨c, hc⟩ := hmem
  exact List.length_pos_of_mem hc

/-- The upper-case alphabet, evaluated. -/
theorem upperCase_eq : upperCase = "ABCDEFGHIJKLMNOPQRSTUVWXYZ" := by decide

/-- C1: for every stream of draws in [0,1), `getUniqueID()` returns a string of exactly six
characters, each one of `0123456789`. -/
theorem getUniqueID_shape (random : Nat → ℚ) (hr : UnitDraws random) :
    ∃ s, getUniqueID random = some s ∧ s.length = 6 ∧ ∀ c ∈ s.data, c ∈ "0123456789".data := by
  have hallows : allowsChars (OtpOptions.mk none (some false) (some false) (some false)) =
      "0123456789" := by decide
  obtain ⟨s, hs, hlen, hmem⟩ :=
    otpLoop_spec "0123456789" random hr (by decide) 6 6 0 "" (by decide) (by decide)
  refine ⟨s, ?_, hlen, ?_⟩
  · simp only [getUniqueID, otpGenerator, hallows]
    exact hs
  · intro c hc
    rcases hmem c hc with h | h
    · exact absurd h (by simp)
    · exact h

theorem getUniqueID_shape_witness :
    UnitDraws (fun _ => (1 / 2 : ℚ)) ∧
    ∃ s, getUniqueID (fun _ => (1 / 2 : ℚ)) = some s ∧ s.length = 6 ∧
      ∀ c ∈ s.data, c ∈ "0123456789".data :=
  ⟨fun _ => by norm_num, getUniqueID_shape _ (fun _ => by norm_num)⟩

/-- C2: for every length L ≥ 1, every options object in which at least one of the four
character classes is enabled, and every stream of draws in [0,1), `otpGenerator(L, options)`
returns a string of length exactly L, each character of which belongs to the alphabet of
an enabled class. -/
theorem otpGenerator_contract (random : Nat → ℚ) (hr : UnitDraws random) (L : Nat)
    (hL : 1 ≤ L) (options : OtpOptions)
    (henabled : optionOrTrue options.digits = true ∨ optionOrTrue options.alphabets = true ∨
      optionOrTrue options.upperCase = true ∨ optionOrTrue options.specialChars = true) :
    ∃ s, otpGenerator random L options = some s ∧ s.length = L ∧
      ∀ c ∈ s.data,
        (optionOrTrue options.digits = true ∧ c ∈ "0123456789".data) ∨
        (optionOrTrue options.alphabets = true ∧ c ∈ "abcdefghijklmnopqrstuvwxyz".data) ∨
        (optionOrTrue options.upperCase = true ∧ c ∈ "ABCDEFGHIJKLMNOPQRSTUVWXYZ".data) ∨
        (optionOrTrue options.specialChars = true ∧ c ∈ "#!&@".data) := by
  have hL0 : L ≠ 0 := by omega
  obtain ⟨s, hs, hlen, hmem⟩ :=
    otpLoop_spec (allowsChars options) random hr (allowsChars_length_pos options henabled)
      L L 0 "" (Nat.zero_le _) (by simp)
  refine ⟨s, ?_, hlen, ?_⟩
  · simp only [otpGenerator, hL0, if_false]
    exact hs
  · intro c hc
    rcases hmem c hc with h | h
    · exact absurd h (by simp)
    · have := (allowsChars_mem options c).mp h
      rw [upperCase_eq] at this
      exact this

theorem otpGenerator_contract_witness :
    ∃ s, otpGenerator (fun _ => (1 / 3 : ℚ)) 4
        (OtpOptions.mk (some false) (some true) (some false) (some true)) = some s ∧
      s.length = 4 ∧
      ∀ c ∈ s.data,
        (optionOrTrue (some false) = true ∧ c ∈ "0123456789".data) ∨
        (optionOrTrue (some true) = true ∧ c ∈ "abcdefghijklmnopqrstuvwxyz".data) ∨
        (optionOrTrue (some false) = true ∧ c ∈ "ABCDEFGHIJKLMNOPQRSTUVWXYZ".data) ∨
        (optionOrTrue (some true) = true ∧ c ∈ "#!&@".data) :=
  otpGenerator_contract (fun _ => (1 / 3 : ℚ)) (fun _ => by norm_num) 4 (by decide)
    (OtpOptions.mk (some false) (some true) (some false) (some true)) (Or.inr (Or.inl rfl))

/-! ## Topic names -/

/-- C9: for session codes a, b (six decimal digits each) and all subtopic names s, t (the
five the bundle uses, presence, clientScreen, initializeCobrowsing, canvasToClient and
cursorToClient, among them), `getTopic` builds the same topic for (a, s) and (b, t) if and
only if a = b and s = t; in particular a/presence and b/presence differ when a and b
differ. -/
theorem getTopic_no_collision (a b s t : String) (ha : IsSessionCode a) (hb : IsSessionCode b) :
    (getTopic a s = getTopic b t ↔ a = b ∧ s = t) ∧
    (a ≠ b → getTopic a "presence" ≠ getTopic b "presence") := by
  have key : ∀ u v : String, getTopic a u = getTopic b v → a = b ∧ u = v := by
    intro u v h
    have hdata : a.data ++ ('/' :: u.data) = b.data ++ ('/' :: v.data) := by
      have := congrArg String.data h
      simpa [getTopic, String.data_append] using this
    have hlen : a.data.length = b.data.length := by
      have h1 : a.data.length = 6 := ha.1
      have h2 : b.data.length = 6 := hb.1
      omega
    obtain ⟨h1, h2⟩ := List.append_inj hdata hlen
    exact ⟨String.ext h1, String.ext (List.cons.inj h2).2⟩
  refine ⟨⟨key s t, ?_⟩, fun hab h => hab (key _ _ h).1⟩
  rintro ⟨rfl, rfl⟩
  rfl

theorem getTopic_no_collision_witness :
    (getTopic "123456" "presence" = getTopic "654321" "clientScreen" ↔
      "123456" = "654321" ∧ "presence" = "clientScreen") ∧
    ("123456" ≠ "654321" → getTopic "123456" "presence" ≠ getTopic "654321" "presence") :=
  getTopic_no_collision "123456" "654321" "presence" "clientScreen"
    ⟨by decide, by decide⟩ ⟨by decide, by decide⟩

/-! ## Redaction of serialized records -/

theorem Attributes.get_set_same (a : Attributes) (k : String) (v : JSVal) :
    (a.set k v).get k = v := by
  induction a with
  | nil => simp [Attributes.set, Attributes.get]
  | cons kv rest ih =>
    obtain ⟨k1, w⟩ := kv
    by_cases h : k1 = k
    · simp [Attributes.set, Attributes.get, h]
    · simp [Attributes.set, Attributes.get, h, ih]

theorem Attributes.get_set_other (a : Attributes) (k k1 : String) (v : JSVal) (hne : k ≠ k1) :
    (a.set k v).get k1 = a.get k1 := by
  induction a with
  | nil => simp [Attributes.set, Attributes.get, hne]
  | cons kv rest ih =>
    obtain ⟨k2, w⟩ := kv
    by_cases h : k2 = k
    · subst h
      simp [Attributes.set, Attributes.get, hne]
    · by_cases h1 : k2 = k1
      · subst h1
        simp [Attributes.set, Attributes.get, h]
      · simp [Attributes.set, Attributes.get, h, h1, ih]

theorem blackOutAttributes_style (attrs : Attributes) (h w : String) :
    (blackOutAttributes attrs h w).get "style" =
      JSVal.str ((if attrs.get "style" = JSVal.undefined then "" else "undefined") ++
        "background: black;" ++ ("height: " ++ h ++ "px; width: " ++ w ++ "px;")) := by
  have hsv : ("value" : String) ≠ "style" := by decide
  unfold blackOutAttributes
  by_cases hstyle : attrs.get "style" = JSVal.undefined
  · simp only [hstyle, if_true]
    split
    · simp [Attributes.get_set_same, JSVal.toJSString]
    · rw [Attributes.get_set_other _ _ _ _ hsv]
      simp [Attributes.get_set_same, JSVal.toJSString]
  · simp only [hstyle, if_false]
    simp [Attributes.get, Attributes.set, JSVal.toJSString]

theorem blackOutAttributes_value (attrs : Attributes) (h w : String) :
    (blackOutAttributes attrs h w).get "value" =
      if attrs.get "style" = JSVal.undefined then
        (if attrs.get "value" = JSVal.undefined then JSVal.undefined else JSVal.str "")
      else JSVal.undefined := by
  have hsv : ("style" : String) ≠ "value" := by decide
  unfold blackOutAttributes
  by_cases hstyle : attrs.get "style" = JSVal.undefined
  · simp only [hstyle, if_true]
    by_cases hvalue : attrs.get "value" = JSVal.undefined
    · simp [Attributes.get_set_other _ _ _ _ hsv, hvalue]
    · simp [Attributes.get_set_other _ _ _ _ hsv, hvalue, Attributes.get_set_same]
  · simp only [hstyle, if_false]
    simp [Attributes.get, Attributes.set]

/-- On a record whose attributes carry a truthy `data-redaction`, `setRedactionDFS` is the
black-out of its attributes with the captured dimensions, the removal of its children and
the recording of its id. -/
theorem setRedactionDFS_of_redacted (node : NodeData) (ids : RedactedIds) (attrs : Attributes)
    (hattrs : node.attributes = some attrs)
    (hred : (attrs.get redactedAttribute).truthy = true) :
    setRedactionDFS node ids =
      Except.ok ((node.setAttributes (blackOutAttributes attrs
          (attrs.get "data-height").toJSString (attrs.get "data-width").toJSString)).setChildNodes [],
        ids.mark node.id) := by
  obtain ⟨i, t, d, x, g, a, c, s, p⟩ := node
  obtain rfl : a = some attrs := hattrs
  rw [setRedactionDFS]
  simp [recordIsRedacted, redactRecord, hred, getRedactedNode, NodeData.attributes,
    NodeData.setAttributes, NodeData.setChildNodes, NodeData.id]

/-- C7: for every record whose attributes carry a truthy `data-redaction` together with the
captured `data-height` = h and `data-width` = w, `setRedactionDFS` returns the record with
`childNodes = []` and a style that is `background: black;` followed by
`height: hpx; width: wpx;` (after the text `undefined` when a style existed); a value
attribute that was present is cleared: it is the empty string when the record had no style
and is gone with every other attribute when it had one. -/
theorem setRedactionDFS_redacted_record (node : NodeData) (ids : RedactedIds)
    (attrs : Attributes) (h w : String)
    (hattrs : node.attributes = some attrs)
    (hred : (attrs.get redactedAttribute).truthy = true)
    (hh : attrs.get "data-height" = JSVal.str h)
    (hw : attrs.get "data-width" = JSVal.str w) :
    ∃ node1 attrs1, setRedactionDFS node ids = Except.ok (node1, ids.mark node.id) ∧
      node1.id = node.id ∧
      node1.childNodes = some [] ∧
      node1.attributes = some attrs1 ∧
      (∃ pre, attrs1.get "style" =
        JSVal.str (pre ++ "background: black;" ++ ("height: " ++ h ++ "px; width: " ++ w ++ "px;"))) ∧
      (attrs.get "value" ≠ JSVal.undefined →
        (attrs.get "style" = JSVal.undefined → attrs1.get "value" = JSVal.str "") ∧
        (attrs.get "style" ≠ JSVal.undefined → attrs1.get "value" = JSVal.undefined)) := by
  refine ⟨_, blackOutAttributes attrs h w, setRedactionDFS_of_redacted node ids attrs hattrs hred,
    ?_, ?_, ?_, ⟨_, blackOutAttributes_style attrs h w⟩, fun hv => ⟨fun hs => ?_, fun hs => ?_⟩⟩
  · obtain ⟨i, t, d, x, g, a, c, s, p⟩ := node
    rfl
  · obtain ⟨i, t, d, x, g, a, c, s, p⟩ := node
    rfl
  · obtain ⟨i, t, d, x, g, a, c, s, p⟩ := node
    simp [hh, hw, JSVal.toJSString, NodeData.setAttributes, NodeData.setChildNodes,
      NodeData.attributes]
  · rw [blackOutAttributes_value, if_pos hs, if_neg hv]
  · rw [blackOutAttributes_value, if_neg hs]

theorem setRedactionDFS_redacted_record_witness :
    ∃ node1 attrs1, setRedactionDFS exampleInputRecord [] =
        Except.ok (node1, RedactedIds.mark [] exampleInputRecord.id) ∧
      node1.id = exampleInputRecord.id ∧
      node1.childNodes = some [] ∧
      node1.attributes = some attrs1 ∧
      (∃ pre, attrs1.get "style" =
        JSVal.str (pre ++ "background: black;" ++ ("height: " ++ "20" ++ "px; width: " ++ "100" ++ "px;"))) ∧
      (Attributes.get [("value", JSVal.str "4111"), ("data-height", JSVal.str "20"),
          ("data-width", JSVal.str "100"), ("data-redaction", JSVal.str "true")] "value" ≠
          JSVal.undefined →
        (Attributes.get [("value", JSVal.str "4111"), ("data-height", JSVal.str "20"),
          ("data-width", JSVal.str "100"), ("data-redaction", JSVal.str "true")] "style" =
          JSVal.undefined → attrs1.get "value" = JSVal.str "") ∧
        (Attributes.get [("value", JSVal.str "4111"), ("data-height", JSVal.str "20"),
          ("data-width", JSVal.str "100"), ("data-redaction", JSVal.str "true")] "style" ≠
          JSVal.undefined → attrs1.get "value" = JSVal.undefined)) :=
  setRedactionDFS_redacted_record exampleInputRecord []
    [("value", JSVal.str "4111"), ("data-height", JSVal.str "20"),
      ("data-width", JSVal.str "100"), ("data-redaction", JSVal.str "true")]
    "20" "100" rfl (by decide) (by decide) (by decide)

/-- C5: on the snapshot of a document without a doctype, whose only top-level child is
`<html>`, the hook redacts nothing: the payload published under f = 'initialize' is the
snapshot as it was delivered, and the record carrying `data-redaction` in it still has its
text child and no style. -/
theorem initializeHook_skips_first_child :
    initializeHook exampleSession (JSId.mk 1 false) [exampleHtmlRecord] =
      Except.ok (peerDataSend exampleSession
        (PeerMessage.initializeCall (JSId.mk 1 false) [exampleHtmlRecord])) ∧
    (exampleSecretRecord.childNodes.map recordIds = some [5] ∧
      exampleSecretRecord.attributes.map (fun a => a.get "data-redaction") =
        some (JSVal.str "true") ∧
      exampleSecretRecord.attributes.map (fun a => a.get "style") = some JSVal.undefined) := by
  refine ⟨rfl, ?_, ?_, ?_⟩ <;> decide

/-- On the same `<html>` record delivered as the second top-level child (a document with a
doctype) the hook does black out the marked record: its children are dropped and its style
is set. -/
theorem initializeHook_redacts_second_child :
    (initializeHook exampleSession (JSId.mk 1 false)
        [NodeData.mk (JSId.mk 6 false) (some 10) (some (DocTypeData.mk "html" "" "")) none none
          none none none none, exampleHtmlRecord]).toOption.map
      (fun st => st.published.map (fun tm =>
        match tm.2 with
        | PeerMessage.initializeCall _ children =>
          (children.get? 1).map (fun html =>
            (html.childNodes.getD []).map (fun body =>
              (body.childNodes.getD []).map (fun r =>
                (r.childNodes.map recordIds, (r.attributes.getD []).get "style"))))
        | _ => none)) =
    some [some [[(some [], JSVal.str "background: black;height: 18px; width: 200px;")]]] := by
  rfl

/-! ## The live DOM: `climb` and the attribute-change filter -/

theorem climbLoop_isSome_of_last :
    ∀ (n : LiveNode) (last : Option LiveNode), last.isSome = true →
      (climbLoop n last).isSome = true
  | LiveNode.mk props none, last, h => by
    rw [climbLoop]
    split
    · exact h
    · dsimp only
      split <;> simp [h]
  | LiveNode.mk props (some p), last, h => by
    rw [climbLoop]
    split
    · exact h
    · dsimp only
      apply climbLoop_isSome_of_last p
      split <;> simp [h]

theorem climbLoop_isSome_of_marks (n : LiveNode) (last : Option LiveNode)
    (hk : n.kind ≠ NodeKind.document) (hm : n.marksRedaction = true) :
    (climbLoop n last).isSome = true := by
  obtain ⟨props, p⟩ := n
  have hk1 : props.kind ≠ NodeKind.document := hk
  have hm1 : props.marksRedaction = true := hm
  rw [climbLoop]
  simp only [hk1, if_false, hm1, if_true]
  cases p with
  | none => simp
  | some parent => exact climbLoop_isSome_of_last parent _ rfl

theorem climb_isSome_of_checkToBeRedacted (nodes : KnownNodes) (id : JSId)
    (h : checkToBeRedacted nodes id = true) :
    (climb (getNodeById nodes id)).isSome = true := by
  unfold checkToBeRedacted at h
  cases hn : getNodeById nodes id with
  | none => simp [hn, climb] at h
  | some node =>
    rw [hn] at h
    simp only at h
    by_cases hattr : (node.kind = NodeKind.element && node.hasAttribute redactedAttribute) = true
    · simp only [Bool.and_eq_true, decide_eq_true_eq] at hattr
      apply climbLoop_isSome_of_marks node none
      · rw [hattr.1]
        decide
      · have h1 : node.props.kind = NodeKind.element := hattr.1
        have h2 : node.props.hasAttribute redactedAttribute = true := hattr.2
        simp [LiveNode.marksRedaction, NodeProps.marksRedaction, h1, h2]
    · simp only [hattr] at h
      exact h

/-- The record that `recalculateDimensions` emits for the redacted node `a`. -/
theorem recalculateOne_of_climb (nodes : KnownNodes) (id : JSId) (a : LiveNode)
    (h : climb (getNodeById nodes id) = some a) :
    recalculateOne nodes id =
      [styleRecord (getIdByNode nodes (some a))
        ((if a.kind = NodeKind.element then (a.attributeValue "style").getD "" else "") ++
          " background: black; height: " ++ a.offsetHeight.text ++ "px; width:" ++
          a.offsetWidth.text ++ "px;")] := by
  simp [recalculateOne, h]

/-- The recalculated records for a list of ids that are all to be redacted: one record per
id, in order, each carrying the id of the topmost redacted ancestor of the id it stands for
and nothing but a style. -/
theorem recalculateDimensions_of_redacted (nodes : KnownNodes) :
    ∀ (ids : List JSId), (∀ id ∈ ids, checkToBeRedacted nodes id = true) →
      List.Forall₂ (fun id r => ∃ a style, climb (getNodeById nodes id) = some a ∧
          r = styleRecord (getIdByNode nodes (some a)) style)
        ids (recalculateDimensions nodes ids)
  | [], _ => by simp [recalculateDimensions]
  | id :: rest, h => by
    have hid := climb_isSome_of_checkToBeRedacted nodes id (h id (List.mem_cons_self _ _))
    obtain ⟨a, ha⟩ := Option.isSome_iff_exists.mp hid
    have hrest := recalculateDimensions_of_redacted nodes rest
      (fun i hi => h i (List.mem_cons_of_mem _ hi))
    have hone := recalculateOne_of_climb nodes id a ha
    simp only [recalculateDimensions, List.map_cons, List.flatten_cons, hone,
      List.singleton_append]
    exact List.Forall₂.cons ⟨a, _, ha, rfl⟩ hrest

/-- C8 (amended): `handleAttributeChanges` forwards exactly the input records whose id is
not to be redacted, in their order, followed by one dimension-recalculation record per
dropped record (not one per ancestor), in the order of the dropped records; the record for
a dropped id X carries the id of the topmost redacted ancestor of X's live node (X's own id
when X is that ancestor) and a style only. -/
theorem handleAttributeChanges_filter (nodes : KnownNodes) (attributeList : List NodeData) :
    ∃ recalculated,
      handleAttributeChanges nodes attributeList =
        attributeList.filter (fun r => !checkToBeRedacted nodes r.id) ++ recalculated ∧
      (∀ r ∈ attributeList.filter (fun r => !checkToBeRedacted nodes r.id),
        r ∈ attributeList ∧ checkToBeRedacted nodes r.id = false) ∧
      List.Forall₂ (fun (dropped r : NodeData) => ∃ a style,
          climb (getNodeById nodes dropped.id) = some a ∧
          r = styleRecord (getIdByNode nodes (some a)) style)
        (attributeList.filter (fun r => checkToBeRedacted nodes r.id)) recalculated := by
  refine ⟨_, rfl, ?_, ?_⟩
  · intro r hr
    have := List.mem_filter.mp hr
    exact ⟨this.1, by simpa using this.2⟩
  · have h := recalculateDimensions_of_redacted nodes
      ((attributeList.filter (fun r => checkToBeRedacted nodes r.id)).map NodeData.id)
      (by
        intro id hid
        obtain ⟨r, hr, rfl⟩ := List.mem_map.mp hid
        exact (List.mem_filter.mp hr).2)
    exact (List.forall₂_map_left_iff.mp h)

/-- C8, as stated, fails: with two dropped ids (3 and 4) under one redacted ancestor (id 2)
the returned list holds two recalculation records for that ancestor, not exactly one; and
when the dropped id (2) is itself the topmost redacted element, the returned list does
hold a record whose id is 2. -/
theorem handleAttributeChanges_not_one_per_ancestor :
    checkToBeRedacted exampleKnownNodes (JSId.mk 3 false) = true ∧
    checkToBeRedacted exampleKnownNodes (JSId.mk 4 false) = true ∧
    (getIdByNode exampleKnownNodes (climb (getNodeById exampleKnownNodes (JSId.mk 3 false)))).value = 2 ∧
    (getIdByNode exampleKnownNodes (climb (getNodeById exampleKnownNodes (JSId.mk 4 false)))).value = 2 ∧
    recordIds (handleAttributeChanges exampleKnownNodes
      [exampleAttributeChange 3 "a", exampleAttributeChange 4 "b"]) = [2, 2] ∧
    checkToBeRedacted exampleKnownNodes (JSId.mk 2 false) = true ∧
    (getIdByNode exampleKnownNodes (climb (getNodeById exampleKnownNodes (JSId.mk 2 false)))).value = 2 ∧
    recordIds (handleAttributeChanges exampleKnownNodes [exampleAttributeChange 2 "a"]) = [2] := by
  refine ⟨?_, ?_, ?_, ?_, ?_, ?_, ?_, ?_⟩ <;> rfl

/-! ## Noninterference of redacted text on the diff stream -/

theorem textChanges_map_congr (nodes : KnownNodes) (textA textB : List NodeData)
    (h : List.Forall₂ (fun a b => a.id = b.id ∧
      (textIsRedacted nodes a.id = true ∨ a.textContent = b.textContent)) textA textB) :
    textA.map (fun textItem =>
        if textIsRedacted nodes textItem.id then textRecord textItem.id (some "")
        else textRecord textItem.id textItem.textContent) =
      textB.map (fun textItem =>
        if textIsRedacted nodes textItem.id then textRecord textItem.id (some "")
        else textRecord textItem.id textItem.textContent) := by
  induction h with
  | nil => rfl
  | cons hab _ ih =>
    obtain ⟨hid, hor⟩ := hab
    simp only [List.map_cons, ih, ← hid]
    rcases hor with hred | htext
    · simp [hred]
    · rw [htext]

theorem textChanges_ids_congr (nodes : KnownNodes) (textA textB : List NodeData)
    (h : List.Forall₂ (fun a b => a.id = b.id ∧
      (textIsRedacted nodes a.id = true ∨ a.textContent = b.textContent)) textA textB) :
    (textA.filter (fun textItem => textIsRedacted nodes textItem.id)).map NodeData.id =
      (textB.filter (fun textItem => textIsRedacted nodes textItem.id)).map NodeData.id := by
  induction h with
  | nil => rfl
  | cons hab _ ih =>
    obtain ⟨hid, _⟩ := hab
    simp only [List.filter_cons, ← hid]
    split
    · simp only [List.map_cons, ih, hid]
    · exact ih

/-- `handleTextChanges` returns the same for two text lists that carry the same ids and
differ at most in the `textContent` of records whose live parent element carries
`data-redaction`. -/
theorem handleTextChanges_congr (nodes : KnownNodes) (textA textB : List NodeData)
    (h : List.Forall₂ (fun a b => a.id = b.id ∧
      (textIsRedacted nodes a.id = true ∨ a.textContent = b.textContent)) textA textB) :
    handleTextChanges nodes textA = handleTextChanges nodes textB := by
  simp only [handleTextChanges, textChanges_map_congr nodes textA textB h,
    textChanges_ids_congr nodes textA textB h]

/-- With an empty `removed` list the hook publishes the same messages for two batches that
differ only in the `textContent` of text records whose live parent element carries
`data-redaction`. -/
theorem applyChangedHook_text_noninterference (st : Session)
    (addedOrMoved attributes textA textB : List NodeData)
    (h : List.Forall₂ (fun a b => a.id = b.id ∧
      (textIsRedacted st.knownNodes a.id = true ∨ a.textContent = b.textContent)) textA textB) :
    applyChangedHook st [] addedOrMoved attributes textA =
      applyChangedHook st [] addedOrMoved attributes textB := by
  have ht := handleTextChanges_congr st.knownNodes textA textB h
  simp only [applyChangedHook, handleRedaction, ht, handleRemoved, List.length_nil, if_true]

theorem applyChangedHook_text_noninterference_witness :
    applyChangedHook exampleMirroring [] [] []
        [textRecord (JSId.mk 5 false) (some "4111 1111")] =
      applyChangedHook exampleMirroring [] [] []
        [textRecord (JSId.mk 5 false) (some "5500 0000")] :=
  applyChangedHook_text_noninterference exampleMirroring [] []
    [textRecord (JSId.mk 5 false) (some "4111 1111")]
    [textRecord (JSId.mk 5 false) (some "5500 0000")]
    (List.Forall₂.cons ⟨rfl, Or.inl rfl⟩ List.Forall₂.nil)

/-- C4: with a non-empty `removed` list the messages the hook publishes depend on the text
of a redacted node. The text node 5 sits under an element carrying `data-redaction`; for
two batches that differ only in its `textContent`, the first message published
(by `handleRemoved`) carries that text as it came, and only the second carries the empty
string. -/
theorem applyChangedHook_leaks_text_on_removal :
    textIsRedacted exampleKnownNodes (JSId.mk 5 false) = true ∧
    (applyChangedHook exampleMirroring [textRecord (JSId.mk 4 false) none] [] []
        [textRecord (JSId.mk 5 false) (some "4111 1111")]).toOption.map
      (fun st => publishedTextContents st.published) =
      some [[some "4111 1111"], [some ""]] ∧
    (applyChangedHook exampleMirroring [textRecord (JSId.mk 4 false) none] [] []
        [textRecord (JSId.mk 5 false) (some "5500 0000")]).toOption.map
      (fun st => publishedTextContents st.published) =
      some [[some "5500 0000"], [some ""]] := by
  refine ⟨?_, ?_, ?_⟩ <;> rfl

/-! ## The marking pass -/

theorem setAttributeList_find_same (l : List (String × String)) (k v : String) :
    (NodeProps.setAttributeList l k v).find? (fun kv => kv.1 = k) = some (k, v) := by
  induction l with
  | nil => simp [NodeProps.setAttributeList]
  | cons kv rest ih =>
    obtain ⟨k1, w⟩ := kv
    by_cases h : k1 = k
    · subst h
      simp [NodeProps.setAttributeList]
    · simp [NodeProps.setAttributeList, h, List.find?_cons, ih]

theorem setAttributeList_find_other (l : List (String × String)) (k k1 v : String)
    (hne : k ≠ k1) :
    (NodeProps.setAttributeList l k v).find? (fun kv => kv.1 = k1) =
      l.find? (fun kv => kv.1 = k1) := by
  induction l with
  | nil => simp [NodeProps.setAttributeList, hne]
  | cons kv rest ih =>
    obtain ⟨k2, w⟩ := kv
    by_cases h : k2 = k
    · subst h
      simp [NodeProps.setAttributeList, List.find?_cons, hne]
    · by_cases h1 : k2 = k1
      · subst h1
        simp [NodeProps.setAttributeList, h, List.find?_cons]
      · simp [NodeProps.setAttributeList, h, h1, List.find?_cons, ih]

theorem NodeProps.attributeValue_setAttribute_same (n : NodeProps) (k v : String) :
    (n.setAttribute k v).attributeValue k = some v := by
  simp [NodeProps.attributeValue, NodeProps.setAttribute, setAttributeList_find_same]

theorem NodeProps.attributeValue_setAttribute_other (n : NodeProps) (k k1 v : String)
    (hne : k ≠ k1) :
    (n.setAttribute k v).attributeValue k1 = n.attributeValue k1 := by
  simp [NodeProps.attributeValue, NodeProps.setAttribute,
    setAttributeList_find_other _ _ _ _ hne]

theorem NodeProps.hasAttribute_iff (n : NodeProps) (k : String) :
    n.hasAttribute k = true ↔ (n.attributeValue k).isSome = true := by
  simp only [NodeProps.hasAttribute, NodeProps.attributeValue, Option.isSome_map',
    List.find?_isSome, List.any_eq_true]

/-- What the marking of one element writes: the three attributes, with the element's own
bounding box, and nothing else of what identifies the node. -/
theorem markRedacted_spec (props : NodeProps) :
    (markRedacted props).attributeValue redactedAttribute = some "true" ∧
    (markRedacted props).attributeValue "data-height" = some props.boundingHeight.text ∧
    (markRedacted props).attributeValue "data-width" = some props.boundingWidth.text ∧
    (markRedacted props).uid = props.uid ∧
    (markRedacted props).kind = props.kind ∧
    (markRedacted props).boundingHeight = props.boundingHeight ∧
    (markRedacted props).boundingWidth = props.boundingWidth := by
  have h1 : ("data-width" : String) ≠ "data-height" := by decide
  have h2 : redactedAttribute ≠ "data-height" := by decide
  have h3 : redactedAttribute ≠ "data-width" := by decide
  refine ⟨?_, ?_, ?_, rfl, rfl, rfl, rfl⟩
  · exact NodeProps.attributeValue_setAttribute_same _ _ _
  · unfold markRedacted
    rw [NodeProps.attributeValue_setAttribute_other _ _ _ _ h2,
      NodeProps.attributeValue_setAttribute_other _ _ _ _ h1,
      NodeProps.attributeValue_setAttribute_same]
  · unfold markRedacted
    rw [NodeProps.attributeValue_setAttribute_other _ _ _ _ h3,
      NodeProps.attributeValue_setAttribute_same]

theorem dfsChildren_eq_map (l : List DomNode) (f : Bool) :
    dfsChildren l f = l.map (fun c => dfs c f) := by
  induction l with
  | nil => simp [dfsChildren]
  | cons c rest ih => simp [dfsChildren, ih]

theorem dfs_props (n : DomNode) (f : Bool) :
    (dfs n f).props = if dfsRedacts n.props f then markRedacted n.props else n.props := by
  obtain ⟨props, children⟩ := n
  rw [dfs]
  split <;> simp [DomNode.props, *]

theorem dfs_childNodes (n : DomNode) (f : Bool) :
    (dfs n f).childNodes = n.childNodes.map (fun c => dfs c (dfsRedacts n.props f || f)) := by
  obtain ⟨props, children⟩ := n
  rw [dfs]
  split
  · rename_i h
    simp [DomNode.childNodes, DomNode.props, dfsChildren_eq_map, h]
  · rename_i h
    simp [DomNode.childNodes, DomNode.props, dfsChildren_eq_map, h]

theorem DomNode.descend_append (q p : List Nat) :
    ∀ n : DomNode, n.descend (q ++ p) = (n.descend q).bind (fun m => m.descend p) := by
  induction q with
  | nil => intro n; simp [DomNode.descend]
  | cons i rest ih =>
    intro n
    simp only [List.cons_append, DomNode.descend]
    cases n.childNodes[i]? with
    | none => simp
    | some c => simp [ih c]

theorem prefix_concat_strict (pr q : List Nat) (i : Nat) :
    (pr <+: q ++ [i] ∧ pr ≠ q ++ [i]) ↔ pr <+: q := by
  constructor
  · rintro ⟨h1, h2⟩
    rcases List.prefix_concat_iff.mp (by simpa using h1) with h | h
    · exact absurd (by simpa using h) h2
    · exact h
  · intro h
    refine ⟨h.trans (List.prefix_append _ _), ?_⟩
    intro heq
    have := h.length_le
    rw [heq] at this
    simp at this

/-- The node `dfs` leaves at a path is `dfs` of the node that was there, run with some
value `g` of `isRedactedChild`. In a tree where only the element at `pr` carries the class,
`g` tells whether `pr` lies strictly above the path's end. -/
theorem dfs_descend (body : DomNode) (pr : List Nat)
    (hclass : ∀ p e, body.descend p = some e → e.props.kind = NodeKind.element →
      (e.props.classList.contains redactedClass = true ↔ p = pr))
    (hrkind : ∀ r, body.descend pr = some r → r.props.kind = NodeKind.element) :
    ∀ (p q : List Nat) (n : DomNode) (f : Bool) (e : DomNode),
      body.descend q = some n → (f = true ↔ (pr <+: q ∧ pr ≠ q)) → n.descend p = some e →
      ∃ g : Bool, (g = true ↔ (pr <+: q ++ p ∧ pr ≠ q ++ p)) ∧
        (dfs n f).descend p = some (dfs e g) := by
  intro p
  induction p with
  | nil =>
    intro q n f e hq hf he
    simp only [DomNode.descend, Option.some.injEq] at he
    subst he
    exact ⟨f, by simpa using hf, rfl⟩
  | cons i rest ih =>
    intro q n f e hq hf he
    simp only [DomNode.descend] at he
    cases hc : n.childNodes[i]? with
    | none => simp [hc] at he
    | some c =>
      rw [hc] at he
      simp only at he
      have hqc : body.descend (q ++ [i]) = some c := by
        rw [DomNode.descend_append, hq]
        simp [DomNode.descend, hc]
      have hflag : ((dfsRedacts n.props f || f) = true ↔ (pr <+: q ++ [i] ∧ pr ≠ q ++ [i])) := by
        rw [prefix_concat_strict]
        constructor
        · intro h
          rcases (Bool.or_eq_true _ _).mp h with h | h
          · simp only [dfsRedacts, Bool.and_eq_true, decide_eq_true_eq, Bool.or_eq_true] at h
            rcases h.2 with h2 | h2
            · exact (hf.mp h2).1
            · have := (hclass q n hq h.1).mp h2
              rw [this]
          · exact (hf.mp h).1
        · intro h
          by_cases hqe : pr = q
          · subst hqe
            have hk := hrkind n hq
            have hcl := (hclass pr n hq hk).mpr rfl
            simp only [dfsRedacts, hk, hcl, decide_True, Bool.or_true, Bool.and_self,
              Bool.true_or]
          · have := hf.mpr ⟨h, hqe⟩
            simp [this]
      obtain ⟨g, hg, hres⟩ := ih (q ++ [i]) c (dfsRedacts n.props f || f) e hqc hflag he
      refine ⟨g, by simpa [List.append_assoc] using hg, ?_⟩
      simp only [DomNode.descend, dfs_childNodes, List.getElem?_map, hc, Option.map_some']
      exact hres

theorem dfs_descend_none (p : List Nat) :
    ∀ (n : DomNode) (f : Bool), n.descend p = none → (dfs n f).descend p = none := by
  induction p with
  | nil => intro n f h; simp [DomNode.descend] at h
  | cons i rest ih =>
    intro n f h
    simp only [DomNode.descend] at h
    simp only [DomNode.descend, dfs_childNodes, List.getElem?_map]
    cases hc : n.childNodes[i]? with
    | none => simp
    | some c =>
      rw [hc] at h
      simp only [Option.map_some']
      exact ih c _ h

/-- C6: in a tree under `body` where no node carries `data-redaction` and exactly one
element, at path `pr`, carries the class `spr-cobrowse-redact`, `dfs(body, false)` keeps the
shape of the tree, and the element at a path `p` carries `data-redaction` afterwards if and
only if `pr` is a prefix of `p` (it is that element or one of its descendants); each such
element has `data-redaction = true` and `data-height`, `data-width` equal to its own
bounding-box height and width. -/
theorem dfs_marks_subtree (body : DomNode) (pr : List Nat) (r : DomNode)
    (hr : body.descend pr = some r) (hrkind : r.props.kind = NodeKind.element)
    (hclass : ∀ p e, body.descend p = some e → e.props.kind = NodeKind.element →
      (e.props.classList.contains redactedClass = true ↔ p = pr))
    (hclean : ∀ p e, body.descend p = some e → e.props.hasAttribute redactedAttribute = false)
    (p : List Nat) :
    (body.descend p = none → (dfs body false).descend p = none) ∧
    (∀ e, body.descend p = some e → e.props.kind = NodeKind.element →
      ∃ e1, (dfs body false).descend p = some e1 ∧
        e1.props.uid = e.props.uid ∧ e1.props.kind = NodeKind.element ∧
        (e1.props.hasAttribute redactedAttribute = true ↔ pr <+: p) ∧
        (pr <+: p →
          e1.props.attributeValue redactedAttribute = some "true" ∧
          e1.props.attributeValue "data-height" = some e.props.boundingHeight.text ∧
          e1.props.attributeValue "data-width" = some e.props.boundingWidth.text ∧
          e1.props.boundingHeight = e.props.boundingHeight ∧
          e1.props.boundingWidth = e.props.boundingWidth)) := by
  refine ⟨dfs_descend_none p body false, ?_⟩
  intro e he hek
  have hrk : ∀ r1, body.descend pr = some r1 → r1.props.kind = NodeKind.element := by
    intro r1 hr1
    rw [hr] at hr1
    obtain rfl : r = r1 := Option.some.inj hr1
    exact hrkind
  obtain ⟨g, hg, hres⟩ := dfs_descend body pr hclass hrk p [] body false e rfl
    (by simp) he
  simp only [List.nil_append] at hg
  have hcond : dfsRedacts e.props g = true ↔ pr <+: p := by
    simp only [dfsRedacts, hek, decide_True, Bool.true_and, Bool.or_eq_true]
    constructor
    · rintro (h | h)
      · exact (hg.mp h).1
      · rw [(hclass p e he hek).mp h]
    · intro h
      by_cases hpe : pr = p
      · right
        exact (hclass p e he hek).mpr hpe.symm
      · left
        exact hg.mpr ⟨h, hpe⟩
  obtain ⟨m1, m2, m3, m4, m5, m6, m7⟩ := markRedacted_spec e.props
  refine ⟨dfs e g, hres, ?_, ?_, ?_, ?_⟩
  · rw [dfs_props]
    split
    · exact m4
    · rfl
  · rw [dfs_props]
    split
    · rw [m5]
      exact hek
    · exact hek
  · rw [dfs_props]
    by_cases hc : dfsRedacts e.props g = true
    · simp only [hc, if_true]
      rw [NodeProps.hasAttribute_iff, m1]
      simp [hcond.mp hc]
    · simp only [hc, Bool.false_eq_true, if_false]
      rw [hclean p e he]
      simp only [Bool.false_eq_true, false_iff]
      exact fun h => hc (hcond.mpr h)
  · intro hpre
    rw [dfs_props]
    simp only [hcond.mpr hpre, if_true]
    exact ⟨m1, m2, m3, m6, m7⟩

/-- The nodes of the example `<body>`: the body, its paragraph, the marked `<div>`, the
`<span>` in it and the text in the `<span>`. -/
theorem exampleBodyTree_paths (p : List Nat) (e : DomNode)
    (h : exampleBodyTree.descend p = some e) :
    p = [] ∨ p = [0] ∨ p = [1] ∨ p = [1, 0] ∨ p = [1, 0, 0] := by
  rcases p with _ | ⟨i, p⟩
  · simp
  rcases i with _ | _ | i
  · rcases p with _ | ⟨j, p⟩
    · simp
    · simp [DomNode.descend, exampleBodyTree, DomNode.childNodes] at h
  · rcases p with _ | ⟨j, p⟩
    · simp
    rcases j with _ | j
    · rcases p with _ | ⟨k, p⟩
      · simp
      rcases k with _ | k
      · rcases p with _ | ⟨l, p⟩
        · simp
        · simp [DomNode.descend, exampleBodyTree, DomNode.childNodes] at h
      · simp [DomNode.descend, exampleBodyTree, DomNode.childNodes] at h
    · simp [DomNode.descend, exampleBodyTree, DomNode.childNodes] at h
  · simp [DomNode.descend, exampleBodyTree, DomNode.childNodes] at h

theorem dfs_marks_subtree_witness :
    (exampleBodyTree.descend [1, 0] = none → (dfs exampleBodyTree false).descend [1, 0] = none) ∧
    (∀ e, exampleBodyTree.descend [1, 0] = some e → e.props.kind = NodeKind.element →
      ∃ e1, (dfs exampleBodyTree false).descend [1, 0] = some e1 ∧
        e1.props.uid = e.props.uid ∧ e1.props.kind = NodeKind.element ∧
        (e1.props.hasAttribute redactedAttribute = true ↔ [1] <+: [1, 0]) ∧
        ([1] <+: [1, 0] →
          e1.props.attributeValue redactedAttribute = some "true" ∧
          e1.props.attributeValue "data-height" = some e.props.boundingHeight.text ∧
          e1.props.attributeValue "data-width" = some e.props.boundingWidth.text ∧
          e1.props.boundingHeight = e.props.boundingHeight ∧
          e1.props.boundingWidth = e.props.boundingWidth)) :=
  dfs_marks_subtree exampleBodyTree [1]
    (DomNode.mk (exampleElement 3 "DIV" [("class", "spr-cobrowse-redact")]
        ["spr-cobrowse-redact"] "18.5" "200")
      [DomNode.mk (exampleElement 4 "SPAN" [] [] "18" "90.25")
        [DomNode.mk (NodeProps.mk 5 3 "" [] [] (JSNumber.mk "") (JSNumber.mk "")
          (JSNumber.mk "") (JSNumber.mk "") "4111 1111" none) []]])
    rfl (by decide)
    (by
      intro p e h hk
      rcases exampleBodyTree_paths p e h with rfl | rfl | rfl | rfl | rfl <;>
        (obtain rfl := Option.some.inj h) <;> revert hk <;> decide)
    (by
      intro p e h
      rcases exampleBodyTree_paths p e h with rfl | rfl | rfl | rfl | rfl <;>
        (obtain rfl := Option.some.inj h) <;> decide)
    [1, 0]

/-- The example `<body>` after `dfs(body, false)`: the `data-redaction`, `data-height` and
`data-width` of its five nodes, in document order. -/
theorem dfs_exampleBodyTree :
    ([[], [0], [1], [1, 0], [1, 0, 0]].map (fun p =>
      ((dfs exampleBodyTree false).descend p).map (fun e =>
        (e.props.attributeValue redactedAttribute, e.props.attributeValue "data-height",
          e.props.attributeValue "data-width")))) =
      [some (none, none, none), some (none, none, none),
        some (some "true", some "18.5", some "200"),
        some (some "true", some "18", some "90.25"),
        some (none, none, none)] := by
  decide

/-! ## MQTT client id -/

theorem digitChar_mem_digits (d : Nat) (h : d < 10) : Nat.digitChar d ∈ "0123456789".data := by
  interval_cases d <;> decide

theorem toDigitsCore_digits (f : Nat) :
    ∀ (n : Nat) (ds : List Char), (∀ c ∈ ds, c ∈ "0123456789".data) →
      ∀ c ∈ Nat.toDigitsCore 10 f n ds, c ∈ "0123456789".data := by
  induction f with
  | zero => intro n ds h; simpa [Nat.toDigitsCore] using h
  | succ f ih =>
    intro n ds h
    have hd := digitChar_mem_digits (n % 10) (Nat.mod_lt _ (by decide))
    have hcons : ∀ c ∈ Nat.digitChar (n % 10) :: ds, c ∈ "0123456789".data := by
      intro c hc
      rcases List.mem_cons.mp hc with rfl | hc
      · exact hd
      · exact h c hc
    simp only [Nat.toDigitsCore]
    split
    · exact hcons
    · exact ih _ _ hcons

theorem toDigitsCore_length_ge (f : Nat) :
    ∀ (n e : Nat) (ds : List Char), n < f → 10 ^ e ≤ n →
      ds.length + e + 1 ≤ (Nat.toDigitsCore 10 f n ds).length := by
  induction f with
  | zero => intro n e ds h; omega
  | succ f ih =>
    intro n e ds hn he
    simp only [Nat.toDigitsCore]
    split
    · rename_i h0
      have hlt : n < 10 := by
        by_contra hge
        have : 1 ≤ n / 10 := Nat.div_pos (by omega) (by decide)
        omega
      have he0 : e = 0 := by
        by_contra hne
        have : 10 ^ 1 ≤ 10 ^ e := Nat.pow_le_pow_right (by decide) (by omega)
        omega
      simp [he0]
    · rename_i h0
      have hpos : 0 < n := by
        rcases Nat.eq_zero_or_pos n with h | h
        · simp [h] at h0
        · exact h
      have hdiv : n / 10 < f := by
        have : n / 10 < n := Nat.div_lt_self hpos (by decide)
        omega
      cases e with
      | zero =>
        have := ih (n / 10) 0 (Nat.digitChar (n % 10) :: ds) hdiv (by simpa using Nat.pos_of_ne_zero h0)
        simp only [List.length_cons] at this
        omega
      | succ e =>
        have hle : 10 ^ e ≤ n / 10 := by
          rw [Nat.le_div_iff_mul_le (by decide)]
          simpa [Nat.pow_succ] using he
        have := ih (n / 10) e (Nat.digitChar (n % 10) :: ds) hdiv hle
        simp only [List.length_cons] at this
        omega

theorem repr_digits (n : Nat) : ∀ c ∈ (Nat.repr n).data, c ∈ "0123456789".data := by
  intro c hc
  simp only [Nat.repr, Nat.toDigits, List.asString] at hc
  exact toDigitsCore_digits (n + 1) n [] (by simp) c hc

theorem repr_length_ge (n e : Nat) (h : 10 ^ e ≤ n) : e + 1 ≤ (Nat.repr n).length := by
  have := toDigitsCore_length_ge (n + 1) n e [] (by omega) h
  simp only [Nat.repr, Nat.toDigits, String.length, List.asString]
  simp only [List.length_nil] at this
  omega

theorem clientId_floor_bounds (r : ℚ) (h0 : 0 ≤ r) (h1 : r < 1) :
    ⌊r * 10000000⌋.toNat < 10 ^ 7 ∧ (1 / 10 ≤ r ↔ 10 ^ 6 ≤ ⌊r * 10000000⌋.toNat) := by
  have hnonneg : 0 ≤ ⌊r * 10000000⌋ := Int.floor_nonneg.mpr (by positivity)
  have hlt : ⌊r * 10000000⌋ < 10000000 := by
    rw [Int.floor_lt]
    push_cast
    linarith
  have hiff : 1 / 10 ≤ r ↔ (1000000 : ℤ) ≤ ⌊r * 10000000⌋ := by
    rw [Int.le_floor]
    push_cast
    constructor <;> intro h <;> linarith
  refine ⟨by omega, ?_⟩
  rw [hiff]
  omega

/-- C15, as stated, fails: for the draw 0.05 the client id is `500000`, six digits. -/
theorem clientId_six_digits :
    (0 : ℚ) ≤ 1 / 20 ∧ (1 / 20 : ℚ) < 1 ∧ clientId (1 / 20) = "500000" ∧
      (clientId (1 / 20)).length = 6 := by
  have hfloor : ⌊(1 / 20 : ℚ) * 10000000⌋ = 500000 := by
    rw [Int.floor_eq_iff]
    norm_num
  have hid : clientId (1 / 20) = "500000" := by
    simp only [clientId, hfloor]
    decide
  refine ⟨by norm_num, by norm_num, hid, ?_⟩
  rw [hid]
  decide

/-- C15 (amended): for every draw r in [0,1) the client id is a string of at least one and
at most seven characters, each a decimal digit; it has exactly seven exactly when
r ≥ 0.1. -/
theorem clientId_shape (r : ℚ) (h0 : 0 ≤ r) (h1 : r < 1) :
    1 ≤ (clientId r).length ∧ (clientId r).length ≤ 7 ∧
    (∀ c ∈ (clientId r).data, c ∈ "0123456789".data) ∧
    ((clientId r).length = 7 ↔ 1 / 10 ≤ r) := by
  obtain ⟨hlt, hiff⟩ := clientId_floor_bounds r h0 h1
  have hup : (clientId r).length ≤ 7 := Nat.repr_length _ 7 (by decide) hlt
  have hlow : 1 ≤ (clientId r).length := by
    have hne : (Nat.repr ⌊r * 10000000⌋.toNat).length ≠ 0 := by
      intro hzero
      by_cases hz : ⌊r * 10000000⌋.toNat = 0
      · rw [hz] at hzero
        revert hzero
        decide
      · have := repr_length_ge ⌊r * 10000000⌋.toNat 0 (Nat.pos_of_ne_zero hz)
        omega
    exact Nat.pos_of_ne_zero hne
  refine ⟨hlow, hup, repr_digits _, ?_⟩
  rw [hiff]
  constructor
  · intro h7
    by_contra hsmall
    have := Nat.repr_length ⌊r * 10000000⌋.toNat 6 (by decide) (by omega)
    have h7' : (Nat.repr ⌊r * 10000000⌋.toNat).length = 7 := h7
    omega
  · intro hbig
    have := repr_length_ge _ 6 hbig
    have hup' : (Nat.repr ⌊r * 10000000⌋.toNat).length ≤ 7 := hup
    show (Nat.repr ⌊r * 10000000⌋.toNat).length = 7
    omega

theorem clientId_shape_witness :
    1 ≤ (clientId (1 / 2)).length ∧ (clientId (1 / 2)).length ≤ 7 ∧
    (∀ c ∈ (clientId (1 / 2)).data, c ∈ "0123456789".data) ∧
    ((clientId (1 / 2)).length = 7 ↔ (1 / 10 : ℚ) ≤ 1 / 2) :=
  clientId_shape (1 / 2) (by norm_num) (by norm_num)

/-! ## The index `otpGenerator` draws, and the empty alphabet -/

theorem rand_eq_iff (r : ℚ) (n : Nat) (hn : 2 ≤ n) (i : ℤ) :
    rand r 0 ((n : ℤ) - 1) = i ↔
      ((i : ℚ) / ((n : ℚ) - 1) ≤ r ∧ r < ((i : ℚ) + 1) / ((n : ℚ) - 1)) := by
  have hn1 : (0 : ℚ) < (n : ℚ) - 1 := by
    have : (2 : ℚ) ≤ (n : ℚ) := by exact_mod_cast hn
    linarith
  have hval : rand r 0 ((n : ℤ) - 1) = ⌊r * ((n : ℚ) - 1)⌋ := by
    simp [rand]
  rw [hval, Int.floor_eq_iff, div_le_iff₀ hn1, lt_div_iff₀ hn1]

theorem rand_lt_last (r : ℚ) (h1 : r < 1) (n : Nat) (hn : 2 ≤ n) :
    rand r 0 ((n : ℤ) - 1) < (n : ℤ) - 1 := by
  have hn1 : (0 : ℚ) < (n : ℚ) - 1 := by
    have : (2 : ℚ) ≤ (n : ℚ) := by exact_mod_cast hn
    linarith
  have hval : rand r 0 ((n : ℤ) - 1) = ⌊r * ((n : ℚ) - 1)⌋ := by
    simp [rand]
  rw [hval, Int.floor_lt]
  push_cast
  nlinarith

/-- C16: for an alphabet of n ≥ 2 characters and a draw r < 1, the index `rand(0, n - 1)`
equals i exactly when i/(n-1) ≤ r < (i+1)/(n-1), an interval of width 1/(n-1) and not 1/n;
the index is never n-1, so the last character of the alphabet is produced for no draw. -/
theorem rand_index_distribution (r : ℚ) (h1 : r < 1) (n : Nat) (hn : 2 ≤ n) :
    (∀ i : ℤ, rand r 0 ((n : ℤ) - 1) = i ↔
      ((i : ℚ) / ((n : ℚ) - 1) ≤ r ∧ r < ((i : ℚ) + 1) / ((n : ℚ) - 1))) ∧
    rand r 0 ((n : ℤ) - 1) ≠ (n : ℤ) - 1 :=
  ⟨rand_eq_iff r n hn, ne_of_lt (rand_lt_last r h1 n hn)⟩

theorem rand_index_distribution_witness :
    (∀ i : ℤ, rand (1 / 2) 0 (((10 : ℕ) : ℤ) - 1) = i ↔
      ((i : ℚ) / (((10 : ℕ) : ℚ) - 1) ≤ 1 / 2 ∧ (1 / 2 : ℚ) < ((i : ℚ) + 1) / (((10 : ℕ) : ℚ) - 1))) ∧
    rand (1 / 2) 0 (((10 : ℕ) : ℤ) - 1) ≠ ((10 : ℕ) : ℤ) - 1 :=
  rand_index_distribution (1 / 2) (by norm_num) 10 (by decide)

/-- No draw in [0,1) makes `getUniqueID` append the digit 9: the index into `0123456789`
is at most 8. -/
theorem digit_nine_never_drawn (r : ℚ) (h0 : 0 ≤ r) (h1 : r < 1) :
    charAtIndex digits (rand r 0 ((digits.length : ℤ) - 1)) ≠ some '9' := by
  have hlen : digits.length = 10 := by decide
  rw [hlen]
  have hnn := (rand_index_valid r h0 h1 10 (by decide)).1
  have hlt := rand_lt_last r h1 10 (by decide)
  generalize rand r 0 (((10 : ℕ) : ℤ) - 1) = i at hnn hlt
  have hi : i.toNat < 9 := by omega
  simp only [charAtIndex, hnn, if_true]
  generalize i.toNat = j at hi
  interval_cases j <;> decide

theorem digit_nine_never_drawn_witness :
    charAtIndex digits (rand (99 / 100) 0 ((digits.length : ℤ) - 1)) ≠ some '9' :=
  digit_nine_never_drawn (99 / 100) (by norm_num) (by norm_num)

theorem charAtIndex_empty (i : ℤ) : charAtIndex "" i = none := by
  simp [charAtIndex]

theorem repeatText_length (k : Nat) : (repeatText "undefined" k).length = 9 * k := by
  induction k with
  | zero => rfl
  | succ k ih =>
    simp only [repeatText, String.length_append, ih]
    have : ("undefined" : String).length = 9 := by decide
    omega

/-- The loop of `otpGenerator` over the empty alphabet: every iteration appends the text
`undefined`, so the loop ends. -/
theorem otpLoop_empty (random : Nat → ℚ) (length : Nat) :
    ∀ (fuel k : Nat) (password : String), length - password.length ≤ fuel →
      ∃ m, otpLoop "" random length fuel k password =
          some (password ++ repeatText "undefined" m) ∧
        length ≤ password.length + 9 * m ∧
        (1 ≤ m → password.length + 9 * (m - 1) < length) := by
  intro fuel
  induction fuel with
  | zero =>
    intro k password hfuel
    have hnot : ¬ password.length < length := by omega
    refine ⟨0, ?_, by omega, by omega⟩
    simp [otpLoop, hnot, repeatText]
  | succ fuel ih =>
    intro k password hfuel
    by_cases hlt : password.length < length
    · have hlen : (password ++ "undefined").length = password.length + 9 := by
        rw [String.length_append]
        rfl
      obtain ⟨m, hm, hge, hlast⟩ := ih (k + 1) (password ++ "undefined") (by omega)
      refine ⟨m + 1, ?_, by omega, ?_⟩
      · simp only [otpLoop, hlt, if_true, charAtIndex_empty, appendIndexed]
        rw [hm, repeatText, String.append_assoc]
      · intro _
        rcases Nat.eq_zero_or_pos m with h0 | hpos
        · subst h0
          simpa using hlt
        · have := hlast hpos
          have h1 : m + 1 - 1 = (m - 1) + 1 := by omega
          rw [h1]
          omega
    · refine ⟨0, ?_, by omega, by omega⟩
      simp [otpLoop, hlt, repeatText]

/-- C17, as stated, fails: with every class excluded `otpGenerator(1, options)` returns,
and what it returns is the text `undefined`. -/
theorem otpGenerator_empty_alphabet_returns :
    allowsChars noClassOptions = "" ∧
    otpGenerator (fun _ => (1 / 2 : ℚ)) 1 noClassOptions = some "undefined" := by
  have hallows : allowsChars noClassOptions = "" := by decide
  refine ⟨hallows, ?_⟩
  simp only [otpGenerator, hallows, otpLoop, charAtIndex_empty, appendIndexed]
  decide

/-- C17 (amended): with every class excluded the alphabet is empty, and for every L ≥ 1 and
every stream of draws `otpGenerator(L, options)` returns after m = ⌈L/9⌉ iterations, each of
which appends the text `undefined`: the result is `undefined` repeated m times. -/
theorem otpGenerator_empty_alphabet (random : Nat → ℚ) (L : Nat) (hL : 1 ≤ L) :
    allowsChars noClassOptions = "" ∧
    ∃ m, otpGenerator random L noClassOptions = some (repeatText "undefined" m) ∧
      (repeatText "undefined" m).length = 9 * m ∧
      L ≤ 9 * m ∧ 9 * (m - 1) < L := by
  have hallows : allowsChars noClassOptions = "" := by decide
  have hL0 : L ≠ 0 := by omega
  obtain ⟨m, hm, hge, hlast⟩ := otpLoop_empty random L L 0 "" (by simp)
  have hlen0 : ("" : String).length = 0 := rfl
  rw [hlen0] at hge hlast
  have hm1 : 1 ≤ m := by omega
  refine ⟨hallows, m, ?_, repeatText_length m, by omega, ?_⟩
  · simp only [otpGenerator, hL0, if_false, hallows]
    rw [hm]
    simp
  · have := hlast hm1
    omega

theorem otpGenerator_empty_alphabet_witness :
    allowsChars noClassOptions = "" ∧
    ∃ m, otpGenerator (fun _ => (0 : ℚ)) 20 noClassOptions = some (repeatText "undefined" m) ∧
      (repeatText "undefined" m).length = 9 * m ∧
      20 ≤ 9 * m ∧ 9 * (m - 1) < 20 :=
  otpGenerator_empty_alphabet (fun _ => 0) 20 (by decide)

/-! ## Added and moved records -/

/-- C19: an added record with no redacted ancestor, whose class names
`spr-cobrowse-redact` and which has the style `color: red;` and a value, is kept with
attributes that hold a style only: the text `undefined`, the black background and the pinned
size. The style it had is gone and the value is not the empty string but absent. The same
record without a style keeps its attributes and gets the value emptied. -/
theorem handleAddedOrMoved_drops_existing_style :
    (handleAddedOrMoved
        (exampleKnownNodesAdded [("class", "note spr-cobrowse-redact"), ("style", "color: red;"),
          ("value", "4111")])
        [exampleAddedRecord [("class", JSVal.str "note spr-cobrowse-redact"),
          ("style", JSVal.str "color: red;"), ("value", JSVal.str "4111")]] []).toOption.map
      (fun r => r.1.1.map NodeData.attributes) =
      some [some [("style",
        JSVal.str "undefinedbackground: black;height: 30px; width: 120px;")]] ∧
    includes "undefinedbackground: black;height: 30px; width: 120px;" "color: red;" = false ∧
    (handleAddedOrMoved
        (exampleKnownNodesAdded [("class", "note spr-cobrowse-redact"), ("value", "4111")])
        [exampleAddedRecord [("class", JSVal.str "note spr-cobrowse-redact"),
          ("value", JSVal.str "4111")]] []).toOption.map
      (fun r => r.1.1.map NodeData.attributes) =
      some [some [("class", JSVal.str "note spr-cobrowse-redact"), ("value", JSVal.str ""),
        ("style", JSVal.str "background: black;height: 30px; width: 120px;")]] := by
  refine ⟨?_, ?_, ?_⟩ <;> decide

/-- A result of the loop of `climb` is the value it was entered with, or a node on which
`climb` returns the node itself. -/
theorem climbLoop_fixed :
    ∀ (n : LiveNode) (last : Option LiveNode) (a : LiveNode), climbLoop n last = some a →
      last = some a ∨ climbLoop a none = some a
  | LiveNode.mk props none, last, a, h => by
    rw [climbLoop] at h
    split at h
    · exact Or.inl h
    · rename_i hdoc
      dsimp only at h
      split at h
      · rename_i hm
        right
        obtain rfl : LiveNode.mk props none = a := Option.some.inj h
        rw [climbLoop]
        simp [hdoc, hm]
      · exact Or.inl h
  | LiveNode.mk props (some q), last, a, h => by
    rw [climbLoop] at h
    split at h
    · exact Or.inl h
    · rename_i hdoc
      dsimp only at h
      rcases climbLoop_fixed q _ a h with h1 | h1
      · split at h1
        · rename_i hm
          right
          obtain rfl : LiveNode.mk props (some q) = a := Option.some.inj h1
          rw [climbLoop]
          simp only [hdoc, if_false, hm, if_true]
          simpa [hm] using h
        · exact Or.inl h1
      · exact Or.inr h1

/-- `climb` returns a node on which `climb` returns the node itself. -/
theorem climb_climb (x : Option LiveNode) (a : LiveNode) (h : climb x = some a) :
    climb (some a) = some a := by
  cases x with
  | none => simp [climb] at h
  | some n =>
    rcases climbLoop_fixed n none a h with h1 | h1
    · simp at h1
    · exact h1

theorem redactAddedInPlace_id (nodes : KnownNodes) (curr kept : NodeData)
    (h : redactAddedInPlace nodes curr = Except.ok kept) : kept.id = curr.id := by
  obtain ⟨i, t, d, x, g, a, c, s, p⟩ := curr
  unfold redactAddedInPlace at h
  simp only [NodeData.attributes, NodeData.id] at h
  cases a with
  | none =>
    simp only at h
    cases h
    rfl
  | some attrs =>
    simp only at h
    split at h
    · cases h; rfl
    · simp at h
    · split at h
      · split at h
        · cases h; rfl
        · split at h
          · simp at h
          · simp only [getRedactedNode, NodeData.attributes, NodeData.setAttributes] at h
            cases h
            rfl
      · cases h; rfl

theorem handleAddedStep_dropped (nodes : KnownNodes) (curr : NodeData) (top : LiveNode)
    (h : redactedAbove nodes curr = some top) :
    handleAddedStep nodes curr = Except.ok (AddedStep.dropped
      (JSId.mk (getIdByNode nodes (some top)).value false)) := by
  unfold redactedAbove at h
  unfold handleAddedStep
  split at h
  · rename_i pr hp
    simp only [hp, h]
  · simp at h

theorem handleAddedStep_kept (nodes : KnownNodes) (curr : NodeData)
    (h : redactedAbove nodes curr = none)
    (hok : ∀ pr, curr.parentNode = some (some pr) →
      ∃ c1, redactAddedInPlace nodes curr = Except.ok c1) :
    ∃ kept, handleAddedStep nodes curr = Except.ok (AddedStep.kept kept) ∧
      kept.id = curr.id ∧ (kept = curr ∨ redactAddedInPlace nodes curr = Except.ok kept) := by
  unfold redactedAbove at h
  unfold handleAddedStep
  split at h
  · rename_i pr hp
    obtain ⟨c1, hc1⟩ := hok pr hp
    refine ⟨c1, ?_, redactAddedInPlace_id nodes curr c1 hc1, Or.inr hc1⟩
    simp only [hp, h, hc1]
  · exact ⟨curr, rfl, rfl, Or.inl rfl⟩

/-- The loop of `handleAddedOrMoved`: the records without a redacted ancestor above them are
kept in order (as they are, or blacked out in place), the others each contribute the id of
that ancestor, in order. -/
theorem handleAddedLoop_spec (nodes : KnownNodes) :
    ∀ (l : List NodeData) (ids : RedactedIds),
      (∀ curr ∈ l, redactedAbove nodes curr = none → ∀ pr, curr.parentNode = some (some pr) →
        ∃ c1, redactAddedInPlace nodes curr = Except.ok c1) →
      ∃ r, handleAddedLoop nodes l ids = Except.ok r ∧
        List.Forall₂ (fun curr kept => kept.id = curr.id ∧
            (kept = curr ∨ redactAddedInPlace nodes curr = Except.ok kept))
          (l.filter (fun c => (redactedAbove nodes c).isNone)) r.remainingNodes ∧
        List.Forall₂ (fun curr topId => ∃ top, redactedAbove nodes curr = some top ∧
            topId = JSId.mk (getIdByNode nodes (some top)).value false)
          (l.filter (fun c => (redactedAbove nodes c).isSome)) r.newAttributes
  | [], ids, _ => ⟨_, rfl, by simp, by simp⟩
  | curr :: rest, ids, hok => by
    have hrest : ∀ c ∈ rest, redactedAbove nodes c = none → ∀ pr,
        c.parentNode = some (some pr) → ∃ c1, redactAddedInPlace nodes c = Except.ok c1 :=
      fun c hc => hok c (List.mem_cons_of_mem _ hc)
    cases habove : redactedAbove nodes curr with
    | some top =>
      obtain ⟨r, hr, hkept, hdrop⟩ := handleAddedLoop_spec nodes rest
        (ids.mark (JSId.mk (getIdByNode nodes (some top)).value false)) hrest
      refine ⟨AddedResult.mk r.remainingNodes
        (JSId.mk (getIdByNode nodes (some top)).value false :: r.newAttributes)
        r.redactedNodeIds (curr :: r.inputAfter), ?_, ?_, ?_⟩
      · rw [handleAddedLoop, handleAddedStep_dropped nodes curr top habove]
        simp only [hr]
      · simpa [List.filter_cons, habove] using hkept
      · simp only [List.filter_cons, habove, Option.isSome_some, if_true]
        exact List.Forall₂.cons ⟨top, habove, rfl⟩ hdrop
    | none =>
      obtain ⟨kept, hstep, hid, hor⟩ := handleAddedStep_kept nodes curr habove
        (hok curr (List.mem_cons_self _ _) habove)
      obtain ⟨r, hr, hkept, hdrop⟩ := handleAddedLoop_spec nodes rest ids hrest
      refine ⟨AddedResult.mk (kept :: r.remainingNodes) r.newAttributes r.redactedNodeIds
        (kept :: r.inputAfter), ?_, ?_, ?_⟩
      · rw [handleAddedLoop, hstep]
        simp only [hr]
      · simp only [List.filter_cons, habove, Option.isNone_none, if_true]
        exact List.Forall₂.cons ⟨hid, hor⟩ hkept
      · simpa [List.filter_cons, habove] using hdrop

theorem recalculateDimensions_of_stored (nodes : KnownNodes) :
    ∀ (dropped : List NodeData) (topIds : List JSId),
      List.Forall₂ (fun curr topId => ∃ top, redactedAbove nodes curr = some top ∧
          topId = JSId.mk (getIdByNode nodes (some top)).value false) dropped topIds →
      (∀ curr ∈ dropped, ∀ top, redactedAbove nodes curr = some top →
        ∃ i, findIndexOfNode top nodes 0 = some i ∧ nodes.get? i = some (some top)) →
      List.Forall₂ (fun curr r => ∃ top style, redactedAbove nodes curr = some top ∧
          r = styleRecord (getIdByNode nodes (some top)) style)
        dropped (recalculateDimensions nodes topIds) := by
  intro dropped topIds h
  induction h with
  | nil => intro _; simp [recalculateDimensions]
  | cons hab _ ih =>
    rename_i curr topId dropped1 topIds1 _
    intro hstored
    obtain ⟨top, habove, rfl⟩ := hab
    obtain ⟨i, hfind, hget⟩ := hstored curr (List.mem_cons_self _ _) top habove
    have hclimb : climb (some top) = some top := by
      unfold redactedAbove at habove
      split at habove
      · exact climb_climb _ top habove
      · simp at habove
    have hid : getIdByNode nodes (some top) = JSId.mk (i : Int) true := by
      simp [getIdByNode, hfind]
    have hnode : getNodeById nodes (JSId.mk (getIdByNode nodes (some top)).value false) =
        some top := by
      have hget1 : nodes[i]? = some (some top) := by simpa using hget
      simp [getNodeById, hid, hget1]
    have hone := recalculateOne_of_climb nodes _ top (by rw [hnode]; exact hclimb)
    simp only [recalculateDimensions, List.map_cons, List.flatten_cons, hone,
      List.singleton_append]
    exact List.Forall₂.cons ⟨top, _, habove, rfl⟩
      (ih (fun c hc => hstored c (List.mem_cons_of_mem _ hc)))

/-- C20: `handleAddedOrMoved` drops exactly the records that have a `parentNode` whose live
node has a redacted ancestor-or-self: the outgoing list holds the other records in their
order (each as it is or blacked out in place, under its own id), and the attribute output
holds one dimension-recalculation record per dropped record, in order, carrying the id of
that topmost redacted ancestor. Assumed of the state: the in-place black-out of a kept record
does not raise, and the mirror client knows each such ancestor (`getIdByNode` finds it and
`getNodeById` returns it). -/
theorem handleAddedOrMoved_drops_redacted_parents (nodes : KnownNodes) (nodeIds : List NodeData)
    (ids : RedactedIds)
    (hkept : ∀ curr ∈ nodeIds, redactedAbove nodes curr = none → ∀ pr,
      curr.parentNode = some (some pr) → ∃ c1, redactAddedInPlace nodes curr = Except.ok c1)
    (hstored : ∀ curr ∈ nodeIds, ∀ top, redactedAbove nodes curr = some top →
      ∃ i, findIndexOfNode top nodes 0 = some i ∧ nodes.get? i = some (some top)) :
    ∃ remaining recalculated ids1 inputAfter,
      handleAddedOrMoved nodes nodeIds ids =
        Except.ok ((remaining, recalculated), ids1, inputAfter) ∧
      List.Forall₂ (fun curr kept => kept.id = curr.id ∧
          (kept = curr ∨ redactAddedInPlace nodes curr = Except.ok kept))
        (nodeIds.filter (fun c => (redactedAbove nodes c).isNone)) remaining ∧
      List.Forall₂ (fun curr r => ∃ top style, redactedAbove nodes curr = some top ∧
          r = styleRecord (getIdByNode nodes (some top)) style)
        (nodeIds.filter (fun c => (redactedAbove nodes c).isSome)) recalculated := by
  obtain ⟨r, hr, hk, hd⟩ := handleAddedLoop_spec nodes nodeIds ids hkept
  refine ⟨r.remainingNodes, recalculateDimensions nodes r.newAttributes, r.redactedNodeIds,
    r.inputAfter, ?_, hk, ?_⟩
  · simp only [handleAddedOrMoved, hr]
  · exact recalculateDimensions_of_stored nodes _ _ hd
      (fun c hc => hstored c (List.mem_filter.mp hc).1)

theorem handleAddedOrMoved_drops_redacted_parents_witness :
    ∃ remaining recalculated ids1 inputAfter,
      handleAddedOrMoved exampleKnownNodes [exampleAddedUnder 8 2, exampleAddedUnder 9 1] [] =
        Except.ok ((remaining, recalculated), ids1, inputAfter) ∧
      List.Forall₂ (fun curr kept => kept.id = curr.id ∧
          (kept = curr ∨ redactAddedInPlace exampleKnownNodes curr = Except.ok kept))
        ([exampleAddedUnder 8 2, exampleAddedUnder 9 1].filter
          (fun c => (redactedAbove exampleKnownNodes c).isNone)) remaining ∧
      List.Forall₂ (fun curr r => ∃ top style, redactedAbove exampleKnownNodes curr = some top ∧
          r = styleRecord (getIdByNode exampleKnownNodes (some top)) style)
        ([exampleAddedUnder 8 2, exampleAddedUnder 9 1].filter
          (fun c => (redactedAbove exampleKnownNodes c).isSome)) recalculated :=
  handleAddedOrMoved_drops_redacted_parents exampleKnownNodes
    [exampleAddedUnder 8 2, exampleAddedUnder 9 1] []
    (by
      intro curr hc habove pr _
      simp only [List.mem_cons, List.mem_singleton, List.not_mem_nil, or_false] at hc
      rcases hc with rfl | rfl
      · have h2 : redactedAbove exampleKnownNodes (exampleAddedUnder 8 2) =
            some exampleRedactedDiv := rfl
        rw [h2] at habove
        cases habove
      · exact ⟨_, rfl⟩)
    (by
      intro curr hc top habove
      simp only [List.mem_cons, List.mem_singleton, List.not_mem_nil, or_false] at hc
      rcases hc with rfl | rfl
      · have h2 : redactedAbove exampleKnownNodes (exampleAddedUnder 8 2) =
            some exampleRedactedDiv := rfl
        rw [h2] at habove
        obtain rfl : exampleRedactedDiv = top := Option.some.inj habove
        exact ⟨2, rfl, rfl⟩
      · have h1 : redactedAbove exampleKnownNodes (exampleAddedUnder 9 1) = none := rfl
        rw [h1] at habove
        cases habove)

/-- The example evaluated: the record under the redacted `<div>` (id 2) is dropped and
replaced by a recalculation record for id 2, the record under `<body>` is kept. -/
theorem handleAddedOrMoved_example :
    (handleAddedOrMoved exampleKnownNodes [exampleAddedUnder 8 2, exampleAddedUnder 9 1]
        []).toOption.map (fun r => (recordIds r.1.1, recordIds r.1.2, r.2.1)) =
      some ([9], [2], [2]) := by
  decide

/-! ## The session controller -/

theorem redactRecord_total (node : NodeData) (attrs : Attributes) (ids : RedactedIds)
    (h : node.attributes = some attrs) : ∃ r, redactRecord node attrs ids = Except.ok r := by
  simp [redactRecord, getRedactedNode, h]

mutual
theorem setRedactionDFS_total :
    ∀ (node : NodeData) (ids : RedactedIds), ∃ r, setRedactionDFS node ids = Except.ok r
  | NodeData.mk i t d x g a c s p, ids => by
    rw [setRedactionDFS]
    split
    · rename_i hred
      cases a with
      | none => simp [recordIsRedacted] at hred
      | some attrs => exact redactRecord_total _ attrs ids rfl
    · obtain ⟨r, hr⟩ := setRedactionDFSChildren_total c ids
      rw [hr]
      exact ⟨_, rfl⟩
theorem setRedactionDFSChildren_total :
    ∀ (c : Option (List NodeData)) (ids : RedactedIds),
      ∃ r, setRedactionDFSChildren c ids = Except.ok r
  | none, ids => ⟨_, by rw [setRedactionDFSChildren]⟩
  | some children, ids => by
    rw [setRedactionDFSChildren]
    obtain ⟨r, hr⟩ := setRedactionDFSList_total children ids
    rw [hr]
    exact ⟨_, rfl⟩
theorem setRedactionDFSList_total :
    ∀ (l : List NodeData) (ids : RedactedIds), ∃ r, setRedactionDFSList l ids = Except.ok r
  | [], ids => ⟨_, by rw [setRedactionDFSList]⟩
  | child :: rest, ids => by
    rw [setRedactionDFSList]
    obtain ⟨r, hr⟩ := setRedactionDFS_total child ids
    rw [hr]
    obtain ⟨r2, hr2⟩ := setRedactionDFSList_total rest r.2
    obtain ⟨c1, ids1⟩ := r
    simp only at hr2 ⊢
    rw [hr2]
    exact ⟨_, rfl⟩
end

/-- The `initialize` hook never raises: it publishes one message on `presence`. -/
theorem initializeHook_total (st : Session) (rootId : JSId) (children : List NodeData) :
    ∃ ids1 children1, initializeHook st rootId children =
      Except.ok (peerDataSend { st with redactedNodeIds := ids1 }
        (PeerMessage.initializeCall rootId children1)) := by
  unfold initializeHook
  cases hc : children.get? 1 with
  | none =>
    exact ⟨st.redactedNodeIds, children, rfl⟩
  | some child =>
    obtain ⟨⟨c1, ids1⟩, hr⟩ := setRedactionDFS_total child st.redactedNodeIds
    simp only [hr]
    exact ⟨ids1, _, rfl⟩

theorem updateFirst_bind (pred : DomNode → Bool) (f g : DomNode → Option DomNode)
    (hpred : ∀ x y, pred x = true → f x = some y → pred y = true) :
    ∀ l : List DomNode, (updateFirst pred f l).bind (updateFirst pred g) =
      updateFirst pred (fun x => (f x).bind g) l := by
  intro l
  induction l with
  | nil => simp [updateFirst]
  | cons n rest ih =>
    by_cases hp : pred n = true
    · simp only [updateFirst, hp, if_true]
      cases hf : f n with
      | none => simp
      | some y => simp [updateFirst, hpred n y hp hf]
    · simp only [updateFirst, hp, Bool.false_eq_true, if_false]
      rw [← ih]
      cases updateFirst pred f rest with
      | none => simp
      | some r => simp [updateFirst, hp]

theorem updateHtml_bind (f g : DomNode → DomNode)
    (hf : ∀ b, isBodyElement b = true → isBodyElement (f b) = true) (html : DomNode) :
    (updateHtml f html).bind (updateHtml g) = updateHtml (fun b => g (f b)) html := by
  have hinner := updateFirst_bind isBodyElement (fun body => some (f body))
    (fun body => some (g body))
    (fun x y hx hy => by
      obtain rfl : f x = y := Option.some.inj hy
      exact hf x hx) html.childNodes
  simp only [Option.some_bind] at hinner
  unfold updateHtml
  by_cases ht : html.props.tagName = "HTML"
  · simp only [ht, if_true]
    rw [← hinner]
    cases updateFirst isBodyElement (fun body => some (f body)) html.childNodes with
    | none => simp
    | some c =>
      have ht1 : (DomNode.mk html.props c).props.tagName = "HTML" := ht
      simp only [Option.map_some', Option.some_bind, ht1, if_true]
      rfl
  · simp [ht]

theorem updateHtml_isElement (f : DomNode → DomNode) (x y : DomNode)
    (hx : isElementNode x = true) (hy : updateHtml f x = some y) : isElementNode y = true := by
  unfold updateHtml at hy
  split at hy
  · cases hu : updateFirst isBodyElement (fun body => some (f body)) x.childNodes with
    | none => simp [hu] at hy
    | some c =>
      simp only [hu, Option.map_some', Option.some.injEq] at hy
      subst hy
      exact hx
  · simp at hy

/-- Two updates of `document.body` in a row are one update by the composed function, when
the first leaves the body a body. -/
theorem updateBody_bind (f g : DomNode → DomNode) (document : DomNode)
    (hf : ∀ b, isBodyElement b = true → isBodyElement (f b) = true) :
    (updateBody f document).bind (updateBody g) = updateBody (fun b => g (f b)) document := by
  have houter := updateFirst_bind isElementNode (updateHtml f) (updateHtml g)
    (updateHtml_isElement f) document.childNodes
  have hfun : (fun x => (updateHtml f x).bind (updateHtml g)) =
      updateHtml (fun b => g (f b)) := funext (updateHtml_bind f g hf)
  rw [hfun] at houter
  unfold updateBody
  rw [← houter]
  cases updateFirst isElementNode (updateHtml f) document.childNodes with
  | none => simp
  | some c => simp [DomNode.childNodes, DomNode.props]

theorem updateBody_then (f g : DomNode → DomNode) (document d1 : DomNode)
    (hf : ∀ b, isBodyElement b = true → isBodyElement (f b) = true)
    (h : updateBody f document = some d1) :
    updateBody g d1 = updateBody (fun b => g (f b)) document := by
  have := updateBody_bind f g document hf
  rw [h] at this
  simpa using this

theorem updateFirst_isSome (pred : DomNode → Bool) (f g : DomNode → Option DomNode)
    (h : ∀ x, pred x = true → ((f x).isSome = (g x).isSome)) :
    ∀ l : List DomNode, (updateFirst pred f l).isSome = (updateFirst pred g l).isSome := by
  intro l
  induction l with
  | nil => rfl
  | cons n rest ih =>
    by_cases hp : pred n = true
    · simp only [updateFirst, hp, if_true, Option.isSome_map']
      exact h n hp
    · simp only [updateFirst, hp, Bool.false_eq_true, if_false, Option.isSome_map']
      exact ih

/-- Whether `document.body` exists does not depend on what is done to it. -/
theorem updateBody_isSome (f g : DomNode → DomNode) (document : DomNode) :
    (updateBody f document).isSome = (updateBody g document).isSome := by
  unfold updateBody
  simp only [Option.isSome_map']
  apply updateFirst_isSome
  intro html _
  unfold updateHtml
  split
  · simp only [Option.isSome_map']
    apply updateFirst_isSome
    intro _ _
    rfl
  · rfl

theorem isBodyElement_dfs (b : DomNode) (flag : Bool) (h : isBodyElement b = true) :
    isBodyElement (dfs b flag) = true := by
  unfold isBodyElement at h ⊢
  rw [dfs_props]
  split
  · exact h
  · exact h

theorem isBodyElement_appendChild (b child : DomNode) (h : isBodyElement b = true) :
    isBodyElement (b.appendChild child) = true := h

/-! ## `climb` on the parentElement chain -/

theorem filter_getLast_split {α : Type} (p : α → Bool) :
    ∀ (l : List α) (a : α), (l.filter p).getLast? = some a →
      ∃ below above, l = below ++ a :: above ∧ p a = true ∧ ∀ m ∈ above, p m = false := by
  intro l
  induction l with
  | nil => intro a h; simp at h
  | cons x xs ih =>
    intro a h
    cases hlast : (xs.filter p).getLast? with
    | some b =>
      have hb : (List.filter p (x :: xs)).getLast? = some b := by
        by_cases hx : p x = true
        · simp only [List.filter_cons, hx, if_true]
          cases hf : xs.filter p with
          | nil => simp [hf] at hlast
          | cons y ys =>
            rw [hf] at hlast
            simpa [List.getLast?_cons_cons] using hlast
        · simp only [List.filter_cons, hx, Bool.false_eq_true, if_false]
          exact hlast
      rw [hb] at h
      obtain rfl : b = a := Option.some.inj h
      obtain ⟨below, above, hsplit, hp, habove⟩ := ih b hlast
      exact ⟨x :: below, above, by simp [hsplit], hp, habove⟩
    | none =>
      have hnil : xs.filter p = [] := List.getLast?_eq_none_iff.mp hlast
      by_cases hx : p x = true
      · simp only [List.filter_cons, hx, if_true, hnil, List.getLast?_singleton,
          Option.some.injEq] at h
        subst h
        refine ⟨[], xs, rfl, hx, ?_⟩
        intro m hm
        by_contra hpm
        have : m ∈ xs.filter p := List.mem_filter.mpr ⟨hm, by simpa using hpm⟩
        rw [hnil] at this
        simp at this
      · simp only [List.filter_cons, hx, Bool.false_eq_true, if_false, hnil,
          List.getLast?_nil] at h
        cases h

theorem filter_getLast_of_split {α : Type} (p : α → Bool) (below above : List α) (a : α)
    (hp : p a = true) (habove : ∀ m ∈ above, p m = false) :
    ((below ++ a :: above).filter p).getLast? = some a := by
  have hnil : above.filter p = [] := by
    rw [List.filter_eq_nil_iff]
    intro m hm
    simp [habove m hm]
  simp [List.filter_append, List.filter_cons, hp, hnil]

/-- The loop of `climb` returns the last node of the chain that is redacted by itself, and
the value it was entered with when the chain has none. -/
theorem climbLoop_chain :
    ∀ (n : LiveNode) (last : Option LiveNode),
      climbLoop n last =
        match ((parentChain n).filter (fun m => m.marksRedaction)).getLast? with
        | some a => some a
        | none => last
  | LiveNode.mk props none, last => by
    rw [climbLoop, parentChain]
    by_cases hdoc : props.kind = NodeKind.document
    · simp [hdoc]
    · by_cases hm : props.marksRedaction = true
      · have hm1 : (LiveNode.mk props none).marksRedaction = true := hm
        simp [hdoc, hm, hm1, List.filter_cons]
      · have hm1 : ¬ (LiveNode.mk props none).marksRedaction = true := hm
        simp [hdoc, hm, hm1, List.filter_cons]
  | LiveNode.mk props (some q), last => by
    rw [climbLoop, parentChain]
    by_cases hdoc : props.kind = NodeKind.document
    · simp [hdoc]
    · simp only [hdoc, if_false]
      rw [climbLoop_chain q]
      by_cases hm : props.marksRedaction = true
      · have hm1 : (LiveNode.mk props (some q)).marksRedaction = true := hm
        simp only [hm, if_true, List.filter_cons, hm1]
        cases hf : (parentChain q).filter (fun m => m.marksRedaction) with
        | nil => simp
        | cons y ys =>
          have hl : (y :: ys).getLast? = some ((y :: ys).getLast (by simp)) :=
            List.getLast?_eq_getLast _ _
          simp [List.getLast?_cons_cons, hl]
      · have hm1 : ¬ (LiveNode.mk props (some q)).marksRedaction = true := hm
        simp only [hm, Bool.false_eq_true, if_false, List.filter_cons, hm1]

/-- C22: `climb(n)` returns the node of n's parentElement chain (n included, the document
excluded) closest to the root among those that carry `data-redaction` or the class
`spr-cobrowse-redact`: the chain splits into the nodes below it, the node, and the nodes
above it, none of which carries either. It returns `null` if and only if no node of the
chain carries either. -/
theorem climb_topmost (n : LiveNode) :
    (climb (some n) = none ↔ ∀ m ∈ parentChain n, m.marksRedaction = false) ∧
    (∀ a, climb (some n) = some a ↔
      ∃ below above, parentChain n = below ++ a :: above ∧ a.marksRedaction = true ∧
        ∀ m ∈ above, m.marksRedaction = false) := by
  have hloop := climbLoop_chain n none
  constructor
  · simp only [climb, hloop]
    cases hlast : ((parentChain n).filter (fun m => m.marksRedaction)).getLast? with
    | some a =>
      simp only [false_iff, reduceCtorEq]
      intro hall
      obtain ⟨below, above, hsplit, hp, _⟩ := filter_getLast_split _ _ a hlast
      have := hall a (by rw [hsplit]; simp)
      rw [hp] at this
      cases this
    | none =>
      simp only [true_iff]
      have hnil := List.getLast?_eq_none_iff.mp hlast
      intro m hm
      by_contra hpm
      have : m ∈ (parentChain n).filter (fun m => m.marksRedaction) :=
        List.mem_filter.mpr ⟨hm, by simpa using hpm⟩
      rw [hnil] at this
      simp at this
  · intro a
    simp only [climb, hloop]
    constructor
    · intro h
      cases hlast : ((parentChain n).filter (fun m => m.marksRedaction)).getLast? with
      | some b =>
        rw [hlast] at h
        obtain rfl : b = a := Option.some.inj h
        exact filter_getLast_split _ _ b hlast
      | none =>
        rw [hlast] at h
        cases h
    · rintro ⟨below, above, hsplit, hp, habove⟩
      rw [hsplit, filter_getLast_of_split (fun m => m.marksRedaction) below above a hp habove]

theorem climb_marks (x : Option LiveNode) (a : LiveNode) (h : climb x = some a) :
    a.marksRedaction = true := by
  cases x with
  | none => simp [climb] at h
  | some n =>
    have hloop := climbLoop_chain n none
    simp only [climb, hloop] at h
    cases hlast : ((parentChain n).filter (fun m => m.marksRedaction)).getLast? with
    | some b =>
      rw [hlast] at h
      obtain rfl : b = a := Option.some.inj h
      obtain ⟨_, _, _, hp, _⟩ := filter_getLast_split _ _ b hlast
      exact hp
    | none =>
      rw [hlast] at h
      cases h

/-! ## The recalculation records -/

theorem climb_kind (x : Option LiveNode) (a : LiveNode) (h : climb x = some a) :
    a.kind = NodeKind.element := by
  have hm := climb_marks x a h
  simp only [LiveNode.marksRedaction, NodeProps.marksRedaction, Bool.and_eq_true,
    decide_eq_true_eq] at hm
  exact hm.1

theorem recalculateOne_style (nodes : KnownNodes) (id : JSId) (a : LiveNode)
    (h : climb (getNodeById nodes id) = some a) :
    recalculateOne nodes id = [styleRecord (getIdByNode nodes (some a)) (recalculatedStyle a)] := by
  have hk := climb_kind _ a h
  simp [recalculateOne, h, hk, recalculatedStyle]

theorem recalculateOne_none (nodes : KnownNodes) (id : JSId)
    (h : climb (getNodeById nodes id) = none) : recalculateOne nodes id = [] := by
  simp [recalculateOne, h]

theorem getNodeById_of_stored (nodes : KnownNodes) (a : LiveNode) (h : Stored nodes a) :
    getNodeById nodes (getIdByNode nodes (some a)) = some a := by
  obtain ⟨i, hfind, hget⟩ := h
  have hget1 : nodes[i]? = some (some a) := by simpa using hget
  simp [getNodeById, getIdByNode, hfind, hget1]

/-- C28, as stated, fails: for the id 3, whose topmost redacted ancestor (id 2) has
offsetHeight 18, offsetWidth 200 and no inline style, the style emitted is
` background: black; height: 18px; width:200px;` (a blank first, none after `width:`),
which does not contain `background: black; height: 18px; width: 200px;`. -/
theorem recalculateDimensions_style_text :
    climb (getNodeById exampleKnownNodes (JSId.mk 3 false)) = some exampleRedactedDiv ∧
    (recalculateDimensions exampleKnownNodes [JSId.mk 3 false]).map
        (fun r => (r.id, r.attributes)) =
      [(JSId.mk 2 true,
        some [("style", JSVal.str " background: black; height: 18px; width:200px;")])] ∧
    includes " background: black; height: 18px; width:200px;"
      "background: black; height: 18px; width: 200px;" = false := by
  refine ⟨rfl, ?_, ?_⟩ <;> decide

/-- C28 (amended): for every id whose live node has a topmost redacted ancestor a with
offsetHeight h, offsetWidth w and inline style s (the empty text when it has none),
`recalculateDimensions` emits one attribute-change record, under the id `getIdByNode(a)`,
whose only attribute is the style s followed by ` background: black; height: hpx;
width:wpx;`; for an id with no redacted ancestor-or-self it emits no record; and for a
list of ids it emits the records of its ids in order. -/
theorem recalculateDimensions_format (nodes : KnownNodes) :
    (∀ id a, climb (getNodeById nodes id) = some a →
      recalculateDimensions nodes [id] =
        [NodeData.mk (getIdByNode nodes (some a)) none none none none
          (some [("style", JSVal.str ((a.attributeValue "style").getD "" ++
            " background: black; height: " ++ a.offsetHeight.text ++ "px; width:" ++
            a.offsetWidth.text ++ "px;"))]) none none none]) ∧
    (∀ id, climb (getNodeById nodes id) = none → recalculateDimensions nodes [id] = []) ∧
    (∀ id ids, recalculateDimensions nodes (id :: ids) =
      recalculateDimensions nodes [id] ++ recalculateDimensions nodes ids) := by
  refine ⟨?_, ?_, ?_⟩
  · intro id a h
    simp only [recalculateDimensions, List.map_cons, List.map_nil, List.flatten_cons,
      List.flatten_nil, List.append_nil, recalculateOne_style nodes id a h]
    rfl
  · intro id h
    simp [recalculateDimensions, recalculateOne_none nodes id h]
  · intro id ids
    simp [recalculateDimensions]

/-- C30: `climb` is idempotent: when `climb(n)` is the node a, `climb(a)` is a. Hence, for a
text node t the mirror client knows, whose parent's topmost redacted ancestor a it knows
too, `recalculateTextNodeDimensions` emits exactly the record of a: the second `climb`
inside `recalculateDimensions` lands on the same node. -/
theorem climb_idempotent (x : Option LiveNode) (a : LiveNode) (h : climb x = some a) :
    climb (some a) = some a ∧
    ∀ (nodes : KnownNodes) (id : JSId) (t : LiveNode),
      getNodeById nodes id = some t → t.parentElement = x → Stored nodes a →
      recalculateTextNodeDimensions nodes [id] =
        Except.ok [styleRecord (getIdByNode nodes (some a)) (recalculatedStyle a)] := by
  have hidem := climb_climb x a h
  refine ⟨hidem, ?_⟩
  intro nodes id t ht hx hstored
  have hnode := getNodeById_of_stored nodes a hstored
  have hone := recalculateOne_style nodes (getIdByNode nodes (some a)) a
    (by rw [hnode]; exact hidem)
  simp [recalculateTextNodeDimensions, textParentIds, ht, hx, h, recalculateDimensions, hone]

theorem climb_idempotent_witness :
    climb (some exampleRedactedDiv) = some exampleRedactedDiv ∧
    ∀ (nodes : KnownNodes) (id : JSId) (t : LiveNode),
      getNodeById nodes id = some t → t.parentElement = some exampleSpanA →
      Stored nodes exampleRedactedDiv →
      recalculateTextNodeDimensions nodes [id] =
        Except.ok [styleRecord (getIdByNode nodes (some exampleRedactedDiv))
          (recalculatedStyle exampleRedactedDiv)] :=
  climb_idempotent (some exampleSpanA) exampleRedactedDiv rfl

/-! ## Removed nodes and the returned batch -/

theorem textParentIds_total (nodes : KnownNodes) :
    ∀ ids : List JSId, (∀ id ∈ ids, textIsRedacted nodes id = true) →
      ∃ parentIds, textParentIds nodes ids = Except.ok parentIds := by
  intro ids
  induction ids with
  | nil => intro _; exact ⟨[], rfl⟩
  | cons id rest ih =>
    intro h
    obtain ⟨parentIds, hrest⟩ := ih (fun i hi => h i (List.mem_cons_of_mem _ hi))
    have hid := h id (List.mem_cons_self _ _)
    cases hn : getNodeById nodes id with
    | none => simp [textIsRedacted, checkToBeRedactedTextNode, hn] at hid
    | some n =>
      exact ⟨getIdByNode nodes (climb n.parentElement) :: parentIds,
        by simp [textParentIds, hn, hrest]⟩

/-- `handleTextChanges` never raises: the ids it hands to `recalculateTextNodeDimensions`
are ids of known nodes. -/
theorem handleTextChanges_total (nodes : KnownNodes) (textNodeList : List NodeData) :
    ∃ r, handleTextChanges nodes textNodeList = Except.ok r := by
  obtain ⟨parentIds, h⟩ := textParentIds_total nodes
    ((textNodeList.filter (fun textItem => textIsRedacted nodes textItem.id)).map NodeData.id)
    (by
      intro id hid
      obtain ⟨item, hitem, rfl⟩ := List.mem_map.mp hid
      exact (List.mem_filter.mp hitem).2)
  simp only [handleTextChanges, recalculateTextNodeDimensions, h]
  exact ⟨_, rfl⟩

/-- C29: whenever `handleRedaction` returns a batch, its removed list is empty; and it does
return one, for every batch whose added/moved list `handleAddedOrMoved` does not raise on. -/
theorem handleRedaction_removed_empty (st : Session) (applyChangedArgs : Batch) :
    (∀ newArgs st1, handleRedaction st applyChangedArgs = Except.ok (newArgs, st1) →
      newArgs.removed = []) ∧
    ((∃ r, handleAddedOrMoved st.knownNodes applyChangedArgs.addedOrMoved st.redactedNodeIds =
        Except.ok r) →
      ∃ newArgs st1, handleRedaction st applyChangedArgs = Except.ok (newArgs, st1) ∧
        newArgs.removed = []) := by
  obtain ⟨⟨newText, recalcText⟩, htext⟩ := handleTextChanges_total st.knownNodes applyChangedArgs.text
  constructor
  · intro newArgs st1 h
    simp only [handleRedaction, htext] at h
    cases hadd : handleAddedOrMoved st.knownNodes applyChangedArgs.addedOrMoved
        st.redactedNodeIds with
    | error e => simp [hadd] at h
    | ok r =>
      obtain ⟨⟨rem, rec⟩, ids1, after⟩ := r
      simp only [hadd] at h
      by_cases hlen : applyChangedArgs.removed.length = 0
      · simp only [handleRemoved, hlen, if_true, Except.ok.injEq, Prod.mk.injEq] at h
        rw [← h.1]
      · simp only [handleRemoved, hlen, if_false, Except.ok.injEq, Prod.mk.injEq] at h
        rw [← h.1]
  · rintro ⟨r, hadd⟩
    obtain ⟨⟨rem, rec⟩, ids1, after⟩ := r
    by_cases hlen : applyChangedArgs.removed.length = 0
    · simp only [handleRedaction, htext, hadd, handleRemoved, hlen, if_true]
      exact ⟨_, _, rfl, rfl⟩
    · simp only [handleRedaction, htext, hadd, handleRemoved, hlen, if_false]
      exact ⟨_, _, rfl, rfl⟩

theorem handleRedaction_removed_empty_witness :
    (∀ newArgs st1, handleRedaction exampleMirroring
        (Batch.mk [textRecord (JSId.mk 4 false) none] [] [] []) = Except.ok (newArgs, st1) →
      newArgs.removed = []) ∧
    ((∃ r, handleAddedOrMoved exampleMirroring.knownNodes
        (Batch.mk [textRecord (JSId.mk 4 false) none] [] [] []).addedOrMoved
        exampleMirroring.redactedNodeIds = Except.ok r) →
      ∃ newArgs st1, handleRedaction exampleMirroring
          (Batch.mk [textRecord (JSId.mk 4 false) none] [] [] []) = Except.ok (newArgs, st1) ∧
        newArgs.removed = []) :=
  handleRedaction_removed_empty exampleMirroring
    (Batch.mk [textRecord (JSId.mk 4 false) none] [] [] [])

/-! ## Text changes -/

theorem textIsRedacted_iff (nodes : KnownNodes) (id : JSId) :
    textIsRedacted nodes id = true ↔
      ∃ t p, getNodeById nodes id = some t ∧ t.parentElement = some p ∧
        p.hasAttribute redactedAttribute = true := by
  unfold textIsRedacted checkToBeRedactedTextNode
  cases hn : getNodeById nodes id with
  | none => simp
  | some t =>
    cases hp : t.parentElement with
    | none => simp [hp]
    | some p => simp [hp]

theorem textParentIds_spec (nodes : KnownNodes) :
    ∀ ids : List JSId, (∀ id ∈ ids, textIsRedacted nodes id = true) →
      ∃ parentIds, textParentIds nodes ids = Except.ok parentIds ∧
        List.Forall₂ (fun id parentId => ∃ t p, getNodeById nodes id = some t ∧
          t.parentElement = some p ∧ p.hasAttribute redactedAttribute = true ∧
          parentId = getIdByNode nodes (climb (some p))) ids parentIds := by
  intro ids
  induction ids with
  | nil => intro _; exact ⟨[], rfl, List.Forall₂.nil⟩
  | cons id rest ih =>
    intro h
    obtain ⟨parentIds, hrest, hall⟩ := ih (fun i hi => h i (List.mem_cons_of_mem _ hi))
    obtain ⟨t, p, ht, hp, hattr⟩ :=
      (textIsRedacted_iff nodes id).mp (h id (List.mem_cons_self _ _))
    exact ⟨getIdByNode nodes (climb (some p)) :: parentIds,
      by simp [textParentIds, ht, hrest, hp], List.Forall₂.cons ⟨t, p, ht, hp, hattr, rfl⟩ hall⟩

theorem recalculateDimensions_text (nodes : KnownNodes) :
    ∀ (ids parentIds : List JSId),
      List.Forall₂ (fun id parentId => ∃ t p, getNodeById nodes id = some t ∧
        t.parentElement = some p ∧ p.hasAttribute redactedAttribute = true ∧
        parentId = getIdByNode nodes (climb (some p))) ids parentIds →
      (∀ id ∈ ids, ∀ t p, getNodeById nodes id = some t → t.parentElement = some p →
        ∃ a, climb (some p) = some a ∧ Stored nodes a) →
      List.Forall₂ (fun id r => ∃ t p a, getNodeById nodes id = some t ∧
          t.parentElement = some p ∧ p.hasAttribute redactedAttribute = true ∧
          climb (some p) = some a ∧
          r = styleRecord (getIdByNode nodes (some a)) (recalculatedStyle a))
        ids (recalculateDimensions nodes parentIds) := by
  intro ids parentIds h
  induction h with
  | nil => intro _; simp [recalculateDimensions]
  | cons hab _ ih =>
    rename_i id parentId ids1 parentIds1 _
    intro hstored
    obtain ⟨t, p, ht, hp, hattr, rfl⟩ := hab
    obtain ⟨a, hclimb, hst⟩ := hstored id (List.mem_cons_self _ _) t p ht hp
    have hnode := getNodeById_of_stored nodes a hst
    have hone := recalculateOne_style nodes (getIdByNode nodes (some a)) a
      (by rw [hnode]; exact climb_climb _ a hclimb)
    have hrest := ih (fun i hi => hstored i (List.mem_cons_of_mem _ hi))
    have hsplit : recalculateDimensions nodes (getIdByNode nodes (climb (some p)) :: parentIds1) =
        styleRecord (getIdByNode nodes (some a)) (recalculatedStyle a) ::
          recalculateDimensions nodes parentIds1 := by
      rw [hclimb]
      simp [recalculateDimensions, hone]
    rw [hsplit]
    exact List.Forall₂.cons ⟨t, p, a, ht, hp, hattr, hclimb, rfl⟩ hrest

/-- C21: `handleTextChanges` returns, and returns a text list of the same length with the
same ids in the same order; a record's `textContent` is the empty string when the live text
node's immediate parent element has the `data-redaction` attribute and the input's
`textContent` otherwise; and alongside, in order, one recalculation record per emptied
record, for the topmost redacted ancestor of its node. The parent of a text node is an
element, and each such ancestor is a node the mirror client has stored. -/
theorem handleTextChanges_spec (nodes : KnownNodes) (textNodeList : List NodeData)
    (hdom : ∀ item ∈ textNodeList, ∀ t p, getNodeById nodes item.id = some t →
      t.parentElement = some p → p.kind = NodeKind.element)
    (hstored : ∀ item ∈ textNodeList, ∀ t a, getNodeById nodes item.id = some t →
      climb t.parentElement = some a → Stored nodes a) :
    ∃ newText recalculated,
      handleTextChanges nodes textNodeList = Except.ok (newText, recalculated) ∧
      newText.length = textNodeList.length ∧
      newText.map NodeData.id = textNodeList.map NodeData.id ∧
      List.Forall₂ (fun item out =>
          ((∃ t p, getNodeById nodes item.id = some t ∧ t.parentElement = some p ∧
              p.hasAttribute redactedAttribute = true) → out.textContent = some "") ∧
          ((¬ ∃ t p, getNodeById nodes item.id = some t ∧ t.parentElement = some p ∧
              p.hasAttribute redactedAttribute = true) → out.textContent = item.textContent))
        textNodeList newText ∧
      List.Forall₂ (fun item r => ∃ t p a, getNodeById nodes item.id = some t ∧
          t.parentElement = some p ∧ p.hasAttribute redactedAttribute = true ∧
          climb (some p) = some a ∧
          r = styleRecord (getIdByNode nodes (some a)) (recalculatedStyle a))
        (textNodeList.filter (fun item => textIsRedacted nodes item.id)) recalculated := by
  have hred : ∀ id ∈ (textNodeList.filter (fun item => textIsRedacted nodes item.id)).map
      NodeData.id, textIsRedacted nodes id = true := by
    intro id hid
    obtain ⟨item, hitem, rfl⟩ := List.mem_map.mp hid
    exact (List.mem_filter.mp hitem).2
  obtain ⟨parentIds, hparents, hall⟩ := textParentIds_spec nodes _ hred
  have hrec := recalculateDimensions_text nodes _ parentIds hall (by
    intro id hid t p ht hp
    obtain ⟨item, hitem, rfl⟩ := List.mem_map.mp hid
    have hmem := (List.mem_filter.mp hitem).1
    obtain ⟨t1, p1, ht1, hp1, hattr⟩ := (textIsRedacted_iff nodes item.id).mp (hred _ hid)
    rw [ht] at ht1
    obtain rfl : t = t1 := Option.some.inj ht1
    rw [hp] at hp1
    obtain rfl : p = p1 := Option.some.inj hp1
    have hk := hdom item hmem t p ht hp
    have hsome : (climb (some p)).isSome = true := by
      exact climbLoop_isSome_of_marks p none (by
          intro hdoc
          have hk1 : p.kind = NodeKind.element := hk
          rw [hk1] at hdoc
          cases hdoc)
        (by
          have hk1 : p.props.kind = NodeKind.element := hk
          have hattr1 : p.props.hasAttribute redactedAttribute = true := hattr
          simp [LiveNode.marksRedaction, NodeProps.marksRedaction, hk1, hattr1])
    obtain ⟨a, ha⟩ := Option.isSome_iff_exists.mp hsome
    exact ⟨a, ha, hstored item hmem t a ht (by rw [hp]; exact ha)⟩)
  refine ⟨textNodeList.map (fun textItem =>
      if textIsRedacted nodes textItem.id then textRecord textItem.id (some "")
      else textRecord textItem.id textItem.textContent),
    recalculateDimensions nodes parentIds, ?_, ?_, ?_, ?_, ?_⟩
  · simp only [handleTextChanges, recalculateTextNodeDimensions, hparents]
  · simp
  · simp only [List.map_map]
    apply List.map_congr_left
    intro item _
    by_cases h : textIsRedacted nodes item.id = true
    · simp only [Function.comp_apply, if_pos h]
      rfl
    · simp only [Function.comp_apply, if_neg h]
      rfl
  · rw [List.forall₂_map_right_iff]
    apply List.forall₂_same.mpr
    intro item _
    by_cases h : textIsRedacted nodes item.id = true
    · refine ⟨fun _ => by simp only [if_pos h]; rfl, fun hn => ?_⟩
      exact absurd ((textIsRedacted_iff nodes item.id).mp h) hn
    · refine ⟨fun hp => absurd ((textIsRedacted_iff nodes item.id).mpr hp) h, fun _ => ?_⟩
      simp only [if_neg h]
      rfl
  · exact List.forall₂_map_left_iff.mp hrec

theorem handleTextChanges_spec_witness :
    ∃ newText recalculated,
      handleTextChanges exampleKnownNodes
          [textRecord (JSId.mk 5 false) (some "4111 1111")] =
        Except.ok (newText, recalculated) ∧
      newText.length = [textRecord (JSId.mk 5 false) (some "4111 1111")].length ∧
      newText.map NodeData.id =
        [textRecord (JSId.mk 5 false) (some "4111 1111")].map NodeData.id ∧
      List.Forall₂ (fun item out =>
          ((∃ t p, getNodeById exampleKnownNodes item.id = some t ∧ t.parentElement = some p ∧
              p.hasAttribute redactedAttribute = true) → out.textContent = some "") ∧
          ((¬ ∃ t p, getNodeById exampleKnownNodes item.id = some t ∧
              t.parentElement = some p ∧
              p.hasAttribute redactedAttribute = true) → out.textContent = item.textContent))
        [textRecord (JSId.mk 5 false) (some "4111 1111")] newText ∧
      List.Forall₂ (fun item r => ∃ t p a, getNodeById exampleKnownNodes item.id = some t ∧
          t.parentElement = some p ∧ p.hasAttribute redactedAttribute = true ∧
          climb (some p) = some a ∧
          r = styleRecord (getIdByNode exampleKnownNodes (some a)) (recalculatedStyle a))
        ([textRecord (JSId.mk 5 false) (some "4111 1111")].filter
          (fun item => textIsRedacted exampleKnownNodes item.id)) recalculated :=
  handleTextChanges_spec exampleKnownNodes [textRecord (JSId.mk 5 false) (some "4111 1111")]
    (by
      intro item hitem t p ht hp
      obtain rfl := List.mem_singleton.mp hitem
      have ht1 : some exampleSecretText = some t := ht
      obtain rfl := Option.some.inj ht1
      have hp1 : some exampleRedactedDiv = some p := hp
      obtain rfl := Option.some.inj hp1
      rfl)
    (by
      intro item hitem t a ht ha
      obtain rfl := List.mem_singleton.mp hitem
      have ht1 : some exampleSecretText = some t := ht
      obtain rfl := Option.some.inj ht1
      have ha1 : some exampleRedactedDiv = some a := ha
      obtain rfl := Option.some.inj ha1
      exact ⟨2, rfl, rfl⟩)

/-! ## The button swap -/

mutual
theorem removeFirstById_none (id : String) :
    ∀ n : DomNode, countId id n = 0 → removeFirstById id n = none
  | DomNode.mk props children, h => by
    rw [countId] at h
    have hid : props.hasId id = false := by
      by_contra hc
      simp only [Bool.not_eq_false] at hc
      simp [hc] at h
    have hkids : countIdList id children = 0 := by omega
    rw [removeFirstById]
    simp [hid, removeFirstByIdList_none id children hkids]
theorem removeFirstByIdList_none (id : String) :
    ∀ l : List DomNode, countIdList id l = 0 → removeFirstByIdList id l = none
  | [], _ => by rw [removeFirstByIdList]
  | n :: rest, h => by
    rw [countIdList] at h
    rw [removeFirstByIdList, removeFirstById_none id n (by omega),
      removeFirstByIdList_none id rest (by omega)]
end

theorem removeById_fields (id : String) (pg : Page) :
    (Page.removeById id pg).1.isInitiated = pg.isInitiated ∧
    (Page.removeById id pg).1.mirrorClient = pg.mirrorClient ∧
    (Page.removeById id pg).1.published = pg.published ∧
    (Page.removeById id pg).1.listeners = pg.listeners ∧
    (Page.removeById id pg).1.subscriptions = pg.subscriptions ∧
    (Page.removeById id pg).1.clientID = pg.clientID ∧
    (Page.removeById id pg).1.href = pg.href ∧
    (Page.removeById id pg).1.nextUid = pg.nextUid := by
  unfold Page.removeById
  cases removeFirstByIdList id pg.document.childNodes with
  | none => exact ⟨rfl, rfl, rfl, rfl, rfl, rfl, rfl, rfl⟩
  | some r => exact ⟨rfl, rfl, rfl, rfl, rfl, rfl, rfl, rfl⟩

theorem appendToBody_fields (node : DomNode) (pg : Page) :
    (Page.appendToBody node pg).1.isInitiated = pg.isInitiated ∧
    (Page.appendToBody node pg).1.mirrorClient = pg.mirrorClient ∧
    (Page.appendToBody node pg).1.published = pg.published ∧
    (Page.appendToBody node pg).1.listeners = pg.listeners ∧
    (Page.appendToBody node pg).1.subscriptions = pg.subscriptions ∧
    (Page.appendToBody node pg).1.clientID = pg.clientID ∧
    (Page.appendToBody node pg).1.href = pg.href ∧
    (Page.appendToBody node pg).1.nextUid = pg.nextUid := by
  unfold Page.appendToBody
  cases updateBody (fun body => body.appendChild node) pg.document with
  | none => exact ⟨rfl, rfl, rfl, rfl, rfl, rfl, rfl, rfl⟩
  | some r => exact ⟨rfl, rfl, rfl, rfl, rfl, rfl, rfl, rfl⟩

/-- What `addStopButton` does: with a body, the stop button is appended to it and its click
listener registered; without one the call raises with only `nextUid` moved on. -/
theorem addStopButton_cases (pg : Page) :
    (∃ document1, updateBody (fun body => body.appendChild (stopButtonElement pg.nextUid))
        pg.document = some document1 ∧
      addStopButton pg = ({ pg with
        nextUid := pg.nextUid + 3, document := document1,
        listeners := registerListener
          (Listener.mk (ListenerTarget.element pg.nextUid) "click" "stopCoBrowse")
          pg.listeners }, none)) ∨
    (updateBody (fun body => body.appendChild (stopButtonElement pg.nextUid)) pg.document = none ∧
      addStopButton pg = ({ pg with nextUid := pg.nextUid + 3 },
        some (JSError.typeError "document.body is null"))) := by
  cases h : updateBody (fun body => body.appendChild (stopButtonElement pg.nextUid))
      pg.document with
  | none =>
    right
    exact ⟨rfl, by simp [addStopButton, Page.appendToBody, h]⟩
  | some document1 =>
    left
    exact ⟨document1, rfl, by simp [addStopButton, Page.appendToBody, h, Page.addEventListener]⟩

/-- C26: out-of-turn calls fail before anything changes. With no element of id `end-button`
in the document `stopCoBrowse` raises and the page is the page before the call; with no
element of id `start-button` the same holds of `startCoBrowse`. -/
theorem out_of_turn_calls_fail (pg : Page) :
    (countIdList "end-button" pg.document.childNodes = 0 →
      stopCoBrowse pg = (pg, some (JSError.typeError "no element with id end-button"))) ∧
    (countIdList "start-button" pg.document.childNodes = 0 →
      startCoBrowse pg = (pg, some (JSError.typeError "no element with id start-button"))) := by
  constructor
  · intro h
    have hrem := removeFirstByIdList_none "end-button" _ h
    simp [stopCoBrowse, andThen, removeStopButton, Page.removeById, hrem]
  · intro h
    have hrem := removeFirstByIdList_none "start-button" _ h
    simp [startCoBrowse, andThen, removeStartButton, Page.removeById, hrem]

theorem out_of_turn_calls_fail_witness :
    countIdList "end-button" (examplePageWith []).document.childNodes = 0 ∧
    stopCoBrowse (examplePageWith []) =
      (examplePageWith [], some (JSError.typeError "no element with id end-button")) ∧
    countIdList "start-button" exampleBarePage.document.childNodes = 0 ∧
    startCoBrowse exampleBarePage =
      (exampleBarePage, some (JSError.typeError "no element with id start-button")) :=
  ⟨by decide, (out_of_turn_calls_fail (examplePageWith [])).1 (by decide),
    by decide, (out_of_turn_calls_fail exampleBarePage).2 (by decide)⟩

/-- C24: entered with `isInitiated` already true, `startCoBrowse` is the button swap and
nothing more: `isInitiated`, `mirrorClient`, the published messages, the subscriptions and
the redaction bookkeeping are as before, the only listener that can be new is the click
listener of the new stop button, and when the swap goes through the page differs from the
page before only by the start button taken out of the document, the stop button appended
to the body, `nextUid` and that listener. -/
theorem startCoBrowse_repeat_entry (pg : Page) (hinit : pg.isInitiated = true) :
    startCoBrowse pg = andThen removeStartButton addStopButton pg ∧
    (startCoBrowse pg).1.isInitiated = true ∧
    (startCoBrowse pg).1.mirrorClient = pg.mirrorClient ∧
    (startCoBrowse pg).1.published = pg.published ∧
    (startCoBrowse pg).1.subscriptions = pg.subscriptions ∧
    (startCoBrowse pg).1.redactedNodeIds = pg.redactedNodeIds ∧
    ((startCoBrowse pg).1.listeners = pg.listeners ∨
      (startCoBrowse pg).1.listeners = registerListener
        (Listener.mk (ListenerTarget.element pg.nextUid) "click" "stopCoBrowse") pg.listeners) ∧
    (removeFirstByIdList "start-button" pg.document.childNodes = none →
      (startCoBrowse pg).1 = pg) ∧
    (∀ removed children1,
      removeFirstByIdList "start-button" pg.document.childNodes = some (removed, children1) →
      (updateBody (fun body => body.appendChild (stopButtonElement pg.nextUid))
          (DomNode.mk pg.document.props children1) = none →
        (startCoBrowse pg).1 = { pg with
          document := DomNode.mk pg.document.props children1,
          detached := pg.detached ++ [removed], nextUid := pg.nextUid + 3 }) ∧
      ∀ document1,
        updateBody (fun body => body.appendChild (stopButtonElement pg.nextUid))
          (DomNode.mk pg.document.props children1) = some document1 →
        startCoBrowse pg = ({ pg with
          document := document1, detached := pg.detached ++ [removed],
          nextUid := pg.nextUid + 3,
          listeners := registerListener
            (Listener.mk (ListenerTarget.element pg.nextUid) "click" "stopCoBrowse")
            pg.listeners }, none)) := by
  cases hrem : removeFirstByIdList "start-button" pg.document.childNodes with
  | none =>
    have hstart : startCoBrowse pg =
        (pg, some (JSError.typeError "no element with id start-button")) := by
      simp [startCoBrowse, andThen, removeStartButton, Page.removeById, hrem]
    have hswap : andThen removeStartButton addStopButton pg =
        (pg, some (JSError.typeError "no element with id start-button")) := by
      simp [andThen, removeStartButton, Page.removeById, hrem]
    rw [hstart, hswap]
    refine ⟨rfl, hinit, rfl, rfl, rfl, rfl, Or.inl rfl, fun _ => rfl, ?_⟩
    intro removed children1 h
    cases h
  | some r =>
    obtain ⟨removed, children1⟩ := r
    have hrm : removeStartButton pg =
        ({ pg with document := DomNode.mk pg.document.props children1,
                   detached := pg.detached ++ [removed] }, none) := by
      simp [removeStartButton, Page.removeById, hrem]
    rcases addStopButton_cases ({ pg with document := DomNode.mk pg.document.props children1,
                                          detached := pg.detached ++ [removed] }) with
      ⟨document1, hbody, hadd⟩ | ⟨hbody, hadd⟩
    · have hstart : startCoBrowse pg = ({ pg with
          document := document1, detached := pg.detached ++ [removed],
          nextUid := pg.nextUid + 3,
          listeners := registerListener
            (Listener.mk (ListenerTarget.element pg.nextUid) "click" "stopCoBrowse")
            pg.listeners }, none) := by
        simp only [startCoBrowse, andThen, hrm, hadd]
        simp only [hinit, if_true]
      have hswap : andThen removeStartButton addStopButton pg = ({ pg with
          document := document1, detached := pg.detached ++ [removed],
          nextUid := pg.nextUid + 3,
          listeners := registerListener
            (Listener.mk (ListenerTarget.element pg.nextUid) "click" "stopCoBrowse")
            pg.listeners }, none) := by
        simp only [andThen, hrm, hadd]
      rw [hstart, hswap]
      refine ⟨rfl, hinit, rfl, rfl, rfl, rfl, Or.inr rfl, (fun h => by cases h), ?_⟩
      intro removed1 children2 h
      obtain ⟨rfl, rfl⟩ : removed = removed1 ∧ children1 = children2 := by
        simpa using h
      refine ⟨fun hnone => ?_, fun document2 hsome => ?_⟩
      · have hbody1 : updateBody (fun body => body.appendChild (stopButtonElement pg.nextUid))
            (DomNode.mk pg.document.props children1) = some document1 := hbody
        rw [hnone] at hbody1
        cases hbody1
      · have hbody1 : updateBody (fun body => body.appendChild (stopButtonElement pg.nextUid))
            (DomNode.mk pg.document.props children1) = some document1 := hbody
        rw [hsome] at hbody1
        obtain rfl : document2 = document1 := Option.some.inj hbody1
        rfl
    · have hstart : startCoBrowse pg = ({ pg with
          document := DomNode.mk pg.document.props children1,
          detached := pg.detached ++ [removed], nextUid := pg.nextUid + 3 },
          some (JSError.typeError "document.body is null")) := by
        simp only [startCoBrowse, andThen, hrm, hadd]
      have hswap : andThen removeStartButton addStopButton pg = ({ pg with
          document := DomNode.mk pg.document.props children1,
          detached := pg.detached ++ [removed], nextUid := pg.nextUid + 3 },
          some (JSError.typeError "document.body is null")) := by
        simp only [andThen, hrm, hadd]
      rw [hstart, hswap]
      refine ⟨rfl, hinit, rfl, rfl, rfl, rfl, Or.inl rfl, (fun h => by cases h), ?_⟩
      intro removed1 children2 h
      obtain ⟨rfl, rfl⟩ : removed = removed1 ∧ children1 = children2 := by
        simpa using h
      refine ⟨fun _ => rfl, fun document2 hsome => ?_⟩
      have hbody1 : updateBody (fun body => body.appendChild (stopButtonElement pg.nextUid))
          (DomNode.mk pg.document.props children1) = none := hbody
      rw [hsome] at hbody1
      cases hbody1

theorem startCoBrowse_repeat_entry_witness :
    ({ examplePageWith [] with isInitiated := true } : Page).isInitiated = true ∧
    startCoBrowse { examplePageWith [] with isInitiated := true } =
      andThen removeStartButton addStopButton
        { examplePageWith [] with isInitiated := true } ∧
    (startCoBrowse { examplePageWith [] with isInitiated := true }).1.isInitiated = true ∧
    (startCoBrowse { examplePageWith [] with isInitiated := true }).1.mirrorClient = none ∧
    (startCoBrowse { examplePageWith [] with isInitiated := true }).1.published = [] :=
  ⟨rfl,
    (startCoBrowse_repeat_entry { examplePageWith [] with isInitiated := true } rfl).1,
    (startCoBrowse_repeat_entry { examplePageWith [] with isInitiated := true } rfl).2.1,
    (startCoBrowse_repeat_entry { examplePageWith [] with isInitiated := true } rfl).2.2.1,
    (startCoBrowse_repeat_entry { examplePageWith [] with isInitiated := true } rfl).2.2.2.1⟩

/-! ## Entering the mirroring state -/

/-- Creating the `TreeMirrorClient` never raises: it publishes the snapshot on `presence`,
records the ids it has redacted and stores a connected client; the document, the listeners
and the subscriptions stay as they are. -/
theorem newTreeMirrorClient_spec (pg : Page) :
    ∃ client rootId children ids1 mapIds1 next1,
      newTreeMirrorClient pg =
        ({ pg with nodeMapIds := mapIds1, nodeMapNextId := next1,
                   published := pg.published ++
                     [(getTopic pg.clientID "presence",
                       PeerMessage.initializeCall rootId children)],
                   redactedNodeIds := ids1,
                   mirrorClient := some client }, none) ∧
      client.connected = true := by
  unfold newTreeMirrorClient
  obtain ⟨root, st1⟩ := serializeNode false pg.document
    (SerialState.mk 1 [] [] pg.nodeMapIds pg.nodeMapNextId)
  simp only
  obtain ⟨children, st2⟩ := serializeList pg.document.childNodes st1
  simp only
  obtain ⟨ids1, children1, hhook⟩ := initializeHook_total
    (Page.toSession { pg with nodeMapIds := st2.mapIds, nodeMapNextId := st2.mapNextId })
    root.id children
  rw [hhook]
  exact ⟨_, root.id, children1, ids1, st2.mapIds, st2.mapNextId, rfl, rfl⟩

theorem appendToBody_of_some (node : DomNode) (pg : Page) (document1 : DomNode)
    (h : updateBody (fun body => body.appendChild node) pg.document = some document1) :
    Page.appendToBody node pg = ({ pg with document := document1 }, none) := by
  simp only [Page.appendToBody, h]

/-- What `startMirroring` does on a page with a body whose address has a base: the page it
leaves, field by field. The body has been through `dfs` and has the agent cursor and the
overlay image appended; five messages have been published, the base first; the three
listeners are registered; a connected mirror client is stored. -/
theorem startMirroring_spec (pg : Page) (base : String) (document3 : DomNode)
    (hbase : baseOf pg.href = some base)
    (hbody : updateBody (fun body => ((dfs body false).appendChild
        (createdElement pg.nextUid "DIV"
          [("id", "agent_cursor"), ("style", "visibility: hidden;")] [])).appendChild
        (createdElement (pg.nextUid + 1) "IMG" [("id", "canvasImg")] []))
      pg.document = some document3) :
    ∃ client rootId children ids1 mapIds1 next1,
      startMirroring pg =
        ({ pg with
            isInitiated := true, document := document3, nextUid := pg.nextUid + 2,
            published := pg.published ++
              [(getTopic pg.clientID "presence", PeerMessage.base base),
               (getTopic pg.clientID "presence", PeerMessage.clear),
               (getTopic pg.clientID "clientScreen",
                 PeerMessage.screen pg.innerHeight pg.innerWidth),
               (getTopic pg.clientID "presence", PeerMessage.initializeCall rootId children),
               (getTopic pg.clientID "presence", PeerMessage.scroll pg.verScroll)],
            listeners := registerListener
              (Listener.mk ListenerTarget.window "resize" "handleResize")
              (registerListener (Listener.mk ListenerTarget.window "scroll" "sendScroll")
                (registerListener
                  (Listener.mk ListenerTarget.document "mousemove" "sendMouseCoordinates")
                  pg.listeners)),
            nodeMapIds := mapIds1, nodeMapNextId := next1, redactedNodeIds := ids1,
            mirrorClient := some client }, none) ∧
      client.connected = true := by
  have hsome2 : (updateBody (fun body => dfs body false) pg.document).isSome = true := by
    rw [updateBody_isSome _ (fun body => ((dfs body false).appendChild
        (createdElement pg.nextUid "DIV"
          [("id", "agent_cursor"), ("style", "visibility: hidden;")] [])).appendChild
        (createdElement (pg.nextUid + 1) "IMG" [("id", "canvasImg")] [])), hbody]
    rfl
  obtain ⟨document2, hd2⟩ := Option.isSome_iff_exists.mp hsome2
  have hcomp1 := updateBody_then (fun body => dfs body false)
    (fun body => body.appendChild (createdElement pg.nextUid "DIV"
          [("id", "agent_cursor"), ("style", "visibility: hidden;")] []))
    pg.document document2 (fun b hb => isBodyElement_dfs b false hb) hd2
  have hsome3 : (updateBody (fun body => body.appendChild (createdElement pg.nextUid "DIV"
          [("id", "agent_cursor"), ("style", "visibility: hidden;")] [])) document2).isSome =
      true := by
    rw [hcomp1, updateBody_isSome _ (fun body => ((dfs body false).appendChild
        (createdElement pg.nextUid "DIV"
          [("id", "agent_cursor"), ("style", "visibility: hidden;")] [])).appendChild
        (createdElement (pg.nextUid + 1) "IMG" [("id", "canvasImg")] [])), hbody]
    rfl
  obtain ⟨document2a, hd2a⟩ := Option.isSome_iff_exists.mp hsome3
  have hcomp2 := updateBody_then
    (fun body => (dfs body false).appendChild (createdElement pg.nextUid "DIV"
          [("id", "agent_cursor"), ("style", "visibility: hidden;")] []))
    (fun body => body.appendChild (createdElement (pg.nextUid + 1) "IMG" [("id", "canvasImg")] []))
    pg.document document2a
    (fun b hb => isBodyElement_appendChild _ _ (isBodyElement_dfs b false hb))
    (by rw [← hcomp1]; exact hd2a)
  have hd3 : updateBody (fun body => body.appendChild
      (createdElement (pg.nextUid + 1) "IMG" [("id", "canvasImg")] [])) document2a =
      some document3 := by
    rw [hcomp2]
    exact hbody
  obtain ⟨client, rootId, children, ids1, mapIds1, next1, hclient, hconn⟩ :=
    newTreeMirrorClient_spec
      ({ pg with
          isInitiated := true, document := document3, nextUid := pg.nextUid + 2,
          published := pg.published ++
            [(getTopic pg.clientID "presence", PeerMessage.base base),
             (getTopic pg.clientID "presence", PeerMessage.clear),
             (getTopic pg.clientID "clientScreen",
               PeerMessage.screen pg.innerHeight pg.innerWidth)],
          listeners := registerListener
            (Listener.mk ListenerTarget.window "resize" "handleResize")
            (registerListener (Listener.mk ListenerTarget.window "scroll" "sendScroll")
              (registerListener
                (Listener.mk ListenerTarget.document "mousemove" "sendMouseCoordinates")
                pg.listeners)) })
  refine ⟨client, rootId, children, ids1, mapIds1, next1, ?_, hconn⟩
  unfold startMirroring
  simp only [hbase, Page.peerDataSend, hd2, andThen, Page.appendToBody, hd2a, hd3,
    sendDimensions, Page.addEventListener, List.append_assoc, List.singleton_append,
    List.cons_append, List.nil_append]
  simp only [List.append_assoc, List.singleton_append, List.cons_append, List.nil_append]
    at hclient
  rw [hclient]
  simp
/-! ## The base address -/

theorem throughLastSlash_none : ∀ l : List Char, '/' ∉ l → throughLastSlash l = none
  | [], _ => rfl
  | c :: rest, h => by
    have hc : c ≠ '/' := fun hc => h (by simp [hc])
    have hrest : '/' ∉ rest := fun hr => h (List.mem_cons_of_mem _ hr)
    simp [throughLastSlash, throughLastSlash_none rest hrest, hc]

theorem throughLastSlash_spec : ∀ l : List Char, '/' ∈ l →
    ∃ b tail, throughLastSlash l = some b ∧ l = b ++ tail ∧ '/' ∉ tail ∧
      b.getLast? = some '/'
  | [], h => by simp at h
  | c :: rest, h => by
    by_cases hrest : '/' ∈ rest
    · obtain ⟨b, tail, hb, hsplit, htail, hlast⟩ := throughLastSlash_spec rest hrest
      refine ⟨c :: b, tail, by simp [throughLastSlash, hb], by simp [hsplit], htail, ?_⟩
      cases b with
      | nil => simp at hlast
      | cons x xs => simpa [List.getLast?_cons_cons] using hlast
    · have hc : c = '/' := by
        rcases List.mem_cons.mp h with h1 | h1
        · exact h1.symm
        · exact absurd h1 hrest
      refine ⟨[c], rest, by simp [throughLastSlash, throughLastSlash_none rest hrest, hc],
        rfl, hrest, by simp [hc]⟩

theorem baseOf_of_slash (href : String) (hslash : '/' ∈ href.data)
    (hline : ∀ c ∈ href.data, isLineTerminator c = false) :
    ∃ base tail : String, baseOf href = some base ∧ href = base ++ tail ∧ '/' ∉ tail.data ∧
      base.data.getLast? = some '/' := by
  obtain ⟨b, tail, hb, hsplit, htail, hlast⟩ := throughLastSlash_spec href.data hslash
  have hall : b.all (fun c => !isLineTerminator c) = true := by
    rw [List.all_eq_true]
    intro c hc
    have := hline c (by rw [hsplit]; exact List.mem_append_left _ hc)
    simp [this]
  refine ⟨String.mk b, String.mk tail, by simp [baseOf, hb, hall], ?_, htail, hlast⟩
  apply String.ext
  rw [String.data_append]
  exact hsplit

/-- The messages `startMirroring` publishes start with the base. -/
theorem startMirroring_publishes_base (pg : Page) (base : String)
    (hbase : baseOf pg.href = some base) :
    ∃ rest, (startMirroring pg).1.published =
      pg.published ++ (getTopic pg.clientID "presence", PeerMessage.base base) :: rest := by
  cases hbody : updateBody (fun body => ((dfs body false).appendChild
        (createdElement pg.nextUid "DIV"
          [("id", "agent_cursor"), ("style", "visibility: hidden;")] [])).appendChild
        (createdElement (pg.nextUid + 1) "IMG" [("id", "canvasImg")] []))
      pg.document with
  | some document3 =>
    obtain ⟨client, rootId, children, ids1, mapIds1, next1, h, _⟩ :=
      startMirroring_spec pg base document3 hbase hbody
    rw [h]
    exact ⟨_, rfl⟩
  | none =>
    have hnone : updateBody (fun body => dfs body false) pg.document = none := by
      have := updateBody_isSome (fun body => dfs body false) (fun body =>
        ((dfs body false).appendChild
        (createdElement pg.nextUid "DIV"
          [("id", "agent_cursor"), ("style", "visibility: hidden;")] [])).appendChild
        (createdElement (pg.nextUid + 1) "IMG" [("id", "canvasImg")] [])) pg.document
      rw [hbody] at this
      cases h : updateBody (fun body => dfs body false) pg.document with
      | none => rfl
      | some d => rw [h] at this; cases this
    refine ⟨[], ?_⟩
    unfold startMirroring
    simp only [hbase, Page.peerDataSend, hnone]

/-- C27: for an address with a `/` in it (and, as in every serialized URL, no line
terminator) the first group of the match is the part of the address up to and including
its last `/`: the address is that base followed by a tail without `/`. It is the value of
the `{ base }` message, the first message `startCoBrowse` publishes on `presence` once the
button swap has gone through on a page that is not yet initiated. -/
theorem base_is_href_through_last_slash (href : String) (hslash : '/' ∈ href.data)
    (hline : ∀ c ∈ href.data, isLineTerminator c = false) :
    ∃ base tail : String, baseOf href = some base ∧ href = base ++ tail ∧ '/' ∉ tail.data ∧
      base.data.getLast? = some '/' ∧
      ∀ pg : Page, pg.href = href → pg.isInitiated = false →
        ∀ pg2, andThen removeStartButton addStopButton pg = (pg2, none) →
        ∃ rest, (startCoBrowse pg).1.published =
          pg.published ++ (getTopic pg.clientID "presence", PeerMessage.base base) :: rest := by
  obtain ⟨base, tail, hbase, hsplit, htail, hlast⟩ := baseOf_of_slash href hslash hline
  refine ⟨base, tail, hbase, hsplit, htail, hlast, ?_⟩
  intro pg hhref hinit pg2 hswap
  have hrm := removeById_fields "start-button" pg
  cases hr : removeStartButton pg with
  | mk pg1 e1 =>
    have hr1 : Page.removeById "start-button" pg = (pg1, e1) := hr
    rw [hr1] at hrm
    cases e1 with
    | some e => simp [andThen, hr] at hswap
    | none =>
      have hswap1 : addStopButton pg1 = (pg2, none) := by
        simpa [andThen, hr] using hswap
      have hfields : pg2.isInitiated = pg1.isInitiated ∧ pg2.published = pg1.published ∧
          pg2.clientID = pg1.clientID ∧ pg2.href = pg1.href := by
        rcases addStopButton_cases pg1 with ⟨d, _, hadd⟩ | ⟨_, hadd⟩
        · rw [hadd] at hswap1
          obtain rfl := (Prod.mk.inj hswap1).1
          exact ⟨rfl, rfl, rfl, rfl⟩
        · rw [hadd] at hswap1
          cases (Prod.mk.inj hswap1).2
      obtain ⟨hi1, _, hp1, _, _, hc1, hh1, _⟩ := hrm
      obtain ⟨hi2, hp2, hc2, hh2⟩ := hfields
      have hstart : startCoBrowse pg = startMirroring pg2 := by
        have hfalse : pg2.isInitiated = false := by
          rw [hi2]
          exact hi1.trans hinit
        simp only [startCoBrowse, andThen, hr, hswap1, hfalse]
        simp
      have hbase2 : baseOf pg2.href = some base := by
        rw [hh2]
        have : pg1.href = pg.href := hh1
        rw [this, hhref]
        exact hbase
      obtain ⟨rest, hrest⟩ := startMirroring_publishes_base pg2 base hbase2
      refine ⟨rest, ?_⟩
      rw [hstart, hrest, hp2, hc2]
      have hp : pg1.published = pg.published := hp1
      have hc : pg1.clientID = pg.clientID := hc1
      rw [hp, hc]

theorem base_is_href_through_last_slash_witness :
    ∃ base tail : String, baseOf "https://shop.example/cart/index.html" = some base ∧
      "https://shop.example/cart/index.html" = base ++ tail ∧ '/' ∉ tail.data ∧
      base.data.getLast? = some '/' ∧
      ∀ pg : Page, pg.href = "https://shop.example/cart/index.html" →
        pg.isInitiated = false →
        ∀ pg2, andThen removeStartButton addStopButton pg = (pg2, none) →
        ∃ rest, (startCoBrowse pg).1.published =
          pg.published ++ (getTopic pg.clientID "presence", PeerMessage.base base) :: rest :=
  base_is_href_through_last_slash "https://shop.example/cart/index.html" (by decide)
    (by decide)

/-- The base of the example address. -/
theorem baseOf_example :
    baseOf "https://shop.example/cart/index.html" = some "https://shop.example/cart/" := by
  decide

/-! ## Counting and removing elements by id -/

mutual
theorem removeFirstById_count (id id2 : String) :
    ∀ (n r : DomNode) (left : Option DomNode), removeFirstById id n = some (r, left) →
      r.props.hasId id = true ∧
      countId id2 n = countId id2 r + (match left with
        | none => 0
        | some n1 => countId id2 n1)
  | DomNode.mk props children, r, left, h => by
    rw [removeFirstById] at h
    by_cases hid : props.hasId id = true
    · simp only [hid, if_true, Option.some.injEq, Prod.mk.injEq] at h
      obtain ⟨rfl, rfl⟩ := h
      exact ⟨hid, by simp⟩
    · simp only [hid] at h
      cases hl : removeFirstByIdList id children with
      | none => simp [hl] at h
      | some rl =>
        obtain ⟨r1, children1⟩ := rl
        simp only [hl, Bool.false_eq_true, if_false, Option.some.injEq, Prod.mk.injEq] at h
        obtain ⟨rfl, rfl⟩ := h
        obtain ⟨hr, hcount⟩ := removeFirstByIdList_count id id2 children r1 children1 hl
        refine ⟨hr, ?_⟩
        simp only [countId, hcount]
        omega
theorem removeFirstByIdList_count (id id2 : String) :
    ∀ (l : List DomNode) (r : DomNode) (l1 : List DomNode),
      removeFirstByIdList id l = some (r, l1) →
      r.props.hasId id = true ∧ countIdList id2 l = countId id2 r + countIdList id2 l1
  | [], r, l1, h => by simp [removeFirstByIdList] at h
  | n :: rest, r, l1, h => by
    rw [removeFirstByIdList] at h
    cases hn : removeFirstById id n with
    | some rn =>
      obtain ⟨r1, left⟩ := rn
      obtain ⟨hr, hcount⟩ := removeFirstById_count id id2 n r1 left hn
      cases left with
      | none =>
        simp only [hn, Option.some.injEq, Prod.mk.injEq] at h
        obtain ⟨rfl, rfl⟩ := h
        refine ⟨hr, ?_⟩
        simp only [countIdList, hcount]
        omega
      | some n1 =>
        simp only [hn, Option.some.injEq, Prod.mk.injEq] at h
        obtain ⟨rfl, rfl⟩ := h
        refine ⟨hr, ?_⟩
        simp only [countIdList, hcount]
        omega
    | none =>
      simp only [hn] at h
      cases hl : removeFirstByIdList id rest with
      | none => simp [hl] at h
      | some rl =>
        obtain ⟨r1, rest1⟩ := rl
        simp only [hl, Option.some.injEq, Prod.mk.injEq] at h
        obtain ⟨rfl, rfl⟩ := h
        obtain ⟨hr, hcount⟩ := removeFirstByIdList_count id id2 rest r1 rest1 hl
        refine ⟨hr, ?_⟩
        simp only [countIdList, hcount]
        omega
end

theorem countId_pos_of_hasId (id : String) (n : DomNode) (h : n.props.hasId id = true) :
    1 ≤ countId id n := by
  obtain ⟨props, children⟩ := n
  have h1 : props.hasId id = true := h
  rw [countId]
  simp [h1]

mutual
theorem countId_of_none (id : String) :
    ∀ n : DomNode, removeFirstById id n = none → countId id n = 0
  | DomNode.mk props children, h => by
    rw [removeFirstById] at h
    by_cases hid : props.hasId id = true
    · simp [hid] at h
    · cases hl : removeFirstByIdList id children with
      | some rl => simp [hid, hl] at h
      | none =>
        rw [countId, countIdList_of_none id children hl]
        simp [hid]
theorem countIdList_of_none (id : String) :
    ∀ l : List DomNode, removeFirstByIdList id l = none → countIdList id l = 0
  | [], _ => by rw [countIdList]
  | n :: rest, h => by
    rw [removeFirstByIdList] at h
    cases hn : removeFirstById id n with
    | some rn =>
      obtain ⟨r1, left⟩ := rn
      cases left with
      | none => simp [hn] at h
      | some n1 => simp [hn] at h
    | none =>
      cases hl : removeFirstByIdList id rest with
      | some rl => simp [hn, hl] at h
      | none =>
        rw [countIdList, countId_of_none id n hn, countIdList_of_none id rest hl]
end

theorem removeFirstByIdList_isSome (id : String) (l : List DomNode)
    (h : 0 < countIdList id l) : ∃ r l1, removeFirstByIdList id l = some (r, l1) := by
  cases hl : removeFirstByIdList id l with
  | some rl => exact ⟨rl.1, rl.2, rfl⟩
  | none =>
    have := countIdList_of_none id l hl
    omega

/-- Removal of the first match from a list whose first match is a sibling that follows
subtrees without any match. -/
theorem removeFirstByIdList_after (id : String) (c : DomNode) (rest : List DomNode)
    (hc : c.props.hasId id = true) :
    ∀ l : List DomNode, countIdList id l = 0 →
      removeFirstByIdList id (l ++ c :: rest) = some (c, l ++ rest)
  | [], _ => by
    obtain ⟨props, children⟩ := c
    have hc1 : props.hasId id = true := hc
    simp [removeFirstByIdList, removeFirstById, hc1]
  | n :: l, h => by
    rw [countIdList] at h
    have hn := removeFirstById_none id n (by omega)
    have hl := removeFirstByIdList_after id c rest hc l (by omega)
    rw [List.cons_append, removeFirstByIdList, hn, hl]
    rfl

theorem countIdList_append (id : String) :
    ∀ l k : List DomNode, countIdList id (l ++ k) = countIdList id l + countIdList id k
  | [], k => by simp [countIdList]
  | n :: l, k => by
    rw [List.cons_append, countIdList, countIdList, countIdList_append id l k]
    omega

theorem hasId_markRedacted (props : NodeProps) (id : String) :
    (markRedacted props).hasId id = props.hasId id := by
  have h1 : ("data-height" : String) ≠ "id" := by decide
  have h2 : ("data-width" : String) ≠ "id" := by decide
  have h3 : redactedAttribute ≠ "id" := by decide
  have hk := (markRedacted_spec props).2.2.2.2.1
  unfold NodeProps.hasId
  rw [hk]
  unfold markRedacted
  rw [NodeProps.attributeValue_setAttribute_other _ _ _ _ h3,
    NodeProps.attributeValue_setAttribute_other _ _ _ _ h2,
    NodeProps.attributeValue_setAttribute_other _ _ _ _ h1]

mutual
theorem countId_dfs (id : String) :
    ∀ (n : DomNode) (f : Bool), countId id (dfs n f) = countId id n
  | DomNode.mk props children, f => by
    rw [dfs]
    split
    · rw [countId, countId, hasId_markRedacted, countIdList_dfsChildren id children true]
    · rw [countId, countId, countIdList_dfsChildren id children f]
theorem countIdList_dfsChildren (id : String) :
    ∀ (l : List DomNode) (f : Bool), countIdList id (dfsChildren l f) = countIdList id l
  | [], f => by rw [dfsChildren]
  | n :: rest, f => by
    rw [dfsChildren, countIdList, countIdList, countId_dfs id n f,
      countIdList_dfsChildren id rest f]
end

/-! ## Removal and counting through `document.body` -/

theorem removeFirst_updateFirst (id : String) (pred : DomNode → Bool)
    (F G : DomNode → Option DomNode)
    (H : ∀ n n1, pred n = true → countId id n = 0 → F n = some n1 →
      ∃ r n2, G n = some n2 ∧ removeFirstById id n1 = some (r, some n2)) :
    ∀ l l1 : List DomNode, countIdList id l = 0 → updateFirst pred F l = some l1 →
      ∃ r l2, updateFirst pred G l = some l2 ∧ removeFirstByIdList id l1 = some (r, l2)
  | [], l1, _, h => by simp [updateFirst] at h
  | n :: rest, l1, h0, h => by
    rw [countIdList] at h0
    rw [updateFirst] at h
    by_cases hp : pred n = true
    · simp only [hp, if_true] at h
      cases hF : F n with
      | none => simp [hF] at h
      | some n1 =>
        simp only [hF, Option.map_some', Option.some.injEq] at h
        subst h
        obtain ⟨r, n2, hG, hrem⟩ := H n n1 hp (by omega) hF
        refine ⟨r, n2 :: rest, ?_, ?_⟩
        · simp [updateFirst, hp, hG]
        · rw [removeFirstByIdList, hrem]
    · simp only [hp] at h
      cases hU : updateFirst pred F rest with
      | none => simp [hU] at h
      | some rest1 =>
        simp only [hU, Bool.false_eq_true, if_false, Option.map_some', Option.some.injEq] at h
        subst h
        obtain ⟨r, rest2, hG, hrem⟩ :=
          removeFirst_updateFirst id pred F G H rest rest1 (by omega) hU
        refine ⟨r, n :: rest2, ?_, ?_⟩
        · simp [updateFirst, hp, hG]
        · rw [removeFirstByIdList, removeFirstById_none id n (by omega), hrem]

/-- Taking the first element with the given id out of a document whose body has been
changed by `f`: when the document had no such element before and `f` is `g` plus one
subtree with that id put where the first match is found, what is left is the document with
its body changed by `g`. -/
theorem removeFirst_updateBody (id : String) (f g : DomNode → DomNode)
    (H : ∀ b, isBodyElement b = true → countId id b = 0 →
      ∃ r, removeFirstById id (f b) = some (r, some (g b)))
    (document d1 : DomNode) (h0 : countIdList id document.childNodes = 0)
    (h : updateBody f document = some d1) :
    ∃ r d2, updateBody g document = some d2 ∧
      removeFirstByIdList id d1.childNodes = some (r, d2.childNodes) ∧
      d2.props = d1.props := by
  have hinner : ∀ html html1, isElementNode html = true → countId id html = 0 →
      updateHtml f html = some html1 →
      ∃ r html2, updateHtml g html = some html2 ∧
        removeFirstById id html1 = some (r, some html2) := by
    intro html html1 _ hcount hupd
    obtain ⟨hprops, hchildren⟩ := html
    rw [countId] at hcount
    have hid : hprops.hasId id = false := by
      by_contra hc
      simp only [Bool.not_eq_false] at hc
      simp [hc] at hcount
    unfold updateHtml at hupd ⊢
    simp only [DomNode.props, DomNode.childNodes] at hupd ⊢
    by_cases htag : hprops.tagName = "HTML"
    · simp only [htag, if_true] at hupd ⊢
      cases hU : updateFirst isBodyElement (fun body => some (f body)) hchildren with
      | none => simp [hU] at hupd
      | some l1 =>
        simp only [hU, Option.map_some', Option.some.injEq] at hupd
        subst hupd
        obtain ⟨r, l2, hG, hrem⟩ := removeFirst_updateFirst id isBodyElement
          (fun body => some (f body)) (fun body => some (g body))
          (fun n n1 hp hc hF => by
            obtain rfl : f n = n1 := Option.some.inj hF
            obtain ⟨r, hr⟩ := H n hp hc
            exact ⟨r, g n, rfl, hr⟩)
          hchildren l1 (by omega) hU
        refine ⟨r, DomNode.mk hprops l2, by simp [hG], ?_⟩
        rw [removeFirstById]
        simp [hid, hrem]
    · simp [htag] at hupd
  unfold updateBody at h ⊢
  cases hU : updateFirst isElementNode (updateHtml f) document.childNodes with
  | none => simp [hU] at h
  | some l1 =>
    simp only [hU, Option.map_some', Option.some.injEq] at h
    subst h
    obtain ⟨r, l2, hG, hrem⟩ := removeFirst_updateFirst id isElementNode (updateHtml f)
      (updateHtml g) hinner document.childNodes l1 h0 hU
    exact ⟨r, DomNode.mk document.props l2, by simp [hG], hrem, rfl⟩

theorem countIdList_updateFirst (id : String) (k : Nat) (pred : DomNode → Bool)
    (F : DomNode → Option DomNode)
    (H : ∀ n n1, pred n = true → F n = some n1 → countId id n1 = countId id n + k) :
    ∀ l l1 : List DomNode, updateFirst pred F l = some l1 →
      countIdList id l1 = countIdList id l + k
  | [], l1, h => by simp [updateFirst] at h
  | n :: rest, l1, h => by
    rw [updateFirst] at h
    by_cases hp : pred n = true
    · simp only [hp, if_true] at h
      cases hF : F n with
      | none => simp [hF] at h
      | some n1 =>
        simp only [hF, Option.map_some', Option.some.injEq] at h
        subst h
        rw [countIdList, countIdList, H n n1 hp hF]
        omega
    · simp only [hp] at h
      cases hU : updateFirst pred F rest with
      | none => simp [hU] at h
      | some rest1 =>
        simp only [hU, Bool.false_eq_true, if_false, Option.map_some', Option.some.injEq] at h
        subst h
        rw [countIdList, countIdList,
          countIdList_updateFirst id k pred F H rest rest1 hU]
        omega

/-- The number of elements with an id after a change of the body that adds `k` of them. -/
theorem countIdList_updateBody (id : String) (k : Nat) (f : DomNode → DomNode)
    (H : ∀ b, isBodyElement b = true → countId id (f b) = countId id b + k)
    (document d1 : DomNode) (h : updateBody f document = some d1) :
    countIdList id d1.childNodes = countIdList id document.childNodes + k := by
  have hinner : ∀ html html1, isElementNode html = true → updateHtml f html = some html1 →
      countId id html1 = countId id html + k := by
    intro html html1 _ hupd
    obtain ⟨hprops, hchildren⟩ := html
    unfold updateHtml at hupd
    simp only [DomNode.props, DomNode.childNodes] at hupd
    by_cases htag : hprops.tagName = "HTML"
    · simp only [htag, if_true] at hupd
      cases hU : updateFirst isBodyElement (fun body => some (f body)) hchildren with
      | none => simp [hU] at hupd
      | some l1 =>
        simp only [hU, Option.map_some', Option.some.injEq] at hupd
        subst hupd
        have := countIdList_updateFirst id k isBodyElement (fun body => some (f body))
          (fun n n1 hp hF => by
            obtain rfl : f n = n1 := Option.some.inj hF
            exact H n hp)
          hchildren l1 hU
        rw [countId, countId, this]
        omega
    · simp [htag] at hupd
  unfold updateBody at h
  cases hU : updateFirst isElementNode (updateHtml f) document.childNodes with
  | none => simp [hU] at h
  | some l1 =>
    simp only [hU, Option.map_some', Option.some.injEq] at h
    subst h
    exact countIdList_updateFirst id k isElementNode (updateHtml f) hinner
      document.childNodes l1 hU

/-! ## The body during a session -/

theorem DomNode.eta (n : DomNode) : DomNode.mk n.props n.childNodes = n := by
  cases n
  rfl

theorem withAppended_nil (b : DomNode) : withAppended b [] = dfs b false := by
  simp [withAppended, DomNode.eta]

theorem appendChild_withAppended (b c : DomNode) (extra : List DomNode) :
    (withAppended b extra).appendChild c = withAppended b (extra ++ [c]) := by
  simp [withAppended, DomNode.appendChild, DomNode.props, DomNode.childNodes]

theorem dfs_appendChild (b s : DomNode) :
    dfs (b.appendChild s) false =
      withAppended b [dfs s (dfsRedacts b.props false || false)] := by
  obtain ⟨p, kids⟩ := b
  by_cases hr : dfsRedacts p false = true
  · simp [withAppended, dfs, DomNode.appendChild, hr, dfsChildren_eq_map, DomNode.props,
      DomNode.childNodes]
  · simp [withAppended, dfs, DomNode.appendChild, hr, dfsChildren_eq_map, DomNode.props,
      DomNode.childNodes]

theorem isBodyElement_withAppended (b : DomNode) (extra : List DomNode)
    (h : isBodyElement b = true) : isBodyElement (withAppended b extra) = true := by
  have := isBodyElement_dfs b false h
  unfold isBodyElement at this ⊢
  exact this

theorem countId_withAppended (id : String) (b : DomNode) (extra : List DomNode) :
    countId id (withAppended b extra) = countId id b + countIdList id extra := by
  have h := countId_dfs id b false
  rw [← DomNode.eta (dfs b false), countId] at h
  rw [withAppended, countId, countIdList_append]
  omega

theorem removeFirstById_withAppended (id : String) (b c : DomNode) (post : List DomNode)
    (hb : countId id b = 0) (hc : c.props.hasId id = true) :
    removeFirstById id (withAppended b (c :: post)) = some (c, some (withAppended b post)) := by
  have h := countId_dfs id b false
  rw [← DomNode.eta (dfs b false), countId, hb] at h
  have hid : (dfs b false).props.hasId id = false := by
    by_contra hcon
    simp only [Bool.not_eq_false] at hcon
    simp [hcon] at h
  rw [withAppended, removeFirstById]
  simp only [hid, Bool.false_eq_true, if_false]
  rw [removeFirstByIdList_after id c post hc _ (by omega)]
  rfl

theorem removeById_of_some (id : String) (pg : Page) (r : DomNode) (d2 : DomNode)
    (h : removeFirstByIdList id pg.document.childNodes = some (r, d2.childNodes))
    (hprops : d2.props = pg.document.props) :
    Page.removeById id pg = ({ pg with document := d2, detached := pg.detached ++ [r] }, none) := by
  simp only [Page.removeById, h, ← hprops, DomNode.eta]

theorem addStartButton_of_some (pg : Page) (document1 : DomNode)
    (h : updateBody (fun body => body.appendChild (startButtonElement pg.nextUid))
      pg.document = some document1) :
    addStartButton pg = ({ pg with
      nextUid := pg.nextUid + 3, document := document1,
      listeners := registerListener
        (Listener.mk (ListenerTarget.element pg.nextUid) "click" "initiateCoBrowse")
        pg.listeners }, none) := by
  simp [addStartButton, Page.appendToBody, h, Page.addEventListener]

/-- What `stopCoBrowse` does on a page as `startCoBrowse` leaves it: the body holds, after
its own children, the stop button, the agent cursor and the overlay image, no other element
has one of their ids, and a mirror client is stored. -/
theorem stopCoBrowse_spec (pgS : Page) (doc1 : DomNode) (sOf : DomNode → DomNode)
    (c i : DomNode) (client : MirrorClient)
    (hs : ∀ b, (sOf b).props.hasId "end-button" = true)
    (hc : c.props.hasId "agent_cursor" = true) (hi : i.props.hasId "canvasImg" = true)
    (hend : countIdList "end-button" doc1.childNodes = 0)
    (hcur : countIdList "agent_cursor" doc1.childNodes = 0)
    (himg : countIdList "canvasImg" doc1.childNodes = 0)
    (hdoc : updateBody (fun b => withAppended b [sOf b, c, i]) doc1 = some pgS.document)
    (hmc : pgS.mirrorClient = some client) :
    ∃ r1 r2 r3 d5,
      updateBody (fun b => withAppended b [startButtonElement pgS.nextUid]) doc1 = some d5 ∧
      stopCoBrowse pgS = ({ pgS with
        document := d5, detached := pgS.detached ++ [r1] ++ [r2] ++ [r3],
        nextUid := pgS.nextUid + 3, isInitiated := false,
        mirrorClient := some { client with connected := false },
        published := pgS.published ++
          [(getTopic pgS.clientID "presence", PeerMessage.disconnect)],
        listeners := (((registerListener
            (Listener.mk (ListenerTarget.element pgS.nextUid) "click" "initiateCoBrowse")
            pgS.listeners).filter
              (fun x => x ≠ Listener.mk ListenerTarget.document "mousemove"
                "sendMouseCoordinates")).filter
              (fun x => x ≠ Listener.mk ListenerTarget.window "scroll" "sendScroll")).filter
              (fun x => x ≠ Listener.mk ListenerTarget.window "resize" "sendDimensions"),
        subscriptions := ((pgS.subscriptions.filter
            (fun x => x ≠ getTopic pgS.clientID "initializeCobrowsing")).filter
            (fun x => x ≠ getTopic pgS.clientID "canvasToClient")).filter
            (fun x => x ≠ getTopic pgS.clientID "cursorToClient") }, none) := by
  -- the stop button goes
  obtain ⟨r1, d2, hd2, hrem1, hprops1⟩ := removeFirst_updateBody "end-button"
    (fun b => withAppended b [sOf b, c, i]) (fun b => withAppended b [c, i])
    (fun b _ hb => ⟨sOf b, removeFirstById_withAppended "end-button" b (sOf b) [c, i] hb (hs b)⟩)
    doc1 pgS.document hend hdoc
  have h1 := removeById_of_some "end-button" pgS r1 d2 hrem1 hprops1
  -- the start button comes
  have hthen2 := updateBody_then (fun b => withAppended b [c, i])
    (fun body => body.appendChild (startButtonElement pgS.nextUid)) doc1 d2
    (fun b hb => isBodyElement_withAppended b _ hb) hd2
  have hfun2 : (fun b => (withAppended b [c, i]).appendChild (startButtonElement pgS.nextUid)) =
      fun b => withAppended b [c, i, startButtonElement pgS.nextUid] := by
    funext b
    rw [appendChild_withAppended]
    rfl
  rw [hfun2] at hthen2
  have hsome3 : (updateBody (fun b => withAppended b [c, i, startButtonElement pgS.nextUid])
      doc1).isSome = true := by
    rw [updateBody_isSome _ (fun b => withAppended b [sOf b, c, i]), hdoc]
    rfl
  obtain ⟨d3, hd3⟩ := Option.isSome_iff_exists.mp hsome3
  have h2 := addStartButton_of_some
    ({ pgS with document := d2, detached := pgS.detached ++ [r1] }) d3
    (by rw [← hd3]; exact hthen2)
  -- the agent cursor goes
  obtain ⟨r2, d4, hd4, hrem2, hprops2⟩ := removeFirst_updateBody "agent_cursor"
    (fun b => withAppended b [c, i, startButtonElement pgS.nextUid])
    (fun b => withAppended b [i, startButtonElement pgS.nextUid])
    (fun b _ hb => ⟨c, removeFirstById_withAppended "agent_cursor" b c _ hb hc⟩)
    doc1 d3 hcur hd3
  -- the overlay image goes
  obtain ⟨r3, d5, hd5, hrem3, hprops3⟩ := removeFirst_updateBody "canvasImg"
    (fun b => withAppended b [i, startButtonElement pgS.nextUid])
    (fun b => withAppended b [startButtonElement pgS.nextUid])
    (fun b _ hb => ⟨i, removeFirstById_withAppended "canvasImg" b i _ hb hi⟩)
    doc1 d4 himg hd4
  refine ⟨r1, r2, r3, d5, hd5, ?_⟩
  have hrm1 : removeStopButton pgS =
      ({ pgS with document := d2, detached := pgS.detached ++ [r1] }, none) := h1
  simp only [stopCoBrowse, andThen, hrm1, h2]
  simp only [disconnectMirror, hmc, Page.peerDataSend, Page.removeEventListener,
    Page.unsubscribe]
  have h3 := removeById_of_some "agent_cursor"
    ({ pgS with
        document := d3, detached := pgS.detached ++ [r1], nextUid := pgS.nextUid + 3,
        isInitiated := false, mirrorClient := some { client with connected := false },
        published := pgS.published ++
          [(getTopic pgS.clientID "presence", PeerMessage.disconnect)],
        listeners := (((registerListener
            (Listener.mk (ListenerTarget.element pgS.nextUid) "click" "initiateCoBrowse")
            pgS.listeners).filter
              (fun x => x ≠ Listener.mk ListenerTarget.document "mousemove"
                "sendMouseCoordinates")).filter
              (fun x => x ≠ Listener.mk ListenerTarget.window "scroll" "sendScroll")).filter
              (fun x => x ≠ Listener.mk ListenerTarget.window "resize" "sendDimensions") })
    r2 d4 hrem2 hprops2
  have h4 := removeById_of_some "canvasImg"
    ({ pgS with
        document := d4, detached := pgS.detached ++ [r1] ++ [r2], nextUid := pgS.nextUid + 3,
        isInitiated := false, mirrorClient := some { client with connected := false },
        published := pgS.published ++
          [(getTopic pgS.clientID "presence", PeerMessage.disconnect)],
        listeners := (((registerListener
            (Listener.mk (ListenerTarget.element pgS.nextUid) "click" "initiateCoBrowse")
            pgS.listeners).filter
              (fun x => x ≠ Listener.mk ListenerTarget.document "mousemove"
                "sendMouseCoordinates")).filter
              (fun x => x ≠ Listener.mk ListenerTarget.window "scroll" "sendScroll")).filter
              (fun x => x ≠ Listener.mk ListenerTarget.window "resize" "sendDimensions") })
    r3 d5 hrem3 hprops3
  simp only [] at h3 h4
  rw [h3]
  simp only []
  rw [h4]


theorem addStopButton_of_some (pg : Page) (document1 : DomNode)
    (h : updateBody (fun body => body.appendChild (stopButtonElement pg.nextUid))
      pg.document = some document1) :
    addStopButton pg = ({ pg with
      nextUid := pg.nextUid + 3, document := document1,
      listeners := registerListener
        (Listener.mk (ListenerTarget.element pg.nextUid) "click" "stopCoBrowse")
        pg.listeners }, none) := by
  simp [addStopButton, Page.appendToBody, h, Page.addEventListener]

/-- What `startCoBrowse` does on a page that is not initiated, has a start button and,
once that button is taken out, still a body: the page it leaves, field by field. -/
theorem startCoBrowse_spec (pg : Page) (base : String) (removed : DomNode)
    (children1 : List DomNode) (hinit : pg.isInitiated = false)
    (hbase : baseOf pg.href = some base)
    (hrem : removeFirstByIdList "start-button" pg.document.childNodes =
      some (removed, children1))
    (hbody : (updateBody (fun b => b) (DomNode.mk pg.document.props children1)).isSome = true) :
    ∃ document3 client rootId children ids1 mapIds1 next1,
      updateBody (fun b => withAppended b
          [dfs (stopButtonElement pg.nextUid) (dfsRedacts b.props false || false),
           createdElement (pg.nextUid + 3) "DIV"
             [("id", "agent_cursor"), ("style", "visibility: hidden;")] [],
           createdElement (pg.nextUid + 3 + 1) "IMG" [("id", "canvasImg")] []])
        (DomNode.mk pg.document.props children1) = some document3 ∧
      startCoBrowse pg =
        ({ pg with
            document := document3, detached := pg.detached ++ [removed],
            nextUid := pg.nextUid + 3 + 2, isInitiated := true,
            published := pg.published ++
              [(getTopic pg.clientID "presence", PeerMessage.base base),
               (getTopic pg.clientID "presence", PeerMessage.clear),
               (getTopic pg.clientID "clientScreen",
                 PeerMessage.screen pg.innerHeight pg.innerWidth),
               (getTopic pg.clientID "presence", PeerMessage.initializeCall rootId children),
               (getTopic pg.clientID "presence", PeerMessage.scroll pg.verScroll)],
            listeners := registerListener
              (Listener.mk ListenerTarget.window "resize" "handleResize")
              (registerListener (Listener.mk ListenerTarget.window "scroll" "sendScroll")
                (registerListener
                  (Listener.mk ListenerTarget.document "mousemove" "sendMouseCoordinates")
                  (registerListener
                    (Listener.mk (ListenerTarget.element pg.nextUid) "click" "stopCoBrowse")
                    pg.listeners))),
            nodeMapIds := mapIds1, nodeMapNextId := next1, redactedNodeIds := ids1,
            mirrorClient := some client }, none) ∧
      client.connected = true := by
  have hrm : removeStartButton pg =
      ({ pg with document := DomNode.mk pg.document.props children1,
                 detached := pg.detached ++ [removed] }, none) := by
    simp [removeStartButton, Page.removeById, hrem]
  have hsomeA : (updateBody (fun body => body.appendChild (stopButtonElement pg.nextUid))
      (DomNode.mk pg.document.props children1)).isSome = true := by
    rw [updateBody_isSome _ (fun b => b), hbody]
  obtain ⟨dA, hdA⟩ := Option.isSome_iff_exists.mp hsomeA
  have hadd := addStopButton_of_some
    ({ pg with document := DomNode.mk pg.document.props children1,
               detached := pg.detached ++ [removed] }) dA hdA
  have hthen := updateBody_then
    (fun body => body.appendChild (stopButtonElement pg.nextUid))
    (fun body => ((dfs body false).appendChild
        (createdElement (pg.nextUid + 3) "DIV"
          [("id", "agent_cursor"), ("style", "visibility: hidden;")] [])).appendChild
        (createdElement (pg.nextUid + 3 + 1) "IMG" [("id", "canvasImg")] []))
    (DomNode.mk pg.document.props children1) dA
    (fun b hb => isBodyElement_appendChild b _ hb) hdA
  have hfun : (fun b => ((dfs (b.appendChild (stopButtonElement pg.nextUid)) false).appendChild
        (createdElement (pg.nextUid + 3) "DIV"
          [("id", "agent_cursor"), ("style", "visibility: hidden;")] [])).appendChild
        (createdElement (pg.nextUid + 3 + 1) "IMG" [("id", "canvasImg")] [])) =
      fun b => withAppended b
          [dfs (stopButtonElement pg.nextUid) (dfsRedacts b.props false || false),
           createdElement (pg.nextUid + 3) "DIV"
             [("id", "agent_cursor"), ("style", "visibility: hidden;")] [],
           createdElement (pg.nextUid + 3 + 1) "IMG" [("id", "canvasImg")] []] := by
    funext b
    rw [dfs_appendChild, appendChild_withAppended, appendChild_withAppended]
    rfl
  rw [hfun] at hthen
  have hsome3 : (updateBody (fun b => withAppended b
          [dfs (stopButtonElement pg.nextUid) (dfsRedacts b.props false || false),
           createdElement (pg.nextUid + 3) "DIV"
             [("id", "agent_cursor"), ("style", "visibility: hidden;")] [],
           createdElement (pg.nextUid + 3 + 1) "IMG" [("id", "canvasImg")] []])
        (DomNode.mk pg.document.props children1)).isSome = true := by
    rw [updateBody_isSome _ (fun b => b), hbody]
  obtain ⟨document3, hd3⟩ := Option.isSome_iff_exists.mp hsome3
  obtain ⟨client, rootId, children, ids1, mapIds1, next1, hmirror, hconn⟩ :=
    startMirroring_spec
      ({ pg with
          nextUid := pg.nextUid + 3, document := dA,
          detached := pg.detached ++ [removed],
          listeners := registerListener
            (Listener.mk (ListenerTarget.element pg.nextUid) "click" "stopCoBrowse")
            pg.listeners })
      base document3 hbase (by rw [← hd3]; exact hthen)
  refine ⟨document3, client, rootId, children, ids1, mapIds1, next1, hd3, ?_, hconn⟩
  simp only [startCoBrowse, andThen, hrm, hadd]
  simp only [hinit, Bool.false_eq_true, if_false]
  simp only [hinit] at hmirror
  rw [hmirror]


/-! ## One session: start, then stop -/

theorem hasId_dfs (id : String) (n : DomNode) (f : Bool) :
    (dfs n f).props.hasId id = n.props.hasId id := by
  rw [dfs_props]
  split
  · exact hasId_markRedacted _ _
  · rfl

theorem stopButton_hasId (uid : Nat) :
    (stopButtonElement uid).props.hasId "end-button" = true := by
  simp [stopButtonElement, createdElement, DomNode.props, NodeProps.hasId, NodeProps.kind,
    NodeProps.attributeValue]

theorem countId_stopButton (uid : Nat) :
    countId "end-button" (stopButtonElement uid) = 1 ∧
    countId "start-button" (stopButtonElement uid) = 0 := by
  constructor <;>
  simp [stopButtonElement, createdElement, createdText, countId, countIdList, NodeProps.hasId,
    NodeProps.kind, NodeProps.attributeValue]

theorem countId_startButton (uid : Nat) :
    countId "start-button" (startButtonElement uid) = 1 ∧
    countId "end-button" (startButtonElement uid) = 0 ∧
    countId "agent_cursor" (startButtonElement uid) = 0 ∧
    countId "canvasImg" (startButtonElement uid) = 0 := by
  refine ⟨?_, ?_, ?_, ?_⟩ <;>
  simp [startButtonElement, createdElement, createdText, countId, countIdList,
    NodeProps.hasId, NodeProps.kind, NodeProps.attributeValue]

theorem countId_agentCursor (uid : Nat) (id : String) (h : id ≠ "agent_cursor") :
    countId id (createdElement uid "DIV"
      [("id", "agent_cursor"), ("style", "visibility: hidden;")] []) = 0 := by
  simp [createdElement, countId, countIdList, NodeProps.hasId, NodeProps.kind,
    NodeProps.attributeValue, h.symm]

theorem countId_canvasImg (uid : Nat) (id : String) (h : id ≠ "canvasImg") :
    countId id (createdElement uid "IMG" [("id", "canvasImg")] []) = 0 := by
  simp [createdElement, countId, countIdList, NodeProps.hasId, NodeProps.kind,
    NodeProps.attributeValue, h.symm]

/-- One whole session on a page in the idle state: exactly one start button, no stop
button, agent cursor or overlay image, not initiated, an address with a base, and a body
that is still there once the start button is taken out. Both calls return; the counts of
the buttons, the listeners and the subscriptions after each are as listed. -/
theorem session_spec (pg : Page) (base : String)
    (hstart : countIdList "start-button" pg.document.childNodes = 1)
    (hend : countIdList "end-button" pg.document.childNodes = 0)
    (hcur : countIdList "agent_cursor" pg.document.childNodes = 0)
    (himg : countIdList "canvasImg" pg.document.childNodes = 0)
    (hinit : pg.isInitiated = false) (hbase : baseOf pg.href = some base)
    (hbody : ∀ removed children1,
      removeFirstByIdList "start-button" pg.document.childNodes = some (removed, children1) →
      (updateBody (fun b => b) (DomNode.mk pg.document.props children1)).isSome = true) :
    ∃ pgS pgT, startCoBrowse pg = (pgS, none) ∧ stopCoBrowse pgS = (pgT, none) ∧
      countIdList "start-button" pgS.document.childNodes = 0 ∧
      countIdList "end-button" pgS.document.childNodes = 1 ∧
      countIdList "start-button" pgT.document.childNodes = 1 ∧
      countIdList "end-button" pgT.document.childNodes = 0 ∧
      pgS.isInitiated = true ∧ pgT.isInitiated = false ∧
      pgS.listeners = registerListener
        (Listener.mk ListenerTarget.window "resize" "handleResize")
        (registerListener (Listener.mk ListenerTarget.window "scroll" "sendScroll")
          (registerListener
            (Listener.mk ListenerTarget.document "mousemove" "sendMouseCoordinates")
            (registerListener
              (Listener.mk (ListenerTarget.element pg.nextUid) "click" "stopCoBrowse")
              pg.listeners))) ∧
      pgT.listeners = (((registerListener
          (Listener.mk (ListenerTarget.element (pg.nextUid + 3 + 2)) "click" "initiateCoBrowse")
          pgS.listeners).filter
            (fun x => x ≠ Listener.mk ListenerTarget.document "mousemove"
              "sendMouseCoordinates")).filter
            (fun x => x ≠ Listener.mk ListenerTarget.window "scroll" "sendScroll")).filter
            (fun x => x ≠ Listener.mk ListenerTarget.window "resize" "sendDimensions") ∧
      pgS.subscriptions = pg.subscriptions ∧
      pgT.subscriptions = ((pg.subscriptions.filter
          (fun x => x ≠ getTopic pg.clientID "initializeCobrowsing")).filter
          (fun x => x ≠ getTopic pg.clientID "canvasToClient")).filter
          (fun x => x ≠ getTopic pg.clientID "cursorToClient") ∧
      pgS.clientID = pg.clientID ∧ pgT.clientID = pg.clientID := by
  obtain ⟨removed, children1, hrem⟩ :=
    removeFirstByIdList_isSome "start-button" pg.document.childNodes (by omega)
  have hr := countId_pos_of_hasId "start-button" removed
    (removeFirstByIdList_count "start-button" "start-button" _ _ _ hrem).1
  have hstart1 := (removeFirstByIdList_count "start-button" "start-button" _ _ _ hrem).2
  have hend1 := (removeFirstByIdList_count "start-button" "end-button" _ _ _ hrem).2
  have hcur1 := (removeFirstByIdList_count "start-button" "agent_cursor" _ _ _ hrem).2
  have himg1 := (removeFirstByIdList_count "start-button" "canvasImg" _ _ _ hrem).2
  obtain ⟨document3, client, rootId, children, ids1, mapIds1, next1, hd3, hS, _⟩ :=
    startCoBrowse_spec pg base removed children1 hinit hbase hrem (hbody removed children1 hrem)
  obtain ⟨r1, r2, r3, d5, hd5, hT⟩ := stopCoBrowse_spec
    ({ pg with
        document := document3, detached := pg.detached ++ [removed],
        nextUid := pg.nextUid + 3 + 2, isInitiated := true,
        published := pg.published ++
          [(getTopic pg.clientID "presence", PeerMessage.base base),
           (getTopic pg.clientID "presence", PeerMessage.clear),
           (getTopic pg.clientID "clientScreen",
             PeerMessage.screen pg.innerHeight pg.innerWidth),
           (getTopic pg.clientID "presence", PeerMessage.initializeCall rootId children),
           (getTopic pg.clientID "presence", PeerMessage.scroll pg.verScroll)],
        listeners := registerListener
          (Listener.mk ListenerTarget.window "resize" "handleResize")
          (registerListener (Listener.mk ListenerTarget.window "scroll" "sendScroll")
            (registerListener
              (Listener.mk ListenerTarget.document "mousemove" "sendMouseCoordinates")
              (registerListener
                (Listener.mk (ListenerTarget.element pg.nextUid) "click" "stopCoBrowse")
                pg.listeners))),
        nodeMapIds := mapIds1, nodeMapNextId := next1, redactedNodeIds := ids1,
        mirrorClient := some client })
    (DomNode.mk pg.document.props children1)
    (fun b => dfs (stopButtonElement pg.nextUid) (dfsRedacts b.props false || false))
    (createdElement (pg.nextUid + 3) "DIV"
      [("id", "agent_cursor"), ("style", "visibility: hidden;")] [])
    (createdElement (pg.nextUid + 3 + 1) "IMG" [("id", "canvasImg")] [])
    client
    (fun b => by rw [hasId_dfs]; exact stopButton_hasId _)
    (by simp [createdElement, DomNode.props, NodeProps.hasId, NodeProps.kind,
      NodeProps.attributeValue])
    (by simp [createdElement, DomNode.props, NodeProps.hasId, NodeProps.kind,
      NodeProps.attributeValue])
    (by simp only [DomNode.childNodes]; omega)
    (by simp only [DomNode.childNodes]; omega)
    (by simp only [DomNode.childNodes]; omega)
    hd3 rfl
  have hcS1 := countIdList_updateBody "start-button" 0 _
    (fun b _ => by
      rw [countId_withAppended]
      simp only [countIdList, countId_dfs, (countId_stopButton pg.nextUid).2,
        countId_agentCursor _ "start-button" (by decide),
        countId_canvasImg _ "start-button" (by decide)])
    _ _ hd3
  have hcS2 := countIdList_updateBody "end-button" 1 _
    (fun b _ => by
      rw [countId_withAppended]
      simp only [countIdList, countId_dfs, (countId_stopButton pg.nextUid).1,
        countId_agentCursor _ "end-button" (by decide),
        countId_canvasImg _ "end-button" (by decide)])
    _ _ hd3
  have hcT1 := countIdList_updateBody "start-button" 1 _
    (fun b _ => by
      rw [countId_withAppended]
      simp only [countIdList, (countId_startButton _).1])
    _ _ hd5
  have hcT2 := countIdList_updateBody "end-button" 0 _
    (fun b _ => by
      rw [countId_withAppended]
      simp only [countIdList, (countId_startButton _).2.1])
    _ _ hd5
  have e : (DomNode.mk pg.document.props children1).childNodes = children1 := rfl
  rw [e] at hcS1 hcS2 hcT1 hcT2
  refine ⟨_, _, hS, hT, ?_, ?_, ?_, ?_, rfl, rfl, rfl, rfl, rfl, rfl, rfl, rfl⟩
  · show countIdList "start-button" document3.childNodes = 0
    omega
  · show countIdList "end-button" document3.childNodes = 1
    omega
  · show countIdList "start-button" d5.childNodes = 1
    omega
  · show countIdList "end-button" d5.childNodes = 0
    omega


/-! ## The example page through one session -/

theorem examplePage_start_button :
    removeFirstByIdList "start-button" (examplePageWith []).document.childNodes =
      some (startButtonElement 5, (exampleDocumentOf [] []).childNodes) ∧
    removeFirstByIdList "start-button"
        (examplePageWith [("id", "canvasImg")]).document.childNodes =
      some (startButtonElement 5, (exampleDocumentOf [("id", "canvasImg")] []).childNodes) := by
  constructor <;> rfl

theorem examplePage_body :
    (updateBody (fun b => b) (exampleDocumentOf [] [])).isSome = true ∧
    (updateBody (fun b => b) (exampleDocumentOf [("id", "canvasImg")] [])).isSome = true := by
  constructor <;> rfl

theorem examplePage_started :
    updateBody (fun b => withAppended b
          [dfs (stopButtonElement 8) (dfsRedacts b.props false || false),
           createdElement (8 + 3) "DIV"
             [("id", "agent_cursor"), ("style", "visibility: hidden;")] [],
           createdElement (8 + 3 + 1) "IMG" [("id", "canvasImg")] []])
        (exampleDocumentOf [("id", "canvasImg")] []) =
      some (exampleDocumentOf [("id", "canvasImg")]
        [stopButtonElement 8,
         createdElement 11 "DIV" [("id", "agent_cursor"), ("style", "visibility: hidden;")] [],
         createdElement 12 "IMG" [("id", "canvasImg")] []]) := by
  rfl

/-- The steps of `stopCoBrowse` on a page with a mirror client, given what each of its
three removals by id takes out and leaves. -/
theorem stopCoBrowse_of_steps (pgS : Page) (client : MirrorClient) (r1 r2 r3 : DomNode)
    (d2 d3 d4 d5 : DomNode) (hmc : pgS.mirrorClient = some client)
    (h1 : removeFirstByIdList "end-button" pgS.document.childNodes = some (r1, d2.childNodes))
    (p1 : d2.props = pgS.document.props)
    (h2 : updateBody (fun body => body.appendChild (startButtonElement pgS.nextUid)) d2 =
      some d3)
    (h3 : removeFirstByIdList "agent_cursor" d3.childNodes = some (r2, d4.childNodes))
    (p3 : d4.props = d3.props)
    (h4 : removeFirstByIdList "canvasImg" d4.childNodes = some (r3, d5.childNodes))
    (p4 : d5.props = d4.props) :
    stopCoBrowse pgS = ({ pgS with
        document := d5, detached := pgS.detached ++ [r1] ++ [r2] ++ [r3],
        nextUid := pgS.nextUid + 3, isInitiated := false,
        mirrorClient := some { client with connected := false },
        published := pgS.published ++
          [(getTopic pgS.clientID "presence", PeerMessage.disconnect)],
        listeners := (((registerListener
            (Listener.mk (ListenerTarget.element pgS.nextUid) "click" "initiateCoBrowse")
            pgS.listeners).filter
              (fun x => x ≠ Listener.mk ListenerTarget.document "mousemove"
                "sendMouseCoordinates")).filter
              (fun x => x ≠ Listener.mk ListenerTarget.window "scroll" "sendScroll")).filter
              (fun x => x ≠ Listener.mk ListenerTarget.window "resize" "sendDimensions"),
        subscriptions := ((pgS.subscriptions.filter
            (fun x => x ≠ getTopic pgS.clientID "initializeCobrowsing")).filter
            (fun x => x ≠ getTopic pgS.clientID "canvasToClient")).filter
            (fun x => x ≠ getTopic pgS.clientID "cursorToClient") }, none) := by
  have hrm1 : removeStopButton pgS =
      ({ pgS with document := d2, detached := pgS.detached ++ [r1] }, none) :=
    removeById_of_some "end-button" pgS r1 d2 h1 p1
  have hadd := addStartButton_of_some
    ({ pgS with document := d2, detached := pgS.detached ++ [r1] }) d3 h2
  simp only [stopCoBrowse, andThen, hrm1, hadd]
  simp only [disconnectMirror, hmc, Page.peerDataSend, Page.removeEventListener,
    Page.unsubscribe]
  have hr3 := removeById_of_some "agent_cursor"
    ({ pgS with
        document := d3, detached := pgS.detached ++ [r1], nextUid := pgS.nextUid + 3,
        isInitiated := false, mirrorClient := some { client with connected := false },
        published := pgS.published ++
          [(getTopic pgS.clientID "presence", PeerMessage.disconnect)],
        listeners := (((registerListener
            (Listener.mk (ListenerTarget.element pgS.nextUid) "click" "initiateCoBrowse")
            pgS.listeners).filter
              (fun x => x ≠ Listener.mk ListenerTarget.document "mousemove"
                "sendMouseCoordinates")).filter
              (fun x => x ≠ Listener.mk ListenerTarget.window "scroll" "sendScroll")).filter
              (fun x => x ≠ Listener.mk ListenerTarget.window "resize" "sendDimensions") })
    r2 d4 h3 p3
  have hr4 := removeById_of_some "canvasImg"
    ({ pgS with
        document := d4, detached := pgS.detached ++ [r1] ++ [r2], nextUid := pgS.nextUid + 3,
        isInitiated := false, mirrorClient := some { client with connected := false },
        published := pgS.published ++
          [(getTopic pgS.clientID "presence", PeerMessage.disconnect)],
        listeners := (((registerListener
            (Listener.mk (ListenerTarget.element pgS.nextUid) "click" "initiateCoBrowse")
            pgS.listeners).filter
              (fun x => x ≠ Listener.mk ListenerTarget.document "mousemove"
                "sendMouseCoordinates")).filter
              (fun x => x ≠ Listener.mk ListenerTarget.window "scroll" "sendScroll")).filter
              (fun x => x ≠ Listener.mk ListenerTarget.window "resize" "sendDimensions") })
    r3 d5 h4 p4
  simp only [] at hr3 hr4
  rw [hr3]
  simp only []
  rw [hr4]

/-- Why the body must not carry an id of the overlay. On the example page whose `<body>`
has the id `canvasImg` there is exactly one start button, no stop button and `isInitiated`
is false; `startCoBrowse` returns and leaves no start button and one stop button; the
`stopCoBrowse` that follows returns too, but its `getElementById('canvasImg').remove()`
finds the body first and takes it out with the start button just appended: no start button
is left. -/
theorem stop_takes_out_body :
    countIdList "start-button"
      (examplePageWith [("id", "canvasImg")]).document.childNodes = 1 ∧
    countIdList "end-button"
      (examplePageWith [("id", "canvasImg")]).document.childNodes = 0 ∧
    (examplePageWith [("id", "canvasImg")]).isInitiated = false ∧
    ∃ pgS pgT, startCoBrowse (examplePageWith [("id", "canvasImg")]) = (pgS, none) ∧
      countIdList "start-button" pgS.document.childNodes = 0 ∧
      countIdList "end-button" pgS.document.childNodes = 1 ∧
      stopCoBrowse pgS = (pgT, none) ∧
      countIdList "start-button" pgT.document.childNodes = 0 ∧
      countIdList "end-button" pgT.document.childNodes = 0 := by
  refine ⟨by decide, by decide, rfl, ?_⟩
  obtain ⟨document3, client, rootId, children, ids1, mapIds1, next1, hd3, hS, _⟩ :=
    startCoBrowse_spec (examplePageWith [("id", "canvasImg")]) "https://shop.example/cart/"
      (startButtonElement 5) (exampleDocumentOf [("id", "canvasImg")] []).childNodes rfl
      (by decide) examplePage_start_button.2 examplePage_body.2
  have hdoc : some document3 = some (exampleDocumentOf [("id", "canvasImg")]
        [stopButtonElement 8,
         createdElement 11 "DIV" [("id", "agent_cursor"), ("style", "visibility: hidden;")] [],
         createdElement 12 "IMG" [("id", "canvasImg")] []]) :=
    hd3.symm.trans examplePage_started
  obtain rfl := Option.some.inj hdoc
  obtain ⟨pgS, hpgS, hSdoc, hSmc, hSuid⟩ : ∃ pgS,
      startCoBrowse (examplePageWith [("id", "canvasImg")]) = (pgS, none) ∧
      pgS.document = exampleDocumentOf [("id", "canvasImg")]
        [stopButtonElement 8,
         createdElement 11 "DIV" [("id", "agent_cursor"), ("style", "visibility: hidden;")] [],
         createdElement 12 "IMG" [("id", "canvasImg")] []] ∧
      pgS.mirrorClient = some client ∧ pgS.nextUid = 13 := ⟨_, hS, rfl, rfl, rfl⟩
  have hT := stopCoBrowse_of_steps pgS client (stopButtonElement 8)
      (createdElement 11 "DIV" [("id", "agent_cursor"), ("style", "visibility: hidden;")] [])
      (DomNode.mk (exampleElement 3 "BODY" [("id", "canvasImg")] [] "600" "800")
        [DomNode.mk (exampleElement 4 "P" [] [] "20" "800") [],
         createdElement 12 "IMG" [("id", "canvasImg")] [], startButtonElement 13])
      (exampleDocumentOf [("id", "canvasImg")]
        [createdElement 11 "DIV" [("id", "agent_cursor"), ("style", "visibility: hidden;")] [],
         createdElement 12 "IMG" [("id", "canvasImg")] []])
      (exampleDocumentOf [("id", "canvasImg")]
        [createdElement 11 "DIV" [("id", "agent_cursor"), ("style", "visibility: hidden;")] [],
         createdElement 12 "IMG" [("id", "canvasImg")] [], startButtonElement 13])
      (exampleDocumentOf [("id", "canvasImg")]
        [createdElement 12 "IMG" [("id", "canvasImg")] [], startButtonElement 13])
      (DomNode.mk (NodeProps.mk 0 9 "" [] [] zeroBox zeroBox zeroBox zeroBox "" none)
        [DomNode.mk (exampleElement 1 "HTML" [] [] "600" "800")
          [DomNode.mk (exampleElement 2 "HEAD" [] [] "0" "0") []]])
      hSmc (by rw [hSdoc]; rfl) (by rw [hSdoc]; rfl) (by rw [hSuid]; rfl) rfl rfl rfl rfl
  refine ⟨pgS, _, hpgS, ?_, ?_, hT, rfl, rfl⟩
  · rw [hSdoc]
    rfl
  · rw [hSdoc]
    rfl


theorem examplePage_body_after_start_button :
    ∀ removed children1,
      removeFirstByIdList "start-button" (examplePageWith []).document.childNodes =
        some (removed, children1) →
      (updateBody (fun b => b)
        (DomNode.mk (examplePageWith []).document.props children1)).isSome = true := by
  intro removed children1 h
  rw [examplePage_start_button.1] at h
  obtain ⟨rfl, rfl⟩ := Prod.mk.inj (Option.some.inj h)
  exact examplePage_body.1

theorem mem_registerListener_self (l : Listener) (ls : List Listener) :
    l ∈ registerListener l ls := by
  unfold registerListener
  split
  · assumption
  · simp

theorem mem_registerListener_of_mem (l x : Listener) (ls : List Listener) (h : x ∈ ls) :
    x ∈ registerListener l ls := by
  unfold registerListener
  split
  · exact h
  · exact List.mem_append_left _ h

/-- C13: the `resize` listener that `startCoBrowse` attaches is still registered after the
`stopCoBrowse` that follows. On every page in the idle state both calls return; after
`startCoBrowse` the window has the `resize` listener `handleResize`; `stopCoBrowse` removes
`mousemove`/`sendMouseCoordinates` and `scroll`/`sendScroll`, but asks for the removal of
`resize`/`sendDimensions`, a function that was never attached, so `handleResize` stays. -/
theorem stopCoBrowse_leaves_resize_listener (pg : Page) (base : String)
    (hstart : countIdList "start-button" pg.document.childNodes = 1)
    (hend : countIdList "end-button" pg.document.childNodes = 0)
    (hcur : countIdList "agent_cursor" pg.document.childNodes = 0)
    (himg : countIdList "canvasImg" pg.document.childNodes = 0)
    (hinit : pg.isInitiated = false) (hbase : baseOf pg.href = some base)
    (hbody : ∀ removed children1,
      removeFirstByIdList "start-button" pg.document.childNodes = some (removed, children1) →
      (updateBody (fun b => b) (DomNode.mk pg.document.props children1)).isSome = true) :
    ∃ pgS pgT, startCoBrowse pg = (pgS, none) ∧ stopCoBrowse pgS = (pgT, none) ∧
      Listener.mk ListenerTarget.window "resize" "handleResize" ∈ pgS.listeners ∧
      Listener.mk ListenerTarget.window "resize" "handleResize" ∈ pgT.listeners ∧
      Listener.mk ListenerTarget.document "mousemove" "sendMouseCoordinates" ∉ pgT.listeners ∧
      Listener.mk ListenerTarget.window "scroll" "sendScroll" ∉ pgT.listeners := by
  obtain ⟨pgS, pgT, hS, hT, _, _, _, _, _, _, hSl, hTl, _⟩ :=
    session_spec pg base hstart hend hcur himg hinit hbase hbody
  have hmemS : Listener.mk ListenerTarget.window "resize" "handleResize" ∈ pgS.listeners := by
    rw [hSl]
    exact mem_registerListener_self _ _
  refine ⟨pgS, pgT, hS, hT, hmemS, ?_, ?_, ?_⟩
  · rw [hTl]
    simp only [List.mem_filter]
    exact ⟨⟨⟨mem_registerListener_of_mem _ _ _ hmemS, by decide⟩, by decide⟩, by decide⟩
  · rw [hTl]
    simp [List.mem_filter]
  · rw [hTl]
    simp [List.mem_filter]

theorem stopCoBrowse_leaves_resize_listener_witness :
    ∃ pgS pgT, startCoBrowse (examplePageWith []) = (pgS, none) ∧
      stopCoBrowse pgS = (pgT, none) ∧
      Listener.mk ListenerTarget.window "resize" "handleResize" ∈ pgS.listeners ∧
      Listener.mk ListenerTarget.window "resize" "handleResize" ∈ pgT.listeners ∧
      Listener.mk ListenerTarget.document "mousemove" "sendMouseCoordinates" ∉ pgT.listeners ∧
      Listener.mk ListenerTarget.window "scroll" "sendScroll" ∉ pgT.listeners :=
  stopCoBrowse_leaves_resize_listener (examplePageWith []) "https://shop.example/cart/"
    (by decide) (by decide) (by decide) (by decide) rfl (by decide)
    examplePage_body_after_start_button


/-! ## Inbound messages -/

theorem getTopic_inj (clientID a b : String) (h : getTopic clientID a = getTopic clientID b) :
    a = b := by
  have hdata : clientID.data ++ ('/' :: a.data) = clientID.data ++ ('/' :: b.data) := by
    have := congrArg String.data h
    simpa [getTopic, String.data_append] using this
  exact String.ext (List.cons.inj (List.append_cancel_left hdata)).2

theorem removeModal_fields (ctl : Controller) :
    (removeModal ctl).modal = none ∧
    (removeModal ctl).timers = ctl.timers ∧
    (removeModal ctl).topic = ctl.topic ∧
    (removeModal ctl).handlerInstalled = ctl.handlerInstalled ∧
    (removeModal ctl).page.isInitiated = ctl.page.isInitiated ∧
    (removeModal ctl).page.mirrorClient = ctl.page.mirrorClient ∧
    (removeModal ctl).page.published = ctl.page.published ∧
    (removeModal ctl).page.listeners = ctl.page.listeners ∧
    (removeModal ctl).page.subscriptions = ctl.page.subscriptions ∧
    (removeModal ctl).page.clientID = ctl.page.clientID := by
  unfold removeModal
  cases hm : ctl.modal with
  | none => exact ⟨hm, rfl, rfl, rfl, rfl, rfl, rfl, rfl, rfl, rfl⟩
  | some uid =>
    simp only
    cases removeFirstByUidList uid ctl.page.document.childNodes with
    | none => exact ⟨rfl, rfl, rfl, rfl, rfl, rfl, rfl, rfl, rfl, rfl⟩
    | some r => exact ⟨rfl, rfl, rfl, rfl, rfl, rfl, rfl, rfl, rfl, rfl⟩

/-- C11: a message on `<code>/initializeCobrowsing` that decodes to the string `please`
makes the handler remove the modal (`modal` is `null` afterwards) and schedule one more
timer, of 2000 ms, with `startCoBrowse` as its callback; the handler itself does not run
`startCoBrowse`: `isInitiated`, the mirror client, the published messages, the listeners
and the subscriptions are as before. A message on that topic that decodes to any other
value only sets `topic`: no timer is scheduled and the modal stays. -/
theorem handshake_schedules_start (minusTen : Option Json → String) (ctl : Controller)
    (message : Inbound)
    (htopic : message.destinationName = getTopic ctl.page.clientID "initializeCobrowsing") :
    (message.decoded = Except.ok (Json.str "please") →
      onMessageArrived minusTen ctl message =
        ({ removeModal { ctl with topic := some message.destinationName } with
            timers := ctl.timers ++ [Timer.mk 2000 "startCoBrowse"] }, none) ∧
      (onMessageArrived minusTen ctl message).1.modal = none ∧
      (onMessageArrived minusTen ctl message).1.timers =
        ctl.timers ++ [Timer.mk 2000 "startCoBrowse"] ∧
      (onMessageArrived minusTen ctl message).1.page.isInitiated = ctl.page.isInitiated ∧
      (onMessageArrived minusTen ctl message).1.page.mirrorClient = ctl.page.mirrorClient ∧
      (onMessageArrived minusTen ctl message).1.page.published = ctl.page.published ∧
      (onMessageArrived minusTen ctl message).1.page.listeners = ctl.page.listeners ∧
      (onMessageArrived minusTen ctl message).1.page.subscriptions =
        ctl.page.subscriptions) ∧
    (∀ v, message.decoded = Except.ok v → v.isString "please" = false →
      onMessageArrived minusTen ctl message =
        ({ ctl with topic := some message.destinationName }, none)) := by
  have hfields := removeModal_fields { ctl with topic := some message.destinationName }
  constructor
  · intro hdec
    have hrun : onMessageArrived minusTen ctl message =
        ({ removeModal { ctl with topic := some message.destinationName } with
            timers := ctl.timers ++ [Timer.mk 2000 "startCoBrowse"] }, none) := by
      unfold onMessageArrived
      simp only [hdec, htopic, Json.isString, decide_True, and_self, if_true]
      rw [← htopic, hfields.2.1]
    rw [hrun]
    obtain ⟨h1, _, _, _, h5, h6, h7, h8, h9, _⟩ := hfields
    exact ⟨rfl, h1, rfl, h5, h6, h7, h8, h9⟩
  · intro v hdec hv
    have hne1 : getTopic ctl.page.clientID "initializeCobrowsing" ≠
        getTopic ctl.page.clientID "canvasToClient" := fun h => by
      have := getTopic_inj _ _ _ h
      exact absurd this (by decide)
    have hne2 : getTopic ctl.page.clientID "initializeCobrowsing" ≠
        getTopic ctl.page.clientID "cursorToClient" := fun h => by
      have := getTopic_inj _ _ _ h
      exact absurd this (by decide)
    unfold onMessageArrived
    simp only [hdec, htopic, hv, Bool.false_eq_true, and_false, if_false, hne1, hne2]

theorem handshake_schedules_start_witness :
    (Inbound.mk "123456/initializeCobrowsing" (Except.ok (Json.str "please"))).decoded =
      Except.ok (Json.str "please") ∧
    (onMessageArrived (fun _ => "NaN") (Controller.mk (examplePageWith []) (some 7) [] true
        none [] [])
      (Inbound.mk "123456/initializeCobrowsing" (Except.ok (Json.str "please")))).1.modal =
      none ∧
    (onMessageArrived (fun _ => "NaN") (Controller.mk (examplePageWith []) (some 7) [] true
        none [] [])
      (Inbound.mk "123456/initializeCobrowsing" (Except.ok (Json.str "please")))).1.timers =
      [Timer.mk 2000 "startCoBrowse"] :=
  ⟨rfl,
    ((handshake_schedules_start (fun _ => "NaN")
      (Controller.mk (examplePageWith []) (some 7) [] true none [] [])
      (Inbound.mk "123456/initializeCobrowsing" (Except.ok (Json.str "please"))) rfl).1
        rfl).2.1,
    ((handshake_schedules_start (fun _ => "NaN")
      (Controller.mk (examplePageWith []) (some 7) [] true none [] [])
      (Inbound.mk "123456/initializeCobrowsing" (Except.ok (Json.str "please"))) rfl).1
        rfl).2.2.1⟩

/-- C14: a payload that does not decode makes the handler raise on every topic. The first
`JSON.parse` of the handler runs before the topic is looked at and outside the two
`try` blocks, so on `<code>/canvasToClient` and `<code>/cursorToClient` too the exception
of the decoding leaves the handler: nothing is logged. -/
theorem onMessageArrived_raises_on_undecodable (minusTen : Option Json → String)
    (ctl : Controller) (topic : String) (e : JSError) :
    onMessageArrived minusTen ctl (Inbound.mk topic (Except.error e)) =
      ({ ctl with topic := some topic }, some e) ∧
    (onMessageArrived minusTen ctl
      (Inbound.mk (getTopic ctl.page.clientID "canvasToClient") (Except.error e))).2 = some e ∧
    (onMessageArrived minusTen ctl
      (Inbound.mk (getTopic ctl.page.clientID "cursorToClient") (Except.error e))).2 = some e ∧
    (onMessageArrived minusTen ctl
      (Inbound.mk (getTopic ctl.page.clientID "canvasToClient")
        (Except.error e))).1.logged = ctl.logged :=
  ⟨rfl, rfl, rfl, rfl⟩

/-- What the two `try` blocks do contain: on `<code>/canvasToClient` and
`<code>/cursorToClient` a payload that decodes never makes the handler raise. -/
theorem onMessageArrived_contains_decoded (minusTen : Option Json → String)
    (ctl : Controller) (message : Inbound) (v : Json)
    (hdec : message.decoded = Except.ok v)
    (htopic : message.destinationName = getTopic ctl.page.clientID "canvasToClient" ∨
      message.destinationName = getTopic ctl.page.clientID "cursorToClient") :
    (onMessageArrived minusTen ctl message).2 = none := by
  have hcaught : ∀ r : Reaction, (caught r).2 = none := by
    intro r
    obtain ⟨c, e⟩ := r
    cases e <;> rfl
  have hne1 : getTopic ctl.page.clientID "canvasToClient" ≠
      getTopic ctl.page.clientID "initializeCobrowsing" := fun h => by
    have := getTopic_inj _ _ _ h
    exact absurd this (by decide)
  have hne2 : getTopic ctl.page.clientID "cursorToClient" ≠
      getTopic ctl.page.clientID "initializeCobrowsing" := fun h => by
    have := getTopic_inj _ _ _ h
    exact absurd this (by decide)
  have hne3 : getTopic ctl.page.clientID "cursorToClient" ≠
      getTopic ctl.page.clientID "canvasToClient" := fun h => by
    have := getTopic_inj _ _ _ h
    exact absurd this (by decide)
  unfold onMessageArrived
  rcases htopic with h | h
  · simp only [hdec, h, hne1, false_and, if_false, if_true]
    exact hcaught _
  · simp only [hdec, h, hne2, hne3, false_and, if_false, if_true]
    exact hcaught _


/-! ## The overlay image -/

mutual
theorem findById_updateById (id : String) (f : NodeProps → NodeProps)
    (hf : ∀ p, p.hasId id = true → (f p).hasId id = true) :
    ∀ n : DomNode,
      (findById id n = none → updateById id f n = none) ∧
      (∀ p, findById id n = some p →
        ∃ n1, updateById id f n = some n1 ∧ findById id n1 = some (f p))
  | DomNode.mk props children => by
    rw [findById, updateById]
    by_cases hid : props.hasId id = true
    · simp only [hid, if_true]
      refine ⟨fun h => (by cases h), fun p hp => ?_⟩
      obtain rfl : props = p := Option.some.inj hp
      exact ⟨_, rfl, by rw [findById]; simp [hf props hid]⟩
    · simp only [hid, Bool.false_eq_true, if_false]
      obtain ⟨hnone, hsome⟩ := findByIdList_updateByIdList id f hf children
      refine ⟨fun h => by rw [hnone h], fun p hp => ?_⟩
      obtain ⟨l1, hl1, hfind⟩ := hsome p hp
      refine ⟨DomNode.mk props l1, by rw [hl1], ?_⟩
      rw [findById]
      simp [hid, hfind]
theorem findByIdList_updateByIdList (id : String) (f : NodeProps → NodeProps)
    (hf : ∀ p, p.hasId id = true → (f p).hasId id = true) :
    ∀ l : List DomNode,
      (findByIdList id l = none → updateByIdList id f l = none) ∧
      (∀ p, findByIdList id l = some p →
        ∃ l1, updateByIdList id f l = some l1 ∧ findByIdList id l1 = some (f p))
  | [] => by
    rw [findByIdList, updateByIdList]
    exact ⟨fun _ => rfl, fun p hp => by cases hp⟩
  | n :: rest => by
    rw [findByIdList, updateByIdList]
    obtain ⟨hnone, hsome⟩ := findById_updateById id f hf n
    cases hn : findById id n with
    | some q =>
      obtain ⟨n1, hn1, hfind⟩ := hsome q hn
      refine ⟨fun h => (by cases h), fun p hp => ?_⟩
      obtain rfl : q = p := Option.some.inj hp
      refine ⟨n1 :: rest, by rw [hn1], ?_⟩
      rw [findByIdList, hfind]
    | none =>
      rw [hnone hn]
      obtain ⟨hnoneL, hsomeL⟩ := findByIdList_updateByIdList id f hf rest
      refine ⟨fun h => by rw [hnoneL h], fun p hp => ?_⟩
      obtain ⟨l1, hl1, hfind⟩ := hsomeL p hp
      refine ⟨n :: l1, by rw [hl1], ?_⟩
      rw [findByIdList, hn, hfind]
end

theorem hasId_removeAttribute_src (p : NodeProps) (h : p.hasId "canvasImg" = true) :
    (p.removeAttribute "src").hasId "canvasImg" = true := by
  unfold NodeProps.hasId NodeProps.removeAttribute NodeProps.attributeValue at *
  simp only [Bool.and_eq_true, decide_eq_true_eq] at h ⊢
  refine ⟨h.1, ?_⟩
  have hfind : List.find? (fun kv => decide (kv.1 = "id"))
      (List.filter (fun kv => decide (kv.1 ≠ "src")) p.attributes) =
      List.find? (fun kv => decide (kv.1 = "id")) p.attributes := by
    induction p.attributes with
    | nil => rfl
    | cons kv rest ih =>
      by_cases hk : kv.1 = "src"
      · have hne : ¬ kv.1 = "id" := by rw [hk]; decide
        rw [List.filter_cons_of_neg (by simp [hk]), List.find?_cons_of_neg _ (by simp [hne])]
        exact ih
      · rw [List.filter_cons_of_pos (by simp [hk])]
        by_cases hi : kv.1 = "id"
        · rw [List.find?_cons_of_pos _ (by simp [hi]), List.find?_cons_of_pos _ (by simp [hi])]
        · rw [List.find?_cons_of_neg _ (by simp [hi]), List.find?_cons_of_neg _ (by simp [hi])]
          exact ih
  rw [hfind]
  exact h.2

theorem hasId_setAttribute_src (p : NodeProps) (v : String) (h : p.hasId "canvasImg" = true) :
    (p.setAttribute "src" v).hasId "canvasImg" = true := by
  unfold NodeProps.hasId at *
  rw [NodeProps.attributeValue_setAttribute_other _ _ _ _ (by decide)]
  exact h

theorem styleOf_setStyle_same (ctl : Controller) (uid : Nat) (name value : String) :
    ((ctl.setStyle uid name value).styleOf uid).find? (fun kv => kv.1 = name) =
      some (name, value) := by
  simp [Controller.setStyle, Controller.styleOf, List.lookup, setAttributeList_find_same]

theorem styleOf_setStyle_other (ctl : Controller) (uid : Nat) (name name1 value : String)
    (hne : name ≠ name1) :
    ((ctl.setStyle uid name value).styleOf uid).find? (fun kv => kv.1 = name1) =
      (ctl.styleOf uid).find? (fun kv => kv.1 = name1) := by
  simp [Controller.setStyle, Controller.styleOf, List.lookup,
    setAttributeList_find_other _ _ _ _ hne]

theorem find_filter_ne (l : List (String × String)) (k name : String) (hne : name ≠ k) :
    List.find? (fun kv => decide (kv.1 = name)) (List.filter (fun kv => decide (kv.1 ≠ k)) l) =
      List.find? (fun kv => decide (kv.1 = name)) l := by
  induction l with
  | nil => rfl
  | cons kv rest ih =>
    by_cases hk : kv.1 = k
    · have hn : ¬ kv.1 = name := by rw [hk]; exact fun h => hne h.symm
      rw [List.filter_cons_of_neg (by simp [hk]), List.find?_cons_of_neg _ (by simp [hn])]
      exact ih
    · rw [List.filter_cons_of_pos (by simp [hk])]
      by_cases hi : kv.1 = name
      · rw [List.find?_cons_of_pos _ (by simp [hi]), List.find?_cons_of_pos _ (by simp [hi])]
      · rw [List.find?_cons_of_neg _ (by simp [hi]), List.find?_cons_of_neg _ (by simp [hi])]
        exact ih

theorem find_filter_same (l : List (String × String)) (k : String) :
    List.find? (fun kv => decide (kv.1 = k)) (List.filter (fun kv => decide (kv.1 ≠ k)) l) =
      none := by
  induction l with
  | nil => rfl
  | cons kv rest ih =>
    by_cases hk : kv.1 = k
    · rw [List.filter_cons_of_neg (by simp [hk])]
      exact ih
    · rw [List.filter_cons_of_pos (by simp [hk]), List.find?_cons_of_neg _ (by simp [hk])]
      exact ih

theorem removeAttribute_spec (p : NodeProps) (k : String) :
    (p.removeAttribute k).attributeValue k = none ∧
    (∀ name, name ≠ k → (p.removeAttribute k).attributeValue name = p.attributeValue name) ∧
    (p.removeAttribute k).uid = p.uid ∧ (p.removeAttribute k).tagName = p.tagName ∧
    (p.removeAttribute k).classList = p.classList ∧
    (p.removeAttribute k).nodeType = p.nodeType := by
  refine ⟨?_, ?_, rfl, rfl, rfl, rfl⟩
  · simp only [NodeProps.removeAttribute, NodeProps.attributeValue, find_filter_same]
    rfl
  · intro name hne
    simp only [NodeProps.removeAttribute, NodeProps.attributeValue, find_filter_ne _ _ _ hne]

theorem getProp_some_not_string (v : Json) (key s : String) (w : Json)
    (h : v.getProp key = Except.ok (some w)) : v.isString s = false := by
  cases v <;> first | rfl | simp [Json.getProp] at h

/-- C12: on `<code>/canvasToClient`, with an element of id `canvasImg` in the document, a
payload that decodes to the string `clearCanvasImage` removes the `src` attribute of that
element and changes nothing else of it (its other attributes, its style declarations and
the rest of the controller apart from `topic` are as before); a payload that decodes to
`{ imgObj: { imgSrc, left, top } }` with numbers `left` and `top` sets its `src` to
`imgSrc` and its style declarations `left` and `top` to `<left>px` and `<top>px` (with
`position: fixed`, `z-index: 21474830` and `pointer-events: none`). -/
theorem overlay_sentinel (minusTen : Option Json → String) (ctl : Controller)
    (message : Inbound) (img : NodeProps)
    (htopic : message.destinationName = getTopic ctl.page.clientID "canvasToClient")
    (himg : findByIdList "canvasImg" ctl.page.document.childNodes = some img) :
    (message.decoded = Except.ok (Json.str "clearCanvasImage") →
      ∃ children1,
        onMessageArrived minusTen ctl message =
          ({ ctl with
              topic := some message.destinationName,
              page := { ctl.page with
                document := DomNode.mk ctl.page.document.props children1 } }, none) ∧
        findByIdList "canvasImg" children1 = some (img.removeAttribute "src") ∧
        (img.removeAttribute "src").attributeValue "src" = none ∧
        (∀ name, name ≠ "src" →
          (img.removeAttribute "src").attributeValue name = img.attributeValue name)) ∧
    (∀ v imgObj imgSrc left top, message.decoded = Except.ok v →
      v.getProp "imgObj" = Except.ok (some imgObj) →
      imgObj.getProp "imgSrc" = Except.ok imgSrc →
      imgObj.getProp "left" = Except.ok (some (Json.num left)) →
      imgObj.getProp "top" = Except.ok (some (Json.num top)) →
      isCssNumber left.text = true → isCssNumber top.text = true →
      ∃ ctl1 children1,
        onMessageArrived minusTen ctl message = (ctl1, none) ∧
        ctl1.page.document = DomNode.mk ctl.page.document.props children1 ∧
        findByIdList "canvasImg" children1 = some (img.setAttribute "src" (textOf imgSrc)) ∧
        (img.setAttribute "src" (textOf imgSrc)).attributeValue "src" =
          some (textOf imgSrc) ∧
        (ctl1.styleOf img.uid).find? (fun kv => kv.1 = "left") =
          some ("left", left.text ++ "px") ∧
        (ctl1.styleOf img.uid).find? (fun kv => kv.1 = "top") =
          some ("top", top.text ++ "px") ∧
        (ctl1.styleOf img.uid).find? (fun kv => kv.1 = "position") =
          some ("position", "fixed") ∧
        (ctl1.styleOf img.uid).find? (fun kv => kv.1 = "z-index") =
          some ("z-index", "21474830") ∧
        (ctl1.styleOf img.uid).find? (fun kv => kv.1 = "pointer-events") =
          some ("pointer-events", "none")) := by
  have hne1 : getTopic ctl.page.clientID "canvasToClient" ≠
      getTopic ctl.page.clientID "initializeCobrowsing" := fun h => by
    have := getTopic_inj _ _ _ h
    exact absurd this (by decide)
  constructor
  · intro hdec
    obtain ⟨children1, hupd, hfind⟩ := (findByIdList_updateByIdList "canvasImg"
      (fun p => p.removeAttribute "src") hasId_removeAttribute_src
      ctl.page.document.childNodes).2 img himg
    refine ⟨children1, ?_, hfind, (removeAttribute_spec img "src").1,
      (removeAttribute_spec img "src").2.1⟩
    unfold onMessageArrived
    simp only [hdec, htopic, hne1, false_and, if_false, if_true, Json.isString, decide_True,
      clearCanvasImage, hupd, caught]
  · intro v imgObj imgSrc left top hdec hobj hsrc hleft htop hl ht
    obtain ⟨children1, hupd, hfind⟩ := (findByIdList_updateByIdList "canvasImg"
      (fun p => p.setAttribute "src" (textOf imgSrc))
      (fun p hp => hasId_setAttribute_src p _ hp)
      ctl.page.document.childNodes).2 img himg
    have hnot := getProp_some_not_string v "imgObj" "clearCanvasImage" imgObj hobj
    have hrun : onMessageArrived minusTen ctl message =
        (Controller.setStyle img.uid "pointer-events" "none"
          (Controller.setStyle img.uid "z-index" "21474830"
            (Controller.setStyle img.uid "top" (top.text ++ "px")
              (Controller.setStyle img.uid "left" (left.text ++ "px")
                (Controller.setStyle img.uid "position" "fixed"
                  { ctl with
                    topic := some message.destinationName,
                    page := { ctl.page with
                      document := DomNode.mk ctl.page.document.props children1 } })))),
          none) := by
      have htl : textOf (some (Json.num left)) = left.text := by
        simp [textOf, Json.toText]
      have htt : textOf (some (Json.num top)) = top.text := by
        simp [textOf, Json.toText]
      unfold onMessageArrived
      simp only [hdec, htopic, hne1, false_and, if_false, if_true, hnot, Bool.false_eq_true,
        hobj, showCanvasImage, destructure, hsrc, hleft, htop, himg, hupd, htl, htt,
        Controller.setLength, hl, ht, caught]
    refine ⟨_, children1, hrun, rfl, hfind,
      NodeProps.attributeValue_setAttribute_same _ _ _, ?_, ?_, ?_, ?_, ?_⟩
    · rw [styleOf_setStyle_other _ _ _ _ _ (by decide),
        styleOf_setStyle_other _ _ _ _ _ (by decide),
        styleOf_setStyle_other _ _ _ _ _ (by decide), styleOf_setStyle_same]
    · rw [styleOf_setStyle_other _ _ _ _ _ (by decide),
        styleOf_setStyle_other _ _ _ _ _ (by decide), styleOf_setStyle_same]
    · rw [styleOf_setStyle_other _ _ _ _ _ (by decide),
        styleOf_setStyle_other _ _ _ _ _ (by decide),
        styleOf_setStyle_other _ _ _ _ _ (by decide),
        styleOf_setStyle_other _ _ _ _ _ (by decide), styleOf_setStyle_same]
    · rw [styleOf_setStyle_other _ _ _ _ _ (by decide), styleOf_setStyle_same]
    · rw [styleOf_setStyle_same]

theorem overlay_sentinel_witness :
    (∃ children1,
      onMessageArrived (fun _ => "NaN") exampleMirroringController
          (Inbound.mk "123456/canvasToClient" (Except.ok (Json.str "clearCanvasImage"))) =
        ({ exampleMirroringController with
            topic := some "123456/canvasToClient",
            page := { exampleMirroringController.page with
              document := DomNode.mk exampleMirroringController.page.document.props
                children1 } }, none) ∧
      findByIdList "canvasImg" children1 =
        some ((createdElement 12 "IMG" [("id", "canvasImg")] []).props.removeAttribute "src")) ∧
    (∃ ctl1 children1,
      onMessageArrived (fun _ => "NaN") exampleMirroringController
          (Inbound.mk "123456/canvasToClient" (Except.ok exampleImageMessage)) = (ctl1, none) ∧
      ctl1.page.document =
        DomNode.mk exampleMirroringController.page.document.props children1 ∧
      findByIdList "canvasImg" children1 =
        some ((createdElement 12 "IMG" [("id", "canvasImg")] []).props.setAttribute "src"
          "data:image/png;base64,AAAA") ∧
      (ctl1.styleOf 12).find? (fun kv => kv.1 = "left") = some ("left", "10px") ∧
      (ctl1.styleOf 12).find? (fun kv => kv.1 = "top") = some ("top", "20px")) := by
  constructor
  · obtain ⟨children1, h1, h2, _⟩ := (overlay_sentinel (fun _ => "NaN")
      exampleMirroringController
      (Inbound.mk "123456/canvasToClient" (Except.ok (Json.str "clearCanvasImage")))
      (createdElement 12 "IMG" [("id", "canvasImg")] []).props rfl rfl).1 rfl
    exact ⟨children1, h1, h2⟩
  · obtain ⟨ctl1, children1, h1, h2, h3, _, h5, h6, _⟩ := (overlay_sentinel (fun _ => "NaN")
      exampleMirroringController
      (Inbound.mk "123456/canvasToClient" (Except.ok exampleImageMessage))
      (createdElement 12 "IMG" [("id", "canvasImg")] []).props rfl rfl).2
      exampleImageMessage
      (Json.obj [("imgSrc", Json.str "data:image/png;base64,AAAA"),
        ("left", Json.num (JSNumber.mk "10")), ("top", Json.num (JSNumber.mk "20"))])
      (some (Json.str "data:image/png;base64,AAAA")) (JSNumber.mk "10") (JSNumber.mk "20")
      rfl rfl rfl rfl rfl (by decide) (by decide)
    exact ⟨ctl1, children1, h1, h2, h3, h5, h6⟩


/-! ## Two Start clicks, then one session -/

theorem getUniqueID_zero : getUniqueID (fun _ => (0 : ℚ)) = some "000000" := by
  have hallows : allowsChars (OtpOptions.mk none (some false) (some false) (some false)) =
      "0123456789" := by decide
  have hrand : rand (0 : ℚ) 0 (("0123456789".length : ℤ) - 1) = 0 := by
    simp [rand]
  simp only [getUniqueID, otpGenerator, hallows, otpLoop, hrand]
  decide

theorem getUniqueID_half : getUniqueID (fun _ => (1 / 2 : ℚ)) = some "444444" := by
  have hallows : allowsChars (OtpOptions.mk none (some false) (some false) (some false)) =
      "0123456789" := by decide
  have hrand : rand (1 / 2 : ℚ) 0 (("0123456789".length : ℤ) - 1) = 4 := by
    have hlen : (("0123456789".length : ℤ) - 1) = 9 := by decide
    rw [hlen]
    simp only [rand]
    rw [Int.floor_eq_iff]
    constructor <;> norm_num
  simp only [getUniqueID, otpGenerator, hallows, otpLoop, hrand]
  decide

theorem exampleIdle_first_click :
    initiateCoBrowse (fun _ => (0 : ℚ)) exampleIdleController =
      some (exampleClicked "000000" 8 [] [] [], none) := by
  simp only [initiateCoBrowse, getUniqueID_zero]
  rfl

theorem exampleIdle_second_click :
    initiateCoBrowse (fun _ => (1 / 2 : ℚ)) (exampleClicked "000000" 8 [] [] []) =
      some (exampleClicked "444444" 14 [modalElement 8 "000000"]
        [Listener.mk (ListenerTarget.element 10) "click" "removeModal"]
        ["000000/initializeCobrowsing", "000000/canvasToClient", "000000/cursorToClient"],
        none) := by
  simp only [initiateCoBrowse, getUniqueID_half]
  rfl

/-- C25: the idle state reached by Start click, Start click, `startCoBrowse`,
`stopCoBrowse` from the connected example page still holds the three subscriptions of the
first code. The first click draws the code 000000 and subscribes to its three topics; the
second click draws 444444, replaces `clientID` and subscribes to three more; the session
then runs and `stopCoBrowse` completes with `isInitiated` false and the start button
shown, but it unsubscribes `getTopic(...)` of the current code only. -/
theorem idle_keeps_abandoned_subscriptions :
    exampleIdleController.page.subscriptions = [] ∧
    ∃ ctl1 ctl2 pgS pgT,
      initiateCoBrowse (fun _ => (0 : ℚ)) exampleIdleController = some (ctl1, none) ∧
      initiateCoBrowse (fun _ => (1 / 2 : ℚ)) ctl1 = some (ctl2, none) ∧
      startCoBrowse ctl2.page = (pgS, none) ∧ stopCoBrowse pgS = (pgT, none) ∧
      pgT.isInitiated = false ∧
      countIdList "start-button" pgT.document.childNodes = 1 ∧
      countIdList "end-button" pgT.document.childNodes = 0 ∧
      pgT.subscriptions =
        ["000000/initializeCobrowsing", "000000/canvasToClient", "000000/cursorToClient"] := by
  refine ⟨rfl, ?_⟩
  obtain ⟨pgS, pgT, hS, hT, _, _, h3, h4, _, hinit, _, _, _, hsubs, _⟩ := session_spec
    (exampleClicked "444444" 14 [modalElement 8 "000000"]
      [Listener.mk (ListenerTarget.element 10) "click" "removeModal"]
      ["000000/initializeCobrowsing", "000000/canvasToClient", "000000/cursorToClient"]).page
    "https://shop.example/cart/" (by decide) (by decide) (by decide) (by decide) rfl
    (by decide)
    (by
      intro removed children1 h
      have hrem : removeFirstByIdList "start-button"
          (exampleClicked "444444" 14 [modalElement 8 "000000"]
            [Listener.mk (ListenerTarget.element 10) "click" "removeModal"]
            ["000000/initializeCobrowsing", "000000/canvasToClient",
              "000000/cursorToClient"]).page.document.childNodes =
          some (startButtonElement 5,
            (exampleDocumentOf [] [modalElement 14 "444444"]).childNodes) := rfl
      rw [hrem] at h
      obtain ⟨rfl, rfl⟩ := Prod.mk.inj (Option.some.inj h)
      rfl)
  refine ⟨_, _, pgS, pgT, exampleIdle_first_click, exampleIdle_second_click, hS, hT, hinit,
    h3, h4, ?_⟩
  rw [hsubs]
  decide


/-! ## Identity lookups and the numbers of `NodeMap` -/

/-- The client that `new TreeMirrorClient` stores, written out. -/
theorem newTreeMirrorClient_explicit (pg : Page) :
    ∃ rootId children ids1,
      newTreeMirrorClient pg =
        ({ pg with
            nodeMapIds := (serializedState pg.document pg.nodeMapIds pg.nodeMapNextId).mapIds,
            nodeMapNextId :=
              (serializedState pg.document pg.nodeMapIds pg.nodeMapNextId).mapNextId,
            published := pg.published ++
              [(getTopic pg.clientID "presence", PeerMessage.initializeCall rootId children)],
            redactedNodeIds := ids1,
            mirrorClient := some (MirrorClient.mk
              (serializedState pg.document pg.nodeMapIds pg.nodeMapNextId).nextId
              (serializedState pg.document pg.nodeMapIds pg.nodeMapNextId).nodes
              (serializedState pg.document pg.nodeMapIds pg.nodeMapNextId).values true) },
          none) := by
  unfold newTreeMirrorClient serializedState
  obtain ⟨root, st1⟩ := serializeNode false pg.document
    (SerialState.mk 1 [] [] pg.nodeMapIds pg.nodeMapNextId)
  simp only
  obtain ⟨children, st2⟩ := serializeList pg.document.childNodes st1
  simp only
  obtain ⟨ids1, children1, hhook⟩ := initializeHook_total
    (Page.toSession { pg with nodeMapIds := st2.mapIds, nodeMapNextId := st2.mapNextId })
    root.id children
  rw [hhook]
  exact ⟨root.id, children1, ids1, rfl⟩

/-- The mirror client and the `NodeMap` numbers after `startCoBrowse`, written out. -/
theorem startCoBrowse_client (pg : Page) (base : String) (removed : DomNode)
    (children1 : List DomNode) (document3 : DomNode) (hinit : pg.isInitiated = false)
    (hbase : baseOf pg.href = some base)
    (hrem : removeFirstByIdList "start-button" pg.document.childNodes =
      some (removed, children1))
    (hd3 : updateBody (fun b => withAppended b
          [dfs (stopButtonElement pg.nextUid) (dfsRedacts b.props false || false),
           createdElement (pg.nextUid + 3) "DIV"
             [("id", "agent_cursor"), ("style", "visibility: hidden;")] [],
           createdElement (pg.nextUid + 3 + 1) "IMG" [("id", "canvasImg")] []])
        (DomNode.mk pg.document.props children1) = some document3) :
    ∃ pgS, startCoBrowse pg = (pgS, none) ∧ pgS.document = document3 ∧
      pgS.detached = pg.detached ++ [removed] ∧ pgS.nextUid = pg.nextUid + 3 + 2 ∧
      pgS.href = pg.href ∧ pgS.isInitiated = true ∧
      pgS.mirrorClient = some (MirrorClient.mk
        (serializedState document3 pg.nodeMapIds pg.nodeMapNextId).nextId
        (serializedState document3 pg.nodeMapIds pg.nodeMapNextId).nodes
        (serializedState document3 pg.nodeMapIds pg.nodeMapNextId).values true) ∧
      pgS.nodeMapIds = (serializedState document3 pg.nodeMapIds pg.nodeMapNextId).mapIds ∧
      pgS.nodeMapNextId =
        (serializedState document3 pg.nodeMapIds pg.nodeMapNextId).mapNextId := by
  have hbody : (updateBody (fun b => b) (DomNode.mk pg.document.props children1)).isSome =
      true := by
    rw [updateBody_isSome (fun b => b) (fun b => withAppended b
          [dfs (stopButtonElement pg.nextUid) (dfsRedacts b.props false || false),
           createdElement (pg.nextUid + 3) "DIV"
             [("id", "agent_cursor"), ("style", "visibility: hidden;")] [],
           createdElement (pg.nextUid + 3 + 1) "IMG" [("id", "canvasImg")] []]), hd3]
    rfl
  -- the same call, followed down to the creation of the client
  have hrm : removeStartButton pg =
      ({ pg with document := DomNode.mk pg.document.props children1,
                 detached := pg.detached ++ [removed] }, none) := by
    simp [removeStartButton, Page.removeById, hrem]
  have hsomeA : (updateBody (fun body => body.appendChild (stopButtonElement pg.nextUid))
      (DomNode.mk pg.document.props children1)).isSome = true := by
    rw [updateBody_isSome _ (fun b => b), hbody]
  obtain ⟨dA, hdA⟩ := Option.isSome_iff_exists.mp hsomeA
  have hadd := addStopButton_of_some
    ({ pg with document := DomNode.mk pg.document.props children1,
               detached := pg.detached ++ [removed] }) dA hdA
  have hsome2 : (updateBody (fun body => dfs body false) dA).isSome = true := by
    rw [updateBody_isSome _ (fun body => body.appendChild (stopButtonElement pg.nextUid)),
      updateBody_then (fun body => body.appendChild (stopButtonElement pg.nextUid))
        (fun body => body.appendChild (stopButtonElement pg.nextUid))
        (DomNode.mk pg.document.props children1) dA
        (fun b hb => isBodyElement_appendChild b _ hb) hdA,
      updateBody_isSome _ (fun b => b), hbody]
  obtain ⟨d2, hd2⟩ := Option.isSome_iff_exists.mp hsome2
  have hcomp1 := updateBody_then (fun body => dfs body false)
    (fun body => body.appendChild (createdElement (pg.nextUid + 3) "DIV"
          [("id", "agent_cursor"), ("style", "visibility: hidden;")] []))
    dA d2 (fun b hb => isBodyElement_dfs b false hb) hd2
  have hsome3 : (updateBody (fun body => body.appendChild (createdElement (pg.nextUid + 3)
      "DIV" [("id", "agent_cursor"), ("style", "visibility: hidden;")] [])) d2).isSome =
      true := by
    rw [hcomp1, updateBody_isSome _ (fun body => dfs body false), hd2]
    rfl
  obtain ⟨d2a, hd2a⟩ := Option.isSome_iff_exists.mp hsome3
  have hcomp2 := updateBody_then
    (fun body => (dfs body false).appendChild (createdElement (pg.nextUid + 3) "DIV"
          [("id", "agent_cursor"), ("style", "visibility: hidden;")] []))
    (fun body => body.appendChild
      (createdElement (pg.nextUid + 3 + 1) "IMG" [("id", "canvasImg")] []))
    dA d2a
    (fun b hb => isBodyElement_appendChild _ _ (isBodyElement_dfs b false hb))
    (by rw [← hcomp1]; exact hd2a)
  have hcomp3 := updateBody_then
    (fun body => body.appendChild (stopButtonElement pg.nextUid))
    (fun body => ((dfs body false).appendChild
        (createdElement (pg.nextUid + 3) "DIV"
          [("id", "agent_cursor"), ("style", "visibility: hidden;")] [])).appendChild
        (createdElement (pg.nextUid + 3 + 1) "IMG" [("id", "canvasImg")] []))
    (DomNode.mk pg.document.props children1) dA
    (fun b hb => isBodyElement_appendChild b _ hb) hdA
  have hfun : (fun b => ((dfs (b.appendChild (stopButtonElement pg.nextUid)) false).appendChild
        (createdElement (pg.nextUid + 3) "DIV"
          [("id", "agent_cursor"), ("style", "visibility: hidden;")] [])).appendChild
        (createdElement (pg.nextUid + 3 + 1) "IMG" [("id", "canvasImg")] [])) =
      fun b => withAppended b
          [dfs (stopButtonElement pg.nextUid) (dfsRedacts b.props false || false),
           createdElement (pg.nextUid + 3) "DIV"
             [("id", "agent_cursor"), ("style", "visibility: hidden;")] [],
           createdElement (pg.nextUid + 3 + 1) "IMG" [("id", "canvasImg")] []] := by
    funext b
    rw [dfs_appendChild, appendChild_withAppended, appendChild_withAppended]
    rfl
  rw [hfun, hd3] at hcomp3
  have hd3b : updateBody (fun body => body.appendChild
      (createdElement (pg.nextUid + 3 + 1) "IMG" [("id", "canvasImg")] [])) d2a =
      some document3 := by
    rw [hcomp2, hcomp3]
  obtain ⟨rootId1, children2, ids2, hclient⟩ := newTreeMirrorClient_explicit
    ({ pg with
        isInitiated := true, document := document3, nextUid := pg.nextUid + 3 + 2,
        detached := pg.detached ++ [removed],
        published := pg.published ++
          [(getTopic pg.clientID "presence", PeerMessage.base base),
           (getTopic pg.clientID "presence", PeerMessage.clear),
           (getTopic pg.clientID "clientScreen",
             PeerMessage.screen pg.innerHeight pg.innerWidth)],
        listeners := registerListener
          (Listener.mk ListenerTarget.window "resize" "handleResize")
          (registerListener (Listener.mk ListenerTarget.window "scroll" "sendScroll")
            (registerListener
              (Listener.mk ListenerTarget.document "mousemove" "sendMouseCoordinates")
              (registerListener
                (Listener.mk (ListenerTarget.element pg.nextUid) "click" "stopCoBrowse")
                pg.listeners))) })
  have hrun : startCoBrowse pg =
      ({ pg with
          document := document3, detached := pg.detached ++ [removed],
          nextUid := pg.nextUid + 3 + 2, isInitiated := true,
          published := pg.published ++
            [(getTopic pg.clientID "presence", PeerMessage.base base),
             (getTopic pg.clientID "presence", PeerMessage.clear),
             (getTopic pg.clientID "clientScreen",
               PeerMessage.screen pg.innerHeight pg.innerWidth),
             (getTopic pg.clientID "presence", PeerMessage.initializeCall rootId1 children2),
             (getTopic pg.clientID "presence", PeerMessage.scroll pg.verScroll)],
          listeners := registerListener
            (Listener.mk ListenerTarget.window "resize" "handleResize")
            (registerListener (Listener.mk ListenerTarget.window "scroll" "sendScroll")
              (registerListener
                (Listener.mk ListenerTarget.document "mousemove" "sendMouseCoordinates")
                (registerListener
                  (Listener.mk (ListenerTarget.element pg.nextUid) "click" "stopCoBrowse")
                  pg.listeners))),
          nodeMapIds := (serializedState document3 pg.nodeMapIds pg.nodeMapNextId).mapIds,
          nodeMapNextId :=
            (serializedState document3 pg.nodeMapIds pg.nodeMapNextId).mapNextId,
          redactedNodeIds := ids2,
          mirrorClient := some (MirrorClient.mk
            (serializedState document3 pg.nodeMapIds pg.nodeMapNextId).nextId
            (serializedState document3 pg.nodeMapIds pg.nodeMapNextId).nodes
            (serializedState document3 pg.nodeMapIds pg.nodeMapNextId).values true) },
        none) := by
    simp only [startCoBrowse, andThen, hrm, hadd]
    simp only [hinit, Bool.false_eq_true, if_false]
    unfold startMirroring
    simp only [hbase, Page.peerDataSend, hd2, andThen, Page.appendToBody, hd2a, hd3b,
      sendDimensions, Page.addEventListener, List.append_assoc, List.singleton_append,
      List.cons_append, List.nil_append]
    simp only [List.append_assoc, List.singleton_append, List.cons_append, List.nil_append,
      hinit] at hclient
    rw [hclient]
    simp
  exact ⟨_, hrun, rfl, rfl, rfl, rfl, rfl, rfl, rfl, rfl⟩

theorem examplePage_session_documents :
    updateBody (fun b => withAppended b
          [dfs (stopButtonElement 8) (dfsRedacts b.props false || false),
           createdElement (8 + 3) "DIV"
             [("id", "agent_cursor"), ("style", "visibility: hidden;")] [],
           createdElement (8 + 3 + 1) "IMG" [("id", "canvasImg")] []])
        (DomNode.mk (examplePageWith []).document.props (exampleDocumentOf [] []).childNodes) =
      some (exampleDocumentOf []
        [stopButtonElement 8,
         createdElement 11 "DIV" [("id", "agent_cursor"), ("style", "visibility: hidden;")] [],
         createdElement 12 "IMG" [("id", "canvasImg")] []]) ∧
    updateBody (fun b => withAppended b
          [dfs (stopButtonElement 16) (dfsRedacts b.props false || false),
           createdElement (16 + 3) "DIV"
             [("id", "agent_cursor"), ("style", "visibility: hidden;")] [],
           createdElement (16 + 3 + 1) "IMG" [("id", "canvasImg")] []])
        (DomNode.mk (exampleDocumentOf [] [startButtonElement 13]).props
          (exampleDocumentOf [] []).childNodes) =
      some (exampleDocumentOf []
        [stopButtonElement 16,
         createdElement 19 "DIV" [("id", "agent_cursor"), ("style", "visibility: hidden;")] [],
         createdElement 20 "IMG" [("id", "canvasImg")] []]) := by
  constructor <;> rfl


theorem examplePage_first_serialization :
    serializedState (exampleDocumentOf []
        [stopButtonElement 8,
         createdElement 11 "DIV" [("id", "agent_cursor"), ("style", "visibility: hidden;")] [],
         createdElement 12 "IMG" [("id", "canvasImg")] []]) [] 1 =
      SerialState.mk 11
        [none, some 0, some 1, some 2, some 3, some 4, some 8, some 9, some 10, some 11,
          some 12]
        [none, some 1, some 2, some 3, some 4, some 5, some 6, some 7, some 8, some 9,
          some 10]
        [(12, 10), (11, 9), (10, 8), (9, 7), (8, 6), (4, 5), (3, 4), (2, 3), (1, 2), (0, 1)]
        11 := by
  simp [serializedState, exampleDocumentOf, stopButtonElement, createdElement, createdText,
    exampleElement, serializeNode, serializeList, nodeId, writeAt, List.lookup, DomNode.childNodes]

theorem examplePage_second_serialization :
    serializedState (exampleDocumentOf []
        [stopButtonElement 16,
         createdElement 19 "DIV" [("id", "agent_cursor"), ("style", "visibility: hidden;")] [],
         createdElement 20 "IMG" [("id", "canvasImg")] []])
      [(12, 10), (11, 9), (10, 8), (9, 7), (8, 6), (4, 5), (3, 4), (2, 3), (1, 2), (0, 1)] 11 =
      SerialState.mk 11
        [none, some 0, some 1, some 2, some 3, some 4, none, none, none, none, none,
          some 16, some 17, some 18, some 19, some 20]
        [none, some 1, some 2, some 3, some 4, some 5, none, none, none, none, none,
          some 6, some 7, some 8, some 9, some 10]
        [(20, 15), (19, 14), (18, 13), (17, 12), (16, 11),
          (12, 10), (11, 9), (10, 8), (9, 7), (8, 6), (4, 5), (3, 4), (2, 3), (1, 2), (0, 1)]
        16 := by
  simp [serializedState, exampleDocumentOf, stopButtonElement, createdElement, createdText,
    exampleElement, serializeNode, serializeList, nodeId, writeAt, List.lookup, DomNode.childNodes]

/-- C18: after a stop and a second start the lookups no longer agree with the
serialization. On the example page the second client serializes the new stop button under
the record id 6 (the sixth node in tree order), while `NodeMap`, whose numbers went on
from the first session, stores that node under another index `m`. `getNodeById(6)` reads
`knownNodes.nodes[6]`, a hole, and `getIdByNode` of the button returns the index `m`, not
the record id 6. -/
theorem lookups_drift_after_restart :
    ∃ pgS1 pgT pgS2 client n m,
      startCoBrowse (examplePageWith []) = (pgS1, none) ∧
      stopCoBrowse pgS1 = (pgT, none) ∧
      startCoBrowse pgT = (pgS2, none) ∧
      pgS2.mirrorClient = some client ∧ client.connected = true ∧
      n.uid = 16 ∧ n.attributeValue "id" = some "end-button" ∧
      pgS2.nodeMapIds.lookup n.uid = some m ∧
      client.nodes.get? m = some (some n.uid) ∧
      client.values.get? m = some (some 6) ∧
      getNodeById pgS2.knownNodes (JSId.mk 6 false) = none ∧
      getNodeById pgS2.knownNodes (JSId.mk m false) = some n ∧
      getIdByNode pgS2.knownNodes (some n) = JSId.mk m true ∧
      m ≠ 6 := by
  obtain ⟨pgS1, hS1, h1doc, h1det, h1uid, h1href, h1init, h1mc, h1ids, h1next⟩ :=
    startCoBrowse_client (examplePageWith []) "https://shop.example/cart/"
      (startButtonElement 5) (exampleDocumentOf [] []).childNodes
      (exampleDocumentOf []
        [stopButtonElement 8,
         createdElement 11 "DIV" [("id", "agent_cursor"), ("style", "visibility: hidden;")] [],
         createdElement 12 "IMG" [("id", "canvasImg")] []])
      rfl (by decide) examplePage_start_button.1 examplePage_session_documents.1
  have hser1 : serializedState (exampleDocumentOf []
        [stopButtonElement 8,
         createdElement 11 "DIV" [("id", "agent_cursor"), ("style", "visibility: hidden;")] [],
         createdElement 12 "IMG" [("id", "canvasImg")] []])
      (examplePageWith []).nodeMapIds (examplePageWith []).nodeMapNextId = _ :=
    examplePage_first_serialization
  rw [hser1] at h1mc h1ids h1next
  have hT := stopCoBrowse_of_steps pgS1 _ (stopButtonElement 8)
    (createdElement 11 "DIV" [("id", "agent_cursor"), ("style", "visibility: hidden;")] [])
    (createdElement 12 "IMG" [("id", "canvasImg")] [])
    (exampleDocumentOf []
      [createdElement 11 "DIV" [("id", "agent_cursor"), ("style", "visibility: hidden;")] [],
       createdElement 12 "IMG" [("id", "canvasImg")] []])
    (exampleDocumentOf []
      [createdElement 11 "DIV" [("id", "agent_cursor"), ("style", "visibility: hidden;")] [],
       createdElement 12 "IMG" [("id", "canvasImg")] [], startButtonElement 13])
    (exampleDocumentOf []
      [createdElement 12 "IMG" [("id", "canvasImg")] [], startButtonElement 13])
    (exampleDocumentOf [] [startButtonElement 13])
    h1mc (by rw [h1doc]; rfl) (by rw [h1doc]; rfl) (by rw [h1uid]; rfl) rfl rfl rfl rfl
  obtain ⟨pgT, hT1, hTdoc, hTuid, hThref, hTinit, hTids, hTnext, hTdet⟩ : ∃ pgT,
      stopCoBrowse pgS1 = (pgT, none) ∧
      pgT.document = exampleDocumentOf [] [startButtonElement 13] ∧
      pgT.nextUid = 16 ∧ pgT.href = "https://shop.example/cart/index.html" ∧
      pgT.isInitiated = false ∧
      pgT.nodeMapIds =
        [(12, 10), (11, 9), (10, 8), (9, 7), (8, 6), (4, 5), (3, 4), (2, 3), (1, 2), (0, 1)] ∧
      pgT.nodeMapNextId = 11 ∧
      pgT.detached = [startButtonElement 5, stopButtonElement 8,
        createdElement 11 "DIV" [("id", "agent_cursor"), ("style", "visibility: hidden;")] [],
        createdElement 12 "IMG" [("id", "canvasImg")] []] :=
    ⟨_, hT, rfl, by show pgS1.nextUid + 3 = 16; rw [h1uid]; rfl,
      by show pgS1.href = _; rw [h1href]; rfl, rfl, h1ids, h1next,
      by show pgS1.detached ++ _ ++ _ ++ _ = _; rw [h1det]; rfl⟩
  obtain ⟨pgS2, hS2, h2doc, h2det, h2uid, h2href, h2init, h2mc, h2ids, h2next⟩ :=
    startCoBrowse_client pgT "https://shop.example/cart/"
      (startButtonElement 13) (exampleDocumentOf [] []).childNodes
      (exampleDocumentOf []
        [stopButtonElement 16,
         createdElement 19 "DIV" [("id", "agent_cursor"), ("style", "visibility: hidden;")] [],
         createdElement 20 "IMG" [("id", "canvasImg")] []])
      hTinit (by rw [hThref]; decide) (by rw [hTdoc]; rfl)
      (by rw [hTuid, hTdoc]; exact examplePage_session_documents.2)
  rw [hTids, hTnext, examplePage_second_serialization] at h2mc h2ids
  rw [hTdet] at h2det
  have hknown : pgS2.knownNodes =
      [none, some 0, some 1, some 2, some 3, some 4, none, none, none, none, none,
        some 16, some 17, some 18, some 19, some 20].map (fun entry =>
        entry.bind (fun uid =>
          (liveNodesBelowList none (exampleDocumentOf []
            [stopButtonElement 16,
             createdElement 19 "DIV"
               [("id", "agent_cursor"), ("style", "visibility: hidden;")] [],
             createdElement 20 "IMG" [("id", "canvasImg")] []] ::
            ([startButtonElement 5, stopButtonElement 8,
              createdElement 11 "DIV"
                [("id", "agent_cursor"), ("style", "visibility: hidden;")] [],
              createdElement 12 "IMG" [("id", "canvasImg")] []] ++
              [startButtonElement 13]))).find? (fun n => n.uid = uid))) := by
    simp only [Page.knownNodes, h2mc, h2doc, h2det]
  refine ⟨pgS1, pgT, pgS2, _,
    LiveNode.mk (stopButtonElement 16).props
      (some (LiveNode.mk (exampleElement 3 "BODY" [] [] "600" "800")
        (some (LiveNode.mk (exampleElement 1 "HTML" [] [] "600" "800") none)))),
    11, hS1, hT1, hS2, h2mc, rfl, rfl, rfl, ?_, rfl, rfl, ?_, ?_, ?_, by decide⟩
  · rw [h2ids]
    rfl
  · rw [hknown]
    rfl
  · rw [hknown]
    rfl
  · rw [hknown]
    rfl

/-! ## The message envelope -/

theorem shr3 (m : Nat) : m >>> 3 = m / 8 := by rw [Nat.shiftRight_eq_div_pow]
theorem shr4 (m : Nat) : m >>> 4 = m / 16 := by rw [Nat.shiftRight_eq_div_pow]
theorem shr5 (m : Nat) : m >>> 5 = m / 32 := by rw [Nat.shiftRight_eq_div_pow]
theorem shr6 (m : Nat) : m >>> 6 = m / 64 := by rw [Nat.shiftRight_eq_div_pow]
theorem shr7 (m : Nat) : m >>> 7 = m / 128 := by rw [Nat.shiftRight_eq_div_pow]
theorem shr8 (m : Nat) : m >>> 8 = m / 256 := by rw [Nat.shiftRight_eq_div_pow]
theorem shr10 (m : Nat) : m >>> 10 = m / 1024 := by rw [Nat.shiftRight_eq_div_pow]
theorem shr12 (m : Nat) : m >>> 12 = m / 4096 := by rw [Nat.shiftRight_eq_div_pow]
theorem shr18 (m : Nat) : m >>> 18 = m / 262144 := by rw [Nat.shiftRight_eq_div_pow]
theorem shl6 (m : Nat) : m <<< 6 = m * 64 := by rw [Nat.shiftLeft_eq]
theorem shl8 (m : Nat) : m <<< 8 = m * 256 := by rw [Nat.shiftLeft_eq]
theorem shl10 (m : Nat) : m <<< 10 = m * 1024 := by rw [Nat.shiftLeft_eq]
theorem shl12 (m : Nat) : m <<< 12 = m * 4096 := by rw [Nat.shiftLeft_eq]
theorem shl18 (m : Nat) : m <<< 18 = m * 262144 := by rw [Nat.shiftLeft_eq]
theorem and7 (m : Nat) : 7 &&& m = m % 8 := by
  rw [Nat.land_comm]; exact Nat.and_pow_two_sub_one_eq_mod m 3
theorem and15 (m : Nat) : 15 &&& m = m % 16 := by
  rw [Nat.land_comm]; exact Nat.and_pow_two_sub_one_eq_mod m 4
theorem and31 (m : Nat) : 31 &&& m = m % 32 := by
  rw [Nat.land_comm]; exact Nat.and_pow_two_sub_one_eq_mod m 5
theorem and63 (m : Nat) : 63 &&& m = m % 64 := by
  rw [Nat.land_comm]; exact Nat.and_pow_two_sub_one_eq_mod m 6
theorem and63r (m : Nat) : m &&& 63 = m % 64 := Nat.and_pow_two_sub_one_eq_mod m 6
theorem and255 (m : Nat) : 255 &&& m = m % 256 := by
  rw [Nat.land_comm]; exact Nat.and_pow_two_sub_one_eq_mod m 8
theorem and1023r (m : Nat) : m &&& 1023 = m % 1024 := Nat.and_pow_two_sub_one_eq_mod m 10

/-- Bitwise or is addition when the right operand lies below the lowest set bit of the
left one. -/
theorem lor_eq_add (i m a b : Nat) (hm : m = 2 ^ i * a) (hb : b < 2 ^ i) : m ||| b = m + b := by
  subst hm
  exact (Nat.mul_add_lt_is_or hb a).symm
theorem char_range (c : Char) :
    c.toNat < 55296 ∨ (57343 < c.toNat ∧ c.toNat < 1114112) := by
  have h := c.valid
  simpa [UInt32.isValidChar, Nat.isValidChar, Char.toNat] using h

theorem getElem?_after (pre l : List Nat) (k : Nat) :
    (pre ++ l)[pre.length + k]? = l[k]? := by
  rw [List.getElem?_append_right (by omega)]
  congr 1
  omega

theorem encodeFromString_char (pre post : List Nat) (c : Char) :
    encodeFromString (pre ++ (charUnits c ++ post)) pre.length = Except.ok c.toNat := by
  have h0 := getElem?_after pre (charUnits c ++ post) 0
  have h1 := getElem?_after pre (charUnits c ++ post) 1
  simp only [Nat.add_zero] at h0
  rcases char_range c with hlow | ⟨hhigh, hmax⟩
  · have hu : charUnits c = [c.toNat] := by
      unfold charUnits
      rw [if_pos (by omega)]
    rw [hu] at h0
    simp only [encodeFromString, h0, hu]
    simp [hlow]
  · by_cases hb : c.toNat ≤ 65535
    · have hu : charUnits c = [c.toNat] := by
        unfold charUnits
        rw [if_pos hb]
      rw [hu] at h0
      simp only [encodeFromString, h0, hu]
      simp
      omega
    · have hu : charUnits c =
          [55296 + (c.toNat - 65536) / 1024, 56320 + (c.toNat - 65536) % 1024] := by
        unfold charUnits
        rw [if_neg hb]
      rw [hu] at h0 h1
      simp only [encodeFromString, h0, h1, hu]
      simp only [List.cons_append, List.getElem?_cons_zero, List.getElem?_cons_succ, shl10]
      rw [if_neg (by omega), if_pos (by omega)]
      congr 1
      omega

theorem lor128 (b : Nat) (h : b < 64) : 128 ||| b = 128 + b :=
  lor_eq_add 6 128 2 b (by norm_num) (by norm_num; omega)

theorem lor192 (b : Nat) (h : b < 32) : 192 ||| b = 192 + b :=
  lor_eq_add 5 192 6 b (by norm_num) (by norm_num; omega)

theorem lor224 (b : Nat) (h : b < 32) : 224 ||| b = 224 + b :=
  lor_eq_add 5 224 7 b (by norm_num) (by norm_num; omega)

theorem lor240 (b : Nat) (h : b < 16) : 240 ||| b = 240 + b :=
  lor_eq_add 4 240 15 b (by norm_num) (by norm_num; omega)

theorem charUnits_length_pos (c : Char) : 0 < (charUnits c).length := by
  unfold charUnits
  split <;> simp

/-- One round of the loop of `encodeWithJS` at the first code unit of a scalar value: its
UTF-8 bytes are written and the index moves past its code units. -/
theorem encodeWithJSLoop_step (pre post : List Nat) (c : Char) (t : List Nat) :
    encodeWithJSLoop (pre ++ (charUnits c ++ post)) pre.length t =
      encodeWithJSLoop (pre ++ (charUnits c ++ post)) (pre.length + (charUnits c).length)
        (t ++ utf8Bytes c.toNat) := by
  have hpos := charUnits_length_pos c
  have hlt : pre.length < (pre ++ (charUnits c ++ post)).length := by
    simp only [List.length_append]; omega
  rw [encodeWithJSLoop, if_pos hlt, encodeFromString_char]
  simp only
  have hmax : c.toNat ≤ 1114111 := by
    rcases char_range c with h | ⟨_, h⟩ <;> omega
  by_cases h1 : c.toNat ≤ 127
  · have hu : charUnits c = [c.toNat] := by
      unfold charUnits; rw [if_pos (by omega)]
    rw [if_pos h1]
    simp only [utf8Bytes, if_pos h1, hu, List.length_singleton]
  · rw [if_neg h1]
    by_cases h2 : c.toNat ≤ 2047
    · have hu : charUnits c = [c.toNat] := by
        unfold charUnits; rw [if_pos (by omega)]
      rw [if_pos h2]
      simp only [utf8Bytes, if_neg h1, if_pos h2, hu, List.length_singleton, shr6, and63]
      rw [lor192 _ (by omega), lor128 _ (by omega)]
    · rw [if_neg h2]
      by_cases h3 : c.toNat ≤ 65535
      · have hu : charUnits c = [c.toNat] := by
          unfold charUnits; rw [if_pos h3]
        rw [if_pos h3]
        simp only [utf8Bytes, if_neg h1, if_neg h2, if_pos h3, hu, List.length_singleton,
          shr6, shr12, and63, and63r]
        rw [lor224 _ (by omega), lor128 _ (by omega), lor128 _ (by omega)]
      · have hu : (charUnits c).length = 2 := by
          unfold charUnits; rw [if_neg h3]; rfl
        rw [if_neg h3, if_pos hmax]
        simp only [utf8Bytes, if_neg h1, if_neg h2, if_neg h3, hu, shr6, shr12, shr18, and63,
          and63r]
        rw [lor240 _ (by omega), lor128 _ (by omega), lor128 _ (by omega),
          lor128 _ (by omega)]

theorem encodeWithJSLoop_chars (cs : List Char) :
    ∀ (pre t : List Nat),
      encodeWithJSLoop (pre ++ unitsOfChars cs) pre.length t = Except.ok (t ++ bytesOfChars cs) := by
  induction cs with
  | nil =>
    intro pre t
    rw [encodeWithJSLoop, if_neg (by simp [unitsOfChars])]
    simp [bytesOfChars]
  | cons c cs ih =>
    intro pre t
    show encodeWithJSLoop (pre ++ (charUnits c ++ unitsOfChars cs)) pre.length t = _
    rw [encodeWithJSLoop_step]
    have h := ih (pre ++ charUnits c) (t ++ utf8Bytes c.toNat)
    rw [List.append_assoc, List.length_append] at h
    rw [h]
    simp [bytesOfChars]

/-- The library's encoder writes the UTF-8 bytes of a well-formed string. -/
theorem encodeWithJS_chars (cs : List Char) :
    encodeWithJS (unitsOfChars cs) = Except.ok (bytesOfChars cs) := by
  unfold encodeWithJS
  split
  · rename_i h
    cases cs with
    | nil => rfl
    | cons c cs =>
      exfalso
      have hpos := charUnits_length_pos c
      have hl : (unitsOfChars (c :: cs)).length = 0 := by
        rw [List.isEmpty_iff] at h
        rw [h]; rfl
      simp only [unitsOfChars, List.length_append] at hl
      omega
  · have h := encodeWithJSLoop_chars cs [] []
    simpa using h
theorem decode_two (v : Nat) (h : v ≤ 2047) :
    ((31 &&& (192 + v / 64)) <<< 6) ||| (63 &&& (128 + v % 64)) = v := by
  simp only [and31, and63, shl6]
  rw [lor_eq_add 6 _ (v / 64) _ (by norm_num; omega) (by norm_num; omega)]
  omega

theorem decode_three (v : Nat) (h : v ≤ 65535) :
    ((15 &&& (224 + v / 4096)) <<< 12) ||| ((63 &&& (128 + v / 64 % 64)) <<< 6) |||
      (63 &&& (128 + v % 64)) = v := by
  simp only [and15, and63, shl6, shl12]
  have e1 : (224 + v / 4096) % 16 * 4096 ||| (128 + v / 64 % 64) % 64 * 64 =
      (224 + v / 4096) % 16 * 4096 + (128 + v / 64 % 64) % 64 * 64 :=
    lor_eq_add 12 _ (v / 4096) _ (by norm_num; omega) (by norm_num; omega)
  rw [e1]
  rw [lor_eq_add 6 _ (v / 64) _ (by norm_num; omega) (by norm_num; omega)]
  omega

theorem decode_four (v : Nat) (h : v ≤ 1114111) :
    ((7 &&& (240 + v / 262144)) <<< 18) ||| ((63 &&& (128 + v / 4096 % 64)) <<< 12) |||
      ((63 &&& (128 + v / 64 % 64)) <<< 6) ||| (63 &&& (128 + v % 64)) = v := by
  simp only [and7, and63, shl6, shl12, shl18]
  have e1 : (240 + v / 262144) % 8 * 262144 ||| (128 + v / 4096 % 64) % 64 * 4096 =
      (240 + v / 262144) % 8 * 262144 + (128 + v / 4096 % 64) % 64 * 4096 :=
    lor_eq_add 18 _ (v / 262144) _ (by norm_num; omega) (by norm_num; omega)
  rw [e1]
  have e2 : (240 + v / 262144) % 8 * 262144 + (128 + v / 4096 % 64) % 64 * 4096 |||
      (128 + v / 64 % 64) % 64 * 64 =
      (240 + v / 262144) % 8 * 262144 + (128 + v / 4096 % 64) % 64 * 4096 +
        (128 + v / 64 % 64) % 64 * 64 :=
    lor_eq_add 12 _ (v / 4096) _ (by norm_num; omega) (by norm_num; omega)
  rw [e2]
  rw [lor_eq_add 6 _ (v / 64) _ (by norm_num; omega) (by norm_num; omega)]
  omega

theorem getD_after (pre l : List Nat) (k : Nat) :
    (pre ++ l).getD (pre.length + k) 0 = l.getD k 0 := by
  simp only [List.getD_eq_getElem?_getD, getElem?_after]

theorem utf8Bytes_length_pos (v : Nat) : 0 < (utf8Bytes v).length := by
  unfold utf8Bytes
  split
  · simp
  · split
    · simp
    · split <;> simp

/-- One round of the loop of `decodeWithJS` at the first byte of a scalar value: its code
units are appended and the index moves past its bytes. -/
theorem decodeWithJSLoop_step (pre rest : List Nat) (c : Char) (sb : JSString) :
    decodeWithJSLoop (pre ++ (utf8Bytes c.toNat ++ rest)) pre.length sb =
      decodeWithJSLoop (pre ++ (utf8Bytes c.toNat ++ rest))
        (pre.length + (utf8Bytes c.toNat).length) (sb ++ charUnits c) := by
  have hmax : c.toNat ≤ 1114111 := by
    rcases char_range c with h | ⟨_, h⟩ <;> omega
  have hpos := utf8Bytes_length_pos c.toNat
  have hlt : pre.length < (pre ++ (utf8Bytes c.toNat ++ rest)).length := by
    simp only [List.length_append]; omega
  have g0 := getD_after pre (utf8Bytes c.toNat ++ rest) 0
  have g1 := getD_after pre (utf8Bytes c.toNat ++ rest) 1
  have g2 := getD_after pre (utf8Bytes c.toNat ++ rest) 2
  have g3 := getD_after pre (utf8Bytes c.toNat ++ rest) 3
  have hlen : (pre ++ (utf8Bytes c.toNat ++ rest)).length =
      pre.length + ((utf8Bytes c.toNat).length + rest.length) := by
    simp only [List.length_append]
  rw [decodeWithJSLoop, if_pos hlt]
  simp only [Nat.add_zero] at g0
  simp only [g0, g1, g2, g3, hlen]
  by_cases h1 : c.toNat ≤ 127
  · have hu : charUnits c = [c.toNat] := by
      unfold charUnits; rw [if_pos (by omega)]
    simp only [utf8Bytes, if_pos h1, hu, List.singleton_append, List.getD_cons_zero,
      List.length_singleton]
    rw [if_pos (by rw [shr7]; omega)]
    simp only [appendCodePoint]
    rw [if_pos (by omega)]
  · by_cases h2 : c.toNat ≤ 2047
    · have hu : charUnits c = [c.toNat] := by
        unfold charUnits; rw [if_pos (by omega)]
      simp only [utf8Bytes, if_neg h1, if_pos h2, hu, List.cons_append, List.nil_append,
        List.getD_cons_zero, List.getD_cons_succ, List.length_cons, List.length_nil]
      rw [if_neg (by rw [shr7]; omega), if_pos (by rw [shr5]; omega), if_neg (by omega),
        decode_two _ h2]
      simp only [appendCodePoint]
      rw [if_pos (by omega)]
    · by_cases h3 : c.toNat ≤ 65535
      · have hu : charUnits c = [c.toNat] := by
          unfold charUnits; rw [if_pos h3]
        simp only [utf8Bytes, if_neg h1, if_neg h2, if_pos h3, hu, List.cons_append,
          List.nil_append, List.getD_cons_zero, List.getD_cons_succ, List.length_cons,
          List.length_nil]
        rw [if_neg (by rw [shr7]; omega), if_neg (by rw [shr5]; omega),
          if_pos (by rw [shr4]; omega), if_neg (by omega), decode_three _ h3]
        simp only [appendCodePoint]
        rw [if_pos (by omega)]
      · have hu : charUnits c =
            [55296 + (c.toNat - 65536) / 1024, 56320 + (c.toNat - 65536) % 1024] := by
          unfold charUnits; rw [if_neg h3]
        simp only [utf8Bytes, if_neg h1, if_neg h2, if_neg h3, hu, List.cons_append,
          List.nil_append, List.getD_cons_zero, List.getD_cons_succ, List.length_cons,
          List.length_nil]
        rw [if_neg (by rw [shr7]; omega), if_neg (by rw [shr5]; omega),
          if_neg (by rw [shr4]; omega), if_neg (by rw [shr3]; omega), if_neg (by omega),
          decode_four _ hmax]
        simp only [appendCodePoint]
        rw [if_neg h3, if_pos hmax, shr10, and1023r]

theorem decodeWithJSLoop_chars (cs : List Char) :
    ∀ (pre : List Nat) (sb : JSString),
      decodeWithJSLoop (pre ++ bytesOfChars cs) pre.length sb =
        Except.ok (sb ++ unitsOfChars cs) := by
  induction cs with
  | nil =>
    intro pre sb
    rw [decodeWithJSLoop, if_neg (by simp [bytesOfChars])]
    simp [unitsOfChars]
  | cons c cs ih =>
    intro pre sb
    show decodeWithJSLoop (pre ++ (utf8Bytes c.toNat ++ bytesOfChars cs)) pre.length sb = _
    rw [decodeWithJSLoop_step]
    have h := ih (pre ++ utf8Bytes c.toNat) (sb ++ charUnits c)
    rw [List.append_assoc, List.length_append] at h
    rw [h]
    simp [unitsOfChars]

/-- The library's decoder reads the UTF-8 bytes of a well-formed string back. -/
theorem decodeWithJS_chars (cs : List Char) :
    decodeWithJS (bytesOfChars cs) = Except.ok (unitsOfChars cs) := by
  unfold decodeWithJS
  split
  · rename_i h
    cases cs with
    | nil => rfl
    | cons c cs =>
      exfalso
      rw [List.isEmpty_iff] at h
      have hl : (bytesOfChars (c :: cs)).length = 0 := by rw [h]; rfl
      have hp := utf8Bytes_length_pos c.toNat
      simp only [bytesOfChars, List.length_append] at hl
      omega
  · have h := decodeWithJSLoop_chars cs [] []
    simpa using h
theorem isUtf8From_utf8Bytes (c : Char) (rest : List Nat) :
    isUtf8From 0 (utf8Bytes c.toNat ++ rest) = isUtf8From 0 rest := by
  have hmax : c.toNat ≤ 1114111 := by
    rcases char_range c with h | ⟨_, h⟩ <;> omega
  by_cases h1 : c.toNat ≤ 127
  · simp only [utf8Bytes, if_pos h1, List.singleton_append, isUtf8From]
    rw [if_pos (by omega)]
  · by_cases h2 : c.toNat ≤ 2047
    · simp only [utf8Bytes, if_neg h1, if_pos h2, List.cons_append, List.nil_append, isUtf8From]
      rw [if_neg (by omega), if_pos (by omega), if_pos (by omega)]
    · by_cases h3 : c.toNat ≤ 65535
      · simp only [utf8Bytes, if_neg h1, if_neg h2, if_pos h3, List.cons_append,
          List.nil_append, isUtf8From]
        rw [if_neg (by omega), if_neg (by omega), if_pos (by omega), if_pos (by omega),
          if_pos (by omega)]
      · simp only [utf8Bytes, if_neg h1, if_neg h2, if_neg h3, List.cons_append,
          List.nil_append, isUtf8From]
        rw [if_neg (by omega), if_neg (by omega), if_neg (by omega), if_pos (by omega),
          if_pos (by omega), if_pos (by omega), if_pos (by omega)]

/-- The bytes the library's encoder writes for a well-formed string have the shape of
UTF-8. -/
theorem isUtf8_bytesOfChars (cs : List Char) : isUtf8 (bytesOfChars cs) = true := by
  unfold isUtf8
  induction cs with
  | nil => rfl
  | cons c cs ih =>
    show isUtf8From 0 (utf8Bytes c.toNat ++ bytesOfChars cs) = true
    rw [isUtf8From_utf8Bytes, ih]

theorem leadFollow_nil : LeadFollow [] := by
  intro i hi
  simp at hi

theorem leadFollow_cons (b : Nat) (rest : List Nat) (hb : b < 256)
    (h1 : 192 ≤ b → 1 ≤ rest.length ∧ 128 ≤ rest.getD 0 0)
    (h2 : 224 ≤ b → 2 ≤ rest.length) (h3 : 240 ≤ b → 3 ≤ rest.length)
    (hrest : LeadFollow rest) : LeadFollow (b :: rest) := by
  intro i hi
  cases i with
  | zero =>
    simp only [List.getD_cons_zero, List.length_cons, Nat.zero_add, List.getD_cons_succ]
    refine ⟨hb, fun h => ⟨by have := (h1 h).1; omega, (h1 h).2⟩, fun h => ?_, fun h => ?_⟩
    · have := h2 h; omega
    · have := h3 h; omega
  | succ j =>
    simp only [List.length_cons] at hi
    have hj := hrest j (by omega)
    simp only [List.getD_cons_succ, List.length_cons]
    refine ⟨hj.1, fun h => ⟨by have := (hj.2.1 h).1; omega, (hj.2.1 h).2⟩, fun h => ?_,
      fun h => ?_⟩
    · have := hj.2.2.1 h; omega
    · have := hj.2.2.2 h; omega

theorem leadFollow_of_isUtf8From (l : List Nat) :
    ∀ k, isUtf8From k l = true →
      LeadFollow l ∧ k ≤ l.length ∧ ∀ j, j < k → 128 ≤ l.getD j 0 ∧ l.getD j 0 < 192 := by
  induction l with
  | nil =>
    intro k h
    cases k with
    | zero => exact ⟨leadFollow_nil, Nat.le_refl _, fun j hj => by omega⟩
    | succ k => simp [isUtf8From] at h
  | cons b rest ih =>
    intro k h
    cases k with
    | zero =>
      simp only [isUtf8From] at h
      refine ⟨?_, Nat.zero_le _, fun j hj => by omega⟩
      by_cases c1 : b < 128
      · rw [if_pos c1] at h
        exact leadFollow_cons b rest (by omega) (fun hh => by omega) (fun hh => by omega)
          (fun hh => by omega) (ih 0 h).1
      · rw [if_neg c1] at h
        by_cases c2 : 192 ≤ b ∧ b < 224
        · rw [if_pos c2] at h
          obtain ⟨hl, hk, hc⟩ := ih 1 h
          exact leadFollow_cons b rest (by omega) (fun _ => ⟨hk, (hc 0 (by omega)).1⟩)
            (fun hh => by omega) (fun hh => by omega) hl
        · rw [if_neg c2] at h
          by_cases c3 : 224 ≤ b ∧ b < 240
          · rw [if_pos c3] at h
            obtain ⟨hl, hk, hc⟩ := ih 2 h
            exact leadFollow_cons b rest (by omega)
              (fun _ => ⟨by omega, (hc 0 (by omega)).1⟩) (fun _ => hk) (fun hh => by omega) hl
          · rw [if_neg c3] at h
            by_cases c4 : 240 ≤ b ∧ b < 248
            · rw [if_pos c4] at h
              obtain ⟨hl, hk, hc⟩ := ih 3 h
              exact leadFollow_cons b rest (by omega)
                (fun _ => ⟨by omega, (hc 0 (by omega)).1⟩) (fun _ => by omega) (fun _ => hk) hl
            · rw [if_neg c4] at h
              cases h
    | succ k =>
      simp only [isUtf8From] at h
      by_cases c1 : 128 ≤ b ∧ b < 192
      · rw [if_pos c1] at h
        obtain ⟨hl, hk, hc⟩ := ih k h
        refine ⟨leadFollow_cons b rest (by omega) (fun hh => by omega) (fun hh => by omega)
          (fun hh => by omega) hl, by simp only [List.length_cons]; omega, fun j hj => ?_⟩
        cases j with
        | zero => simpa using c1
        | succ j =>
          simp only [List.getD_cons_succ]
          exact hc j (by omega)
      · rw [if_neg c1] at h
        cases h

/-- Bytes with the shape of UTF-8 are what the compressor and the decompressor need. -/
theorem leadFollow_of_isUtf8 (l : List Nat) (h : isUtf8 l = true) : LeadFollow l :=
  (leadFollow_of_isUtf8From l 0 h).1

/-- Nothing is rolled back at the end of a whole UTF-8 text. -/
theorem rollBack_of_leadFollow (out : List Nat) (h : LeadFollow out) : rollBack out = out := by
  have key : ∀ e, 1 ≤ e → opensTruncatedSequence out e = false := by
    intro e he
    unfold opensTruncatedSequence
    by_cases hle : e ≤ out.length
    · have hi := h (out.length - e) (by omega)
      generalize out.getD (out.length - e) 0 = t at hi
      simp only [shr3, shr4, shr5]
      simp only [Bool.and_eq_false_imp, decide_eq_true_eq, Bool.or_eq_false_iff,
        Bool.and_eq_false_imp, decide_eq_false_iff_not]
      intro _
      refine ⟨⟨fun h4 h30 => ?_, fun h3 h14 => ?_⟩, fun h2 h6 => ?_⟩
      · have := hi.2.2.2 (by omega); omega
      · have := hi.2.2.1 (by omega); omega
      · have := (hi.2.1 (by omega)).1; omega
    · simp [hle]
  unfold rollBack
  simp [key]
theorem below_create (bound n : Nat) : (Uint32Array.create n).Below bound := by
  intro k
  exact Nat.zero_le _

theorem below_mono (a : Uint32Array) (b1 b2 : Nat) (h : a.Below b1) (hle : b1 ≤ b2) :
    a.Below b2 := fun k => Nat.le_trans (h k) hle

theorem below_write (bound : Nat) (a : Uint32Array) (k v : Nat) (h : a.Below bound)
    (hv : v ≤ bound) : (a.write k v).Below bound := by
  intro j
  unfold Uint32Array.write
  split
  · show (if j = k then v % 4294967296 else a.cells j) ≤ bound
    split
    · exact Nat.le_trans (Nat.mod_le _ _) hv
    · exact h j
  · exact h j

theorem below_read (bound : Nat) (a : Uint32Array) (k : Nat) (h : a.Below bound) :
    (a.read k).getD 0 ≤ bound := by
  unfold Uint32Array.read
  split
  · exact h k
  · exact Nat.zero_le _

theorem below_copyElements (bound : Nat) (src : Uint32Array) (hsrc : src.Below bound) :
    ∀ (count t : Nat) (dst : Uint32Array) (n : Nat), dst.Below bound →
      (copyElements src count t dst n).Below bound := by
  intro count
  induction count with
  | zero => intro t dst n h; exact h
  | succ c ih =>
    intro t dst n h
    exact ih _ _ _ (below_write bound dst n _ h (below_read bound src t hsrc))

theorem below_copyWithin (bound : Nat) :
    ∀ (count : Nat) (a : Uint32Array) (t n : Nat), a.Below bound →
      (copyWithin count a t n).Below bound := by
  intro count
  induction count with
  | zero => intro a t n h; exact h
  | succ c ih =>
    intro a t n h
    exact ih _ _ _ (below_write bound a n _ h (below_read bound a t h))

theorem below_zeroElements (bound : Nat) :
    ∀ (count : Nat) (a : Uint32Array) (t : Nat), a.Below bound →
      (zeroElements count a t).Below bound := by
  intro count
  induction count with
  | zero => intro a t h; exact h
  | succ c ih =>
    intro a t h
    exact ih _ _ (below_write bound a t 0 h (Nat.zero_le _))

theorem below_truncate (bound : Nat) (a : Uint32Array) (e t r : Nat) (h : a.Below bound) :
    (truncateBucketToNewerElements a e t r).Below bound :=
  below_zeroElements bound _ _ _ (below_copyWithin bound _ _ _ _ h)

theorem foldl_invariant {α β : Type} (p : α → Prop) (f : α → β → α)
    (hf : ∀ acc x, p acc → p (f acc x)) : ∀ (l : List β) (init : α), p init → p (l.foldl f init) := by
  intro l
  induction l with
  | nil => intro init h; exact h
  | cons x rest ih => intro init h; exact ih _ (hf init x h)

theorem below_compact (bound : Nat) (tbl : CompressorCustomHashTable)
    (h : tbl.storage.Below bound) : tbl.compact.storage.Below bound := by
  unfold CompressorCustomHashTable.compact
  apply foldl_invariant (fun st : Uint32Array => st.Below bound)
  · intro acc k hacc
    unfold compactBucket
    simp only
    split
    · exact below_copyElements bound _ h _ _ _ _ hacc
    · exact hacc
  · exact below_create _ _

/-- Adding a value that is at most `bound` keeps every stored value at most `bound`. -/
theorem below_addValueToBucket (bound : Nat) (tbl : CompressorCustomHashTable) (bucket t : Nat)
    (h : tbl.storage.Below bound) (ht : t ≤ bound) :
    (tbl.addValueToBucket bucket t).storage.Below bound := by
  have h1 : (if tbl.storageIndex ≥ tbl.storage.length >>> 1 then tbl.compact else tbl).storage.Below
      bound := by
    split
    · exact below_compact bound tbl h
    · exact h
  unfold CompressorCustomHashTable.addValueToBucket
  simp only
  generalize (if tbl.storageIndex ≥ tbl.storage.length >>> 1 then tbl.compact else tbl) = tb at h1
  generalize 64 / 2 = half
  split
  · exact below_write bound _ _ _ h1 ht
  · by_cases hr : (tb.bucketLocators.read (bucket <<< 1 + 1)).getD 0 = 64 - 1
    · rw [if_pos hr, if_pos hr]
      have h2 := below_truncate bound tb.storage ((tb.bucketLocators.read (bucket <<< 1)).getD 0)
        ((tb.bucketLocators.read (bucket <<< 1 + 1)).getD 0) half h1
      split
      · exact below_write bound _ _ _ h2 ht
      · exact below_write bound _ _ _ (below_copyWithin bound _ _ _ _ h2) ht
    · rw [if_neg hr, if_neg hr]
      split
      · exact below_write bound _ _ _ h1 ht
      · exact below_write bound _ _ _ (below_copyWithin bound _ _ _ _ h1) ht

theorem read_below (bound : Nat) (a : Uint32Array) (k v : Nat) (h : a.Below bound)
    (hv : a.read k = some v) : v ≤ bound := by
  have := below_read bound a k h
  rw [hv] at this
  exact this

/-- The values a bucket gives are values that were stored. -/
theorem candidates_below (bound : Nat) (tbl : CompressorCustomHashTable) (bucket : Nat)
    (h : tbl.storage.Below bound) (values : List (Option Nat))
    (hv : tbl.candidates bucket = some values) : ∀ v, some v ∈ values → v ≤ bound := by
  intro v hmem
  unfold CompressorCustomHashTable.candidates at hv
  simp only at hv
  split at hv
  · cases hv
  · injection hv with hv
    subst hv
    rw [List.mem_map] at hmem
    obtain ⟨u, _, hu⟩ := hmem
    exact read_below bound _ _ _ h hu
theorem readAt_natCast (o : List Nat) (k : Nat) : readAt o (k : Int) = o[k]? := by
  unfold readAt
  rw [if_neg (by omega)]
  simp

theorem readAt_eq_some (o : List Nat) (x : Int) (b : Nat) (h : readAt o x = some b) :
    0 ≤ x ∧ x.toNat < o.length ∧ o.getD x.toNat 0 = b := by
  unfold readAt at h
  split at h
  · cases h
  · rename_i hx
    refine ⟨by omega, ?_, ?_⟩
    · by_contra hlt
      rw [List.getElem?_eq_none (by omega)] at h
      cases h
    · rw [List.getD_eq_getElem?_getD, h]
      rfl

theorem scanMatch_some (o : List Nat) (s : Int) (e : Nat) :
    ∀ (k f f1 : Nat), scanMatch o s e k f = some f1 →
      f ≤ f1 ∧ f1 ≤ f + k ∧
        ∀ g, f ≤ g → g < f1 → e + g ≠ o.length ∧ readAt o (s + g) = readAt o ((e : Int) + g) := by
  intro k
  induction k with
  | zero =>
    intro f f1 h
    rw [scanMatch] at h
    split at h
    · injection h with h
      subst h
      exact ⟨Nat.le_refl _, by omega, fun g h1 h2 => by omega⟩
    · cases h
  | succ k ih =>
    intro f f1 h
    rw [scanMatch] at h
    split at h
    · injection h with h
      subst h
      exact ⟨Nat.le_refl _, by omega, fun g h1 h2 => by omega⟩
    · rename_i hstop
      obtain ⟨h1, h2, h3⟩ := ih (f + 1) f1 h
      refine ⟨by omega, by omega, fun g hg1 hg2 => ?_⟩
      by_cases hgf : g = f
      · subst hgf
        constructor
        · intro hh; exact hstop (Or.inl hh)
        · by_contra hne
          exact hstop (Or.inr hne)
      · exact h3 g (by omega) hg2

theorem scanMatch_none (o : List Nat) (s : Int) (e : Nat) :
    ∀ (k f : Nat), scanMatch o s e k f = none →
      ∀ g, f ≤ g → g ≤ f + k → e + g ≠ o.length ∧ readAt o (s + g) = readAt o ((e : Int) + g) := by
  intro k
  induction k with
  | zero =>
    intro f h g hg1 hg2
    rw [scanMatch] at h
    split at h
    · cases h
    · rename_i hstop
      have hgf : g = f := by omega
      subst hgf
      constructor
      · intro hh; exact hstop (Or.inl hh)
      · by_contra hne
        exact hstop (Or.inr hne)
  | succ k ih =>
    intro f h g hg1 hg2
    rw [scanMatch] at h
    split at h
    · cases h
    · rename_i hstop
      by_cases hgf : g = f
      · subst hgf
        constructor
        · intro hh; exact hstop (Or.inl hh)
        · by_contra hne
          exact hstop (Or.inr hne)
      · exact ih (f + 1) h g (by omega) (by omega)

/-- Bytes that agree from a stored position on make a match the decompressor can copy. -/
theorem validMatch_of_agree (o : List Nat) (e v L : Nat) (he : e < o.length) (hv : v ≤ e)
    (ha : (e : Int) - ((v : Int) - 1) ≤ 32767) (hL4 : 4 ≤ L) (hL31 : L ≤ 31)
    (hag : ∀ g, g < L →
      e + g ≠ o.length ∧ readAt o ((v : Int) - 1 + g) = readAt o ((e : Int) + g)) :
    ValidMatch o e ((e : Int) - ((v : Int) - 1), L) := by
  have hlen : e + L ≤ o.length := by
    by_contra hcon
    exact (hag (o.length - e) (by omega)).1 (by omega)
  have h0 := (hag 0 (by omega)).2
  have hread : ∀ g, g < L → readAt o ((e : Int) + g) = some (o.getD (e + g) 0) := by
    intro g hg
    have : ((e : Int) + g) = ((e + g : Nat) : Int) := by push_cast; rfl
    rw [this, readAt_natCast, List.getD_eq_getElem?_getD,
      List.getElem?_eq_getElem (by omega)]
    rfl
  have hv1 : 1 ≤ v := by
    have h := hread 0 (by omega)
    rw [← h0] at h
    have := (readAt_eq_some o _ _ h).1
    omega
  refine ⟨by show (1 : Int) ≤ (e : Int) - ((v : Int) - 1); omega,
    by show (e : Int) - ((v : Int) - 1) ≤ e; omega, ha, hL4, hL31, hlen, fun g hg => ?_⟩
  have h1 := (hag g hg).2
  rw [hread g hg] at h1
  have h2 := (readAt_eq_some o _ _ h1).2.2
  show o.getD (e - ((e : Int) - ((v : Int) - 1)).toNat + g) 0 = o.getD (e + g) 0
  rw [← h2]
  congr 1
  omega

/-- A match that `findLongestMatch` gives can be copied by the decompressor, when the
values of the bucket are positions before `e` (stored as position plus one). -/
theorem findLoop_valid (o : List Nat) (e : Nat) (he : e < o.length) :
    ∀ (values : List (Option Nat)) (n : Option Int) (i : Nat) (m : Int × Nat),
      (∀ v, some v ∈ values → v ≤ e) → (∀ d, n = some d → ValidMatch o e (d, i)) →
      findLoop o e values n i = some m → ValidMatch o e m := by
  intro values
  induction values with
  | nil =>
    intro n i m _ hn h
    rw [findLoop] at h
    cases n with
    | none => cases h
    | some d =>
      injection h with h
      subst h
      exact hn d rfl
  | cons cand rest ih =>
    intro n i m hvals hn h
    have hrest : ∀ v, some v ∈ rest → v ≤ e := fun v hm => hvals v (List.mem_cons_of_mem _ hm)
    have hbreak : Option.map (fun d => (d, i)) n = some m → ValidMatch o e m := by
      intro hb
      cases n with
      | none => cases hb
      | some d =>
        injection hb with hb
        subst hb
        exact hn d rfl
    cases cand with
    | none =>
      rw [findLoop] at h
      split at h
      · exact hbreak h
      · exact ih n i m hrest hn h
    | some v =>
      have hv : v ≤ e := hvals v (List.mem_cons_self _ _)
      rw [findLoop] at h
      split at h
      · exact hbreak h
      · rename_i hnb
        have hc3 : 3 ≤ firstCompared n i (some ((e : Int) - ((v : Int) - 1))) := by
          cases n with
          | none => simp [firstCompared]
          | some d =>
            have := (hn d rfl).2.2.2.1
            simp only [firstCompared]
            split <;> omega
        split at h
        · split at h
          · injection h with h
            subst h
            rename_i hscan
            have hag := scanMatch_none o ((v : Int) - 1) e 31 0 hscan
            exact validMatch_of_agree o e v 31 he hv (by omega) (by omega) (by omega)
              (fun g hg => hag g (by omega) (by omega))
          · rename_i f hscan
            obtain ⟨_, hf31, hag⟩ := scanMatch_some o ((v : Int) - 1) e 31 0 f hscan
            split at h
            · rename_i hcf
              refine ih (some ((e : Int) - ((v : Int) - 1))) f m hrest ?_ h
              intro d hd
              injection hd with hd
              subst hd
              exact validMatch_of_agree o e v f he hv (by omega) (by omega) (by omega)
                (fun g hg => hag g (by omega) hg)
            · exact ih n i m hrest hn h
        · exact ih n i m hrest hn h

theorem findLongestMatch_valid (o : List Nat) (tbl : CompressorCustomHashTable) (e t : Nat)
    (he : e < o.length) (hb : tbl.storage.Below e) (m : Int × Nat)
    (h : findLongestMatch o tbl e t = some m) : ValidMatch o e m := by
  unfold findLongestMatch at h
  split at h
  · cases h
  · rename_i values hv
    exact findLoop_valid o e he values none 0 m (candidates_below e tbl t hb values hv)
      (fun d hd => by cases hd) h
theorem take_succ_getD (r : List Nat) (i : Nat) (h : i < r.length) :
    r.take (i + 1) = r.take i ++ [r.getD i 0] := by
  rw [List.take_succ, List.getD_eq_getElem?_getD, List.getElem?_eq_getElem h]
  rfl

theorem getD_take (r : List Nat) (n m : Nat) (h : m < n) : (r.take n).getD m 0 = r.getD m 0 := by
  rw [List.getD_eq_getElem?_getD, List.getD_eq_getElem?_getD, List.getElem?_take_of_lt h]

theorem decompressLoop_literal (o : Nat) (rest out : List Nat) (h : o >>> 6 ≠ 3) :
    decompressLoop (o :: rest) out = decompressLoop rest (out ++ [o]) := by
  cases rest with
  | nil =>
    conv_lhs => rw [decompressLoop]
    rw [if_neg h]
  | cons x rest1 =>
    cases rest1 with
    | nil =>
      conv_lhs => rw [decompressLoop]
      rw [if_neg h]
    | cons y rest2 =>
      conv_lhs => rw [decompressLoop]
      rw [if_neg h]

theorem decompressLoop_lead (o x : Nat) (rest1 out : List Nat) (h3 : o >>> 6 = 3)
    (hx : x >>> 7 = 1) (hne : ¬ (rest1.isEmpty ∧ o >>> 5 = 7)) :
    decompressLoop (o :: x :: rest1) out = decompressLoop (x :: rest1) (out ++ [o]) := by
  cases rest1 with
  | nil =>
    conv_lhs => rw [decompressLoop]
    rw [if_pos h3, if_neg hne, if_pos hx]
  | cons y rest2 =>
    conv_lhs => rw [decompressLoop]
    rw [if_pos h3, if_neg hne, if_pos hx]

theorem decompressLoop_pointer2 (o x : Nat) (rest1 out : List Nat) (h3 : o >>> 6 = 3)
    (hx : x >>> 7 ≠ 1) (h6 : o >>> 5 = 6) :
    decompressLoop (o :: x :: rest1) out =
      decompressLoop rest1 (copySequence ((out.length : Int) - x) (31 &&& o) 0 out) := by
  have hne : ∀ l : List Nat, ¬ (l.isEmpty ∧ o >>> 5 = 7) := by
    intro l hc
    rw [h6] at hc
    omega
  cases rest1 with
  | nil =>
    conv_lhs => rw [decompressLoop]
    rw [if_pos h3, if_neg (hne _), if_neg hx, if_pos h6]
  | cons y rest2 =>
    conv_lhs => rw [decompressLoop]
    rw [if_pos h3, if_neg (hne _), if_neg hx, if_pos h6]

theorem decompressLoop_pointer3 (o x y : Nat) (rest2 out : List Nat) (h3 : o >>> 6 = 3)
    (hx : x >>> 7 ≠ 1) (h7 : o >>> 5 = 7) :
    decompressLoop (o :: x :: y :: rest2) out =
      decompressLoop rest2
        (copySequence ((out.length : Int) - ((x <<< 8 ||| y : Nat) : Int)) (31 &&& o) 0 out) := by
  conv_lhs => rw [decompressLoop]
  rw [if_pos h3, if_neg (by simp), if_neg hx, if_neg (by omega)]

/-- The copy loop of the decompressor gives the bytes of a valid match. -/
theorem copySequence_take (r : List Nat) (i D L : Nat) (hD1 : 1 ≤ D) (hDi : D ≤ i)
    (hlen : i + L ≤ r.length)
    (hag : ∀ g, g < L → r.getD (i - D + g) 0 = r.getD (i + g) 0) :
    ∀ k c, c + k = L →
      copySequence ((i : Int) - D) k c (r.take (i + c)) = r.take (i + L) := by
  intro k
  induction k with
  | zero =>
    intro c hc
    rw [copySequence]
    have : c = L := by omega
    rw [this]
  | succ k ih =>
    intro c hc
    rw [copySequence]
    have hread : readOutput (r.take (i + c)) ((i : Int) - D + c) = r.getD (i + c) 0 := by
      unfold readOutput
      rw [if_neg (by omega)]
      have e : ((i : Int) - D + c).toNat = i - D + c := by omega
      rw [e, getD_take r _ _ (by omega)]
      exact hag c (by omega)
    rw [hread, ← take_succ_getD r (i + c) (by omega)]
    exact ih (c + 1) (by omega)

theorem decodes_end (r : List Nat) : Decodes r r.length [] := by
  refine ⟨?_, fun h => by omega, fun h => by omega⟩
  rw [decompressLoop, List.take_length]

/-- A byte of the input written as it is can be read back. -/
theorem decodes_literal (r : List Nat) (hlf : LeadFollow r) (i : Nat) (hi : i < r.length)
    (rest : List Nat) (h : Decodes r (i + 1) rest) : Decodes r i (r.getD i 0 :: rest) := by
  obtain ⟨hb, h192, h224, _⟩ := hlf i hi
  obtain ⟨hdec, hhead, hlen⟩ := h
  rw [take_succ_getD r i hi] at hdec
  refine ⟨?_, fun _ => ⟨_, _, rfl, hb, fun hh => hh⟩, fun h2 => ?_⟩
  · by_cases hlead : 192 ≤ r.getD i 0
    · obtain ⟨hi1, hnext⟩ := h192 hlead
      obtain ⟨x, tl, hx, hx256, hx128⟩ := hhead hi1
      subst hx
      rw [decompressLoop_lead _ _ _ _ (by rw [shr6]; omega) (by rw [shr7]; have := hx128 hnext; omega)
        ?_]
      · exact hdec
      · intro hc
        have h7 : 224 ≤ r.getD i 0 := by
          have := hc.2
          rw [shr5] at this
          omega
        have := hlen (by have := h224 h7; omega)
        have hem := hc.1
        rw [List.isEmpty_iff] at hem
        rw [hem] at this
        simp at this
    · rw [decompressLoop_literal _ _ _ (by rw [shr6]; omega)]
      exact hdec
  · obtain ⟨x, tl, hx, _⟩ := hhead (by omega)
    rw [hx]
    simp

theorem lor_shl8 (x y : Nat) (hy : y < 256) : x <<< 8 ||| y = x * 256 + y := by
  rw [shl8]
  exact lor_eq_add 8 _ x _ (by norm_num; omega) (by norm_num; omega)

/-- The bytes of a pointer to a valid match can be read back. -/
theorem decodes_pointer (r : List Nat) (i : Nat) (m : Int × Nat) (hm : ValidMatch r i m)
    (rest : List Nat) (h : Decodes r (i + m.2) rest) :
    Decodes r i (pointerBytes m.2 m.1.toNat ++ rest) := by
  obtain ⟨d, L⟩ := m
  obtain ⟨hd1, hdi, hdmax, hL4, hL31, hlen, hag⟩ := hm
  simp only at hd1 hdi hdmax hL4 hL31 hlen hag h ⊢
  obtain ⟨hdec, _, _⟩ := h
  have hD1 : 1 ≤ d.toNat := by omega
  have hDi : d.toNat ≤ i := by omega
  have hcopy := copySequence_take r i d.toNat L hD1 hDi hlen hag L 0 (by omega)
  simp only [Nat.add_zero] at hcopy
  have hlenTake : ((r.take i).length : Int) = i := by
    rw [List.length_take]
    have : min i r.length = i := by omega
    rw [this]
  unfold pointerBytes
  by_cases hsmall : d.toNat < 128
  · rw [if_pos hsmall]
    refine ⟨?_, fun _ => ⟨_, _, rfl, by omega, fun _ => by omega⟩, fun _ => by simp⟩
    show decompressLoop ((192 + L) :: d.toNat :: rest) (r.take i) = r
    rw [decompressLoop_pointer2 _ _ _ _ (by rw [shr6]; omega) (by rw [shr7]; omega)
      (by rw [shr5]; omega), hlenTake, and31]
    have e1 : (192 + L) % 32 = L := by omega
    have e2 : (i : Int) - (d.toNat : Int) = (i : Int) - (d.toNat : Nat) := rfl
    rw [e1, hcopy]
    exact hdec
  · rw [if_neg hsmall]
    refine ⟨?_, fun _ => ⟨_, _, rfl, by omega, fun _ => by omega⟩, fun _ => by simp⟩
    show decompressLoop ((224 + L) :: (d.toNat / 256) :: (d.toNat % 256) :: rest) (r.take i) = r
    rw [decompressLoop_pointer3 _ _ _ _ _ (by rw [shr6]; omega) (by rw [shr7]; omega)
      (by rw [shr5]; omega), hlenTake, and31, lor_shl8 _ _ (by omega)]
    have e1 : (224 + L) % 32 = L := by omega
    have e2 : d.toNat / 256 * 256 + d.toNat % 256 = d.toNat := by omega
    rw [e1, e2, hcopy]
    exact hdec
theorem outputRawByte_inside (cap : Nat) (st : CompressorState) (v : Nat) (hv : v < 256)
    (hp : st.position < cap) :
    outputRawByte cap st (v : Int) =
      { st with output := st.output ++ [v], position := st.position + 1 } := by
  unfold outputRawByte
  rw [if_pos hp]
  have e : ((v : Int) % 256).toNat = v := by omega
  rw [e]

theorem pointerBytes_length (L D : Nat) :
    2 ≤ (pointerBytes L D).length ∧ (pointerBytes L D).length ≤ 3 := by
  unfold pointerBytes
  split <;> simp

theorem outputPointerBytes_inside (cap : Nat) (st : CompressorState) (L : Nat) (d : Int)
    (hd1 : 1 ≤ d) (hd : d ≤ 32767) (hL : L ≤ 31) (hp : st.position + 3 ≤ cap) :
    outputPointerBytes cap st L d =
      { st with
        output := st.output ++ pointerBytes L d.toNat
        position := st.position + (pointerBytes L d.toNat).length } := by
  obtain ⟨D, rfl⟩ : ∃ D : Nat, d = D := ⟨d.toNat, by omega⟩
  have e0 : ((D : Int)).toNat = D := by omega
  have e : ((D : Int) % 4294967296).toNat = D := by omega
  unfold outputPointerBytes pointerBytes
  rw [e0, e]
  by_cases hsmall : D < 128
  · rw [if_pos (by omega), if_pos hsmall, lor192 L (by omega),
      outputRawByte_inside cap st (192 + L) (by omega) (by omega),
      outputRawByte_inside cap _ D (by omega) (by show st.position + 1 < cap; omega)]
    simp
  · rw [if_neg (by omega), if_neg hsmall, lor224 L (by omega), shr8, and255,
      outputRawByte_inside cap st (224 + L) (by omega) (by omega),
      outputRawByte_inside cap _ (D / 256) (by omega) (by show st.position + 1 < cap; omega),
      outputRawByte_inside cap _ (D % 256) (by omega)
        (by show st.position + 1 + 1 < cap; omega)]
    simp
/-- The loop of the compressor from `i` on appends bytes from which the decompressor,
holding the input up to the place the compressor has covered, gives the whole input
back. -/
theorem compressLoop_decodes (r : List Nat) (hlf : LeadFollow r) :
    ∀ (k i : Nat) (st : CompressorState), i + k = r.length → st.table.storage.Below i →
      st.position = st.output.length → (st.position ≤ i ∨ st.position < st.skipUntil) →
      st.skipUntil ≤ r.length →
      ∃ rest, (compressLoop r k i st).output = st.output ++ rest ∧
        Decodes r (max i st.skipUntil) rest := by
  intro k
  induction k with
  | zero =>
    intro i st hik _ _ _ hskip
    refine ⟨[], by rw [compressLoop]; simp, ?_⟩
    have e : max i st.skipUntil = r.length := by omega
    rw [e]
    exact decodes_end r
  | succ k ih =>
    intro i st hik hbelow hpos hinv hskip
    have hi : i < r.length := by omega
    have hb := (hlf i hi).1
    have hbelow1 : st.table.storage.Below (i + 1) := below_mono _ _ _ hbelow (by omega)
    -- the three things a round can do
    have skip : ∀ st1 : CompressorState, i < st.skipUntil → st1.output = st.output →
        st1.position = st.position → st1.skipUntil = st.skipUntil →
        st1.table.storage.Below (i + 1) →
        ∃ rest, (compressLoop r k (i + 1) st1).output = st.output ++ rest ∧
          Decodes r (max i st.skipUntil) rest := by
      intro st1 hlt ho hp hs ht
      obtain ⟨rest, hout, hdec⟩ := ih (i + 1) st1 (by omega) ht (by rw [hp, ho]; exact hpos)
        (by rw [hp, hs]; omega) (by rw [hs]; exact hskip)
      refine ⟨rest, by rw [hout, ho], ?_⟩
      have e : max i st.skipUntil = max (i + 1) st1.skipUntil := by rw [hs]; omega
      rw [e]
      exact hdec
    have literal : ∀ st1 : CompressorState, ¬ i < st.skipUntil →
        st1.output = st.output ++ [r.getD i 0] →
        st1.position = st.position + 1 → st1.skipUntil = st.skipUntil →
        st1.table.storage.Below (i + 1) →
        ∃ rest, (compressLoop r k (i + 1) st1).output = st.output ++ rest ∧
          Decodes r (max i st.skipUntil) rest := by
      intro st1 hlt ho hp hs ht
      obtain ⟨rest, hout, hdec⟩ := ih (i + 1) st1 (by omega) ht
        (by rw [hp, ho, hpos]; simp) (by rw [hp, hs]; omega) (by rw [hs]; exact hskip)
      refine ⟨r.getD i 0 :: rest, by rw [hout, ho]; simp, ?_⟩
      have e : max i st.skipUntil = i := by omega
      have e1 : max (i + 1) st1.skipUntil = i + 1 := by rw [hs]; omega
      rw [e]
      rw [e1] at hdec
      exact decodes_literal r hlf i hi rest hdec
    have pointer : ∀ (st1 : CompressorState) (m : Int × Nat), ¬ i < st.skipUntil →
        ValidMatch r i m →
        st1.output = st.output ++ pointerBytes m.2 m.1.toNat →
        st1.position = st.position + (pointerBytes m.2 m.1.toNat).length →
        st1.skipUntil = i + m.2 → st1.table.storage.Below (i + 1) →
        ∃ rest, (compressLoop r k (i + 1) st1).output = st.output ++ rest ∧
          Decodes r (max i st.skipUntil) rest := by
      intro st1 m hlt hm ho hp hs ht
      have hlen3 := pointerBytes_length m.2 m.1.toNat
      have hL4 := hm.2.2.2.1
      have hLn := hm.2.2.2.2.2.1
      obtain ⟨rest, hout, hdec⟩ := ih (i + 1) st1 (by omega) ht
        (by rw [hp, ho, hpos]; simp) (by rw [hp, hs]; omega) (by rw [hs]; exact hLn)
      refine ⟨pointerBytes m.2 m.1.toNat ++ rest, by rw [hout, ho]; simp, ?_⟩
      have e : max i st.skipUntil = i := by omega
      have e1 : max (i + 1) st1.skipUntil = i + m.2 := by rw [hs]; omega
      rw [e]
      rw [e1] at hdec
      exact decodes_pointer r i m hm rest hdec
    rw [compressLoop]
    by_cases htail : (i : Int) > (r.length : Int) - 4
    · rw [if_pos htail]
      by_cases hsk : i < st.skipUntil
      · rw [if_pos hsk]
        exact skip st hsk rfl rfl rfl hbelow1
      · rw [if_neg hsk, outputRawByte_inside _ _ _ hb (by omega)]
        exact literal _ hsk rfl rfl rfl hbelow1
    · rw [if_neg htail]
      simp only
      have hadd : ∀ tbl : CompressorCustomHashTable, tbl.storage.Below i →
          (tbl.addValueToBucket (getBucketIndexForPrefix r i) (1 + i)).storage.Below (i + 1) :=
        fun tbl h => below_addValueToBucket (i + 1) tbl _ _ (below_mono _ _ _ h (by omega))
          (by omega)
      by_cases hsk : i < st.skipUntil
      · rw [if_pos hsk]
        exact skip _ hsk rfl rfl rfl (hadd _ hbelow)
      · rw [if_neg hsk]
        cases hfind : findLongestMatch r st.table i (getBucketIndexForPrefix r i) with
        | none =>
          simp only
          rw [outputRawByte_inside _ _ _ hb (by omega)]
          exact literal _ hsk rfl rfl rfl (hadd _ hbelow)
        | some m =>
          obtain ⟨d, L⟩ := m
          have hm := findLongestMatch_valid r st.table i _ hi hbelow _ hfind
          simp only
          rw [outputPointerBytes_inside _ _ _ _ hm.1 hm.2.2.1 hm.2.2.2.2.1 (by omega)]
          exact pointer _ (d, L) hsk hm rfl rfl rfl (hadd _ hbelow)

/-- Compressing bytes of UTF-8 and decompressing the result gives the bytes back. -/
theorem decompressBlock_compressUtf8Block (r : List Nat) (hlf : LeadFollow r) :
    decompressBlock (compressUtf8Block r) = r := by
  unfold decompressBlock
  have hloop : decompressLoop (compressUtf8Block r) [] = r := by
    unfold compressUtf8Block
    split
    · rename_i hem
      rw [List.isEmpty_iff] at hem
      rw [hem, decompressLoop]
    · obtain ⟨rest, hout, hdec⟩ := compressLoop_decodes r hlf r.length 0
        { skipUntil := 0, table := CompressorCustomHashTable.create 65537, output := [],
          position := 0 }
        (by omega) (below_create _ _) rfl (Or.inl (Nat.le_refl _)) (Nat.zero_le _)
      rw [hout]
      have h := hdec.1
      simpa using h
  rw [hloop]
  exact rollBack_of_leadFollow r hlf
theorem unitsOfChars_eq_nil (cs : List Char) (h : unitsOfChars cs = []) : cs = [] := by
  cases cs with
  | nil => rfl
  | cons c cs =>
    exfalso
    have hpos := charUnits_length_pos c
    have hl : (unitsOfChars (c :: cs)).length = 0 := by rw [h]; rfl
    simp only [unitsOfChars, List.length_append] at hl
    omega

theorem bytesOfChars_eq_nil (cs : List Char) (h : bytesOfChars cs = []) : cs = [] := by
  cases cs with
  | nil => rfl
  | cons c cs =>
    exfalso
    have hpos := utf8Bytes_length_pos c.toNat
    have hl : (bytesOfChars (c :: cs)).length = 0 := by rw [h]; rfl
    simp only [bytesOfChars, List.length_append] at hl
    omega

/-- `UTF8.encode` gives the UTF-8 bytes of a well-formed string, with the library's own
encoder or with one of the platform that does. -/
theorem encodeUTF8_chars (platform : Option TextCodec) (cs : List Char)
    (h : ∀ codec, platform = some codec → codec.encode (unitsOfChars cs) = bytesOfChars cs) :
    encodeUTF8 platform (unitsOfChars cs) = Except.ok (bytesOfChars cs) := by
  unfold encodeUTF8
  split
  · rename_i hem
    rw [List.isEmpty_iff] at hem
    rw [unitsOfChars_eq_nil cs hem]
    rfl
  · cases platform with
    | none => exact encodeWithJS_chars cs
    | some codec =>
      show Except.ok (codec.encode (unitsOfChars cs)) = _
      rw [h codec rfl]

/-- `UTF8.decode` reads the UTF-8 bytes of a well-formed string back, with the library's
own decoder or with one of the platform that does. -/
theorem decodeUTF8_chars (platform : Option TextCodec) (cs : List Char)
    (h : ∀ codec, platform = some codec → codec.decode (bytesOfChars cs) = unitsOfChars cs) :
    decodeUTF8 platform (bytesOfChars cs) = Except.ok (unitsOfChars cs) := by
  unfold decodeUTF8
  split
  · rename_i hem
    rw [List.isEmpty_iff] at hem
    rw [bytesOfChars_eq_nil cs hem]
    rfl
  · cases platform with
    | none => exact decodeWithJS_chars cs
    | some codec =>
      show Except.ok (codec.decode (bytesOfChars cs)) = _
      rw [h codec rfl]

/-- C3: the envelope round trip. For every value `v` that `JSON.stringify` turns into a
string `text` (a well-formed one, as `JSON.stringify` gives), `compressData(v)` returns
bytes and `relaxData` of these bytes is `text` again, that is
`relaxData(compressData(v)) = JSON.stringify(v)`. The UTF-8 codec is the library's own, or
one of the platform (Node's `Buffer`, `TextEncoder` and `TextDecoder`) that writes the
UTF-8 bytes of `text` and reads them back. -/
theorem relaxData_compressData {α : Type} (platform : Option TextCodec)
    (stringify : α → Option JSString) (v : α) (text : String)
    (hstringify : stringify v = some (unitsOf text))
    (hplatform : ∀ codec, platform = some codec →
      codec.encode (unitsOf text) = bytesOfChars text.data ∧
        codec.decode (bytesOfChars text.data) = unitsOf text) :
    ∃ bytes, compressData platform stringify v = Except.ok bytes ∧
      relaxData platform bytes = Except.ok (unitsOf text) := by
  refine ⟨compressUtf8Block (bytesOfChars text.data), ?_, ?_⟩
  · unfold compressData compress
    rw [hstringify]
    show (match encodeUTF8 platform (unitsOfChars text.data) with
      | Except.error err => Except.error err
      | Except.ok bytes => Except.ok (compressUtf8Block bytes)) = _
    rw [encodeUTF8_chars platform text.data (fun codec hc => (hplatform codec hc).1)]
  · unfold relaxData decompress
    rw [decompressBlock_compressUtf8Block _
      (leadFollow_of_isUtf8 _ (isUtf8_bytesOfChars text.data))]
    exact decodeUTF8_chars platform text.data (fun codec hc => (hplatform codec hc).2)

/-- Witness of C3: a text with characters of two, three and four UTF-8 bytes and a
repeated part, and the library's own codec. -/
theorem relaxData_compressData_witness :
    ∃ bytes,
      compressData none (fun s : String => some (unitsOf s)) "[\"héllo €😀\",\"héllo €😀\"]" =
          Except.ok bytes ∧
        relaxData none bytes = Except.ok (unitsOf "[\"héllo €😀\",\"héllo €😀\"]") :=
  relaxData_compressData none (fun s : String => some (unitsOf s))
    "[\"héllo €😀\",\"héllo €😀\"]" "[\"héllo €😀\",\"héllo €😀\"]" rfl
    (fun codec hc => by cases hc)

/-! ## The batch that `handleRemoved` publishes -/

/-- The input list of `handleAddedOrMoved` after the call: as long as before, each record
as its round of the loop left it. -/
theorem handleAddedLoop_inputAfter (nodes : KnownNodes) :
    ∀ (l : List NodeData) (ids : RedactedIds) (r : AddedResult),
      handleAddedLoop nodes l ids = Except.ok r →
      r.inputAfter.length = l.length ∧
        ∀ (i : Nat) (curr : NodeData), l[i]? = some curr →
          ∃ step, handleAddedStep nodes curr = Except.ok step ∧
            r.inputAfter[i]? = some (match step with
              | AddedStep.dropped _ => curr
              | AddedStep.kept curr1 => curr1) := by
  intro l
  induction l with
  | nil =>
    intro ids r h
    rw [handleAddedLoop] at h
    injection h with h
    subst h
    exact ⟨rfl, fun i curr hc => by simp at hc⟩
  | cons c rest ih =>
    intro ids r h
    rw [handleAddedLoop] at h
    cases hstep : handleAddedStep nodes c with
    | error e => simp [hstep] at h
    | ok step =>
      cases step with
      | dropped topId =>
        simp only [hstep] at h
        cases hrest : handleAddedLoop nodes rest (ids.mark topId) with
        | error e => simp [hrest] at h
        | ok r1 =>
          simp only [hrest] at h
          injection h with h
          subst h
          obtain ⟨hlen, hall⟩ := ih _ r1 hrest
          refine ⟨by simp [hlen], fun i curr hc => ?_⟩
          cases i with
          | zero =>
            simp only [List.getElem?_cons_zero, Option.some.injEq] at hc
            subst hc
            exact ⟨_, hstep, by simp⟩
          | succ j =>
            simp only [List.getElem?_cons_succ] at hc ⊢
            exact hall j curr hc
      | kept c1 =>
        simp only [hstep] at h
        cases hrest : handleAddedLoop nodes rest ids with
        | error e => simp [hrest] at h
        | ok r1 =>
          simp only [hrest] at h
          injection h with h
          subst h
          obtain ⟨hlen, hall⟩ := ih _ r1 hrest
          refine ⟨by simp [hlen], fun i curr hc => ?_⟩
          cases i with
          | zero =>
            simp only [List.getElem?_cons_zero, Option.some.injEq] at hc
            subst hc
            exact ⟨_, hstep, by simp⟩
          | succ j =>
            simp only [List.getElem?_cons_succ] at hc ⊢
            exact hall j curr hc

/-- `Object.keys(redactedNodeIds)` lists every recorded id once: the records computed from
it are, up to their order, the records of the recorded ids. -/
theorem recalculateDimensions_objectKeys_perm (nodes : KnownNodes) (ids : RedactedIds) :
    List.Perm (recalculateDimensions nodes (objectKeys ids))
      (recalculateDimensions nodes (ids.map (fun k => JSId.mk k true))) := by
  unfold recalculateDimensions objectKeys
  apply List.Perm.flatten
  apply List.Perm.map
  apply List.Perm.map
  have h1 := List.perm_insertionSort (fun a b : Int => a ≤ b)
    (ids.filter (fun k => decide (0 ≤ k)))
  have h2 : ids.filter (fun k => decide (k < 0)) = ids.filter (fun k => !decide (0 ≤ k)) := by
    apply List.filter_congr
    intro k _
    by_cases hk : 0 ≤ k
    · simp [hk]
    · simp [hk]
      omega
  rw [h2]
  exact (h1.append (List.Perm.refl _)).trans (List.filter_append_perm _ ids)

/-- C23, the claim as stated fails: the batch that `handleRemoved` publishes is not the
original one. For a batch that removes a node and adds a `<div>` whose own class names
`spr-cobrowse-redact`, with no redacted ancestor, the one message `handleRedaction`
publishes carries the added record as `handleAddedOrMoved` has just left it, value emptied
and black background set, not with the value `4111` it came with. -/
theorem handleRemoved_publishes_blacked_out_record :
    exampleRemovalBatch.removed.length = 1 ∧
    exampleRemovalBatch.addedOrMoved.map NodeData.attributes =
      [some [("class", JSVal.str "note spr-cobrowse-redact"), ("value", JSVal.str "4111")]] ∧
    (handleRedaction exampleMirroringAdded exampleRemovalBatch).toOption.map
        (fun r => publishedAddedAttributes r.2.published) =
      some [[some [("class", JSVal.str "note spr-cobrowse-redact"), ("value", JSVal.str ""),
        ("style", JSVal.str "background: black;height: 30px; width: 120px;")]]] := by
  refine ⟨rfl, rfl, ?_⟩
  decide

/-- C23, amended: whenever `handleRedaction` returns, the call of `handleRemoved` it makes
publishes one message more, on `presence`, exactly when the removed list is non-empty. The
message is the `applyChanged` call with the batch array as it stands at that moment: its
removed, attribute and text lists are the original ones, and its added list holds each
original record as its round of `handleAddedOrMoved` left it, a kept record whose own class
names the redaction class being already blacked out. In that case the attribute output of
`handleRemoved` is, up to order, the recalculation records of the ids recorded in
`redactedNodeIds`; with an empty removed list nothing is published and the attribute output
is empty. The removed output is empty either way. -/
theorem handleRemoved_side_channel (st : Session) (batch out : Batch) (st2 : Session)
    (h : handleRedaction st batch = Except.ok (out, st2)) :
    ∃ (sent : Batch) (attributesRemoved before : List NodeData),
      handleRemoved { st with redactedNodeIds := st2.redactedNodeIds } batch.removed sent =
        (([], attributesRemoved), st2) ∧
      out.removed = [] ∧ out.attributes = before ++ attributesRemoved ∧
      sent.removed = batch.removed ∧ sent.attributes = batch.attributes ∧
      sent.text = batch.text ∧
      sent.addedOrMoved.length = batch.addedOrMoved.length ∧
      (∀ (i : Nat) (curr : NodeData), batch.addedOrMoved[i]? = some curr →
        ∃ step, handleAddedStep st.knownNodes curr = Except.ok step ∧
          sent.addedOrMoved[i]? = some (match step with
            | AddedStep.dropped _ => curr
            | AddedStep.kept curr1 => curr1)) ∧
      (batch.removed = [] → st2.published = st.published ∧ attributesRemoved = []) ∧
      (batch.removed ≠ [] →
        st2.published = st.published ++
          [(getTopic st.clientID "presence", PeerMessage.applyChangedCall sent)] ∧
        List.Perm attributesRemoved
          (recalculateDimensions st.knownNodes
            (st2.redactedNodeIds.map (fun k => JSId.mk k true)))) := by
  unfold handleRedaction at h
  cases htext : handleTextChanges st.knownNodes batch.text with
  | error e => simp [htext] at h
  | ok textResult =>
    obtain ⟨newText, redactedTextAttributes⟩ := textResult
    simp only [htext] at h
    cases hadded : handleAddedOrMoved st.knownNodes batch.addedOrMoved st.redactedNodeIds with
    | error e => simp [hadded] at h
    | ok addedResult =>
      obtain ⟨⟨newAddedOrMoved, newAttributesAdded⟩, ids1, addedAfter⟩ := addedResult
      simp only [hadded] at h
      -- what the loop left of the input list
      have hloop : ∃ r, handleAddedLoop st.knownNodes batch.addedOrMoved st.redactedNodeIds =
          Except.ok r ∧ r.inputAfter = addedAfter := by
        unfold handleAddedOrMoved at hadded
        cases hl : handleAddedLoop st.knownNodes batch.addedOrMoved st.redactedNodeIds with
        | error e => simp [hl] at hadded
        | ok r =>
          simp only [hl] at hadded
          injection hadded with hadded
          simp only [Prod.mk.injEq] at hadded
          exact ⟨r, rfl, hadded.2.2⟩
      obtain ⟨r, hr, hafter⟩ := hloop
      obtain ⟨hlen, hall⟩ := handleAddedLoop_inputAfter st.knownNodes _ _ r hr
      rw [hafter] at hlen hall
      by_cases hrem : batch.removed = []
      · have hzero : batch.removed.length = 0 := by rw [hrem]; rfl
        simp only [handleRemoved, hzero, if_true] at h
        injection h with h
        simp only [Prod.mk.injEq] at h
        obtain ⟨hout, hst2⟩ := h
        subst hout
        subst hst2
        refine ⟨{ batch with addedOrMoved := addedAfter }, [], _, ?_, rfl, rfl, rfl, rfl, rfl,
          hlen, hall, fun _ => ⟨rfl, rfl⟩, fun hne => absurd hrem hne⟩
        simp only [handleRemoved, hzero, if_true]
      · have hzero : ¬ batch.removed.length = 0 := by
          intro h0
          exact hrem (List.length_eq_zero.mp h0)
        simp only [handleRemoved, hzero, if_false] at h
        injection h with h
        simp only [Prod.mk.injEq] at h
        obtain ⟨hout, hst2⟩ := h
        subst hout
        subst hst2
        refine ⟨{ batch with addedOrMoved := addedAfter }, _, _, ?_, rfl, rfl, rfl, rfl, rfl,
          hlen, hall, fun he => absurd he hrem, fun _ => ⟨rfl, ?_⟩⟩
        · simp only [handleRemoved, hzero, if_false]
          rfl
        · exact recalculateDimensions_objectKeys_perm _ _

theorem handleRemoved_side_channel_witness :
    ∃ (sent : Batch) (attributesRemoved before : List NodeData),
      handleRemoved
          { exampleMirroringAdded with
            redactedNodeIds :=
              (Session.mk "123456" exampleMirroringAdded.knownNodes []
                [("123456/presence",
                  PeerMessage.applyChangedCall exampleRemovalBatchSent)]).redactedNodeIds }
          exampleRemovalBatch.removed sent =
        (([], attributesRemoved),
          Session.mk "123456" exampleMirroringAdded.knownNodes []
            [("123456/presence", PeerMessage.applyChangedCall exampleRemovalBatchSent)]) ∧
      (Batch.mk [] exampleRemovalBatchSent.addedOrMoved [] []).removed = [] ∧
      (Batch.mk [] exampleRemovalBatchSent.addedOrMoved [] []).attributes =
        before ++ attributesRemoved ∧
      sent.removed = exampleRemovalBatch.removed ∧
      sent.attributes = exampleRemovalBatch.attributes ∧
      sent.text = exampleRemovalBatch.text ∧
      sent.addedOrMoved.length = exampleRemovalBatch.addedOrMoved.length ∧
      (∀ (i : Nat) (curr : NodeData), exampleRemovalBatch.addedOrMoved[i]? = some curr →
        ∃ step, handleAddedStep exampleMirroringAdded.knownNodes curr = Except.ok step ∧
          sent.addedOrMoved[i]? = some (match step with
            | AddedStep.dropped _ => curr
            | AddedStep.kept curr1 => curr1)) ∧
      (exampleRemovalBatch.removed = [] →
        (Session.mk "123456" exampleMirroringAdded.knownNodes []
            [("123456/presence",
              PeerMessage.applyChangedCall exampleRemovalBatchSent)]).published =
          exampleMirroringAdded.published ∧ attributesRemoved = []) ∧
      (exampleRemovalBatch.removed ≠ [] →
        (Session.mk "123456" exampleMirroringAdded.knownNodes []
            [("123456/presence",
              PeerMessage.applyChangedCall exampleRemovalBatchSent)]).published =
          exampleMirroringAdded.published ++
            [(getTopic exampleMirroringAdded.clientID "presence",
              PeerMessage.applyChangedCall sent)] ∧
        List.Perm attributesRemoved
          (recalculateDimensions exampleMirroringAdded.knownNodes
            ((Session.mk "123456" exampleMirroringAdded.knownNodes []
              [("123456/presence",
                PeerMessage.applyChangedCall exampleRemovalBatchSent)]).redactedNodeIds.map
              (fun k => JSId.mk k true)))) :=
  handleRemoved_side_channel exampleMirroringAdded exampleRemovalBatch
    (Batch.mk [] exampleRemovalBatchSent.addedOrMoved [] [])
    (Session.mk "123456" exampleMirroringAdded.knownNodes []
      [("123456/presence", PeerMessage.applyChangedCall exampleRemovalBatchSent)])
    rfl

/-! ## Start and stop on a page that has elements of its own with the ids of the overlay -/

theorem updateFirst_split (pred : DomNode → Bool) (F : DomNode → Option DomNode) :
    ∀ l l1 : List DomNode, updateFirst pred F l = some l1 →
      ∃ pre n post n1, l = pre ++ n :: post ∧ (∀ a ∈ pre, pred a = false) ∧ pred n = true ∧
        F n = some n1 ∧ l1 = pre ++ n1 :: post
  | [], l1, h => by simp [updateFirst] at h
  | a :: rest, l1, h => by
    rw [updateFirst] at h
    by_cases hp : pred a = true
    · simp only [hp, if_true] at h
      cases hF : F a with
      | none => simp [hF] at h
      | some n1 =>
        simp only [hF, Option.map_some', Option.some.injEq] at h
        exact ⟨[], a, rest, n1, rfl, fun x hx => by simp at hx, hp, hF, by simp [← h]⟩
    · have hp1 : pred a = false := by simpa using hp
      simp only [hp1, Bool.false_eq_true, if_false] at h
      cases hU : updateFirst pred F rest with
      | none => simp [hU] at h
      | some rest1 =>
        simp only [hU, Option.map_some', Option.some.injEq] at h
        obtain ⟨pre, n, post, n1, hl, hpre, hn, hF, hl1⟩ := updateFirst_split pred F rest rest1 hU
        refine ⟨a :: pre, n, post, n1, by simp [hl], ?_, hn, hF, by simp [← h, hl1]⟩
        intro x hx
        rcases List.mem_cons.mp hx with rfl | hx
        · exact hp1
        · exact hpre x hx

theorem find?_of_split (pred : DomNode → Bool) (n : DomNode) (post : List DomNode) :
    ∀ pre : List DomNode, (∀ a ∈ pre, pred a = false) → pred n = true →
      (pre ++ n :: post).find? pred = some n
  | [], _, hn => by simp [List.find?_cons, hn]
  | a :: pre, hpre, hn => by
    have ha : pred a = false := hpre a (List.mem_cons_self _ _)
    rw [List.cons_append, List.find?_cons, ha]
    exact find?_of_split pred n post pre (fun x hx => hpre x (List.mem_cons_of_mem _ hx)) hn

theorem updateFirst_isSome_of_find (pred : DomNode → Bool) (F : DomNode → Option DomNode) :
    ∀ (l : List DomNode) (n : DomNode), l.find? pred = some n → (F n).isSome = true →
      (updateFirst pred F l).isSome = true
  | [], n, h, _ => by simp at h
  | a :: rest, n, h, hF => by
    rw [updateFirst]
    rw [List.find?_cons] at h
    by_cases hp : pred a = true
    · simp only [hp, Option.some.injEq] at h
      subst h
      simp only [hp, if_true]
      cases hFa : F a with
      | none => simp [hFa] at hF
      | some n1 => rfl
    · have hp1 : pred a = false := by simpa using hp
      simp only [hp1] at h
      have := updateFirst_isSome_of_find pred F rest n h hF
      simp only [hp1, Bool.false_eq_true, if_false]
      cases hU : updateFirst pred F rest with
      | none => simp [hU] at this
      | some r => rfl

/-- Where `document.body` sits: the document element is the first element child of the
document, the body its first `body` or `frameset` child. -/
theorem updateBody_split (f : DomNode → DomNode) (document d1 : DomNode)
    (h : updateBody f document = some d1) :
    ∃ pre html post hpre body hpost,
      document.childNodes = pre ++ html :: post ∧ (∀ a ∈ pre, isElementNode a = false) ∧
      isElementNode html = true ∧ html.props.tagName = "HTML" ∧
      html.childNodes = hpre ++ body :: hpost ∧ (∀ a ∈ hpre, isBodyElement a = false) ∧
      isBodyElement body = true ∧
      d1 = DomNode.mk document.props
        (pre ++ DomNode.mk html.props (hpre ++ f body :: hpost) :: post) := by
  unfold updateBody at h
  cases hU : updateFirst isElementNode (updateHtml f) document.childNodes with
  | none => simp [hU] at h
  | some l1 =>
    simp only [hU, Option.map_some', Option.some.injEq] at h
    obtain ⟨pre, html, post, html1, hl, hpre, hel, hF, hl1⟩ :=
      updateFirst_split isElementNode (updateHtml f) _ _ hU
    unfold updateHtml at hF
    by_cases htag : html.props.tagName = "HTML"
    · simp only [htag, if_true] at hF
      cases hB : updateFirst isBodyElement (fun body => some (f body)) html.childNodes with
      | none => simp [hB] at hF
      | some kids1 =>
        simp only [hB, Option.map_some', Option.some.injEq] at hF
        obtain ⟨hpre1, body, hpost, body1, hk, hhpre, hbody, hFb, hk1⟩ :=
          updateFirst_split isBodyElement (fun body => some (f body)) _ _ hB
        simp only [Option.some.injEq] at hFb
        refine ⟨pre, html, post, hpre1, body, hpost, hl, hpre, hel, htag, hk, hhpre, hbody, ?_⟩
        rw [← h, hl1, ← hF, hk1, ← hFb]
    · simp [htag] at hF

/-- With a body that is there, `document.body` can be updated. -/
theorem updateBody_isSome_of_unreserved (x : String) (f : DomNode → DomNode)
    (document : DomNode) (h : bodyUnreserved x document = true) :
    (updateBody f document).isSome = true := by
  unfold bodyUnreserved at h
  cases hfind : document.childNodes.find? isElementNode with
  | none => simp [hfind] at h
  | some html =>
    simp only [hfind, Bool.and_eq_true, decide_eq_true_eq] at h
    obtain ⟨⟨htag, _⟩, hb⟩ := h
    cases hbf : html.childNodes.find? isBodyElement with
    | none => simp [hbf] at hb
    | some body =>
      have hinner : (updateHtml f html).isSome = true := by
        unfold updateHtml
        rw [if_pos htag]
        have := updateFirst_isSome_of_find isBodyElement (fun body => some (f body))
          html.childNodes body hbf rfl
        cases hU : updateFirst isBodyElement (fun body => some (f body)) html.childNodes with
        | none => simp [hU] at this
        | some r => rfl
      have := updateFirst_isSome_of_find isElementNode (updateHtml f) document.childNodes html
        hfind hinner
      unfold updateBody
      cases hU : updateFirst isElementNode (updateHtml f) document.childNodes with
      | none => simp [hU] at this
      | some r => rfl

mutual
/-- A subtree without any element of the id `y` is guarded. -/
theorem guardedNode_of_count (x y : String) :
    ∀ n : DomNode, countId y n = 0 → guardedNode x y n
  | DomNode.mk props children, h => by
    rw [guardedNode]
    refine ⟨fun _ => h, guardedList_of_count x y children ?_⟩
    rw [countId] at h
    omega
theorem guardedList_of_count (x y : String) :
    ∀ l : List DomNode, countIdList y l = 0 → guardedList x y l
  | [], _ => by rw [guardedList]; trivial
  | n :: rest, h => by
    rw [countIdList] at h
    rw [guardedList]
    exact ⟨guardedNode_of_count x y n (by omega), guardedList_of_count x y rest (by omega)⟩
end

theorem guardedList_append (x y : String) :
    ∀ a b : List DomNode, guardedList x y (a ++ b) ↔ guardedList x y a ∧ guardedList x y b
  | [], b => by simp [guardedList]
  | n :: a, b => by
    rw [List.cons_append, guardedList, guardedList, guardedList_append x y a b, and_assoc]

mutual
/-- The first element with the id `x`, taken out of a guarded subtree, holds no element
with the id `y`. -/
theorem guardedNode_removed (x y : String) :
    ∀ (n r : DomNode) (left : Option DomNode), guardedNode x y n →
      removeFirstById x n = some (r, left) → countId y r = 0
  | DomNode.mk props children, r, left, hg, h => by
    rw [guardedNode] at hg
    rw [removeFirstById] at h
    by_cases hid : props.hasId x = true
    · simp only [hid, if_true, Option.some.injEq, Prod.mk.injEq] at h
      rw [← h.1]
      exact hg.1 hid
    · simp only [hid] at h
      cases hl : removeFirstByIdList x children with
      | none => simp [hl] at h
      | some rl =>
        obtain ⟨r1, l1⟩ := rl
        simp only [hl, Bool.false_eq_true, if_false, Option.some.injEq, Prod.mk.injEq] at h
        rw [← h.1]
        exact guardedList_removed x y children r1 l1 hg.2 hl
theorem guardedList_removed (x y : String) :
    ∀ (l : List DomNode) (r : DomNode) (l1 : List DomNode), guardedList x y l →
      removeFirstByIdList x l = some (r, l1) → countId y r = 0
  | [], r, l1, _, h => by simp [removeFirstByIdList] at h
  | n :: rest, r, l1, hg, h => by
    rw [guardedList] at hg
    rw [removeFirstByIdList] at h
    cases hn : removeFirstById x n with
    | some rn =>
      obtain ⟨r1, left⟩ := rn
      have := guardedNode_removed x y n r1 left hg.1 hn
      cases left with
      | none =>
        simp only [hn, Option.some.injEq, Prod.mk.injEq] at h
        rw [← h.1]
        exact this
      | some n1 =>
        simp only [hn, Option.some.injEq, Prod.mk.injEq] at h
        rw [← h.1]
        exact this
    | none =>
      cases hl : removeFirstByIdList x rest with
      | none => simp [hn, hl] at h
      | some rl =>
        obtain ⟨r1, rest1⟩ := rl
        simp only [hn, hl, Option.some.injEq, Prod.mk.injEq] at h
        rw [← h.1]
        exact guardedList_removed x y rest r1 rest1 hg.2 hl
end

mutual
/-- Taking an element out leaves a guarded subtree guarded. -/
theorem guardedNode_after_removal (x y z : String) :
    ∀ (n r n1 : DomNode), guardedNode x y n → removeFirstById z n = some (r, some n1) →
      guardedNode x y n1
  | DomNode.mk props children, r, n1, hg, h => by
    have hcount := (removeFirstById_count z y _ r (some n1) h).2
    rw [guardedNode] at hg
    rw [removeFirstById] at h
    by_cases hid : props.hasId z = true
    · simp [hid] at h
    · simp only [hid] at h
      cases hl : removeFirstByIdList z children with
      | none => simp [hl] at h
      | some rl =>
        obtain ⟨r1, l1⟩ := rl
        simp only [hl, Bool.false_eq_true, if_false, Option.some.injEq, Prod.mk.injEq] at h
        obtain ⟨hr, hn1⟩ := h
        subst hn1
        rw [guardedNode]
        refine ⟨fun hx => ?_, guardedList_after_removal x y z children r1 l1 hg.2 hl⟩
        have := hg.1 hx
        simp only at hcount
        omega
theorem guardedList_after_removal (x y z : String) :
    ∀ (l : List DomNode) (r : DomNode) (l1 : List DomNode), guardedList x y l →
      removeFirstByIdList z l = some (r, l1) → guardedList x y l1
  | [], r, l1, _, h => by simp [removeFirstByIdList] at h
  | n :: rest, r, l1, hg, h => by
    rw [guardedList] at hg
    rw [removeFirstByIdList] at h
    cases hn : removeFirstById z n with
    | some rn =>
      obtain ⟨r1, left⟩ := rn
      cases left with
      | none =>
        simp only [hn, Option.some.injEq, Prod.mk.injEq] at h
        rw [← h.2]
        exact hg.2
      | some n1 =>
        simp only [hn, Option.some.injEq, Prod.mk.injEq] at h
        rw [← h.2, guardedList]
        exact ⟨guardedNode_after_removal x y z n r1 n1 hg.1 hn, hg.2⟩
    | none =>
      cases hl : removeFirstByIdList z rest with
      | none => simp [hn, hl] at h
      | some rl =>
        obtain ⟨r1, rest1⟩ := rl
        simp only [hn, hl, Option.some.injEq, Prod.mk.injEq] at h
        rw [← h.2, guardedList]
        exact ⟨hg.1, guardedList_after_removal x y z rest r1 rest1 hg.2 hl⟩
end
theorem unreserved_of_split (x : String) (document : DomNode) (pre : List DomNode)
    (html : DomNode) (post hpre : List DomNode) (body : DomNode) (hpost : List DomNode)
    (hl : document.childNodes = pre ++ html :: post)
    (hpre0 : ∀ a ∈ pre, isElementNode a = false) (hel : isElementNode html = true)
    (hk : html.childNodes = hpre ++ body :: hpost)
    (hhpre : ∀ a ∈ hpre, isBodyElement a = false) (hbody : isBodyElement body = true)
    (h : bodyUnreserved x document = true) :
    html.props.hasId x = false ∧ body.props.hasId x = false := by
  unfold bodyUnreserved at h
  rw [hl, find?_of_split isElementNode html post pre hpre0 hel] at h
  simp only [hk, find?_of_split isBodyElement body hpost hpre hhpre hbody, Bool.and_eq_true,
    decide_eq_true_eq, Bool.not_eq_true'] at h
  exact ⟨h.1.2, h.2⟩

/-- Once `document.body` has been given guarded content, the whole document is guarded,
when it held no element of the id `y` before and neither the document element nor the
body carries the id `x`. -/
theorem guardedList_updateBody (x y : String) (f : DomNode → DomNode) (document d1 : DomNode)
    (h : updateBody f document = some d1) (h0 : countIdList y document.childNodes = 0)
    (hres : bodyUnreserved x document = true)
    (Hf : ∀ b, isBodyElement b = true → b.props.hasId x = false → countId y b = 0 →
      guardedNode x y (f b)) :
    guardedList x y d1.childNodes := by
  obtain ⟨pre, html, post, hpre, body, hpost, hl, hpre0, hel, _, hk, hhpre, hbody, hd1⟩ :=
    updateBody_split f document d1 h
  obtain ⟨hhx, hbx⟩ := unreserved_of_split x document pre html post hpre body hpost hl hpre0
    hel hk hhpre hbody hres
  rw [hl, countIdList_append, countIdList] at h0
  obtain ⟨hprops, hkids⟩ := html
  have hk1 : hkids = hpre ++ body :: hpost := hk
  have hhtml : countId y (DomNode.mk hprops hkids) = 0 := by omega
  rw [countId, hk1, countIdList_append, countIdList] at hhtml
  subst hd1
  show guardedList x y (pre ++ DomNode.mk hprops (hpre ++ f body :: hpost) :: post)
  rw [guardedList_append, guardedList, guardedNode, guardedList_append, guardedList]
  refine ⟨guardedList_of_count x y pre (by omega), ⟨fun hx => ?_, guardedList_of_count x y hpre
    (by omega), Hf body hbody hbx (by omega), guardedList_of_count x y hpost (by omega)⟩,
    guardedList_of_count x y post (by omega)⟩
  have : hprops.hasId x = false := hhx
  rw [this] at hx
  cases hx

/-- Sequencing keeps what each of the two calls keeps, whether they raise or not. -/
theorem andThen_keeps (P : Page → Prop) (first second : Page → Outcome)
    (h1 : ∀ pg, P pg → P (first pg).1) (h2 : ∀ pg, P pg → P (second pg).1) :
    ∀ pg, P pg → P (andThen first second pg).1 := by
  intro pg hp
  unfold andThen
  have := h1 pg hp
  cases hf : first pg with
  | mk pg1 err =>
    rw [hf] at this
    cases err with
    | none => exact h2 pg1 this
    | some e => exact this

theorem andThen_of_returns (first second : Page → Outcome) (pg pg1 : Page)
    (h : first pg = (pg1, none)) : andThen first second pg = second pg1 := by
  unfold andThen
  rw [h]

/-- The state of the buttons that the end of `stopCoBrowse` keeps: one start button, no
stop button, and no element with the id `agent_cursor` or `canvasImg` around the start
button. -/
theorem removeById_keeps_buttons (x : String) (hx : x = "agent_cursor" ∨ x = "canvasImg")
    (pg : Page)
    (h : countIdList "start-button" pg.document.childNodes = 1 ∧
      countIdList "end-button" pg.document.childNodes = 0 ∧
      guardedList "agent_cursor" "start-button" pg.document.childNodes ∧
      guardedList "canvasImg" "start-button" pg.document.childNodes) :
    countIdList "start-button" (Page.removeById x pg).1.document.childNodes = 1 ∧
      countIdList "end-button" (Page.removeById x pg).1.document.childNodes = 0 ∧
      guardedList "agent_cursor" "start-button" (Page.removeById x pg).1.document.childNodes ∧
      guardedList "canvasImg" "start-button" (Page.removeById x pg).1.document.childNodes := by
  obtain ⟨hs, he, hg1, hg2⟩ := h
  unfold Page.removeById
  cases hrem : removeFirstByIdList x pg.document.childNodes with
  | none => exact ⟨hs, he, hg1, hg2⟩
  | some rl =>
    obtain ⟨r, l1⟩ := rl
    have hcs := (removeFirstByIdList_count x "start-button" _ r l1 hrem).2
    have hce := (removeFirstByIdList_count x "end-button" _ r l1 hrem).2
    have hr : countId "start-button" r = 0 := by
      rcases hx with rfl | rfl
      · exact guardedList_removed _ _ _ r l1 hg1 hrem
      · exact guardedList_removed _ _ _ r l1 hg2 hrem
    show countIdList "start-button" l1 = 1 ∧ countIdList "end-button" l1 = 0 ∧
      guardedList "agent_cursor" "start-button" l1 ∧ guardedList "canvasImg" "start-button" l1
    exact ⟨by omega, by omega, guardedList_after_removal _ _ _ _ r l1 hg1 hrem,
      guardedList_after_removal _ _ _ _ r l1 hg2 hrem⟩

theorem disconnectMirror_document (pg : Page) :
    (disconnectMirror pg).1.document = pg.document := by
  unfold disconnectMirror
  cases pg.mirrorClient <;> rfl

theorem guardedNode_startButton (x : String) (hx : x = "agent_cursor" ∨ x = "canvasImg")
    (uid : Nat) : guardedNode x "start-button" (startButtonElement uid) := by
  rcases hx with rfl | rfl <;>
  simp [startButtonElement, createdElement, createdText, guardedNode, guardedList, countId,
    countIdList, NodeProps.hasId, NodeProps.kind, NodeProps.attributeValue]

/-- The end of a `stopCoBrowse` whose first two steps have swapped the buttons: whatever
the rest does, and whether it returns or raises, one start button and no stop button are
left when no element with the id `agent_cursor` or `canvasImg` is around the start
button. -/
theorem stopCoBrowse_keeps_buttons (pgS pg4 pg5 : Page)
    (h4 : removeStopButton pgS = (pg4, none)) (h5 : addStartButton pg4 = (pg5, none))
    (h : countIdList "start-button" pg5.document.childNodes = 1 ∧
      countIdList "end-button" pg5.document.childNodes = 0 ∧
      guardedList "agent_cursor" "start-button" pg5.document.childNodes ∧
      guardedList "canvasImg" "start-button" pg5.document.childNodes) :
    countIdList "start-button" (stopCoBrowse pgS).1.document.childNodes = 1 ∧
      countIdList "end-button" (stopCoBrowse pgS).1.document.childNodes = 0 := by
  unfold stopCoBrowse
  rw [andThen_of_returns _ _ pgS pg4 h4, andThen_of_returns _ _ pg4 pg5 h5]
  have key := andThen_keeps
    (fun pg => countIdList "start-button" pg.document.childNodes = 1 ∧
      countIdList "end-button" pg.document.childNodes = 0 ∧
      guardedList "agent_cursor" "start-button" pg.document.childNodes ∧
      guardedList "canvasImg" "start-button" pg.document.childNodes)
  refine ⟨(key _ _ ?_ ?_ pg5 h).1, (key _ _ ?_ ?_ pg5 h).2.1⟩
  all_goals first
    | (intro pg hp
       rw [disconnectMirror_document]
       exact hp)
    | (apply key
       · intro pg hp
         exact hp
       · apply key
         · exact removeById_keeps_buttons "agent_cursor" (Or.inl rfl)
         · apply key
           · exact removeById_keeps_buttons "canvasImg" (Or.inr rfl)
           · intro pg hp
             exact hp)
theorem countId_appendChild (id : String) (b c : DomNode) :
    countId id (b.appendChild c) = countId id b + countId id c := by
  obtain ⟨props, children⟩ := b
  simp only [DomNode.appendChild, DomNode.props, DomNode.childNodes, countId,
    countIdList_append, countIdList]
  omega

theorem removeFirstById_appendChild (id : String) (b c : DomNode) (hb : countId id b = 0)
    (hc : c.props.hasId id = true) :
    removeFirstById id (b.appendChild c) = some (c, some b) := by
  obtain ⟨props, children⟩ := b
  rw [countId] at hb
  have hid : props.hasId id = false := by
    by_contra hcon
    simp only [Bool.not_eq_false] at hcon
    simp [hcon] at hb
  simp only [hid, Bool.false_eq_true, if_false, Nat.zero_add] at hb
  show removeFirstById id (DomNode.mk props (children ++ [c])) = _
  rw [removeFirstById]
  simp only [hid, Bool.false_eq_true, if_false]
  rw [removeFirstByIdList_after id c [] hc children hb]
  simp

theorem guardedNode_appendChild (x y : String) (b c : DomNode) (hbx : b.props.hasId x = false)
    (hb : countId y b = 0) (hc : guardedNode x y c) : guardedNode x y (b.appendChild c) := by
  obtain ⟨props, children⟩ := b
  rw [countId] at hb
  show guardedNode x y (DomNode.mk props (children ++ [c]))
  rw [guardedNode, guardedList_append, guardedList, guardedList]
  refine ⟨fun hx => ?_, guardedList_of_count x y children (by omega), hc, trivial⟩
  have : props.hasId x = false := hbx
  rw [this] at hx
  cases hx

/-- The counts of the buttons after a `stopCoBrowse`, returned or raised, on a page whose
body `startCoBrowse` has extended (`F`), when taking the stop button out of it leaves `G`
of the body and the document without this extension held no button and no body or
document element with the id `agent_cursor` or `canvasImg`. -/
theorem stopCoBrowse_counts (pgS : Page) (doc1 : DomNode) (F G : DomNode → DomNode)
    (hdoc : updateBody F doc1 = some pgS.document)
    (hs : countIdList "start-button" doc1.childNodes = 0)
    (he : countIdList "end-button" doc1.childNodes = 0)
    (hr1 : bodyUnreserved "agent_cursor" doc1 = true)
    (hr2 : bodyUnreserved "canvasImg" doc1 = true)
    (hFG : ∀ b, isBodyElement b = true → countId "end-button" b = 0 →
      ∃ r, removeFirstById "end-button" (F b) = some (r, some (G b)))
    (hGb : ∀ b, isBodyElement b = true → isBodyElement (G b) = true)
    (hGe : ∀ b, countId "end-button" (G b) = countId "end-button" b)
    (hGs : ∀ b, countId "start-button" (G b) = countId "start-button" b)
    (hGg : ∀ x, (x = "agent_cursor" ∨ x = "canvasImg") → ∀ b, b.props.hasId x = false →
      countId "start-button" b = 0 →
      guardedNode x "start-button" ((G b).appendChild (startButtonElement pgS.nextUid))) :
    countIdList "start-button" (stopCoBrowse pgS).1.document.childNodes = 1 ∧
      countIdList "end-button" (stopCoBrowse pgS).1.document.childNodes = 0 := by
  -- the stop button goes
  obtain ⟨r1, d2, hd2, hrem1, hprops1⟩ := removeFirst_updateBody "end-button" F G hFG doc1
    pgS.document he hdoc
  have h4 : removeStopButton pgS =
      ({ pgS with document := d2, detached := pgS.detached ++ [r1] }, none) :=
    removeById_of_some "end-button" pgS r1 d2 hrem1 hprops1
  -- the start button comes
  have hthen := updateBody_then G
    (fun body => body.appendChild (startButtonElement pgS.nextUid)) doc1 d2 hGb hd2
  have hsome := updateBody_isSome_of_unreserved "agent_cursor"
    (fun b => (G b).appendChild (startButtonElement pgS.nextUid)) doc1 hr1
  obtain ⟨d3, hd3⟩ := Option.isSome_iff_exists.mp hsome
  have h5 := addStartButton_of_some
    ({ pgS with document := d2, detached := pgS.detached ++ [r1] }) d3
    (by rw [← hd3]; exact hthen)
  have hcs := countIdList_updateBody "start-button" 1
    (fun b => (G b).appendChild (startButtonElement pgS.nextUid))
    (fun b _ => by rw [countId_appendChild, hGs, (countId_startButton _).1]) doc1 d3 hd3
  have hce := countIdList_updateBody "end-button" 0
    (fun b => (G b).appendChild (startButtonElement pgS.nextUid))
    (fun b _ => by rw [countId_appendChild, hGe, (countId_startButton _).2.1]) doc1 d3 hd3
  have hg1 := guardedList_updateBody "agent_cursor" "start-button" _ doc1 d3 hd3 hs hr1
    (fun b _ hbx hb => hGg _ (Or.inl rfl) b hbx hb)
  have hg2 := guardedList_updateBody "canvasImg" "start-button" _ doc1 d3 hd3 hs hr2
    (fun b _ hbx hb => hGg _ (Or.inr rfl) b hbx hb)
  exact stopCoBrowse_keeps_buttons pgS _ _ h4 h5 ⟨by rw [hcs, hs], by rw [hce, he], hg1, hg2⟩

/-- `startCoBrowse` on a page whose address has no `/`: the buttons are swapped, then the
call raises. -/
theorem startCoBrowse_without_base (pg : Page) (removed : DomNode) (children1 : List DomNode)
    (d2 : DomNode) (hinit : pg.isInitiated = false) (hbase : baseOf pg.href = none)
    (hrem : removeFirstByIdList "start-button" pg.document.childNodes =
      some (removed, children1))
    (hd2 : updateBody (fun body => body.appendChild (stopButtonElement pg.nextUid))
      (DomNode.mk pg.document.props children1) = some d2) :
    (startCoBrowse pg).1.document = d2 ∧ (startCoBrowse pg).1.nextUid = pg.nextUid + 3 ∧
      (startCoBrowse pg).2 =
        some (JSError.typeError "location.href.match(...) is null") := by
  have hrm : removeStartButton pg =
      ({ pg with document := DomNode.mk pg.document.props children1,
                 detached := pg.detached ++ [removed] }, none) := by
    simp [removeStartButton, Page.removeById, hrem]
  have hadd := addStopButton_of_some
    ({ pg with document := DomNode.mk pg.document.props children1,
               detached := pg.detached ++ [removed] }) d2 hd2
  unfold startCoBrowse
  rw [andThen_of_returns _ _ _ _ hrm, andThen_of_returns _ _ _ _ hadd]
  simp only [hinit, Bool.false_eq_true, if_false, startMirroring, hbase]
  refine ⟨?_, ?_, ?_⟩ <;> first | rfl | trivial

/-- C10: start/stop mutual exclusion. On every page with exactly one element of the id
`start-button`, none of the id `end-button` and `isInitiated` false, on which, once the
start button is taken out, `document.body` is there and neither it nor the document
element carries the id `agent_cursor` or `canvasImg`: after `startCoBrowse`, returned or
raised, the document holds no start button and exactly one stop button, and after the
`stopCoBrowse` that follows, returned or raised, it holds exactly one start button and no
stop button; and when the address has a `/`, the `startCoBrowse` returns. Elements of the
page's own with the two ids elsewhere and an address without a `/` are covered. -/
theorem start_stop_mutual_exclusion (pg : Page)
    (hstart : countIdList "start-button" pg.document.childNodes = 1)
    (hend : countIdList "end-button" pg.document.childNodes = 0)
    (hinit : pg.isInitiated = false)
    (hbody : ∀ removed children1,
      removeFirstByIdList "start-button" pg.document.childNodes = some (removed, children1) →
      bodyUnreserved "agent_cursor" (DomNode.mk pg.document.props children1) = true ∧
        bodyUnreserved "canvasImg" (DomNode.mk pg.document.props children1) = true) :
    countIdList "start-button" (startCoBrowse pg).1.document.childNodes = 0 ∧
      countIdList "end-button" (startCoBrowse pg).1.document.childNodes = 1 ∧
      countIdList "start-button"
        (stopCoBrowse (startCoBrowse pg).1).1.document.childNodes = 1 ∧
      countIdList "end-button"
        (stopCoBrowse (startCoBrowse pg).1).1.document.childNodes = 0 ∧
      ((baseOf pg.href).isSome = true → (startCoBrowse pg).2 = none) := by
  obtain ⟨removed, children1, hrem⟩ :=
    removeFirstByIdList_isSome "start-button" pg.document.childNodes (by omega)
  have hr := countId_pos_of_hasId "start-button" removed
    (removeFirstByIdList_count "start-button" "start-button" _ _ _ hrem).1
  have hstart1 := (removeFirstByIdList_count "start-button" "start-button" _ _ _ hrem).2
  have hend1 := (removeFirstByIdList_count "start-button" "end-button" _ _ _ hrem).2
  obtain ⟨hr1, hr2⟩ := hbody removed children1 hrem
  have hs0 : countIdList "start-button"
      (DomNode.mk pg.document.props children1).childNodes = 0 := by
    show countIdList "start-button" children1 = 0
    omega
  have he0 : countIdList "end-button"
      (DomNode.mk pg.document.props children1).childNodes = 0 := by
    show countIdList "end-button" children1 = 0
    omega
  cases hbase : baseOf pg.href with
  | none =>
    have hsome := updateBody_isSome_of_unreserved "agent_cursor"
      (fun body => body.appendChild (stopButtonElement pg.nextUid))
      (DomNode.mk pg.document.props children1) hr1
    obtain ⟨d2, hd2⟩ := Option.isSome_iff_exists.mp hsome
    obtain ⟨hdoc, huid, _⟩ := startCoBrowse_without_base pg removed children1 d2 hinit hbase
      hrem hd2
    have hcs := countIdList_updateBody "start-button" 0 _
      (fun b _ => by rw [countId_appendChild, (countId_stopButton _).2]) _ d2 hd2
    have hce := countIdList_updateBody "end-button" 1 _
      (fun b _ => by rw [countId_appendChild, (countId_stopButton _).1]) _ d2 hd2
    have hstop := stopCoBrowse_counts (startCoBrowse pg).1
      (DomNode.mk pg.document.props children1)
      (fun body => body.appendChild (stopButtonElement pg.nextUid)) (fun b => b)
      (by rw [hdoc]; exact hd2) hs0 he0 hr1 hr2
      (fun b _ hb => ⟨_, removeFirstById_appendChild "end-button" b _ hb (stopButton_hasId _)⟩)
      (fun b hb => hb) (fun b => rfl) (fun b => rfl)
      (fun x hx b hbx hb => guardedNode_appendChild x _ b _ hbx hb
        (guardedNode_startButton x hx _))
    rw [hdoc]
    exact ⟨by rw [hcs, hs0], by rw [hce, he0], hstop.1, hstop.2,
      fun h => by simp [hbase] at h⟩
  | some base =>
    have hsome := updateBody_isSome_of_unreserved "agent_cursor" (fun b => b)
      (DomNode.mk pg.document.props children1) hr1
    obtain ⟨document3, client, rootId, children, ids1, mapIds1, next1, hd3, hS, _⟩ :=
      startCoBrowse_spec pg base removed children1 hinit hbase hrem hsome
    have hdoc : (startCoBrowse pg).1.document = document3 := by rw [hS]
    have hcs := countIdList_updateBody "start-button" 0 _
      (fun b _ => by
        rw [countId_withAppended]
        simp only [countIdList, countId_dfs, (countId_stopButton _).2,
          countId_agentCursor _ "start-button" (by decide),
          countId_canvasImg _ "start-button" (by decide)]) _ document3 hd3
    have hce := countIdList_updateBody "end-button" 1 _
      (fun b _ => by
        rw [countId_withAppended]
        simp only [countIdList, countId_dfs, (countId_stopButton _).1,
          countId_agentCursor _ "end-button" (by decide),
          countId_canvasImg _ "end-button" (by decide)]) _ document3 hd3
    have hstop := stopCoBrowse_counts (startCoBrowse pg).1
      (DomNode.mk pg.document.props children1)
      (fun b => withAppended b
        [dfs (stopButtonElement pg.nextUid) (dfsRedacts b.props false || false),
         createdElement (pg.nextUid + 3) "DIV"
           [("id", "agent_cursor"), ("style", "visibility: hidden;")] [],
         createdElement (pg.nextUid + 3 + 1) "IMG" [("id", "canvasImg")] []])
      (fun b => withAppended b
        [createdElement (pg.nextUid + 3) "DIV"
           [("id", "agent_cursor"), ("style", "visibility: hidden;")] [],
         createdElement (pg.nextUid + 3 + 1) "IMG" [("id", "canvasImg")] []])
      (by rw [hdoc]; exact hd3) hs0 he0 hr1 hr2
      (fun b _ hb => ⟨_, removeFirstById_withAppended "end-button" b _ _ hb
        (by rw [hasId_dfs]; exact stopButton_hasId _)⟩)
      (fun b hb => isBodyElement_withAppended b _ hb)
      (fun b => by
        rw [countId_withAppended]
        simp only [countIdList, countId_agentCursor _ "end-button" (by decide),
          countId_canvasImg _ "end-button" (by decide), Nat.add_zero])
      (fun b => by
        rw [countId_withAppended]
        simp only [countIdList, countId_agentCursor _ "start-button" (by decide),
          countId_canvasImg _ "start-button" (by decide), Nat.add_zero])
      (fun x hx b hbx hb => by
        apply guardedNode_appendChild x _ _ _ _ _ (guardedNode_startButton x hx _)
        · show (dfs b false).props.hasId x = false
          rw [hasId_dfs]
          exact hbx
        · rw [countId_withAppended]
          simp only [countIdList, countId_agentCursor _ "start-button" (by decide),
            countId_canvasImg _ "start-button" (by decide)]
          omega)
    have hret : (startCoBrowse pg).2 = none := by rw [hS]
    rw [hdoc]
    exact ⟨by rw [hcs, hs0], by rw [hce, he0], hstop.1, hstop.2, fun _ => hret⟩
theorem exampleHostPage_start_button :
    removeFirstByIdList "start-button" exampleHostPage.document.childNodes =
      some (startButtonElement 6,
        (exampleDocumentOf [] [createdElement 5 "DIV" [("id", "canvasImg")] []]).childNodes) := by
  rfl

theorem exampleHostPage_body :
    ∀ removed children1,
      removeFirstByIdList "start-button" exampleHostPage.document.childNodes =
        some (removed, children1) →
      bodyUnreserved "agent_cursor"
          (DomNode.mk exampleHostPage.document.props children1) = true ∧
        bodyUnreserved "canvasImg"
          (DomNode.mk exampleHostPage.document.props children1) = true := by
  intro removed children1 h
  rw [exampleHostPage_start_button] at h
  obtain ⟨rfl, rfl⟩ := Prod.mk.inj (Option.some.inj h)
  constructor <;> rfl

/-- Witness of C10: a page with a `<div id="canvasImg">` of its own next to the start
button. -/
theorem start_stop_mutual_exclusion_witness :
    countIdList "start-button" (startCoBrowse exampleHostPage).1.document.childNodes = 0 ∧
      countIdList "end-button" (startCoBrowse exampleHostPage).1.document.childNodes = 1 ∧
      countIdList "start-button"
        (stopCoBrowse (startCoBrowse exampleHostPage).1).1.document.childNodes = 1 ∧
      countIdList "end-button"
        (stopCoBrowse (startCoBrowse exampleHostPage).1).1.document.childNodes = 0 ∧
      ((baseOf exampleHostPage.href).isSome = true →
        (startCoBrowse exampleHostPage).2 = none) :=
  start_stop_mutual_exclusion exampleHostPage (by decide) (by decide) rfl exampleHostPage_body

end CoBrowse
